import Mathlib

/-!
# BattleGround queue of `BattleGroundMgr.cpp`

A shallow embedding of the battleground queue (`BattleGroundQueue`), its
selection pools and the parts of `BattleGroundMgr` the queue talks to, followed
by the properties proved about them.

Conventions of the embedding.

* A `GroupQueueInfo*` is an address (`GroupPtr`); the records live in a store
  (`BattleGroundQueue.m_Groups`) read at an address.  `new GroupQueueInfo` takes
  the next unused address (`m_NextGroup`); `delete` only drops the last
  reference, the store is not read at that address afterwards.
* `uint32` values are natural numbers, reduced modulo `2^32` where the code
  stores the result of an addition or subtraction; `int32` values are integers,
  wrapped by `toInt32`; `abs` of an `int32` is `absInt32`, which negates in 32
  bits and so leaves -2^31 as it is.
* `std::map<ObjectGuid, PlayerQueueInfo*>` (the members of a group) is the list
  of its keys: the mapped pointer is the address of the entry of the same key in
  `m_QueuedPlayers`.
-/

namespace BG

/-! ## Data model -/

/-- Player identity (`ObjectGuid`). -/
abbrev ObjectGuid := Nat

/-- Address of a `GroupQueueInfo`. -/
abbrev GroupPtr := Nat

/-- Modelled from the spec: the `Team` of a queued group (enum of
`SharedDefines.h`, which is not part of the sources), one of the two opposing
factions. -/
inductive Team where
  | ALLIANCE
  | HORDE
  deriving DecidableEq, Repr

/-- Modelled from the spec: `TEAM_INDEX_ALLIANCE`, the index of the Alliance in the faction-indexed arrays
(header constant without a value in the sources). -/
def TEAM_INDEX_ALLIANCE : Nat := 0

/-- Modelled from the spec: `TEAM_INDEX_HORDE`, the index of the Horde in the faction-indexed arrays
(header constant without a value in the sources). -/
def TEAM_INDEX_HORDE : Nat := 1

/-- Modelled from the spec: `PVP_TEAM_COUNT`, the number of factions
(header constant without a value in the sources). -/
def PVP_TEAM_COUNT : Nat := 2

/-- Modelled from the spec: `BG_QUEUE_PREMADE_ALLIANCE`, the first of the four queue classes
(header constant without a value in the sources). -/
def BG_QUEUE_PREMADE_ALLIANCE : Nat := 0

/-- Modelled from the spec: `BG_QUEUE_PREMADE_HORDE`, the second of the four queue classes
(header constant without a value in the sources). -/
def BG_QUEUE_PREMADE_HORDE : Nat := 1

/-- Modelled from the spec: `BG_QUEUE_NORMAL_ALLIANCE`, the third of the four queue classes
(header constant without a value in the sources). -/
def BG_QUEUE_NORMAL_ALLIANCE : Nat := 2

/-- Modelled from the spec: `BG_QUEUE_NORMAL_HORDE`, the fourth of the four queue classes
(header constant without a value in the sources). -/
def BG_QUEUE_NORMAL_HORDE : Nat := 3

/-- Modelled from the spec: `BG_QUEUE_GROUP_TYPES_COUNT`, the number of queue classes
(header constant without a value in the sources). -/
def BG_QUEUE_GROUP_TYPES_COUNT : Nat := 4

/-- Modelled from the spec: `BattleGround::GetTeamIndexByTeamId` (declared in
`BattleGround.h`, which is not part of the sources): the index of a faction in
the faction-indexed arrays. -/
def GetTeamIndexByTeamId : Team → Nat
  | Team.ALLIANCE => TEAM_INDEX_ALLIANCE
  | Team.HORDE => TEAM_INDEX_HORDE

/-- Record `PlayerQueueInfo`: what `m_QueuedPlayers` stores for a player. -/
structure PlayerQueueInfo where
  LastOnlineTime : Nat
  GroupInfo : GroupPtr
  deriving DecidableEq, Repr

/-- Record `GroupQueueInfo`: a queued group. -/
structure GroupQueueInfo where
  Players : List ObjectGuid
  GroupTeam : Team
  BgTypeId : Nat
  IsInvitedToBGInstanceGUID : Nat
  JoinTime : Nat
  RemoveInviteTime : Nat
  deriving DecidableEq, Repr

/-- Store of the `GroupQueueInfo` records, read at an address. -/
abbrev GroupStore := GroupPtr → GroupQueueInfo

/-- Value of `ginfo->Players.size()`. -/
def groupSize (groups : GroupStore) (ginfo : GroupPtr) : Nat :=
  (groups ginfo).Players.length

/-! ## Machine integers -/

/-- Modulus of 32-bit arithmetic. -/
def UINT32_MOD : Nat := 4294967296

/-- Conversion to `int32`: the low 32 bits read as a two's complement number. -/
def toInt32 (x : Int) : Int :=
  if x % 4294967296 < 2147483648 then x % 4294967296 else x % 4294967296 - 4294967296

/-- Conversion to `uint32`: the low 32 bits. -/
def toUInt32 (x : Int) : Nat :=
  (x % 4294967296).toNat

/-- Function `abs` on an `int32`: a negative value is negated in 32 bits, so
that the lowest value, -2^31, is its own result. -/
def absInt32 (x : Int) : Int :=
  if x < 0 then toInt32 (-x) else x

/-! ## Selection pools -/

/-- Class `BattleGroundQueue::SelectionPool`. -/
structure SelectionPool where
  SelectedGroups : List GroupPtr
  PlayerCount : Nat
  deriving DecidableEq, Repr

/-- Method `SelectionPool::Init`. -/
def SelectionPool.Init : SelectionPool :=
  { SelectedGroups := [], PlayerCount := 0 }

/-- Method `SelectionPool::GetPlayerCount`. -/
def SelectionPool.GetPlayerCount (pool : SelectionPool) : Nat :=
  pool.PlayerCount

/-- Method `SelectionPool::AddGroup`: the returned flag and the pool afterwards.
`PlayerCount + ginfo->Players.size()` is computed in `size_t`; the stored count
is a `uint32`. -/
def SelectionPool.AddGroup (groups : GroupStore) (pool : SelectionPool) (ginfo : GroupPtr)
    (desiredCount : Nat) : Bool × SelectionPool :=
  if (groups ginfo).IsInvitedToBGInstanceGUID = 0 ∧
      desiredCount ≥ pool.PlayerCount + groupSize groups ginfo then
    (true, { SelectedGroups := pool.SelectedGroups ++ [ginfo],
             PlayerCount := (pool.PlayerCount + groupSize groups ginfo) % UINT32_MOD })
  else if pool.PlayerCount < desiredCount then
    (true, pool)
  else
    (false, pool)

/-- The search loop of `SelectionPool::KickGroup`: `i` is the position of the
iterator, `groupToKick` the position and the group of the candidate, `found`
the flag of the same name. -/
def SelectionPool.KickGroup.scan (groups : GroupStore) (size : Nat) :
    List GroupPtr → Nat → Nat × GroupPtr → Bool → Nat × GroupPtr
  | [], _, groupToKick, _ => groupToKick
  | g :: rest, i, groupToKick, found =>
    if absInt32 (toInt32 ((groupSize groups g : Int) - (size : Int))) ≤ 1 then
      SelectionPool.KickGroup.scan groups size rest (i + 1) (i, g) true
    else if found = false ∧ groupSize groups g ≥ groupSize groups groupToKick.2 then
      SelectionPool.KickGroup.scan groups size rest (i + 1) (i, g) found
    else
      SelectionPool.KickGroup.scan groups size rest (i + 1) groupToKick found

/-- Method `SelectionPool::KickGroup`: the returned flag and the pool afterwards;
`none` when the code would dereference the end iterator of an empty list
(a non-zero count with no selected group). -/
def SelectionPool.KickGroup (groups : GroupStore) (pool : SelectionPool) (size : Nat) :
    Option (Bool × SelectionPool) :=
  match pool.SelectedGroups with
  | [] => if pool.GetPlayerCount ≠ 0 then none else some (true, pool)
  | g :: rest =>
    let groupToKick := SelectionPool.KickGroup.scan groups size (g :: rest) 0 (0, g) false
    if pool.GetPlayerCount ≠ 0 then
      let pool1 : SelectionPool :=
        { SelectedGroups := (g :: rest).eraseIdx groupToKick.1,
          PlayerCount := toUInt32 ((pool.PlayerCount : Int) - (groupSize groups groupToKick.2 : Int)) }
      if groupSize groups groupToKick.2 ≤ (size + 1) % UINT32_MOD then
        some (false, pool1)
      else
        some (true, pool1)
    else
      some (true, pool)

/-! ## Queued groups and players -/

/-- Constants of the headers that the sources do not give a value for. -/
structure Consts where
  MAX_BATTLEGROUND_BRACKETS : Nat
  BATTLEGROUND_TYPE_NONE : Nat
  BATTLEGROUND_AV : Nat
  MAX_BATTLEGROUND_TYPE_ID : Nat
  COUNT_OF_PLAYERS_TO_AVERAGE_WAIT_TIME : Nat
  INVITE_ACCEPT_WAIT_TIME : Nat
  BATTLEGROUND_WS : Nat
  BATTLEGROUND_AB : Nat
  STATUS_WAIT_QUEUE : Nat
  STATUS_WAIT_JOIN : Nat
  STATUS_WAIT_LEAVE : Nat
  PLAYER_MAX_BATTLEGROUND_QUEUES : Nat
  deriving DecidableEq, Repr

/-- What the queue reads of a `Player`: `GetObjectGuid()` and `GetTeam()`. -/
structure Player where
  guid : ObjectGuid
  team : Team
  deriving DecidableEq, Repr

/-- What the queue reads of a `Group`: its member references in order, each
with the result of `getSource()` (`none` for a null source). -/
abbrev Group := List (Option Player)

/-- Class `BattleGroundQueue`: the queued players, the buckets
`m_QueuedGroups[bracket][class]`, the store of the group records with the next
free address, the two selection pools and the wait-time statistics. -/
structure BattleGroundQueue where
  m_QueuedPlayers : ObjectGuid → Option PlayerQueueInfo
  m_QueuedGroups : Nat → Nat → List GroupPtr
  m_Groups : GroupStore
  m_NextGroup : GroupPtr
  m_SelectionPools : Nat → SelectionPool
  m_WaitTimes : Nat → Nat → Nat → Nat
  m_WaitTimeLastPlayer : Nat → Nat → Nat
  m_SumOfWaitTimes : Nat → Nat → Nat

/-- A group record before `AddGroup` fills it. -/
def GroupQueueInfo.blank : GroupQueueInfo :=
  { Players := [], GroupTeam := Team.ALLIANCE, BgTypeId := 0,
    IsInvitedToBGInstanceGUID := 0, JoinTime := 0, RemoveInviteTime := 0 }

/-- Constructor `BattleGroundQueue::BattleGroundQueue`: nothing queued, the
statistics zeroed. -/
def BattleGroundQueue.new : BattleGroundQueue :=
  { m_QueuedPlayers := fun _ => none,
    m_QueuedGroups := fun _ _ => [],
    m_Groups := fun _ => GroupQueueInfo.blank,
    m_NextGroup := 0,
    m_SelectionPools := fun _ => SelectionPool.Init,
    m_WaitTimes := fun _ _ _ => 0,
    m_WaitTimeLastPlayer := fun _ _ => 0,
    m_SumOfWaitTimes := fun _ _ => 0 }

/-- Insertion of a key in the key list of a `std::map` (`Players[guid] = ...`):
the list stays ordered and an existing key is kept. -/
def insertKey (guid : ObjectGuid) : List ObjectGuid → List ObjectGuid
  | [] => [guid]
  | k :: rest =>
    if guid < k then guid :: k :: rest
    else if guid = k then k :: rest
    else k :: insertKey guid rest

/-- Removal of the entry of key `guid` from the key list of a `std::map`
(`find` then `erase`); nothing happens when the key is absent. -/
def eraseKey (guid : ObjectGuid) (keys : List ObjectGuid) : List ObjectGuid :=
  keys.filter (fun k => decide (k ≠ guid))

/-- The three statements of `AddGroup` for one member: the entry of the member
in `m_QueuedPlayers` is created or overwritten, and the member is entered in
`ginfo->Players`. -/
def BattleGroundQueue.addMember (q : BattleGroundQueue) (ginfo : GroupPtr) (guid : ObjectGuid)
    (lastOnlineTime : Nat) : BattleGroundQueue :=
  { q with
    m_QueuedPlayers := fun g =>
      if g = guid then some { LastOnlineTime := lastOnlineTime, GroupInfo := ginfo }
      else q.m_QueuedPlayers g,
    m_Groups := fun p =>
      if p = ginfo then { q.m_Groups p with Players := insertKey guid (q.m_Groups p).Players }
      else q.m_Groups p }

/-- The loop of `AddGroup` over the members of `grp`; a member without source
is skipped. -/
def BattleGroundQueue.addMembers (ginfo : GroupPtr) (lastOnlineTime : Nat) :
    Group → BattleGroundQueue → BattleGroundQueue
  | [], q => q
  | none :: rest, q => BattleGroundQueue.addMembers ginfo lastOnlineTime rest q
  | some member :: rest, q =>
    BattleGroundQueue.addMembers ginfo lastOnlineTime rest
      (q.addMember ginfo member.guid lastOnlineTime)

/-- The bucket index `AddGroup` computes from `isPremade` and the team. -/
def queueIndex (isPremade : Bool) (team : Team) : Nat :=
  (if isPremade then 0 else PVP_TEAM_COUNT) + (if team = Team.HORDE then 1 else 0)

/-- Method `BattleGroundQueue::AddGroup`: the new group and the queue afterwards.
`now` is the value of `GameTime::GetGameTimeMS()`, read for the join time and
for the last online time; `grp` is `none` for a null group.  The queue
announcement only sends messages and is left out. -/
def BattleGroundQueue.AddGroup (q : BattleGroundQueue) (now : Nat) (leader : Player)
    (grp : Option Group) (BgTypeId bracketId : Nat) (isPremade : Bool) :
    GroupPtr × BattleGroundQueue :=
  let ginfo := q.m_NextGroup
  let q1 : BattleGroundQueue :=
    { q with
      m_NextGroup := ginfo + 1,
      m_Groups := fun p =>
        if p = ginfo then
          { Players := [], GroupTeam := leader.team, BgTypeId := BgTypeId,
            IsInvitedToBGInstanceGUID := 0, JoinTime := now, RemoveInviteTime := 0 }
        else q.m_Groups p }
  let index := queueIndex isPremade leader.team
  let q2 : BattleGroundQueue :=
    match grp with
    | some members => BattleGroundQueue.addMembers ginfo now members q1
    | none => q1.addMember ginfo leader.guid now
  (ginfo,
    { q2 with
      m_QueuedGroups := fun b j =>
        if b = bracketId ∧ j = index then q2.m_QueuedGroups b j ++ [ginfo]
        else q2.m_QueuedGroups b j })

/-! ## Battlegrounds known to the manager -/

/-- Modelled from the spec: the part of class `BattleGround` (declared in
`BattleGround.h`, which is not part of the sources) that the queue and the
manager read and change: the instance identity, the battleground type, the
bracket, the number of invited players of each faction (`uint32`), the
lifecycle status, the instance id shown to the client, and the least and the
greatest number of players of a team. -/
structure BattleGround where
  m_InstanceID : Nat
  m_TypeID : Nat
  m_BracketId : Nat
  m_InvitedAlliance : Nat
  m_InvitedHorde : Nat
  m_Status : Nat
  m_ClientInstanceID : Nat
  m_MinPlayersPerTeam : Nat
  m_MaxPlayersPerTeam : Nat
  deriving DecidableEq, Repr

/-- Modelled from the spec: `BattleGround::GetInvitedCount` (declared in
`BattleGround.h`, which is not part of the sources): the number of reserved
slots of a faction. -/
def BattleGround.GetInvitedCount (bg : BattleGround) : Team → Nat
  | Team.ALLIANCE => bg.m_InvitedAlliance
  | Team.HORDE => bg.m_InvitedHorde

/-- Modelled from the spec: `BattleGround::DecreaseInvitedCount` (declared in
`BattleGround.h`, which is not part of the sources): one reserved slot of the
faction is freed, in `uint32` arithmetic. -/
def BattleGround.DecreaseInvitedCount (bg : BattleGround) (team : Team) : BattleGround :=
  match team with
  | Team.ALLIANCE => { bg with m_InvitedAlliance := toUInt32 ((bg.m_InvitedAlliance : Int) - 1) }
  | Team.HORDE => { bg with m_InvitedHorde := toUInt32 ((bg.m_InvitedHorde : Int) - 1) }

/-- Class `BattleGroundMgr`: `m_BattleGrounds[bgTypeId]` maps an instance id to
its battleground; `m_BattleGroundQueues` holds the queue of each queue type;
`m_QueueUpdateScheduler` is the list of the scheduled queue updates;
`BGFreeSlotQueue[bgTypeId]` lists the battlegrounds with free slots, each by the
type and the instance id under which `m_BattleGrounds` stores it;
`m_ClientBattleGroundIds[bgTypeId][bracket_id]` is the ordered set of the
instance ids shown to the client; `m_Testing` is the testing mode. -/
structure BattleGroundMgr where
  m_BattleGrounds : Nat → Nat → Option BattleGround
  m_BattleGroundQueues : Nat → BattleGroundQueue
  m_QueueUpdateScheduler : List Nat
  BGFreeSlotQueue : Nat → List (Nat × Nat)
  m_ClientBattleGroundIds : Nat → Nat → List Nat
  m_Testing : Bool

/-- The search of `GetBattleGround` over the types `i, i + 1, ...` (`n` of
them): the first type that knows the instance. -/
def BattleGroundMgr.searchTypes (mgr : BattleGroundMgr) (InstanceID : Nat) :
    Nat → Nat → Option (Nat × BattleGround)
  | 0, _ => none
  | n + 1, i =>
    match mgr.m_BattleGrounds i InstanceID with
    | some bg => some (i, bg)
    | none => BattleGroundMgr.searchTypes mgr InstanceID n (i + 1)

/-- Method `BattleGroundMgr::GetBattleGround`: the battleground found, with the type
under which it is stored; `none` for a null result. -/
def BattleGroundMgr.GetBattleGround (c : Consts) (mgr : BattleGroundMgr) (InstanceID bgTypeId : Nat) :
    Option (Nat × BattleGround) :=
  if bgTypeId = c.BATTLEGROUND_TYPE_NONE then
    BattleGroundMgr.searchTypes mgr InstanceID (c.MAX_BATTLEGROUND_TYPE_ID - c.BATTLEGROUND_AV)
      c.BATTLEGROUND_AV
  else
    match mgr.m_BattleGrounds bgTypeId InstanceID with
    | some bg => some (bgTypeId, bg)
    | none => none

/-- The manager after the battleground stored under `(bgTypeId, InstanceID)` is
replaced by `bg` (a write through the `BattleGround*`). -/
def BattleGroundMgr.store (mgr : BattleGroundMgr) (bgTypeId InstanceID : Nat) (bg : BattleGround) :
    BattleGroundMgr :=
  { mgr with
    m_BattleGrounds := fun t i =>
      if t = bgTypeId ∧ i = InstanceID then some bg else mgr.m_BattleGrounds t i }

/-! ## Removal of a player -/

/-- Line that `RemovePlayer` writes to the log. -/
inductive RemoveLog where
  | couldntFindForRemove
  | canNotFindGroupinfo
  | removing
  deriving DecidableEq, Repr

/-- The local variables the search of `RemovePlayer` sets: `bracket_id`
(`none` for -1), the position of `group_itr` in its bucket, and `index`. -/
structure RemoveSearch where
  bracket_id : Option Nat
  group_itr : Nat
  index : Nat
  deriving DecidableEq, Repr

/-- Innermost loop of `RemovePlayer`: the position of the first element of the
bucket equal to `group`, where the loop breaks. -/
def findGroupItr (group : GroupPtr) : List GroupPtr → Option Nat
  | [] => none
  | g :: rest =>
    if g = group then some 0
    else
      match findGroupItr group rest with
      | some pos => some (pos + 1)
      | none => none

/-- One pass of the loop over `j`: the bucket `[bracket][j]` is scanned when
`j` is a queue class. -/
def RemoveSearch.visit (queued : Nat → Nat → List GroupPtr) (group : GroupPtr) (bracket j : Nat)
    (s : RemoveSearch) : RemoveSearch :=
  if j < BG_QUEUE_GROUP_TYPES_COUNT then
    match findGroupItr group (queued bracket j) with
    | some pos => { bracket_id := some bracket, group_itr := pos, index := j }
    | none => s
  else s

/-- The loop over `j` for one bracket: `j` starts at `index` and advances by
`BG_QUEUE_NORMAL_ALLIANCE` while it is below `BG_QUEUE_GROUP_TYPES_COUNT`,
which leaves at most the two passes `index` and `index + 2`. -/
def RemoveSearch.visitBracket (queued : Nat → Nat → List GroupPtr) (group : GroupPtr)
    (index bracket : Nat) (s : RemoveSearch) : RemoveSearch :=
  RemoveSearch.visit queued group bracket (index + BG_QUEUE_NORMAL_ALLIANCE)
    (RemoveSearch.visit queued group bracket index s)

/-- The loop over the brackets, from the highest down to 0, left as soon as
`bracket_id` is set; `n` brackets remain to be visited. -/
def RemoveSearch.brackets (queued : Nat → Nat → List GroupPtr) (group : GroupPtr) (index : Nat) :
    Nat → RemoveSearch → RemoveSearch
  | 0, s => s
  | n + 1, s =>
    if s.bracket_id = none then
      RemoveSearch.brackets queued group index n
        (RemoveSearch.visitBracket queued group index n s)
    else s

/-- Method `BattleGroundQueue::RemovePlayer`: the line logged, the manager and the
queue afterwards. -/
def BattleGroundQueue.RemovePlayer (c : Consts) (mgr : BattleGroundMgr) (q : BattleGroundQueue)
    (guid : ObjectGuid) (decreaseInvitedCount : Bool) :
    RemoveLog × BattleGroundMgr × BattleGroundQueue :=
  match q.m_QueuedPlayers guid with
  | none => (RemoveLog.couldntFindForRemove, mgr, q)
  | some info =>
    let group := info.GroupInfo
    let index := GetTeamIndexByTeamId (q.m_Groups group).GroupTeam
    let s := RemoveSearch.brackets q.m_QueuedGroups group index c.MAX_BATTLEGROUND_BRACKETS
      { bracket_id := none, group_itr := 0, index := index }
    match s.bracket_id with
    | none => (RemoveLog.canNotFindGroupinfo, mgr, q)
    | some bracket_id =>
      let ginfo : GroupQueueInfo :=
        { q.m_Groups group with Players := eraseKey guid (q.m_Groups group).Players }
      let mgr1 : BattleGroundMgr :=
        if decreaseInvitedCount = true ∧ ginfo.IsInvitedToBGInstanceGUID ≠ 0 then
          match mgr.GetBattleGround c ginfo.IsInvitedToBGInstanceGUID ginfo.BgTypeId with
          | some (t, bg) =>
            mgr.store t ginfo.IsInvitedToBGInstanceGUID (bg.DecreaseInvitedCount ginfo.GroupTeam)
          | none => mgr
        else mgr
      let q1 : BattleGroundQueue :=
        { q with
          m_Groups := fun p => if p = group then ginfo else q.m_Groups p,
          m_QueuedPlayers := fun g => if g = guid then none else q.m_QueuedPlayers g }
      let q2 : BattleGroundQueue :=
        if ginfo.Players = [] then
          { q1 with
            m_QueuedGroups := fun b j =>
              if b = bracket_id ∧ j = s.index then (q1.m_QueuedGroups b j).eraseIdx s.group_itr
              else q1.m_QueuedGroups b j }
        else q1
      (RemoveLog.removing, mgr1, q2)

/-- Method `BattleGroundQueue::IsPlayerInvited`. -/
def BattleGroundQueue.IsPlayerInvited (q : BattleGroundQueue) (pl_guid : ObjectGuid)
    (bgInstanceGuid removeTime : Nat) : Bool :=
  match q.m_QueuedPlayers pl_guid with
  | none => false
  | some info =>
    decide ((q.m_Groups info.GroupInfo).IsInvitedToBGInstanceGUID = bgInstanceGuid) &&
      decide ((q.m_Groups info.GroupInfo).RemoveInviteTime = removeTime)

/-! ## Filling a running battleground -/

/-- The loop `for (; aliIndex < aliCount && pool.AddGroup(*Ali_itr, ...); ++aliIndex) ++Ali_itr;`
of `FillPlayersToBG`.  The iterator with its index is the list of the groups
from the iterator to the end of the bucket; the result is the iterator and the
pool when the loop is left. -/
def FillPlayersToBG.addLoop (groups : GroupStore) (desiredCount : Nat) :
    List GroupPtr → SelectionPool → List GroupPtr × SelectionPool
  | [], pool => ([], pool)
  | g :: rest, pool =>
    if (pool.AddGroup groups g desiredCount).1 = true then
      FillPlayersToBG.addLoop groups desiredCount rest (pool.AddGroup groups g desiredCount).2
    else
      (g :: rest, (pool.AddGroup groups g desiredCount).2)

/-- The local state of `FillPlayersToBG`: the two iterators (as the rest of
their buckets) and the two selection pools. -/
structure FillState where
  Ali_itr : List GroupPtr
  Horde_itr : List GroupPtr
  ali : SelectionPool
  horde : SelectionPool
  deriving DecidableEq, Repr

/-- The locals `diffAli` and `diffHorde` of `FillPlayersToBG`: the free slots of a faction
minus the player count of its pool, in `int32`. -/
def FillPlayersToBG.diff (free : Int) (pool : SelectionPool) : Int :=
  toInt32 (free - toInt32 (pool.GetPlayerCount : Int))

/-- The budget `(free >= diffOther) ? free - diffOther : 0` handed to `AddGroup`
in the balancing loop, converted to `uint32`. -/
def FillPlayersToBG.budget (free diffOther : Int) : Nat :=
  toUInt32 (if free ≥ diffOther then toInt32 (free - diffOther) else 0)

/-- The balancing `while` loop of `FillPlayersToBG`, run for at most `fuel`
evaluations of its condition.  The result is `none` when the fuel is used up
or when `KickGroup` would dereference the end iterator. -/
def FillPlayersToBG.balance (groups : GroupStore) (hordeFree aliFree : Int) :
    Nat → FillState → Option FillState
  | 0, _ => none
  | fuel + 1, s =>
    let diffAli := FillPlayersToBG.diff aliFree s.ali
    let diffHorde := FillPlayersToBG.diff hordeFree s.horde
    if absInt32 (toInt32 (diffAli - diffHorde)) > 1 ∧
        (s.horde.GetPlayerCount > 0 ∨ s.ali.GetPlayerCount > 0) then
      if diffAli < diffHorde then
        match s.ali.KickGroup groups (toUInt32 (diffHorde - diffAli)) with
        | none => none
        | some (again, ali1) =>
          let refill :=
            if again = true then
              FillPlayersToBG.addLoop groups (FillPlayersToBG.budget aliFree diffHorde) s.Ali_itr ali1
            else (s.Ali_itr, ali1)
          if refill.2.GetPlayerCount = 0 then
            if aliFree ≤ toInt32 (diffHorde + 1) then
              some { s with Ali_itr := refill.1, ali := refill.2 }
            else
              match s.horde.KickGroup groups (toUInt32 (diffHorde - diffAli)) with
              | none => none
              | some (_, horde1) =>
                FillPlayersToBG.balance groups hordeFree aliFree fuel
                  { s with Ali_itr := refill.1, ali := refill.2, horde := horde1 }
          else
            FillPlayersToBG.balance groups hordeFree aliFree fuel
              { s with Ali_itr := refill.1, ali := refill.2 }
      else
        match s.horde.KickGroup groups (toUInt32 (diffAli - diffHorde)) with
        | none => none
        | some (again, horde1) =>
          let refill :=
            if again = true then
              FillPlayersToBG.addLoop groups (FillPlayersToBG.budget hordeFree diffAli) s.Horde_itr horde1
            else (s.Horde_itr, horde1)
          if refill.2.GetPlayerCount = 0 then
            if hordeFree ≤ toInt32 (diffAli + 1) then
              some { s with Horde_itr := refill.1, horde := refill.2 }
            else
              match s.ali.KickGroup groups (toUInt32 (diffAli - diffHorde)) with
              | none => none
              | some (_, ali1) =>
                FillPlayersToBG.balance groups hordeFree aliFree fuel
                  { s with Horde_itr := refill.1, horde := refill.2, ali := ali1 }
          else
            FillPlayersToBG.balance groups hordeFree aliFree fuel
              { s with Horde_itr := refill.1, horde := refill.2 }
    else some s

/-- The local state of `FillPlayersToBG` after its two first loops, which add
the groups of the normal buckets to the pools under the free slots. -/
def BattleGroundQueue.fillFirst (q : BattleGroundQueue) (hordeFree aliFree : Int)
    (bracket_id : Nat) : FillState :=
  let a := FillPlayersToBG.addLoop q.m_Groups (toUInt32 aliFree)
    (q.m_QueuedGroups bracket_id BG_QUEUE_NORMAL_ALLIANCE) (q.m_SelectionPools TEAM_INDEX_ALLIANCE)
  let h := FillPlayersToBG.addLoop q.m_Groups (toUInt32 hordeFree)
    (q.m_QueuedGroups bracket_id BG_QUEUE_NORMAL_HORDE) (q.m_SelectionPools TEAM_INDEX_HORDE)
  { Ali_itr := a.1, Horde_itr := h.1, ali := a.2, horde := h.2 }

/-- The queue after the pools of a local state are written back. -/
def BattleGroundQueue.withPools (q : BattleGroundQueue) (s : FillState) : BattleGroundQueue :=
  { q with
    m_SelectionPools := fun i =>
      if i = TEAM_INDEX_ALLIANCE then s.ali
      else if i = TEAM_INDEX_HORDE then s.horde
      else q.m_SelectionPools i }

/-- Method `BattleGroundQueue::FillPlayersToBG`.  `hordeFree` and `aliFree` are the
`int32` locals holding `bg->GetFreeSlotsForTeam`, `invitationType` is the
setting `CONFIG_UINT32_BATTLEGROUND_INVITATION_TYPE`, `fuel` bounds the passes
of the balancing loop; `none` as for `FillPlayersToBG.balance`. -/
def BattleGroundQueue.FillPlayersToBG (q : BattleGroundQueue) (hordeFree aliFree : Int)
    (invitationType : Nat) (bracket_id : Nat) (fuel : Nat) : Option BattleGroundQueue :=
  let s := q.fillFirst hordeFree aliFree bracket_id
  if invitationType = 0 then
    some (q.withPools s)
  else
    match FillPlayersToBG.balance q.m_Groups hordeFree aliFree fuel s with
    | none => none
    | some s1 => some (q.withPools s1)

/-- The identities of the members of a group that have a source. -/
def memberGuids (members : Group) : List ObjectGuid :=
  members.filterMap (fun m => m.map (fun p => p.guid))

/-- The identities `AddGroup` enters in the new group: the members of `grp`
that have a source, or the leader alone when there is no group. -/
def enqueuedPlayers (leader : Player) : Option Group → List ObjectGuid
  | none => [leader.guid]
  | some members => memberGuids members

/-! ## Well-formed queues and sequences of calls -/

/-- The consistency of the data model: every group stored in a bucket is stored
in a valid bracket, in a bucket of its faction, was allocated, has a player, and
its players are mapped to it; every queued player is a member of the group it is
mapped to, which is stored in a bucket; and a group is stored once. -/
def BattleGroundQueue.WellFormed (c : Consts) (q : BattleGroundQueue) : Prop :=
  (∀ b j G, G ∈ q.m_QueuedGroups b j →
    b < c.MAX_BATTLEGROUND_BRACKETS ∧
    (j = GetTeamIndexByTeamId (q.m_Groups G).GroupTeam ∨
      j = GetTeamIndexByTeamId (q.m_Groups G).GroupTeam + BG_QUEUE_NORMAL_ALLIANCE) ∧
    G < q.m_NextGroup ∧
    (q.m_Groups G).Players ≠ [] ∧
    ∀ g, g ∈ (q.m_Groups G).Players →
      ∃ info, q.m_QueuedPlayers g = some info ∧ info.GroupInfo = G) ∧
  (∀ g info, q.m_QueuedPlayers g = some info →
    g ∈ (q.m_Groups info.GroupInfo).Players ∧ ∃ b j, info.GroupInfo ∈ q.m_QueuedGroups b j) ∧
  (∀ b j, (q.m_QueuedGroups b j).Nodup) ∧
  (∀ b j b' j' G, G ∈ q.m_QueuedGroups b j → G ∈ q.m_QueuedGroups b' j' → b = b' ∧ j = j')

/-- The queue invariant of the data model: the queued players are exactly the
members of the groups stored in the buckets, and no stored group is empty. -/
def BattleGroundQueue.QueueInvariant (c : Consts) (q : BattleGroundQueue) : Prop :=
  (∀ g, (q.m_QueuedPlayers g).isSome = true ↔
    ∃ b j G, b < c.MAX_BATTLEGROUND_BRACKETS ∧ j < BG_QUEUE_GROUP_TYPES_COUNT ∧
      G ∈ q.m_QueuedGroups b j ∧ g ∈ (q.m_Groups G).Players) ∧
  (∀ b j G, b < c.MAX_BATTLEGROUND_BRACKETS → j < BG_QUEUE_GROUP_TYPES_COUNT →
    G ∈ q.m_QueuedGroups b j → (q.m_Groups G).Players ≠ [])

/-- A call of the queue: `AddGroup` or `RemovePlayer`, with its arguments. -/
inductive QueueOp where
  | enqueue (now : Nat) (leader : Player) (grp : Option Group) (BgTypeId bracketId : Nat)
      (isPremade : Bool)
  | removePlayer (guid : ObjectGuid) (decreaseInvitedCount : Bool)

/-- The manager and the queue after one call. -/
def QueueOp.apply (c : Consts) (s : BattleGroundMgr × BattleGroundQueue) :
    QueueOp → BattleGroundMgr × BattleGroundQueue
  | QueueOp.enqueue now leader grp BgTypeId bracketId isPremade =>
    (s.1, (s.2.AddGroup now leader grp BgTypeId bracketId isPremade).2)
  | QueueOp.removePlayer guid decreaseInvitedCount =>
    (s.2.RemovePlayer c s.1 guid decreaseInvitedCount).2

/-- The manager and the queue after a sequence of calls. -/
def runOps (c : Consts) (s : BattleGroundMgr × BattleGroundQueue) (ops : List QueueOp) :
    BattleGroundMgr × BattleGroundQueue :=
  ops.foldl (QueueOp.apply c) s

/-- A call as the callers of the queue make it: `AddGroup` for a valid bracket
and at least one player, none of whom is queued; `RemovePlayer` for any player. -/
def QueueOp.Admissible (c : Consts) (q : BattleGroundQueue) : QueueOp → Prop
  | QueueOp.enqueue _ leader grp _ bracketId _ =>
    bracketId < c.MAX_BATTLEGROUND_BRACKETS ∧ enqueuedPlayers leader grp ≠ [] ∧
      ∀ g, g ∈ enqueuedPlayers leader grp → q.m_QueuedPlayers g = none
  | QueueOp.removePlayer _ _ => True

/-- A sequence of calls each of which is admissible in the state it is made in. -/
def AdmissibleRun (c : Consts) : BattleGroundMgr × BattleGroundQueue → List QueueOp → Prop
  | _, [] => True
  | s, op :: rest => op.Admissible c s.2 ∧ AdmissibleRun c (op.apply c s) rest

/-- The manager `RemovePlayer` leaves for a player of the group at `group`:
the battleground the group is invited to, if it is still known, has one invited
player less for the faction of the group. -/
def BattleGroundQueue.removeInvite (c : Consts) (mgr : BattleGroundMgr) (q : BattleGroundQueue)
    (group : GroupPtr) (decreaseInvitedCount : Bool) : BattleGroundMgr :=
  if decreaseInvitedCount = true ∧ (q.m_Groups group).IsInvitedToBGInstanceGUID ≠ 0 then
    match mgr.GetBattleGround c (q.m_Groups group).IsInvitedToBGInstanceGUID
        (q.m_Groups group).BgTypeId with
    | some (t, bg) =>
      mgr.store t (q.m_Groups group).IsInvitedToBGInstanceGUID
        (bg.DecreaseInvitedCount (q.m_Groups group).GroupTeam)
    | none => mgr
  else mgr

/-- The queue `RemovePlayer` leaves for a player of the group at `group` that
it found in the bucket `[b][j]`: the player is taken out of the group and of the
queued players, and the group out of the bucket when no player is left. -/
def BattleGroundQueue.removeFrom (q : BattleGroundQueue) (guid : ObjectGuid) (group : GroupPtr)
    (b j : Nat) : BattleGroundQueue :=
  { q with
    m_Groups := fun p =>
      if p = group then
        { q.m_Groups group with Players := eraseKey guid (q.m_Groups group).Players }
      else q.m_Groups p,
    m_QueuedPlayers := fun g => if g = guid then none else q.m_QueuedPlayers g,
    m_QueuedGroups := fun b' j' =>
      if eraseKey guid (q.m_Groups group).Players = [] ∧ b' = b ∧ j' = j then
        (q.m_QueuedGroups b' j').erase group
      else q.m_QueuedGroups b' j' }

/-- Values of the header constants used in the examples: six brackets, type 0
for no battleground type, types 1 to 3 for the battlegrounds, ten wait times
averaged, 80 seconds to accept an invitation, the statuses 1 (waiting for the
queue), 2 (waiting for players to join) and 4 (waiting for players to leave),
three queue slots for a player. -/
def sampleConsts : Consts :=
  { MAX_BATTLEGROUND_BRACKETS := 6, BATTLEGROUND_TYPE_NONE := 0, BATTLEGROUND_AV := 1,
    MAX_BATTLEGROUND_TYPE_ID := 4, COUNT_OF_PLAYERS_TO_AVERAGE_WAIT_TIME := 10,
    INVITE_ACCEPT_WAIT_TIME := 80000, BATTLEGROUND_WS := 2, BATTLEGROUND_AB := 3,
    STATUS_WAIT_QUEUE := 1, STATUS_WAIT_JOIN := 2, STATUS_WAIT_LEAVE := 4,
    PLAYER_MAX_BATTLEGROUND_QUEUES := 3 }

/-- A manager that knows no battleground. -/
def BattleGroundMgr.noBattleGrounds : BattleGroundMgr :=
  { m_BattleGrounds := fun _ _ => none,
    m_BattleGroundQueues := fun _ => BattleGroundQueue.new,
    m_QueueUpdateScheduler := [],
    BGFreeSlotQueue := fun _ => [],
    m_ClientBattleGroundIds := fun _ _ => [],
    m_Testing := false }

/-- A manager that knows one battleground, of type 2 and instance 5, with
three invited Horde players. -/
def BattleGroundMgr.oneBattleGround : BattleGroundMgr :=
  { m_BattleGrounds := fun t i =>
      if t = 2 ∧ i = 5 then
        some { m_InstanceID := 5, m_TypeID := 2, m_BracketId := 3, m_InvitedAlliance := 0,
               m_InvitedHorde := 3, m_Status := 2, m_ClientInstanceID := 1,
               m_MinPlayersPerTeam := 5, m_MaxPlayersPerTeam := 10 }
      else none,
    m_BattleGroundQueues := fun _ => BattleGroundQueue.new,
    m_QueueUpdateScheduler := [],
    BGFreeSlotQueue := fun _ => [],
    m_ClientBattleGroundIds := fun _ _ => [],
    m_Testing := false }

/-- The queue after the Horde players 7 and 8 joined bracket 3 as one normal
group for the battleground type 2. -/
def BattleGroundQueue.oneGroup : BattleGroundQueue :=
  (BattleGroundQueue.new.AddGroup 100 { guid := 7, team := Team.HORDE }
    (some [some { guid := 7, team := Team.HORDE }, some { guid := 8, team := Team.HORDE }])
    2 3 false).2

/-- The queue `oneGroup` after its group was invited to the instance 5. -/
def BattleGroundQueue.oneInvitedGroup : BattleGroundQueue :=
  { BattleGroundQueue.oneGroup with
    m_Groups := fun p =>
      { BattleGroundQueue.oneGroup.m_Groups p with
        IsInvitedToBGInstanceGUID := 5, RemoveInviteTime := 180 } }

/-- The player count of a pool is the number of players of its selected groups. -/
def SelectionPool.Sound (groups : GroupStore) (pool : SelectionPool) : Prop :=
  pool.PlayerCount = (pool.SelectedGroups.map (groupSize groups)).sum

/-- What the balancing loop of `FillPlayersToBG` has left to do: twice the
groups still ahead of the two iterators, plus the groups selected. -/
def FillState.measure (s : FillState) : Nat :=
  2 * s.Ali_itr.length + 2 * s.Horde_itr.length + s.ali.SelectedGroups.length +
    s.horde.SelectedGroups.length

/-- The state the balancing loop of `FillPlayersToBG` keeps: both pools are
sound and hold no more players than their faction has free slots. -/
def FillState.Good (groups : GroupStore) (hordeFree aliFree : Int) (s : FillState) : Prop :=
  s.ali.Sound groups ∧ s.horde.Sound groups ∧ (s.ali.PlayerCount : Int) ≤ aliFree ∧
    (s.horde.PlayerCount : Int) ≤ hordeFree

/-! ## Average wait time -/

/-- Modelled from the spec: `getMSTimeDiff` (declared in `Timer.h`, which is not
part of the sources): the time from `oldMSTime` to `newMSTime`, in `uint32`. -/
def getMSTimeDiff (oldMSTime newMSTime : Nat) : Nat :=
  toUInt32 ((newMSTime : Int) - (oldMSTime : Int))

/-- The index `team_index` that `PlayerInvitedToBGUpdateAverageWaitTime` and
`GetAverageQueueWaitTime` compute from the team of a group. -/
def waitTimeTeamIndex (team : Team) : Nat :=
  if team = Team.HORDE then TEAM_INDEX_HORDE else TEAM_INDEX_ALLIANCE

/-- The statements of `PlayerInvitedToBGUpdateAverageWaitTime` that follow the
computation of `timeInQueue` and `team_index`: the oldest wait time leaves the
sum, the new one takes its slot and enters the sum, and the cursor moves to the
next slot; the sum and the cursor are `uint32`. -/
def BattleGroundQueue.recordWaitTime (c : Consts) (q : BattleGroundQueue)
    (team_index bracket_id timeInQueue : Nat) : BattleGroundQueue :=
  { q with
    m_SumOfWaitTimes := fun t b =>
      if t = team_index ∧ b = bracket_id then
        (toUInt32 ((q.m_SumOfWaitTimes team_index bracket_id : Int) -
            (q.m_WaitTimes team_index bracket_id
              (q.m_WaitTimeLastPlayer team_index bracket_id) : Int)) + timeInQueue) % UINT32_MOD
      else q.m_SumOfWaitTimes t b,
    m_WaitTimes := fun t b k =>
      if t = team_index ∧ b = bracket_id ∧ k = q.m_WaitTimeLastPlayer team_index bracket_id then
        timeInQueue
      else q.m_WaitTimes t b k,
    m_WaitTimeLastPlayer := fun t b =>
      if t = team_index ∧ b = bracket_id then
        (q.m_WaitTimeLastPlayer team_index bracket_id + 1) % UINT32_MOD %
          c.COUNT_OF_PLAYERS_TO_AVERAGE_WAIT_TIME
      else q.m_WaitTimeLastPlayer t b }

/-- Method `BattleGroundQueue::PlayerInvitedToBGUpdateAverageWaitTime`; `now` is
the value of `GameTime::GetGameTimeMS()`. -/
def BattleGroundQueue.PlayerInvitedToBGUpdateAverageWaitTime (c : Consts) (q : BattleGroundQueue)
    (now : Nat) (ginfo : GroupPtr) (bracket_id : Nat) : BattleGroundQueue :=
  q.recordWaitTime c (waitTimeTeamIndex (q.m_Groups ginfo).GroupTeam) bracket_id
    (getMSTimeDiff (q.m_Groups ginfo).JoinTime now)

/-- The value `GetAverageQueueWaitTime` returns for the index `team_index`:
nothing is reported while the last slot holds no wait time. -/
def BattleGroundQueue.averageWaitTime (c : Consts) (q : BattleGroundQueue)
    (team_index bracket_id : Nat) : Nat :=
  if q.m_WaitTimes team_index bracket_id (c.COUNT_OF_PLAYERS_TO_AVERAGE_WAIT_TIME - 1) ≠ 0 then
    q.m_SumOfWaitTimes team_index bracket_id / c.COUNT_OF_PLAYERS_TO_AVERAGE_WAIT_TIME
  else 0

/-- Method `BattleGroundQueue::GetAverageQueueWaitTime`. -/
def BattleGroundQueue.GetAverageQueueWaitTime (c : Consts) (q : BattleGroundQueue)
    (ginfo : GroupPtr) (bracket_id : Nat) : Nat :=
  q.averageWaitTime c (waitTimeTeamIndex (q.m_Groups ginfo).GroupTeam) bracket_id

/-- A recorded wait time: the index of the team, the bracket, the time. -/
structure WaitSample where
  team_index : Nat
  bracket_id : Nat
  timeInQueue : Nat
  deriving DecidableEq, Repr

/-- The queue after a sequence of wait times was recorded, the first of the
list first. -/
def BattleGroundQueue.recordAll (c : Consts) : List WaitSample → BattleGroundQueue → BattleGroundQueue
  | [], q => q
  | w :: rest, q =>
    BattleGroundQueue.recordAll c rest (q.recordWaitTime c w.team_index w.bracket_id w.timeInQueue)

/-- The number of wait times of a sequence recorded for one team and bracket. -/
def samplesFor (team_index bracket_id : Nat) (samples : List WaitSample) : Nat :=
  (samples.filter (fun w => decide (w.team_index = team_index ∧ w.bracket_id = bracket_id))).length

/-- The sum of the first `n` slots of a wait-time buffer. -/
def sumSlots (slots : Nat → Nat) : Nat → Nat
  | 0 => 0
  | n + 1 => sumSlots slots n + slots n

/-- The state of the buffer of one team and bracket that recording keeps: the
cursor is a slot of the buffer, the slots hold `uint32` values, and the sum is
the sum of the slots modulo `2^32`. -/
def BattleGroundQueue.TrackerOk (c : Consts) (q : BattleGroundQueue) (team_index bracket_id : Nat) :
    Prop :=
  q.m_WaitTimeLastPlayer team_index bracket_id < c.COUNT_OF_PLAYERS_TO_AVERAGE_WAIT_TIME ∧
  q.m_SumOfWaitTimes team_index bracket_id < 4294967296 ∧
  q.m_SumOfWaitTimes team_index bracket_id % 4294967296 =
    sumSlots (q.m_WaitTimes team_index bracket_id) c.COUNT_OF_PLAYERS_TO_AVERAGE_WAIT_TIME %
      4294967296

/-! ## Invitations -/

/-- Modelled from the spec: `BattleGround::IncreaseInvitedCount` (declared in
`BattleGround.h`, which is not part of the sources): one more slot of the
faction is reserved, in `uint32` arithmetic. -/
def BattleGround.IncreaseInvitedCount (bg : BattleGround) (team : Team) : BattleGround :=
  match team with
  | Team.ALLIANCE => { bg with m_InvitedAlliance := (bg.m_InvitedAlliance + 1) % UINT32_MOD }
  | Team.HORDE => { bg with m_InvitedHorde := (bg.m_InvitedHorde + 1) % UINT32_MOD }

/-- What `InviteGroupToBG` does for one player outside the queue and the
battleground: the invitation set on the player, the remind event, the remove
event and the status packet are all for the same player, instance, battleground
type and removal time. -/
structure InviteNotice where
  guid : ObjectGuid
  bgInstanceGUID : Nat
  bgTypeId : Nat
  removeTime : Nat
  deriving DecidableEq, Repr

/-- The loop of `InviteGroupToBG` over the players of the group; `online` tells
whether `sObjectMgr.GetPlayer` finds the player.  The state is the battleground,
the queue and the notices sent so far. -/
def BattleGroundQueue.inviteLoop (c : Consts) (now : Nat) (online : ObjectGuid → Bool)
    (ginfo : GroupPtr) :
    List ObjectGuid → BattleGround × BattleGroundQueue × List InviteNotice →
      BattleGround × BattleGroundQueue × List InviteNotice
  | [], s => s
  | guid :: rest, s =>
    if online guid = true then
      BattleGroundQueue.inviteLoop c now online ginfo rest
        (s.1.IncreaseInvitedCount (s.2.1.m_Groups ginfo).GroupTeam,
          s.2.1.PlayerInvitedToBGUpdateAverageWaitTime c now ginfo s.1.m_BracketId,
          s.2.2 ++ [{ guid := guid,
                      bgInstanceGUID := (s.2.1.m_Groups ginfo).IsInvitedToBGInstanceGUID,
                      bgTypeId := s.1.m_TypeID,
                      removeTime := (s.2.1.m_Groups ginfo).RemoveInviteTime }])
    else BattleGroundQueue.inviteLoop c now online ginfo rest s

/-- The first statement of `InviteGroupToBG`: the team of the group is set to
`side` when a side is given (`none` stands for the zero value of `Team`). -/
def BattleGroundQueue.setSide (q : BattleGroundQueue) (ginfo : GroupPtr) :
    Option Team → BattleGroundQueue
  | none => q
  | some side =>
    { q with
      m_Groups := fun p =>
        if p = ginfo then { q.m_Groups ginfo with GroupTeam := side } else q.m_Groups p }

/-- Method `BattleGroundQueue::InviteGroupToBG`: the returned flag, the
battleground, the queue and the notices sent.  `now` is the value of
`GameTime::GetGameTimeMS()`. -/
def BattleGroundQueue.InviteGroupToBG (c : Consts) (q : BattleGroundQueue) (now : Nat)
    (online : ObjectGuid → Bool) (ginfo : GroupPtr) (bg : BattleGround) (side : Option Team) :
    Bool × BattleGround × BattleGroundQueue × List InviteNotice :=
  if ((q.setSide ginfo side).m_Groups ginfo).IsInvitedToBGInstanceGUID = 0 then
    (true,
      BattleGroundQueue.inviteLoop c now online ginfo ((q.setSide ginfo side).m_Groups ginfo).Players
        (bg,
          { q.setSide ginfo side with
            m_Groups := fun p =>
              if p = ginfo then
                { (q.setSide ginfo side).m_Groups ginfo with
                  IsInvitedToBGInstanceGUID := bg.m_InstanceID,
                  RemoveInviteTime := (now + c.INVITE_ACCEPT_WAIT_TIME) % UINT32_MOD }
              else (q.setSide ginfo side).m_Groups p },
          []))
  else
    (false, bg, q.setSide ginfo side, [])

/-- The battleground of the examples: instance 5 of type 2 for bracket 3, with
three invited Horde players. -/
def BattleGround.sample : BattleGround :=
  { m_InstanceID := 5, m_TypeID := 2, m_BracketId := 3, m_InvitedAlliance := 0,
    m_InvitedHorde := 3, m_Status := 2, m_ClientInstanceID := 1, m_MinPlayersPerTeam := 5,
    m_MaxPlayersPerTeam := 10 }

/-! ## One pass of the balancing loop -/

/-- How one evaluation of the condition of the balancing loop of
`FillPlayersToBG`, with the body when the condition holds, ends: the condition
is false (`done`), the body leaves the loop by `break`, the body reaches its end
and the loop goes on, or `KickGroup` dereferences an end iterator. -/
inductive PassResult where
  | done
  | broke (s : FillState)
  | again (s : FillState)
  | undefined
  deriving DecidableEq, Repr

/-- One evaluation of the condition of the balancing loop of `FillPlayersToBG`
and, when it holds, of the body. -/
def FillPlayersToBG.pass (groups : GroupStore) (hordeFree aliFree : Int) (s : FillState) :
    PassResult :=
  let diffAli := FillPlayersToBG.diff aliFree s.ali
  let diffHorde := FillPlayersToBG.diff hordeFree s.horde
  if absInt32 (toInt32 (diffAli - diffHorde)) > 1 ∧
      (s.horde.GetPlayerCount > 0 ∨ s.ali.GetPlayerCount > 0) then
    if diffAli < diffHorde then
      match s.ali.KickGroup groups (toUInt32 (diffHorde - diffAli)) with
      | none => PassResult.undefined
      | some (again, ali1) =>
        let refill :=
          if again = true then
            FillPlayersToBG.addLoop groups (FillPlayersToBG.budget aliFree diffHorde) s.Ali_itr ali1
          else (s.Ali_itr, ali1)
        if refill.2.GetPlayerCount = 0 then
          if aliFree ≤ toInt32 (diffHorde + 1) then
            PassResult.broke { s with Ali_itr := refill.1, ali := refill.2 }
          else
            match s.horde.KickGroup groups (toUInt32 (diffHorde - diffAli)) with
            | none => PassResult.undefined
            | some (_, horde1) =>
              PassResult.again { s with Ali_itr := refill.1, ali := refill.2, horde := horde1 }
        else
          PassResult.again { s with Ali_itr := refill.1, ali := refill.2 }
    else
      match s.horde.KickGroup groups (toUInt32 (diffAli - diffHorde)) with
      | none => PassResult.undefined
      | some (again, horde1) =>
        let refill :=
          if again = true then
            FillPlayersToBG.addLoop groups (FillPlayersToBG.budget hordeFree diffAli) s.Horde_itr horde1
          else (s.Horde_itr, horde1)
        if refill.2.GetPlayerCount = 0 then
          if hordeFree ≤ toInt32 (diffAli + 1) then
            PassResult.broke { s with Horde_itr := refill.1, horde := refill.2 }
          else
            match s.ali.KickGroup groups (toUInt32 (diffAli - diffHorde)) with
            | none => PassResult.undefined
            | some (_, ali1) =>
              PassResult.again { s with Horde_itr := refill.1, horde := refill.2, ali := ali1 }
        else
          PassResult.again { s with Horde_itr := refill.1, horde := refill.2 }
  else PassResult.done

/-- One group was taken out of the list `l`, which left `m`. -/
def Kicked (l m : List GroupPtr) : Prop :=
  ∃ i, i < l.length ∧ m = l.eraseIdx i

/-- What a pass of the balancing loop that does not leave the loop does to the
pools: each iterator moved on over some groups of its bucket, each pool lost at
most one group and then gained only groups its iterator moved over, in their
order, and at least one pool lost a group. -/
def FillState.Progress (s s1 : FillState) : Prop :=
  ∃ cA cH addA addH midA midH,
    s.Ali_itr = cA ++ s1.Ali_itr ∧ s.Horde_itr = cH ++ s1.Horde_itr ∧
    addA.Sublist cA ∧ addH.Sublist cH ∧
    s1.ali.SelectedGroups = midA ++ addA ∧ s1.horde.SelectedGroups = midH ++ addH ∧
    (midA = s.ali.SelectedGroups ∨ Kicked s.ali.SelectedGroups midA) ∧
    (midH = s.horde.SelectedGroups ∨ Kicked s.horde.SelectedGroups midH) ∧
    (Kicked s.ali.SelectedGroups midA ∨ Kicked s.horde.SelectedGroups midH)

/-! ## Matches for a new battleground -/

/-- The queue after the two selection pools are replaced. -/
def BattleGroundQueue.setPools (q : BattleGroundQueue) (ali horde : SelectionPool) :
    BattleGroundQueue :=
  { q with
    m_SelectionPools := fun i =>
      if i = TEAM_INDEX_ALLIANCE then ali
      else if i = TEAM_INDEX_HORDE then horde
      else q.m_SelectionPools i }

/-- The loops of `CheckPremadeMatch` that look for a group of a premade bucket
that is not invited: the group the iterator stops at, `none` for the end of the
bucket. -/
def firstNotInvited (groups : GroupStore) : List GroupPtr → Option GroupPtr
  | [] => none
  | g :: rest =>
    if (groups g).IsInvitedToBGInstanceGUID = 0 then some g else firstNotInvited groups rest

/-- The loop `for (...) if (!(*itr)->IsInvitedToBGInstanceGUID && !pool.AddGroup(*itr, n)) break;`
that `CheckPremadeMatch` and `CheckNormalMatch` run over the rest of a normal
bucket. -/
def topUpLoop (groups : GroupStore) (desiredCount : Nat) : List GroupPtr → SelectionPool → SelectionPool
  | [], pool => pool
  | g :: rest, pool =>
    if (groups g).IsInvitedToBGInstanceGUID = 0 then
      if (pool.AddGroup groups g desiredCount).1 = true then
        topUpLoop groups desiredCount rest (pool.AddGroup groups g desiredCount).2
      else (pool.AddGroup groups g desiredCount).2
    else topUpLoop groups desiredCount rest pool

/-- The body of the last loop of `CheckPremadeMatch` for the faction of index
`i`: the head of the premade bucket, when it is not invited and has waited
since before `time_before` or has fewer players than `MinPlayersPerTeam`, is
moved to the front of the normal bucket. -/
def BattleGroundQueue.demotePremade (q : BattleGroundQueue) (bracket_id i time_before
    MinPlayersPerTeam : Nat) : BattleGroundQueue :=
  match q.m_QueuedGroups bracket_id (BG_QUEUE_PREMADE_ALLIANCE + i) with
  | [] => q
  | g :: rest =>
    if (q.m_Groups g).IsInvitedToBGInstanceGUID = 0 ∧
        ((q.m_Groups g).JoinTime < time_before ∨ groupSize q.m_Groups g < MinPlayersPerTeam) then
      { q with
        m_QueuedGroups := fun b j =>
          if b = bracket_id ∧ j = BG_QUEUE_NORMAL_ALLIANCE + i then g :: q.m_QueuedGroups b j
          else if b = bracket_id ∧ j = BG_QUEUE_PREMADE_ALLIANCE + i then rest
          else q.m_QueuedGroups b j }
    else q

/-- The pair of premade groups `CheckPremadeMatch` starts a match with: the
first group that is not invited of each premade bucket, when both buckets are
not empty and both have such a group. -/
def BattleGroundQueue.premadePair (q : BattleGroundQueue) (bracket_id : Nat) :
    Option (GroupPtr × GroupPtr) :=
  if q.m_QueuedGroups bracket_id BG_QUEUE_PREMADE_ALLIANCE ≠ [] ∧
      q.m_QueuedGroups bracket_id BG_QUEUE_PREMADE_HORDE ≠ [] then
    match firstNotInvited q.m_Groups (q.m_QueuedGroups bracket_id BG_QUEUE_PREMADE_ALLIANCE),
      firstNotInvited q.m_Groups (q.m_QueuedGroups bracket_id BG_QUEUE_PREMADE_HORDE) with
    | some ali_group, some horde_group => some (ali_group, horde_group)
    | _, _ => none
  else none

/-- Method `BattleGroundQueue::CheckPremadeMatch`: the returned flag and the
queue afterwards.  `now` is the value of `GameTime::GetGameTimeMS()` and
`premadeWait` the setting `CONFIG_UINT32_BATTLEGROUND_PREMADE_GROUP_WAIT_FOR_MATCH`. -/
def BattleGroundQueue.CheckPremadeMatch (q : BattleGroundQueue) (now premadeWait : Nat)
    (bracket_id MinPlayersPerTeam MaxPlayersPerTeam : Nat) : Bool × BattleGroundQueue :=
  match q.premadePair bracket_id with
  | some (ali_group, horde_group) =>
    let ali := ((q.m_SelectionPools TEAM_INDEX_ALLIANCE).AddGroup q.m_Groups ali_group
      MaxPlayersPerTeam).2
    let horde := ((q.m_SelectionPools TEAM_INDEX_HORDE).AddGroup q.m_Groups horde_group
      MaxPlayersPerTeam).2
    let maxPlayers := max ali.GetPlayerCount horde.GetPlayerCount
    (true,
      q.setPools
        (topUpLoop q.m_Groups maxPlayers (q.m_QueuedGroups bracket_id BG_QUEUE_NORMAL_ALLIANCE) ali)
        (topUpLoop q.m_Groups maxPlayers (q.m_QueuedGroups bracket_id BG_QUEUE_NORMAL_HORDE) horde))
  | none =>
    (false,
      (q.demotePremade bracket_id 0 (toUInt32 ((now : Int) - (premadeWait : Int)))
        MinPlayersPerTeam).demotePremade bracket_id 1
          (toUInt32 ((now : Int) - (premadeWait : Int))) MinPlayersPerTeam)

/-- The first loop of `CheckNormalMatch` for one faction: the groups of the
normal bucket that are not invited are offered to the pool until the pool
counts `minPlayers` players.  The result is the iterator (the rest of the
bucket from the group at which the loop was left by `break`, nothing at the
end of the bucket) and the pool. -/
def CheckNormalMatch.gather (groups : GroupStore) (minPlayers maxPlayers : Nat) :
    List GroupPtr → SelectionPool → List GroupPtr × SelectionPool
  | [], pool => ([], pool)
  | g :: rest, pool =>
    if (groups g).IsInvitedToBGInstanceGUID = 0 then
      if (pool.AddGroup groups g maxPlayers).2.GetPlayerCount ≥ minPlayers then
        (g :: rest, (pool.AddGroup groups g maxPlayers).2)
      else CheckNormalMatch.gather groups minPlayers maxPlayers rest
        (pool.AddGroup groups g maxPlayers).2
    else CheckNormalMatch.gather groups minPlayers maxPlayers rest pool

/-- The test `abs((int32)(horde count - alliance count)) > 2` of
`CheckNormalMatch`; the difference is taken in `uint32`. -/
def CheckNormalMatch.unbalanced (ali horde : SelectionPool) : Bool :=
  decide (absInt32 (toInt32 (toUInt32 ((horde.GetPlayerCount : Int) -
    (ali.GetPlayerCount : Int)) : Int)) > 2)

/-- The last two statements of `CheckNormalMatch`: in testing mode one player
in a pool is enough, otherwise both pools must count `minPlayers` players. -/
def CheckNormalMatch.enough (isTesting : Bool) (minPlayers : Nat) (ali horde : SelectionPool) :
    Bool :=
  if isTesting = true ∧ (ali.GetPlayerCount ≠ 0 ∨ horde.GetPlayerCount ≠ 0) then true
  else decide (ali.GetPlayerCount ≥ minPlayers ∧ horde.GetPlayerCount ≥ minPlayers)

/-- Method `BattleGroundQueue::CheckNormalMatch`: the returned flag and the
queue afterwards; `none` when the iterator incremented before the second loop
is at the end of its bucket.  `invitationType` is the setting
`CONFIG_UINT32_BATTLEGROUND_INVITATION_TYPE` and `isTesting` the value of
`sBattleGroundMgr.isTesting()`. -/
def BattleGroundQueue.CheckNormalMatch (q : BattleGroundQueue) (invitationType : Nat)
    (isTesting : Bool) (bracket_id minPlayers maxPlayers : Nat) :
    Option (Bool × BattleGroundQueue) :=
  let a := CheckNormalMatch.gather q.m_Groups minPlayers maxPlayers
    (q.m_QueuedGroups bracket_id BG_QUEUE_NORMAL_ALLIANCE) (q.m_SelectionPools TEAM_INDEX_ALLIANCE)
  let h := CheckNormalMatch.gather q.m_Groups minPlayers maxPlayers
    (q.m_QueuedGroups bracket_id BG_QUEUE_NORMAL_HORDE) (q.m_SelectionPools TEAM_INDEX_HORDE)
  if invitationType ≠ 0 ∧ h.2.GetPlayerCount ≥ minPlayers ∧ a.2.GetPlayerCount ≥ minPlayers then
    if h.2.GetPlayerCount < a.2.GetPlayerCount then
      match h.1 with
      | [] => none
      | _ :: rest =>
        let horde := topUpLoop q.m_Groups a.2.GetPlayerCount rest h.2
        if CheckNormalMatch.unbalanced a.2 horde = true then some (false, q.setPools a.2 horde)
        else some (CheckNormalMatch.enough isTesting minPlayers a.2 horde, q.setPools a.2 horde)
    else
      match a.1 with
      | [] => none
      | _ :: rest =>
        let ali := topUpLoop q.m_Groups h.2.GetPlayerCount rest a.2
        if CheckNormalMatch.unbalanced ali h.2 = true then some (false, q.setPools ali h.2)
        else some (CheckNormalMatch.enough isTesting minPlayers ali h.2, q.setPools ali h.2)
  else some (CheckNormalMatch.enough isTesting minPlayers a.2 h.2, q.setPools a.2 h.2)

/-- A store of groups for the examples: the group at the address `p` has as
many players as `sizes` lists at position `p` and is invited to the instance
that `invited` lists there (0: not invited). -/
def sampleGroups (sizes invited : List Nat) : GroupStore :=
  fun p =>
    { GroupQueueInfo.blank with
      Players := List.range (sizes.getD p 0),
      IsInvitedToBGInstanceGUID := invited.getD p 0 }

/-- A queue for the examples: the store `sampleGroups sizes invited` and, in
bracket 1, the four buckets given. -/
def sampleQueue (sizes invited : List Nat) (premadeAli premadeHorde normalAli normalHorde :
    List GroupPtr) : BattleGroundQueue :=
  { BattleGroundQueue.new with
    m_Groups := sampleGroups sizes invited,
    m_NextGroup := sizes.length,
    m_QueuedGroups := fun b j =>
      if b = 1 then
        if j = BG_QUEUE_PREMADE_ALLIANCE then premadeAli
        else if j = BG_QUEUE_PREMADE_HORDE then premadeHorde
        else if j = BG_QUEUE_NORMAL_ALLIANCE then normalAli
        else if j = BG_QUEUE_NORMAL_HORDE then normalHorde
        else []
      else [] }

/-! ## The choice of `KickGroup` -/

/-- The test `abs((int32)((*itr)->Players.size() - size)) <= 1` of the search
loop of `SelectionPool::KickGroup`, for the group `g`. -/
def SelectionPool.KickGroup.near (groups : GroupStore) (size : Nat) (g : GroupPtr) : Prop :=
  absInt32 (toInt32 ((groupSize groups g : Int) - (size : Int))) ≤ 1

/-- The pool of the examples for `KickGroup`: the groups at the addresses 0 and
1, counted with 12 players. -/
def SelectionPool.sample : SelectionPool :=
  { SelectedGroups := [0, 1], PlayerCount := 12 }

/-! ## Sequences of calls with `CheckPremadeMatch` -/

/-- A call of the queue: one of `AddGroup` and `RemovePlayer`, or
`CheckPremadeMatch` with its arguments, the clock and the setting of the wait
for a premade match. -/
inductive QueueCall where
  | op (o : QueueOp)
  | checkPremadeMatch (now premadeWait bracket_id MinPlayersPerTeam MaxPlayersPerTeam : Nat)

/-- The manager and the queue after one call. -/
def QueueCall.apply (c : Consts) (s : BattleGroundMgr × BattleGroundQueue) :
    QueueCall → BattleGroundMgr × BattleGroundQueue
  | QueueCall.op o => o.apply c s
  | QueueCall.checkPremadeMatch now premadeWait bracket_id MinPlayersPerTeam MaxPlayersPerTeam =>
    (s.1, (s.2.CheckPremadeMatch now premadeWait bracket_id MinPlayersPerTeam
      MaxPlayersPerTeam).2)

/-- The manager and the queue after a sequence of calls. -/
def runCalls (c : Consts) (s : BattleGroundMgr × BattleGroundQueue) (calls : List QueueCall) :
    BattleGroundMgr × BattleGroundQueue :=
  calls.foldl (QueueCall.apply c) s

/-- Every group stored in a bucket was allocated, is stored once in its bucket
and is stored in no other bucket. -/
def BattleGroundQueue.BucketsDistinct (q : BattleGroundQueue) : Prop :=
  (∀ b j G, G ∈ q.m_QueuedGroups b j → G < q.m_NextGroup) ∧
  (∀ b j, (q.m_QueuedGroups b j).Nodup) ∧
  (∀ b j b' j' G, G ∈ q.m_QueuedGroups b j → G ∈ q.m_QueuedGroups b' j' → b = b' ∧ j = j')

/-! ## The manager: scheduled queue updates -/

/-- The number `schedule_id` that `ScheduleQueueUpdate` makes of the queue type,
the battleground type and the bracket, a `uint32`. -/
def BattleGroundMgr.scheduleId (bgQueueTypeId bgTypeId bracket_id : Nat) : Nat :=
  ((bgQueueTypeId <<< 16) ||| (bgTypeId <<< 8) ||| bracket_id) % UINT32_MOD

/-- The search loop of `ScheduleQueueUpdate`, run for at most `fuel` evaluations
of its condition: `i` is the `uint8` counter, the result is the flag `found`,
`none` when the fuel is used up. -/
def BattleGroundMgr.ScheduleQueueUpdate.find (sched : List Nat) (schedule_id : Nat) :
    Nat → Nat → Option Bool
  | 0, _ => none
  | fuel + 1, i =>
    if i < sched.length then
      if sched.getD i 0 = schedule_id then some true
      else BattleGroundMgr.ScheduleQueueUpdate.find sched schedule_id fuel ((i + 1) % 256)
    else some false

/-- Method `BattleGroundMgr::ScheduleQueueUpdate`: the manager afterwards, `none`
when the search loop does not end within `fuel` evaluations of its
condition. -/
def BattleGroundMgr.ScheduleQueueUpdate (mgr : BattleGroundMgr)
    (bgQueueTypeId bgTypeId bracket_id fuel : Nat) : Option BattleGroundMgr :=
  match BattleGroundMgr.ScheduleQueueUpdate.find mgr.m_QueueUpdateScheduler
      (BattleGroundMgr.scheduleId bgQueueTypeId bgTypeId bracket_id) fuel 0 with
  | none => none
  | some found =>
    if found = false then
      some { mgr with
        m_QueueUpdateScheduler := mgr.m_QueueUpdateScheduler ++
          [BattleGroundMgr.scheduleId bgQueueTypeId bgTypeId bracket_id] }
    else some mgr

/-! ## The event that removes an invitation -/

/-- Class `BGQueueRemoveEvent`: its members. -/
structure BGQueueRemoveEvent where
  m_PlayerGuid : ObjectGuid
  m_BgInstanceGUID : Nat
  m_BgTypeId : Nat
  m_BgQueueTypeId : Nat
  m_RemoveTime : Nat
  deriving DecidableEq, Repr

/-- What `BGQueueRemoveEvent::Execute` does to the player outside the manager:
the queue type is taken from the queue slots of the player and the status
packet for the slot is sent. -/
structure RemoveNotice where
  guid : ObjectGuid
  bgQueueTypeId : Nat
  queueSlot : Nat
  deriving DecidableEq, Repr

/-- The manager after the queue of the type `bgQueueTypeId` is replaced (a write
through the reference `bgQueue`). -/
def BattleGroundMgr.setQueue (mgr : BattleGroundMgr) (bgQueueTypeId : Nat)
    (q : BattleGroundQueue) : BattleGroundMgr :=
  { mgr with
    m_BattleGroundQueues := fun i => if i = bgQueueTypeId then q else mgr.m_BattleGroundQueues i }

/-- Method `BGQueueRemoveEvent::Execute`: the returned flag, the manager and the
notices sent.  `plr` is `none` when `sObjectMgr.GetPlayer` finds no player, and
otherwise the value of `plr->GetBattleGroundQueueIndex(m_BgQueueTypeId)`;
`fuel` bounds the search loop of `ScheduleQueueUpdate`, and the result is `none`
when that loop does not end. -/
def BGQueueRemoveEvent.Execute (c : Consts) (mgr : BattleGroundMgr) (ev : BGQueueRemoveEvent)
    (plr : Option Nat) (fuel : Nat) : Option (Bool × BattleGroundMgr × List RemoveNotice) :=
  match plr with
  | none => some (true, mgr, [])
  | some queueSlot =>
    if queueSlot < c.PLAYER_MAX_BATTLEGROUND_QUEUES then
      if (mgr.m_BattleGroundQueues ev.m_BgQueueTypeId).IsPlayerInvited ev.m_PlayerGuid
          ev.m_BgInstanceGUID ev.m_RemoveTime = true then
        let r := (mgr.m_BattleGroundQueues ev.m_BgQueueTypeId).RemovePlayer c mgr
          ev.m_PlayerGuid true
        let mgr1 := r.2.1.setQueue ev.m_BgQueueTypeId r.2.2
        let notice : RemoveNotice :=
          { guid := ev.m_PlayerGuid, bgQueueTypeId := ev.m_BgQueueTypeId, queueSlot := queueSlot }
        match mgr.GetBattleGround c ev.m_BgInstanceGUID ev.m_BgTypeId with
        | some (_, bg) =>
          if bg.m_Status ≠ c.STATUS_WAIT_LEAVE then
            match mgr1.ScheduleQueueUpdate ev.m_BgQueueTypeId ev.m_BgTypeId bg.m_BracketId
                fuel with
            | none => none
            | some mgr2 => some (true, mgr2, [notice])
          else some (true, mgr1, [notice])
        | none => some (true, mgr1, [notice])
      else some (true, mgr, [])
    else some (true, mgr, [])

/-! ## New battlegrounds -/

/-- The search of `m_BattleGrounds[bgTypeId].begin()`: the battleground of the
lowest instance id among `i, i + 1, ...` (`n` of them). -/
def BattleGroundMgr.firstBattleGround (mgr : BattleGroundMgr) (bgTypeId : Nat) :
    Nat → Nat → Option BattleGround
  | 0, _ => none
  | n + 1, i =>
    match mgr.m_BattleGrounds bgTypeId i with
    | some bg => some bg
    | none => BattleGroundMgr.firstBattleGround mgr bgTypeId n (i + 1)

/-- Method `BattleGroundMgr::GetBattleGroundTemplate`: the battleground of the
lowest instance id (a `uint32`) stored for the type, `none` for a null result. -/
def BattleGroundMgr.GetBattleGroundTemplate (mgr : BattleGroundMgr) (bgTypeId : Nat) :
    Option BattleGround :=
  BattleGroundMgr.firstBattleGround mgr bgTypeId UINT32_MOD 0

/-- The loop of `CreateClientVisibleInstanceId`, run for at most `fuel`
evaluations of its condition: the iterator is never advanced and stays at the
first id of the set; the result is `lastId` when the loop is left. -/
def BattleGroundMgr.CreateClientVisibleInstanceId.loop (ids : List Nat) : Nat → Nat → Option Nat
  | 0, _ => none
  | fuel + 1, lastId =>
    match ids with
    | [] => some lastId
    | first :: _ =>
      if (lastId + 1) % UINT32_MOD ≠ first then some ((lastId + 1) % UINT32_MOD)
      else BattleGroundMgr.CreateClientVisibleInstanceId.loop ids fuel first

/-- Method `BattleGroundMgr::CreateClientVisibleInstanceId`: the returned id and the
manager afterwards; `none` when the loop does not end within `fuel` evaluations
of its condition. -/
def BattleGroundMgr.CreateClientVisibleInstanceId (mgr : BattleGroundMgr)
    (bgTypeId bracket_id fuel : Nat) : Option (Nat × BattleGroundMgr) :=
  match BattleGroundMgr.CreateClientVisibleInstanceId.loop
      (mgr.m_ClientBattleGroundIds bgTypeId bracket_id) fuel 0 with
  | none => none
  | some lastId =>
    some ((lastId + 1) % UINT32_MOD,
      { mgr with
        m_ClientBattleGroundIds := fun t b =>
          if t = bgTypeId ∧ b = bracket_id then
            insertKey ((lastId + 1) % UINT32_MOD) (mgr.m_ClientBattleGroundIds t b)
          else mgr.m_ClientBattleGroundIds t b })

/-- What the queue and the manager ask of the parts of the server that are not
in the sources: the clock `GameTime::GetGameTimeMS()`, whether
`sObjectMgr.GetPlayer` finds a player, the two settings of `sWorld`, and the
methods of `BattleGround` and of `sMapMgr` that the code calls, each acting on
the data it is given. -/
structure Env where
  now : Nat
  online : ObjectGuid → Bool
  invitationType : Nat
  premadeWait : Nat
  GetFreeSlotsForTeam : BattleGround → Team → Nat
  HasFreeSlots : BattleGround → Bool
  RemoveFromBGFreeSlotQueue : (Nat → List (Nat × Nat)) → BattleGround → Nat → List (Nat × Nat)
  CreateBgMap : BattleGround → BattleGround
  Reset : BattleGround → BattleGround
  StartBattleGround : (Nat → Nat → Option BattleGround) → BattleGround →
    Nat → Nat → Option BattleGround

/-- Method `BattleGroundMgr::CreateNewBattleGround`: the new battleground (`none`
for a null result) and the manager afterwards.  The loop of
`CreateClientVisibleInstanceId` is given three evaluations of its condition,
after which it has ended. -/
def BattleGroundMgr.CreateNewBattleGround (c : Consts) (env : Env) (mgr : BattleGroundMgr)
    (bgTypeId bracket_id : Nat) : Option BattleGround × BattleGroundMgr :=
  match mgr.GetBattleGroundTemplate bgTypeId with
  | none => (none, mgr)
  | some bg_template =>
    if bgTypeId = c.BATTLEGROUND_AV ∨ bgTypeId = c.BATTLEGROUND_WS ∨
        bgTypeId = c.BATTLEGROUND_AB then
      match mgr.CreateClientVisibleInstanceId bgTypeId bracket_id 3 with
      | none => (none, mgr)
      | some (id, mgr1) =>
        (some { env.Reset { env.CreateBgMap bg_template with m_ClientInstanceID := id } with
                m_Status := c.STATUS_WAIT_JOIN, m_BracketId := bracket_id },
          mgr1)
    else (none, mgr)

/-! ## The update of a queue -/

/-- How a call of `BattleGroundQueue::Update` ends: at its first test when
nothing is queued for the bracket, after the error line for a missing template,
after the error line for a battleground that could not be created, or at its
end. -/
inductive UpdateLog where
  | nothingQueued
  | templateNotFound
  | canNotCreate
  | finished
  deriving DecidableEq, Repr

/-- The loops `for (citr ...) InviteGroupToBG(*citr, bg, (*citr)->GroupTeam);` of
`Update` over the groups of a selection pool. -/
def BattleGroundQueue.inviteAll (c : Consts) (env : Env) :
    List GroupPtr → BattleGround × BattleGroundQueue × List InviteNotice →
      BattleGround × BattleGroundQueue × List InviteNotice
  | [], s => s
  | g :: rest, s =>
    BattleGroundQueue.inviteAll c env rest
      ((s.2.1.InviteGroupToBG c env.now env.online g s.1 (some (s.2.1.m_Groups g).GroupTeam)).2.1,
        (s.2.1.InviteGroupToBG c env.now env.online g s.1
          (some (s.2.1.m_Groups g).GroupTeam)).2.2.1,
        s.2.2 ++ (s.2.1.InviteGroupToBG c env.now env.online g s.1
          (some (s.2.1.m_Groups g).GroupTeam)).2.2.2)

/-- The invitation of both selection pools to a battleground, the Alliance
first. -/
def BattleGroundQueue.invitePools (c : Consts) (env : Env)
    (s : BattleGround × BattleGroundQueue × List InviteNotice) :
    BattleGround × BattleGroundQueue × List InviteNotice :=
  BattleGroundQueue.inviteAll c env
    ((BattleGroundQueue.inviteAll c env
      (s.2.1.m_SelectionPools TEAM_INDEX_ALLIANCE).SelectedGroups s).2.1.m_SelectionPools
        TEAM_INDEX_HORDE).SelectedGroups
    (BattleGroundQueue.inviteAll c env (s.2.1.m_SelectionPools TEAM_INDEX_ALLIANCE).SelectedGroups s)

/-- The body of the loop of `Update` over `BGFreeSlotQueue[bgTypeId]` for the
battleground stored under `p`: when it is of the type and the bracket and is
running, the pools are cleared and filled, their groups are invited, and the
battleground leaves the list when it has no free slot.  The balancing loop of
`FillPlayersToBG` is given more passes than twice the number of groups in the
two normal buckets; the result is `none` when `FillPlayersToBG` has none. -/
def BattleGroundQueue.Update.fill (c : Consts) (env : Env) (bgTypeId bracket_id : Nat)
    (s : BattleGroundMgr × BattleGroundQueue × List InviteNotice) (p : Nat × Nat) :
    Option (BattleGroundMgr × BattleGroundQueue × List InviteNotice) :=
  match s.1.m_BattleGrounds p.1 p.2 with
  | none => some s
  | some bg =>
    if bg.m_TypeID = bgTypeId ∧ bg.m_BracketId = bracket_id ∧
        bg.m_Status > c.STATUS_WAIT_QUEUE ∧ bg.m_Status < c.STATUS_WAIT_LEAVE then
      match (s.2.1.setPools SelectionPool.Init SelectionPool.Init).FillPlayersToBG
          (toInt32 (env.GetFreeSlotsForTeam bg Team.HORDE))
          (toInt32 (env.GetFreeSlotsForTeam bg Team.ALLIANCE)) env.invitationType bracket_id
          (2 * ((s.2.1.m_QueuedGroups bracket_id BG_QUEUE_NORMAL_ALLIANCE).length +
            (s.2.1.m_QueuedGroups bracket_id BG_QUEUE_NORMAL_HORDE).length) + 1) with
      | none => none
      | some q1 =>
        let r := BattleGroundQueue.invitePools c env (bg, q1, s.2.2)
        if env.HasFreeSlots r.1 = false then
          some ({ s.1.store p.1 p.2 r.1 with
                  BGFreeSlotQueue := env.RemoveFromBGFreeSlotQueue s.1.BGFreeSlotQueue r.1 },
            r.2.1, r.2.2)
        else some (s.1.store p.1 p.2 r.1, r.2.1, r.2.2)
    else some s

/-- The loop of `Update` over the battlegrounds that were in
`BGFreeSlotQueue[bgTypeId]` when it started. -/
def BattleGroundQueue.Update.fillAll (c : Consts) (env : Env) (bgTypeId bracket_id : Nat) :
    List (Nat × Nat) → BattleGroundMgr × BattleGroundQueue × List InviteNotice →
      Option (BattleGroundMgr × BattleGroundQueue × List InviteNotice)
  | [], s => some s
  | p :: rest, s =>
    match BattleGroundQueue.Update.fill c env bgTypeId bracket_id s p with
    | none => none
    | some s1 => BattleGroundQueue.Update.fillAll c env bgTypeId bracket_id rest s1

/-- The statements of `Update` that follow a match: a new battleground is
created, the groups of both pools are invited to it and it is started; `none`
when `CreateNewBattleGround` returns null. -/
def BattleGroundQueue.Update.start (c : Consts) (env : Env) (bgTypeId bracket_id : Nat)
    (s : BattleGroundMgr × BattleGroundQueue × List InviteNotice) :
    Option (BattleGroundMgr × BattleGroundQueue × List InviteNotice) :=
  match s.1.CreateNewBattleGround c env bgTypeId bracket_id with
  | (none, _) => none
  | (some bg2, mgr1) =>
    let r := BattleGroundQueue.invitePools c env (bg2, s.2.1, s.2.2)
    some ({ mgr1 with m_BattleGrounds := env.StartBattleGround mgr1.m_BattleGrounds r.1 },
      r.2.1, r.2.2)

/-- The last block of `Update`: the normal match.  The outer `none` stands for
an increment of an end iterator in `CheckNormalMatch`. -/
def BattleGroundQueue.Update.normal (c : Consts) (env : Env) (bgTypeId bracket_id
    MinPlayersPerTeam MaxPlayersPerTeam : Nat)
    (s : BattleGroundMgr × BattleGroundQueue × List InviteNotice) :
    Option (UpdateLog × BattleGroundMgr × BattleGroundQueue × List InviteNotice) :=
  match s.2.1.CheckNormalMatch env.invitationType s.1.m_Testing bracket_id MinPlayersPerTeam
      MaxPlayersPerTeam with
  | none => none
  | some (true, q1) =>
    match BattleGroundQueue.Update.start c env bgTypeId bracket_id (s.1, q1, s.2.2) with
    | none => some (UpdateLog.canNotCreate, s.1, q1, s.2.2)
    | some s1 => some (UpdateLog.finished, s1)
  | some (false, q1) => some (UpdateLog.finished, s.1, q1, s.2.2)

/-- Method `BattleGroundQueue::Update` of the queue `q` of the manager `mgr`: how the call ends, the
manager, the queue and the notices sent; `none` when `FillPlayersToBG` or
`CheckNormalMatch` has no result. -/
def BattleGroundQueue.Update (c : Consts) (env : Env) (mgr : BattleGroundMgr)
    (q : BattleGroundQueue) (bgTypeId bracket_id : Nat) :
    Option (UpdateLog × BattleGroundMgr × BattleGroundQueue × List InviteNotice) :=
  if q.m_QueuedGroups bracket_id BG_QUEUE_PREMADE_ALLIANCE = [] ∧
      q.m_QueuedGroups bracket_id BG_QUEUE_PREMADE_HORDE = [] ∧
      q.m_QueuedGroups bracket_id BG_QUEUE_NORMAL_ALLIANCE = [] ∧
      q.m_QueuedGroups bracket_id BG_QUEUE_NORMAL_HORDE = [] then
    some (UpdateLog.nothingQueued, mgr, q, [])
  else
    match BattleGroundQueue.Update.fillAll c env bgTypeId bracket_id
        (mgr.BGFreeSlotQueue bgTypeId) (mgr, q, []) with
    | none => none
    | some s =>
      match s.1.GetBattleGroundTemplate bgTypeId with
      | none => some (UpdateLog.templateNotFound, s)
      | some bg_template =>
        if ((s.2.1.setPools SelectionPool.Init SelectionPool.Init).CheckPremadeMatch env.now
            env.premadeWait bracket_id
            (if s.1.m_Testing = true then 1 else bg_template.m_MinPlayersPerTeam)
            bg_template.m_MaxPlayersPerTeam).1 = true then
          match BattleGroundQueue.Update.start c env bgTypeId bracket_id
              (s.1,
                ((s.2.1.setPools SelectionPool.Init SelectionPool.Init).CheckPremadeMatch env.now
                  env.premadeWait bracket_id
                  (if s.1.m_Testing = true then 1 else bg_template.m_MinPlayersPerTeam)
                  bg_template.m_MaxPlayersPerTeam).2,
                s.2.2) with
          | none =>
            some (UpdateLog.canNotCreate, s.1,
              ((s.2.1.setPools SelectionPool.Init SelectionPool.Init).CheckPremadeMatch env.now
                env.premadeWait bracket_id
                (if s.1.m_Testing = true then 1 else bg_template.m_MinPlayersPerTeam)
                bg_template.m_MaxPlayersPerTeam).2,
              s.2.2)
          | some s1 =>
            BattleGroundQueue.Update.normal c env bgTypeId bracket_id
              (if s.1.m_Testing = true then 1 else bg_template.m_MinPlayersPerTeam)
              bg_template.m_MaxPlayersPerTeam
              (s1.1, s1.2.1.setPools SelectionPool.Init SelectionPool.Init, s1.2.2)
        else
          BattleGroundQueue.Update.normal c env bgTypeId bracket_id
            (if s.1.m_Testing = true then 1 else bg_template.m_MinPlayersPerTeam)
            bg_template.m_MaxPlayersPerTeam
            (s.1,
              ((s.2.1.setPools SelectionPool.Init SelectionPool.Init).CheckPremadeMatch env.now
                env.premadeWait bracket_id
                (if s.1.m_Testing = true then 1 else bg_template.m_MinPlayersPerTeam)
                bg_template.m_MaxPlayersPerTeam).2,
              s.2.2)

/-! ## The drain of the scheduled updates -/

/-- The state of the loop of `BattleGroundMgr::Update`: the manager, how the
calls of `BattleGroundQueue::Update` made so far ended, and the notices sent. -/
abbrev DrainState := BattleGroundMgr × List UpdateLog × List InviteNotice

/-- The body of the loop of `BattleGroundMgr::Update` for the scheduled number
`key`: it is decoded and the queue of the decoded queue type is updated. -/
def BattleGroundMgr.Update.body (c : Consts) (env : Env) (s : DrainState) (key : Nat) :
    Option DrainState :=
  match (s.1.m_BattleGroundQueues ((key >>> 16) &&& 255)).Update c env s.1
      ((key >>> 8) &&& 255) (key &&& 255) with
  | none => none
  | some r => some (r.2.1.setQueue ((key >>> 16) &&& 255) r.2.2.1, s.2.1 ++ [r.1], s.2.2 ++ r.2.2.2)

/-- The loop of `BattleGroundMgr::Update` over the copy `scheduled`, run for at
most `fuel` evaluations of its condition: `i` is the `uint8` counter. -/
def BattleGroundMgr.Update.loop (c : Consts) (env : Env) (scheduled : List Nat) :
    Nat → Nat → DrainState → Option DrainState
  | 0, _, _ => none
  | fuel + 1, i, s =>
    if i < scheduled.length then
      match BattleGroundMgr.Update.body c env s (scheduled.getD i 0) with
      | none => none
      | some s1 => BattleGroundMgr.Update.loop c env scheduled fuel ((i + 1) % 256) s1
    else some s

/-- Method `BattleGroundMgr::Update`: the manager, how the queue updates ended and the
notices sent; `none` when the loop does not end within `fuel` evaluations of
its condition or a queue update has no result. -/
def BattleGroundMgr.Update (c : Consts) (env : Env) (mgr : BattleGroundMgr) (fuel : Nat) :
    Option DrainState :=
  if mgr.m_QueueUpdateScheduler ≠ [] then
    BattleGroundMgr.Update.loop c env mgr.m_QueueUpdateScheduler fuel 0
      ({ mgr with m_QueueUpdateScheduler := [] }, [], [])
  else some (mgr, [], [])

/-- The queue updates for a list of scheduled numbers, one after the other in
the order of the list, each from the state the one before left, however that
one ended. -/
def BattleGroundMgr.updateKeys (c : Consts) (env : Env) : List Nat → DrainState → Option DrainState
  | [], s => some s
  | key :: rest, s =>
    match BattleGroundMgr.Update.body c env s key with
    | none => none
    | some s1 => BattleGroundMgr.updateKeys c env rest s1

/-- An environment for the examples: the clock at 1000, every player online,
the fairness mode off, a wait of 500 for premade matches, two free slots for
each team of every battleground. -/
def Env.sample : Env :=
  { now := 1000, online := fun _ => true, invitationType := 0, premadeWait := 500,
    GetFreeSlotsForTeam := fun _ _ => 2, HasFreeSlots := fun _ => true,
    RemoveFromBGFreeSlotQueue := fun l _ => l, CreateBgMap := fun bg => bg,
    Reset := fun bg => bg, StartBattleGround := fun m _ => m }

/-- A manager with the scheduled numbers `sched` and nothing else. -/
def BattleGroundMgr.scheduled (sched : List Nat) : BattleGroundMgr :=
  { BattleGroundMgr.noBattleGrounds with m_QueueUpdateScheduler := sched }

/-- The manager of the examples: the battleground of `oneBattleGround`, and as
queue of the queue type 2 the queue `oneInvitedGroup`. -/
def BattleGroundMgr.sample : BattleGroundMgr :=
  { BattleGroundMgr.oneBattleGround with
    m_BattleGroundQueues := fun i =>
      if i = 2 then BattleGroundQueue.oneInvitedGroup else BattleGroundQueue.new }

/-- The removal event of the examples: for the player 7, invited to the instance
5 of the battleground type 2 until the time 180, in the queue of type 2. -/
def BGQueueRemoveEvent.sample : BGQueueRemoveEvent :=
  { m_PlayerGuid := 7, m_BgInstanceGUID := 5, m_BgTypeId := 2, m_BgQueueTypeId := 2,
    m_RemoveTime := 180 }

/-- A manager for the examples of the drain: the numbers 1 and 2 are scheduled
(the brackets 1 and 2 of the queue type 0 and the battleground type 0), every
queue holds one single Alliance player in the normal bucket of bracket 1, and
no battleground and no template is stored. -/
def BattleGroundMgr.pending : BattleGroundMgr :=
  { BattleGroundMgr.noBattleGrounds with
    m_QueueUpdateScheduler := [1, 2],
    m_BattleGroundQueues := fun _ => sampleQueue [1] [] [] [] [0] [] }

/-! ## What the selection pools hold -/

/-- The groups of a bucket that are not invited, in the order of the bucket. -/
def notInvitedGroups (groups : GroupStore) (l : List GroupPtr) : List GroupPtr :=
  l.filter (fun g => decide ((groups g).IsInvitedToBGInstanceGUID = 0))

/-- A selection pool filled from the buckets `premade` and `normal`: every
selected group is not invited and is stored in one of the two buckets, no group
is selected twice, and the player count is the number of players of the
selected groups. -/
def SelectionPool.FilledFrom (groups : GroupStore) (pool : SelectionPool)
    (premade normal : List GroupPtr) : Prop :=
  (∀ g, g ∈ pool.SelectedGroups →
    (groups g).IsInvitedToBGInstanceGUID = 0 ∧ (g ∈ premade ∨ g ∈ normal)) ∧
  pool.SelectedGroups.Nodup ∧
  pool.Sound groups

/-- The relation the loops of `FillPlayersToBG` keep between a normal bucket,
the iterator over it (the rest of the bucket) and the pool of the faction: the
selected groups are groups the iterator has passed that are not invited, in
the order of the bucket. -/
def FillPlayersToBG.Picked (groups : GroupStore) (bucket itr : List GroupPtr)
    (pool : SelectionPool) : Prop :=
  ∃ consumed, bucket = consumed ++ itr ∧
    pool.SelectedGroups.Sublist (notInvitedGroups groups consumed)

/-- Both selection pools of a queue are filled from the buckets of their
faction in the bracket, and no group is selected for both factions. -/
def BattleGroundQueue.PoolsFilled (q : BattleGroundQueue) (bracket_id : Nat) : Prop :=
  (q.m_SelectionPools TEAM_INDEX_ALLIANCE).FilledFrom q.m_Groups
    (q.m_QueuedGroups bracket_id BG_QUEUE_PREMADE_ALLIANCE)
    (q.m_QueuedGroups bracket_id BG_QUEUE_NORMAL_ALLIANCE) ∧
  (q.m_SelectionPools TEAM_INDEX_HORDE).FilledFrom q.m_Groups
    (q.m_QueuedGroups bracket_id BG_QUEUE_PREMADE_HORDE)
    (q.m_QueuedGroups bracket_id BG_QUEUE_NORMAL_HORDE) ∧
  ∀ g, g ∈ (q.m_SelectionPools TEAM_INDEX_ALLIANCE).SelectedGroups →
    g ∉ (q.m_SelectionPools TEAM_INDEX_HORDE).SelectedGroups

/-! ## Queues reached by calls, invitations and updates -/

/-- The queue `q'` has the queued players, the buckets and the next free address
of `q`, and every group has in `q'` the players and the team it has in `q`. -/
def BattleGroundQueue.SameCore (q q' : BattleGroundQueue) : Prop :=
  q'.m_QueuedPlayers = q.m_QueuedPlayers ∧ q'.m_QueuedGroups = q.m_QueuedGroups ∧
  q'.m_NextGroup = q.m_NextGroup ∧
  ∀ p, (q'.m_Groups p).Players = (q.m_Groups p).Players ∧
    (q'.m_Groups p).GroupTeam = (q.m_Groups p).GroupTeam

/-- Every queued player is a player of the group it is mapped to, which was
allocated and is stored, in a valid bracket, in the premade or the normal bucket
of its team: the buckets the search of `RemovePlayer` visits. -/
def BattleGroundQueue.Findable (c : Consts) (q : BattleGroundQueue) : Prop :=
  ∀ g info, q.m_QueuedPlayers g = some info →
    g ∈ (q.m_Groups info.GroupInfo).Players ∧ info.GroupInfo < q.m_NextGroup ∧
    ∃ b j, b < c.MAX_BATTLEGROUND_BRACKETS ∧
      (j = GetTeamIndexByTeamId (q.m_Groups info.GroupInfo).GroupTeam ∨
        j = GetTeamIndexByTeamId (q.m_Groups info.GroupInfo).GroupTeam +
          BG_QUEUE_NORMAL_ALLIANCE) ∧
      info.GroupInfo ∈ q.m_QueuedGroups b j

/-- What happens to a queue: a call of `AddGroup`, `RemovePlayer` or
`CheckPremadeMatch`; an invitation of a group the way `Update` invites, with the
team of the group as side; or a call of `Update`. -/
inductive QueueEvent where
  | call (k : QueueCall)
  | invite (now : Nat) (online : ObjectGuid → Bool) (ginfo : GroupPtr) (bg : BattleGround)
  | update (env : Env) (bgTypeId bracket_id : Nat)

/-- The manager and the queue after one event.  The battleground of an
invitation is the caller's and is not stored; a call of `Update` that has no
result leaves no state, and the state before it is kept. -/
def QueueEvent.apply (c : Consts) (s : BattleGroundMgr × BattleGroundQueue) :
    QueueEvent → BattleGroundMgr × BattleGroundQueue
  | QueueEvent.call k => k.apply c s
  | QueueEvent.invite now online ginfo bg =>
    (s.1,
      (s.2.InviteGroupToBG c now online ginfo bg (some (s.2.m_Groups ginfo).GroupTeam)).2.2.1)
  | QueueEvent.update env bgTypeId bracket_id =>
    match s.2.Update c env s.1 bgTypeId bracket_id with
    | none => s
    | some r => (r.2.1, r.2.2.1)

/-- The manager and the queue after a sequence of events. -/
def runEvents (c : Consts) (s : BattleGroundMgr × BattleGroundQueue) (events : List QueueEvent) :
    BattleGroundMgr × BattleGroundQueue :=
  events.foldl (QueueEvent.apply c) s

/-- The bracket of a call of `AddGroup` is a bracket (a `BattleGroundBracketId`
below `MAX_BATTLEGROUND_BRACKETS`); the other events have no condition. -/
def QueueEvent.valid (c : Consts) : QueueEvent → Bool
  | QueueEvent.call (QueueCall.op (QueueOp.enqueue _ _ _ _ bracketId _)) =>
    decide (bracketId < c.MAX_BATTLEGROUND_BRACKETS)
  | _ => true

/-! ## Managers and environments for the drain -/

theorem toInt32_eq_self (x : Int) (h1 : -2147483648 ≤ x) (h2 : x < 2147483648) : toInt32 x = x := by
  unfold toInt32
  split <;> omega

/-- Above the lowest `int32` the function `abs` gives the absolute value. -/
theorem absInt32_eq_natAbs (x : Int) (h1 : -2147483648 < x) (h2 : x < 2147483648) :
    absInt32 x = (x.natAbs : Int) := by
  unfold absInt32
  split
  · rw [toInt32_eq_self _ (by omega) (by omega)]
    omega
  · omega

theorem toUInt32_eq_toNat (x : Int) (h1 : 0 ≤ x) (h2 : x < 4294967296) : toUInt32 x = x.toNat := by
  unfold toUInt32
  omega

/-! ## `SelectionPool::AddGroup` -/

/-- C3: `SelectionPool::AddGroup(entry, capacity)` (capacity a `uint32`): if the
entry is not invited and count + entry size <= capacity, the entry is appended
at the end of the selected list, the count is raised by the entry's size and
the result is true; in every other case, every invited entry included, the pool
is unchanged and the result is true exactly when count < capacity. -/
theorem SelectionPool.AddGroup_cases (groups : GroupStore) (pool : SelectionPool) (ginfo : GroupPtr)
    (desiredCount : Nat) (hd : desiredCount < UINT32_MOD) :
    (((groups ginfo).IsInvitedToBGInstanceGUID = 0 ∧
        pool.PlayerCount + groupSize groups ginfo ≤ desiredCount) →
      pool.AddGroup groups ginfo desiredCount =
        (true, { SelectedGroups := pool.SelectedGroups ++ [ginfo],
                 PlayerCount := pool.PlayerCount + groupSize groups ginfo })) ∧
    (¬ ((groups ginfo).IsInvitedToBGInstanceGUID = 0 ∧
        pool.PlayerCount + groupSize groups ginfo ≤ desiredCount) →
      pool.AddGroup groups ginfo desiredCount = (decide (pool.PlayerCount < desiredCount), pool)) := by
  unfold UINT32_MOD at hd
  constructor
  · intro h
    have hlt : pool.PlayerCount + groupSize groups ginfo < 4294967296 := by omega
    simp [SelectionPool.AddGroup, h.1, h.2, UINT32_MOD, Nat.mod_eq_of_lt hlt]
  · intro h
    unfold SelectionPool.AddGroup
    rw [if_neg (by simpa [ge_iff_le] using h)]
    by_cases hc : pool.PlayerCount < desiredCount <;> simp [hc]

theorem SelectionPool.AddGroup_cases_witness :
    SelectionPool.AddGroup (fun _ => { GroupQueueInfo.blank with Players := [10, 11] })
        { SelectedGroups := [4], PlayerCount := 3 } 7 5 =
      (true, { SelectedGroups := [4] ++ [7], PlayerCount := 3 + 2 }) :=
  (SelectionPool.AddGroup_cases (fun _ => { GroupQueueInfo.blank with Players := [10, 11] })
    { SelectedGroups := [4], PlayerCount := 3 } 7 5 (by decide)).1 (by decide)

/-- C2, counterexample: a pool that already counts 5 players, asked to add an
entry under the capacity 3, is left with its 5 players, more than the
capacity. -/
theorem SelectionPool.AddGroup_count_le_counterexample :
    ¬ ((SelectionPool.AddGroup (fun _ => GroupQueueInfo.blank)
        { SelectedGroups := [], PlayerCount := 5 } 0 3).2.PlayerCount ≤ 3) := by
  decide

/-- C2, amended: `SelectionPool::AddGroup(entry, capacity)` either leaves the pool
as it was or leaves a player count not greater than the capacity; so for every
pool whose player count is not greater than the capacity before the call, the
player count is not greater than the capacity after it. -/
theorem SelectionPool.AddGroup_count_le (groups : GroupStore) (pool : SelectionPool) (ginfo : GroupPtr)
    (desiredCount : Nat) :
    ((pool.AddGroup groups ginfo desiredCount).2 = pool ∨
      (pool.AddGroup groups ginfo desiredCount).2.PlayerCount ≤ desiredCount) ∧
    (pool.PlayerCount ≤ desiredCount →
      (pool.AddGroup groups ginfo desiredCount).2.PlayerCount ≤ desiredCount) := by
  unfold SelectionPool.AddGroup
  split
  · rename_i hc
    exact ⟨Or.inr (le_trans (Nat.mod_le _ _) hc.2), fun _ => le_trans (Nat.mod_le _ _) hc.2⟩
  · split
    · exact ⟨Or.inl rfl, fun h => h⟩
    · exact ⟨Or.inl rfl, fun h => h⟩

theorem SelectionPool.AddGroup_count_le_witness :
    (SelectionPool.AddGroup (fun _ => { GroupQueueInfo.blank with Players := [10, 11] })
        { SelectedGroups := [4], PlayerCount := 3 } 7 5).2.PlayerCount ≤ 5 :=
  (SelectionPool.AddGroup_count_le (fun _ => { GroupQueueInfo.blank with Players := [10, 11] })
    { SelectedGroups := [4], PlayerCount := 3 } 7 5).2 (by decide)

/-- C9: `IsPlayerInvited(player, sessionId, expiryStamp)` is true if and only if
the player is queued and the group it is mapped to has the invited-session id
`sessionId` and the invite-expiry stamp `expiryStamp`; for a player that is not
queued it is false. -/
theorem BattleGroundQueue.IsPlayerInvited_iff (q : BattleGroundQueue) (pl_guid : ObjectGuid)
    (bgInstanceGuid removeTime : Nat) :
    (q.IsPlayerInvited pl_guid bgInstanceGuid removeTime = true ↔
      ∃ info, q.m_QueuedPlayers pl_guid = some info ∧
        (q.m_Groups info.GroupInfo).IsInvitedToBGInstanceGUID = bgInstanceGuid ∧
        (q.m_Groups info.GroupInfo).RemoveInviteTime = removeTime) ∧
    (q.m_QueuedPlayers pl_guid = none → q.IsPlayerInvited pl_guid bgInstanceGuid removeTime = false) := by
  unfold BattleGroundQueue.IsPlayerInvited
  cases h : q.m_QueuedPlayers pl_guid with
  | none => simp
  | some info => simp

theorem mem_insertKey (guid g : ObjectGuid) (keys : List ObjectGuid) :
    g ∈ insertKey guid keys ↔ g = guid ∨ g ∈ keys := by
  induction keys with
  | nil => simp [insertKey]
  | cons k rest ih =>
    unfold insertKey
    split
    · simp
    · split
      · rename_i h1 h2
        subst h2
        simp
      · simp [ih]
        tauto

theorem mem_eraseKey (guid g : ObjectGuid) (keys : List ObjectGuid) :
    g ∈ eraseKey guid keys ↔ g ∈ keys ∧ g ≠ guid := by
  simp [eraseKey]

theorem insertKey_sorted (guid : ObjectGuid) (keys : List ObjectGuid)
    (h : keys.Pairwise (fun a b => a < b)) : (insertKey guid keys).Pairwise (fun a b => a < b) := by
  induction keys with
  | nil => simp [insertKey]
  | cons k rest ih =>
    unfold insertKey
    split
    · rename_i hlt
      rw [List.pairwise_cons] at h
      refine List.pairwise_cons.2 ⟨?_, List.pairwise_cons.2 h⟩
      intro a ha
      rcases List.mem_cons.1 ha with rfl | ha
      · exact hlt
      · exact lt_trans hlt (h.1 a ha)
    · split
      · exact h
      · rename_i h1 h2
        rw [List.pairwise_cons] at h
        refine List.pairwise_cons.2 ⟨?_, ih h.2⟩
        intro a ha
        rcases (mem_insertKey guid a rest).1 ha with rfl | ha
        · exact lt_of_le_of_ne (Nat.le_of_not_lt h1) (fun e => h2 e.symm)
        · exact h.1 a ha

/-! ## `BattleGroundQueue::AddGroup` -/

theorem addMember_queuedGroups (q : BattleGroundQueue) (ginfo : GroupPtr) (guid : ObjectGuid) (t : Nat) :
    (q.addMember ginfo guid t).m_QueuedGroups = q.m_QueuedGroups := rfl

/-- What the member loop of `AddGroup` leaves: buckets and address counter as
before, the other records as before, the new members entered in the record at
`ginfo` and mapped to it. -/
theorem addMembers_spec (ginfo : GroupPtr) (t : Nat) (members : Group) (q : BattleGroundQueue) :
    (BattleGroundQueue.addMembers ginfo t members q).m_QueuedGroups = q.m_QueuedGroups ∧
    (BattleGroundQueue.addMembers ginfo t members q).m_NextGroup = q.m_NextGroup ∧
    (BattleGroundQueue.addMembers ginfo t members q).m_SelectionPools = q.m_SelectionPools ∧
    (∀ p, p ≠ ginfo → (BattleGroundQueue.addMembers ginfo t members q).m_Groups p = q.m_Groups p) ∧
    (BattleGroundQueue.addMembers ginfo t members q).m_Groups ginfo =
      { q.m_Groups ginfo with
        Players := ((BattleGroundQueue.addMembers ginfo t members q).m_Groups ginfo).Players } ∧
    (∀ g, g ∈ ((BattleGroundQueue.addMembers ginfo t members q).m_Groups ginfo).Players ↔
      g ∈ (q.m_Groups ginfo).Players ∨ g ∈ memberGuids members) ∧
    ((q.m_Groups ginfo).Players.Pairwise (fun a b => a < b) →
      ((BattleGroundQueue.addMembers ginfo t members q).m_Groups ginfo).Players.Pairwise
        (fun a b => a < b)) ∧
    (∀ g, g ∈ memberGuids members →
      (BattleGroundQueue.addMembers ginfo t members q).m_QueuedPlayers g =
        some { LastOnlineTime := t, GroupInfo := ginfo }) ∧
    (∀ g, g ∉ memberGuids members →
      (BattleGroundQueue.addMembers ginfo t members q).m_QueuedPlayers g = q.m_QueuedPlayers g) := by
  induction members generalizing q with
  | nil => simp [BattleGroundQueue.addMembers, memberGuids]
  | cons m rest ih =>
    cases m with
    | none =>
      simpa [BattleGroundQueue.addMembers, memberGuids] using ih q
    | some member =>
      have h := ih (q.addMember ginfo member.guid t)
      obtain ⟨h1, h2, h3, h4, h5, h6, h7, h8, h9⟩ := h
      simp only [BattleGroundQueue.addMembers]
      refine ⟨h1, h2, h3, ?_, ?_, ?_, ?_, ?_, ?_⟩
      · intro p hp
        rw [h4 p hp]
        simp [BattleGroundQueue.addMember, hp]
      · rw [h5]
        simp [BattleGroundQueue.addMember]
      · intro g
        rw [h6 g]
        simp [BattleGroundQueue.addMember, mem_insertKey, memberGuids]
        tauto
      · intro hs
        apply h7
        simp only [BattleGroundQueue.addMember, if_pos]
        exact insertKey_sorted _ _ hs
      · intro g hg
        by_cases hr : g ∈ memberGuids rest
        · exact h8 g hr
        · rw [h9 g hr]
          have : g = member.guid := by
            simp [memberGuids] at hg hr
            rcases hg with hg | hg
            · exact hg
            · exact absurd hg (by simpa using hr)
          simp [BattleGroundQueue.addMember, this]
      · intro g hg
        have hg1 : g ≠ member.guid := by
          intro he; apply hg; simp [memberGuids, he]
        have hg2 : g ∉ memberGuids rest := by
          intro he; apply hg
          simp [memberGuids] at he ⊢
          exact Or.inr he
        rw [h9 g hg2]
        simp [BattleGroundQueue.addMember, hg1]

/-- The effect of `AddGroup` on every part of the queue. -/
theorem AddGroup_result (q : BattleGroundQueue) (now : Nat) (leader : Player) (grp : Option Group)
    (BgTypeId bracketId : Nat) (isPremade : Bool) :
    (q.AddGroup now leader grp BgTypeId bracketId isPremade).1 = q.m_NextGroup ∧
    (q.AddGroup now leader grp BgTypeId bracketId isPremade).2.m_NextGroup = q.m_NextGroup + 1 ∧
    (∀ b j, (q.AddGroup now leader grp BgTypeId bracketId isPremade).2.m_QueuedGroups b j =
      if b = bracketId ∧ j = queueIndex isPremade leader.team then
        q.m_QueuedGroups b j ++ [q.m_NextGroup]
      else q.m_QueuedGroups b j) ∧
    (∀ p, p ≠ q.m_NextGroup →
      (q.AddGroup now leader grp BgTypeId bracketId isPremade).2.m_Groups p = q.m_Groups p) ∧
    (q.AddGroup now leader grp BgTypeId bracketId isPremade).2.m_Groups q.m_NextGroup =
      { Players := ((q.AddGroup now leader grp BgTypeId bracketId isPremade).2.m_Groups
          q.m_NextGroup).Players,
        GroupTeam := leader.team, BgTypeId := BgTypeId, IsInvitedToBGInstanceGUID := 0,
        JoinTime := now, RemoveInviteTime := 0 } ∧
    (∀ g, g ∈ ((q.AddGroup now leader grp BgTypeId bracketId isPremade).2.m_Groups
        q.m_NextGroup).Players ↔ g ∈ enqueuedPlayers leader grp) ∧
    ((q.AddGroup now leader grp BgTypeId bracketId isPremade).2.m_Groups
        q.m_NextGroup).Players.Pairwise (fun a b => a < b) ∧
    (∀ g, g ∈ enqueuedPlayers leader grp →
      (q.AddGroup now leader grp BgTypeId bracketId isPremade).2.m_QueuedPlayers g =
        some { LastOnlineTime := now, GroupInfo := q.m_NextGroup }) ∧
    (∀ g, g ∉ enqueuedPlayers leader grp →
      (q.AddGroup now leader grp BgTypeId bracketId isPremade).2.m_QueuedPlayers g =
        q.m_QueuedPlayers g) := by
  cases grp with
  | none =>
    refine ⟨rfl, rfl, fun b j => rfl, ?_, ?_, ?_, ?_, ?_, ?_⟩
    · intro p hp; simp [BattleGroundQueue.AddGroup, BattleGroundQueue.addMember, hp]
    · simp [BattleGroundQueue.AddGroup, BattleGroundQueue.addMember]
    · intro g; simp [BattleGroundQueue.AddGroup, BattleGroundQueue.addMember, enqueuedPlayers, insertKey]
    · simp [BattleGroundQueue.AddGroup, BattleGroundQueue.addMember, insertKey]
    · intro g hg
      simp [enqueuedPlayers] at hg
      simp [BattleGroundQueue.AddGroup, BattleGroundQueue.addMember, hg]
    · intro g hg
      simp [enqueuedPlayers] at hg
      simp [BattleGroundQueue.AddGroup, BattleGroundQueue.addMember, hg]
  | some members =>
    obtain ⟨h1, h2, -, h4, h5, h6, h7, h8, h9⟩ := addMembers_spec q.m_NextGroup now members
      { q with
        m_NextGroup := q.m_NextGroup + 1,
        m_Groups := fun p =>
          if p = q.m_NextGroup then
            { Players := [], GroupTeam := leader.team, BgTypeId := BgTypeId,
              IsInvitedToBGInstanceGUID := 0, JoinTime := now, RemoveInviteTime := 0 }
          else q.m_Groups p }
    refine ⟨rfl, h2, ?_, ?_, ?_, ?_, ?_, ?_, ?_⟩
    · intro b j
      show (if b = bracketId ∧ j = queueIndex isPremade leader.team then _ else _) = _
      rw [h1]
    · intro p hp
      exact (h4 p hp).trans (by simp [hp])
    · refine h5.trans ?_
      simp
      rfl
    · intro g
      exact (h6 g).trans (by simp [enqueuedPlayers])
    · exact h7 (by simp)
    · intro g hg
      exact h8 g hg
    · intro g hg
      exact h9 g hg

/-- C8: `AddGroup` creates one group, not invited (invited-session id 0, expiry
0), of the leader's faction, whose members are exactly the given players;
appends it as the last element of the bucket of the given bracket and of the
class premade-Alliance, premade-Horde, normal-Alliance or normal-Horde that
`isPremade` and the faction determine; maps every given player to that group;
and leaves all other buckets and all other group records unchanged. -/
theorem BattleGroundQueue.AddGroup_enqueues (q q' : BattleGroundQueue) (now : Nat) (leader : Player)
    (grp : Option Group) (BgTypeId bracketId : Nat) (isPremade : Bool) (ginfo : GroupPtr)
    (h : q.AddGroup now leader grp BgTypeId bracketId isPremade = (ginfo, q')) :
    (q'.m_Groups ginfo).IsInvitedToBGInstanceGUID = 0 ∧
    (q'.m_Groups ginfo).RemoveInviteTime = 0 ∧
    (q'.m_Groups ginfo).GroupTeam = leader.team ∧
    (∀ g, g ∈ (q'.m_Groups ginfo).Players ↔ g ∈ enqueuedPlayers leader grp) ∧
    (q'.m_Groups ginfo).Players.Nodup ∧
    q'.m_QueuedGroups bracketId (queueIndex isPremade leader.team) =
      q.m_QueuedGroups bracketId (queueIndex isPremade leader.team) ++ [ginfo] ∧
    queueIndex isPremade leader.team =
      (match isPremade, leader.team with
        | true, Team.ALLIANCE => BG_QUEUE_PREMADE_ALLIANCE
        | true, Team.HORDE => BG_QUEUE_PREMADE_HORDE
        | false, Team.ALLIANCE => BG_QUEUE_NORMAL_ALLIANCE
        | false, Team.HORDE => BG_QUEUE_NORMAL_HORDE) ∧
    (∀ g, g ∈ enqueuedPlayers leader grp →
      ∃ info, q'.m_QueuedPlayers g = some info ∧ info.GroupInfo = ginfo) ∧
    (∀ b j, ¬ (b = bracketId ∧ j = queueIndex isPremade leader.team) →
      q'.m_QueuedGroups b j = q.m_QueuedGroups b j) ∧
    (∀ p, p ≠ ginfo → q'.m_Groups p = q.m_Groups p) := by
  obtain ⟨h1, -, h3, h4, h5, h6, h7, h8, -⟩ :=
    AddGroup_result q now leader grp BgTypeId bracketId isPremade
  rw [h] at h1 h3 h4 h5 h6 h7 h8
  simp only at h1 h3 h4 h5 h6 h7 h8
  subst h1
  refine ⟨by rw [h5], by rw [h5], by rw [h5], h6, ?_, ?_, ?_, ?_, ?_, h4⟩
  · exact h7.imp (fun hab => Nat.ne_of_lt hab)
  · rw [h3]; simp
  · cases isPremade <;> cases leader.team <;> rfl
  · intro g hg
    exact ⟨_, h8 g hg, rfl⟩
  · intro b j hbj
    rw [h3, if_neg hbj]

theorem BattleGroundQueue.AddGroup_enqueues_witness :
    ((BattleGroundQueue.new.AddGroup 100 ⟨7, Team.HORDE⟩ none 2 3 false).2.m_Groups 0).IsInvitedToBGInstanceGUID = 0 ∧
    (BattleGroundQueue.new.AddGroup 100 ⟨7, Team.HORDE⟩ none 2 3 false).2.m_QueuedGroups 3
        (queueIndex false Team.HORDE) =
      BattleGroundQueue.new.m_QueuedGroups 3 (queueIndex false Team.HORDE) ++ [0] :=
  ⟨(BattleGroundQueue.AddGroup_enqueues BattleGroundQueue.new _ 100 ⟨7, Team.HORDE⟩ none 2 3 false 0 rfl).1,
   (BattleGroundQueue.AddGroup_enqueues BattleGroundQueue.new _ 100 ⟨7, Team.HORDE⟩ none 2 3 false 0 rfl).2.2.2.2.2.1⟩

/-- C7, counterexample: `AddGroup` for a group without any member, on the empty
queue, has no player to enter and yet the normal Alliance bucket of bracket 0,
empty before, holds a new group afterwards. -/
theorem BattleGroundQueue.AddGroup_empty_counterexample :
    enqueuedPlayers ⟨7, Team.ALLIANCE⟩ (some []) = [] ∧
    BattleGroundQueue.new.m_QueuedGroups 0 BG_QUEUE_NORMAL_ALLIANCE = [] ∧
    (BattleGroundQueue.new.AddGroup 100 ⟨7, Team.ALLIANCE⟩ (some []) 2 0 false).2.m_QueuedGroups 0
      BG_QUEUE_NORMAL_ALLIANCE = [0] := by
  refine ⟨rfl, rfl, rfl⟩

/-- C7, amended: `AddGroup` has no failing result; with an empty set of players
it creates a not-invited group without players and appends it to the bucket of
the bracket and class, and no entry of the queued-player map changes. -/
theorem BattleGroundQueue.AddGroup_empty (q : BattleGroundQueue) (now : Nat) (leader : Player)
    (grp : Option Group) (BgTypeId bracketId : Nat) (isPremade : Bool)
    (h : enqueuedPlayers leader grp = []) :
    (q.AddGroup now leader grp BgTypeId bracketId isPremade).1 = q.m_NextGroup ∧
    ((q.AddGroup now leader grp BgTypeId bracketId isPremade).2.m_Groups q.m_NextGroup).Players = [] ∧
    ((q.AddGroup now leader grp BgTypeId bracketId isPremade).2.m_Groups
      q.m_NextGroup).IsInvitedToBGInstanceGUID = 0 ∧
    (q.AddGroup now leader grp BgTypeId bracketId isPremade).2.m_QueuedGroups bracketId
        (queueIndex isPremade leader.team) =
      q.m_QueuedGroups bracketId (queueIndex isPremade leader.team) ++ [q.m_NextGroup] ∧
    (q.AddGroup now leader grp BgTypeId bracketId isPremade).2.m_QueuedPlayers = q.m_QueuedPlayers := by
  obtain ⟨h1, -, h3, -, h5, h6, -, -, h9⟩ :=
    AddGroup_result q now leader grp BgTypeId bracketId isPremade
  refine ⟨h1, ?_, by rw [h5], ?_, ?_⟩
  · apply List.eq_nil_iff_forall_not_mem.2
    intro g hg
    have := (h6 g).1 hg
    rw [h] at this
    exact absurd this (List.not_mem_nil g)
  · rw [h3]; simp
  · funext g
    apply h9
    rw [h]
    exact List.not_mem_nil g

theorem BattleGroundQueue.AddGroup_empty_witness :
    ((BattleGroundQueue.new.AddGroup 100 ⟨7, Team.ALLIANCE⟩ (some [none]) 2 0 false).2.m_Groups
      BattleGroundQueue.new.m_NextGroup).Players = [] :=
  (BattleGroundQueue.AddGroup_empty BattleGroundQueue.new 100 ⟨7, Team.ALLIANCE⟩ (some [none]) 2 0 false rfl).2.1

/-- C5: for a player that is not queued `RemovePlayer` changes neither the queue
nor the manager and logs that the player could not be found; and in every
state a second `RemovePlayer` for the same player, right after a first one,
changes nothing. -/
theorem BattleGroundQueue.RemovePlayer_not_queued (c : Consts) (mgr : BattleGroundMgr)
    (q : BattleGroundQueue) (guid : ObjectGuid) (d1 d2 : Bool) :
    (q.m_QueuedPlayers guid = none →
      q.RemovePlayer c mgr guid d1 = (RemoveLog.couldntFindForRemove, mgr, q)) ∧
    ((q.RemovePlayer c mgr guid d1).2.2.RemovePlayer c (q.RemovePlayer c mgr guid d1).2.1 guid d2).2 =
      (q.RemovePlayer c mgr guid d1).2 := by
  have hnone : ∀ (m : BattleGroundMgr) (q0 : BattleGroundQueue) (d : Bool),
      q0.m_QueuedPlayers guid = none →
      q0.RemovePlayer c m guid d = (RemoveLog.couldntFindForRemove, m, q0) := by
    intro m q0 d h
    simp [BattleGroundQueue.RemovePlayer, h]
  refine ⟨hnone mgr q d1, ?_⟩
  cases hq : q.m_QueuedPlayers guid with
  | none => rw [hnone mgr q d1 hq]; simp only; rw [hnone mgr q d2 hq]
  | some info =>
    cases hs : (RemoveSearch.brackets q.m_QueuedGroups info.GroupInfo
        (GetTeamIndexByTeamId (q.m_Groups info.GroupInfo).GroupTeam) c.MAX_BATTLEGROUND_BRACKETS
        { bracket_id := none, group_itr := 0,
          index := GetTeamIndexByTeamId (q.m_Groups info.GroupInfo).GroupTeam }).bracket_id with
    | none =>
      have e : ∀ d, q.RemovePlayer c mgr guid d = (RemoveLog.canNotFindGroupinfo, mgr, q) := by
        intro d
        simp [BattleGroundQueue.RemovePlayer, hq, hs]
      rw [e d1]; simp only; rw [e d2]
    | some b =>
      have e : ((q.RemovePlayer c mgr guid d1).2.2).m_QueuedPlayers guid = none := by
        simp only [BattleGroundQueue.RemovePlayer, hq, hs]
        split <;> simp
      rw [hnone _ _ d2 e]

theorem BattleGroundQueue.RemovePlayer_not_queued_witness :
    BattleGroundQueue.new.RemovePlayer sampleConsts BattleGroundMgr.noBattleGrounds 7 true =
      (RemoveLog.couldntFindForRemove, BattleGroundMgr.noBattleGrounds, BattleGroundQueue.new) :=
  (BattleGroundQueue.RemovePlayer_not_queued sampleConsts BattleGroundMgr.noBattleGrounds
    BattleGroundQueue.new 7 true
    true).1 rfl

/-! ## The search of `RemovePlayer` -/

theorem findGroupItr_eq_none (G : GroupPtr) (l : List GroupPtr) :
    findGroupItr G l = none ↔ G ∉ l := by
  induction l with
  | nil => simp [findGroupItr]
  | cons g rest ih =>
    unfold findGroupItr
    by_cases hg : g = G
    · simp [hg]
    · rw [if_neg hg]
      cases hf : findGroupItr G rest with
      | none =>
        have := ih.1 hf
        simp [this, Ne.symm hg]
      | some pos =>
        have : G ∈ rest := by
          by_contra hn
          rw [ih.2 hn] at hf
          cases hf
        simp [this]

theorem findGroupItr_some (G : GroupPtr) (l : List GroupPtr) (pos : Nat)
    (h : findGroupItr G l = some pos) : G ∈ l ∧ l.eraseIdx pos = l.erase G := by
  induction l generalizing pos with
  | nil => simp [findGroupItr] at h
  | cons g rest ih =>
    unfold findGroupItr at h
    by_cases hg : g = G
    · rw [if_pos hg] at h
      cases h
      simp [hg]
    · rw [if_neg hg] at h
      cases hf : findGroupItr G rest with
      | none => rw [hf] at h; cases h
      | some p =>
        rw [hf] at h
        cases h
        obtain ⟨h1, h2⟩ := ih p hf
        refine ⟨List.mem_cons_of_mem _ h1, ?_⟩
        rw [List.eraseIdx_cons_succ, h2, List.erase_cons_tail]
        simpa using hg

/-- A pass over one bracket either leaves the search as it was and the group is
in neither bucket of the bracket, or sets it to a bucket of the bracket that
holds the group. -/
theorem visitBracket_cases (queued : Nat → Nat → List GroupPtr) (G : GroupPtr) (idx n : Nat)
    (hidx : idx < 2) (s : RemoveSearch) :
    (RemoveSearch.visitBracket queued G idx n s = s ∧ G ∉ queued n idx ∧
      G ∉ queued n (idx + BG_QUEUE_NORMAL_ALLIANCE)) ∨
    (∃ j pos, (j = idx ∨ j = idx + BG_QUEUE_NORMAL_ALLIANCE) ∧
      findGroupItr G (queued n j) = some pos ∧
      RemoveSearch.visitBracket queued G idx n s =
        { bracket_id := some n, group_itr := pos, index := j }) := by
  have h1 : idx < BG_QUEUE_GROUP_TYPES_COUNT := by
    unfold BG_QUEUE_GROUP_TYPES_COUNT; omega
  have h2 : idx + BG_QUEUE_NORMAL_ALLIANCE < BG_QUEUE_GROUP_TYPES_COUNT := by
    unfold BG_QUEUE_GROUP_TYPES_COUNT BG_QUEUE_NORMAL_ALLIANCE; omega
  unfold RemoveSearch.visitBracket RemoveSearch.visit
  rw [if_pos h1, if_pos h2]
  cases hb : findGroupItr G (queued n (idx + BG_QUEUE_NORMAL_ALLIANCE)) with
  | some pos => exact Or.inr ⟨_, pos, Or.inr rfl, hb, rfl⟩
  | none =>
    cases ha : findGroupItr G (queued n idx) with
    | some pos => exact Or.inr ⟨_, pos, Or.inl rfl, ha, rfl⟩
    | none =>
      exact Or.inl ⟨rfl, (findGroupItr_eq_none _ _).1 ha, (findGroupItr_eq_none _ _).1 hb⟩

theorem brackets_of_found (queued : Nat → Nat → List GroupPtr) (G : GroupPtr) (idx n : Nat)
    (s : RemoveSearch) (h : s.bracket_id ≠ none) : RemoveSearch.brackets queued G idx n s = s := by
  cases n with
  | zero => rfl
  | succ n => simp [RemoveSearch.brackets, h]

/-- What the search returns was found: the bucket `[bracket_id][index]` is one
of the two buckets of the faction and holds the group at `group_itr`. -/
theorem brackets_sound (queued : Nat → Nat → List GroupPtr) (G : GroupPtr) (idx : Nat)
    (hidx : idx < 2) (n : Nat) (s : RemoveSearch) (hs : s.bracket_id = none) (b : Nat)
    (h : (RemoveSearch.brackets queued G idx n s).bracket_id = some b) :
    b < n ∧
    ((RemoveSearch.brackets queued G idx n s).index = idx ∨
      (RemoveSearch.brackets queued G idx n s).index = idx + BG_QUEUE_NORMAL_ALLIANCE) ∧
    findGroupItr G (queued b (RemoveSearch.brackets queued G idx n s).index) =
      some (RemoveSearch.brackets queued G idx n s).group_itr := by
  induction n generalizing s with
  | zero =>
    simp only [RemoveSearch.brackets] at h
    rw [hs] at h
    cases h
  | succ n ih =>
    simp only [RemoveSearch.brackets, hs, if_true] at h ⊢
    rcases visitBracket_cases queued G idx n hidx s with ⟨e, -, -⟩ | ⟨j, pos, hj, hf, e⟩
    · rw [e] at h ⊢
      obtain ⟨h1, h2, h3⟩ := ih s hs h
      exact ⟨Nat.lt_succ_of_lt h1, h2, h3⟩
    · rw [e] at h ⊢
      rw [brackets_of_found _ _ _ _ _ (by simp)] at h ⊢
      simp only [Option.some.injEq] at h
      subst h
      exact ⟨Nat.lt_succ_self _, hj, hf⟩

/-- The search finds a group that is stored in a bucket of its faction. -/
theorem brackets_complete (queued : Nat → Nat → List GroupPtr) (G : GroupPtr) (idx : Nat)
    (hidx : idx < 2) (n : Nat) (s : RemoveSearch) (b j : Nat) (hb : b < n)
    (hj : j = idx ∨ j = idx + BG_QUEUE_NORMAL_ALLIANCE) (hG : G ∈ queued b j) :
    (RemoveSearch.brackets queued G idx n s).bracket_id ≠ none := by
  induction n generalizing s with
  | zero => omega
  | succ n ih =>
    by_cases hs : s.bracket_id = none
    · simp only [RemoveSearch.brackets, hs, if_true]
      rcases visitBracket_cases queued G idx n hidx s with ⟨e, n1, n2⟩ | ⟨j', pos, -, -, e⟩
      · rw [e]
        have hbn : b ≠ n := by
          rintro rfl
          rcases hj with rfl | rfl
          · exact n1 hG
          · exact n2 hG
        exact ih s (by omega)
      · rw [e, brackets_of_found _ _ _ _ _ (by simp)]
        simp
    · rw [brackets_of_found _ _ _ _ _ hs]
      exact hs

theorem GetTeamIndexByTeamId_lt (t : Team) : GetTeamIndexByTeamId t < 2 := by
  cases t <;> decide

/-! ## `BattleGroundQueue::RemovePlayer` on a well-formed queue -/

/-- On a well-formed queue `RemovePlayer` finds the group of a queued player in
the bucket that stores it and removes the player. -/
theorem RemovePlayer_wellFormed (c : Consts) (mgr : BattleGroundMgr) (q : BattleGroundQueue)
    (guid : ObjectGuid) (d : Bool) (info : PlayerQueueInfo) (hwf : q.WellFormed c)
    (hq : q.m_QueuedPlayers guid = some info) :
    ∃ b j, info.GroupInfo ∈ q.m_QueuedGroups b j ∧
      q.RemovePlayer c mgr guid d =
        (RemoveLog.removing, q.removeInvite c mgr info.GroupInfo d,
          q.removeFrom guid info.GroupInfo b j) := by
  obtain ⟨w1, w2, w3, w4⟩ := hwf
  obtain ⟨-, b0, j0, hG⟩ := w2 guid info hq
  obtain ⟨hb0, hj0, -, -, -⟩ := w1 b0 j0 _ hG
  have hidx := GetTeamIndexByTeamId_lt (q.m_Groups info.GroupInfo).GroupTeam
  have hcomp := brackets_complete q.m_QueuedGroups info.GroupInfo _ hidx
    c.MAX_BATTLEGROUND_BRACKETS
    { bracket_id := none, group_itr := 0,
      index := GetTeamIndexByTeamId (q.m_Groups info.GroupInfo).GroupTeam } b0 j0 hb0 hj0 hG
  cases hs : (RemoveSearch.brackets q.m_QueuedGroups info.GroupInfo
      (GetTeamIndexByTeamId (q.m_Groups info.GroupInfo).GroupTeam) c.MAX_BATTLEGROUND_BRACKETS
      { bracket_id := none, group_itr := 0,
        index := GetTeamIndexByTeamId (q.m_Groups info.GroupInfo).GroupTeam }).bracket_id with
  | none => exact absurd hs hcomp
  | some b =>
    obtain ⟨-, -, hf⟩ := brackets_sound q.m_QueuedGroups info.GroupInfo _ hidx
      c.MAX_BATTLEGROUND_BRACKETS _ rfl b hs
    obtain ⟨hmem, herase⟩ := findGroupItr_some _ _ _ hf
    refine ⟨b, _, hmem, ?_⟩
    simp only [BattleGroundQueue.RemovePlayer, hq, hs, BattleGroundQueue.removeInvite,
      BattleGroundQueue.removeFrom]
    refine Prod.ext rfl (Prod.ext rfl ?_)
    simp only
    by_cases he : eraseKey guid (q.m_Groups info.GroupInfo).Players = []
    · rw [if_pos he]
      simp only [he, true_and]
      congr 1
      funext b' j'
      by_cases hbj : b' = b ∧ j' = (RemoveSearch.brackets q.m_QueuedGroups info.GroupInfo
          (GetTeamIndexByTeamId (q.m_Groups info.GroupInfo).GroupTeam) c.MAX_BATTLEGROUND_BRACKETS
          { bracket_id := none, group_itr := 0,
            index := GetTeamIndexByTeamId (q.m_Groups info.GroupInfo).GroupTeam }).index
      · rw [if_pos hbj, if_pos hbj, hbj.1, hbj.2, herase]
      · rw [if_neg hbj, if_neg hbj]
    · rw [if_neg he]
      simp only [he, false_and, if_false]

/-! ## Well-formedness is kept by `AddGroup` and `RemovePlayer` -/

theorem WellFormed_new (c : Consts) : BattleGroundQueue.new.WellFormed c := by
  refine ⟨?_, ?_, ?_, ?_⟩
  · intro b j G h
    simp [BattleGroundQueue.new] at h
  · intro g info h
    simp [BattleGroundQueue.new] at h
  · intro b j
    simp [BattleGroundQueue.new]
  · intro b j b' j' G h
    simp [BattleGroundQueue.new] at h

theorem queueIndex_team (isPremade : Bool) (team : Team) :
    queueIndex isPremade team = GetTeamIndexByTeamId team ∨
      queueIndex isPremade team = GetTeamIndexByTeamId team + BG_QUEUE_NORMAL_ALLIANCE := by
  cases isPremade <;> cases team <;> decide

theorem AddGroup_wellFormed (c : Consts) (q : BattleGroundQueue) (now : Nat) (leader : Player)
    (grp : Option Group) (BgTypeId bracketId : Nat) (isPremade : Bool) (hwf : q.WellFormed c)
    (hb : bracketId < c.MAX_BATTLEGROUND_BRACKETS) (hne : enqueuedPlayers leader grp ≠ [])
    (hfresh : ∀ g, g ∈ enqueuedPlayers leader grp → q.m_QueuedPlayers g = none) :
    (q.AddGroup now leader grp BgTypeId bracketId isPremade).2.WellFormed c := by
  obtain ⟨w1, w2, w3, w4⟩ := hwf
  obtain ⟨-, a2, a3, a4, a5, a6, -, a8, a9⟩ :=
    AddGroup_result q now leader grp BgTypeId bracketId isPremade
  generalize (q.AddGroup now leader grp BgTypeId bracketId isPremade).2 = q' at *
  have hmem : ∀ b j G, G ∈ q'.m_QueuedGroups b j ↔
      G ∈ q.m_QueuedGroups b j ∨
        (b = bracketId ∧ j = queueIndex isPremade leader.team ∧ G = q.m_NextGroup) := by
    intro b j G
    rw [a3 b j]
    by_cases hbj : b = bracketId ∧ j = queueIndex isPremade leader.team
    · rw [if_pos hbj]
      simp [hbj.1, hbj.2]
    · rw [if_neg hbj]
      constructor
      · exact Or.inl
      · rintro (h | ⟨h1, h2, -⟩)
        · exact h
        · exact absurd ⟨h1, h2⟩ hbj
  have hold : ∀ b j G, G ∈ q.m_QueuedGroups b j → G ≠ q.m_NextGroup := by
    intro b j G h e
    have hlt := (w1 b j G h).2.2.1
    rw [e] at hlt
    exact Nat.lt_irrefl _ hlt
  refine ⟨?_, ?_, ?_, ?_⟩
  · intro b j G h
    rcases (hmem b j G).1 h with h | ⟨rfl, rfl, rfl⟩
    · obtain ⟨p1, p2, p3, p4, p5⟩ := w1 b j G h
      have hG := hold b j G h
      rw [a4 G hG, a2]
      refine ⟨p1, p2, Nat.lt_succ_of_lt p3, p4, ?_⟩
      intro g hg
      obtain ⟨info, hi, hi2⟩ := p5 g hg
      refine ⟨info, ?_, hi2⟩
      rw [a9 g, hi]
      intro hin
      rw [hfresh g hin] at hi
      cases hi
    · rw [a2]
      refine ⟨hb, ?_, Nat.lt_succ_self _, ?_, ?_⟩
      · rw [a5]
        exact queueIndex_team isPremade leader.team
      · intro he
        apply hne
        apply List.eq_nil_iff_forall_not_mem.2
        intro g hg
        have := (a6 g).2 hg
        rw [he] at this
        exact absurd this (List.not_mem_nil g)
      · intro g hg
        exact ⟨_, a8 g ((a6 g).1 hg), rfl⟩
  · intro g info h
    by_cases hin : g ∈ enqueuedPlayers leader grp
    · rw [a8 g hin] at h
      cases h
      refine ⟨(a6 g).2 hin, bracketId, queueIndex isPremade leader.team, ?_⟩
      exact (hmem _ _ _).2 (Or.inr ⟨rfl, rfl, rfl⟩)
    · rw [a9 g hin] at h
      obtain ⟨p1, b, j, p2⟩ := w2 g info h
      rw [a4 _ (hold b j _ p2)]
      exact ⟨p1, b, j, (hmem _ _ _).2 (Or.inl p2)⟩
  · intro b j
    rw [a3 b j]
    split
    · refine List.Nodup.append (w3 b j) (List.nodup_singleton _) ?_
      intro G h1 h2
      rw [List.mem_singleton] at h2
      exact hold b j G h1 h2
    · exact w3 b j
  · intro b j b' j' G h h'
    rcases (hmem b j G).1 h with h | ⟨rfl, rfl, rfl⟩
    · rcases (hmem b' j' G).1 h' with h' | ⟨-, -, rfl⟩
      · exact w4 b j b' j' G h h'
      · exact absurd rfl (hold b j _ h)
    · rcases (hmem b' j' _).1 h' with h' | ⟨rfl, rfl, -⟩
      · exact absurd rfl (hold b' j' _ h')
      · exact ⟨rfl, rfl⟩

theorem removeFrom_wellFormed (c : Consts) (q : BattleGroundQueue) (guid : ObjectGuid)
    (info : PlayerQueueInfo) (b j : Nat) (hwf : q.WellFormed c)
    (hq : q.m_QueuedPlayers guid = some info) (hG : info.GroupInfo ∈ q.m_QueuedGroups b j) :
    (q.removeFrom guid info.GroupInfo b j).WellFormed c := by
  obtain ⟨w1, w2, w3, w4⟩ := hwf
  have hmem : ∀ b' j' G, G ∈ (q.removeFrom guid info.GroupInfo b j).m_QueuedGroups b' j' ↔
      G ∈ q.m_QueuedGroups b' j' ∧
        (eraseKey guid (q.m_Groups info.GroupInfo).Players = [] → G ≠ info.GroupInfo) := by
    intro b' j' G
    simp only [BattleGroundQueue.removeFrom]
    by_cases he : eraseKey guid (q.m_Groups info.GroupInfo).Players = []
    · by_cases hbj : b' = b ∧ j' = j
      · rw [if_pos ⟨he, hbj⟩, (w3 b' j').mem_erase_iff]
        simp [he, and_comm]
      · rw [if_neg (fun h => hbj h.2)]
        simp only [he, true_implies, iff_self_and]
        intro hm e
        rw [e] at hm
        exact hbj (w4 _ _ _ _ _ hm hG)
    · rw [if_neg (fun h => he h.1)]
      simp [he]
  have hrec : ∀ G, G ≠ info.GroupInfo →
      (q.removeFrom guid info.GroupInfo b j).m_Groups G = q.m_Groups G := by
    intro G hne
    simp [BattleGroundQueue.removeFrom, hne]
  have hrecG : (q.removeFrom guid info.GroupInfo b j).m_Groups info.GroupInfo =
      { q.m_Groups info.GroupInfo with
        Players := eraseKey guid (q.m_Groups info.GroupInfo).Players } := by
    simp [BattleGroundQueue.removeFrom]
  have hmap : ∀ g, g ≠ guid →
      (q.removeFrom guid info.GroupInfo b j).m_QueuedPlayers g = q.m_QueuedPlayers g := by
    intro g hne
    simp [BattleGroundQueue.removeFrom, hne]
  have hmapG : (q.removeFrom guid info.GroupInfo b j).m_QueuedPlayers guid = none := by
    simp [BattleGroundQueue.removeFrom]
  refine ⟨?_, ?_, ?_, ?_⟩
  · intro b' j' G h
    obtain ⟨hm, hE⟩ := (hmem b' j' G).1 h
    obtain ⟨p1, p2, p3, p4, p5⟩ := w1 b' j' G hm
    by_cases hGe : G = info.GroupInfo
    · subst hGe
      rw [hrecG]
      refine ⟨p1, p2, p3, fun he => hE he rfl, ?_⟩
      intro g hg
      obtain ⟨hg1, hg2⟩ := (mem_eraseKey _ _ _).1 hg
      rw [hmap g hg2]
      exact p5 g hg1
    · rw [hrec G hGe]
      refine ⟨p1, p2, p3, p4, ?_⟩
      intro g hg
      obtain ⟨i, hi, hi2⟩ := p5 g hg
      have hne : g ≠ guid := by
        rintro rfl
        rw [hq] at hi
        cases hi
        exact hGe hi2.symm
      rw [hmap g hne]
      exact ⟨i, hi, hi2⟩
  · intro g i h
    have hne : g ≠ guid := by
      rintro rfl
      rw [hmapG] at h
      cases h
    rw [hmap g hne] at h
    obtain ⟨p1, b', j', p2⟩ := w2 g i h
    by_cases hGe : i.GroupInfo = info.GroupInfo
    · have hin : g ∈ eraseKey guid (q.m_Groups info.GroupInfo).Players := by
        rw [mem_eraseKey]
        exact ⟨hGe ▸ p1, hne⟩
      rw [hGe, hrecG]
      refine ⟨hin, b', j', (hmem _ _ _).2 ⟨hGe ▸ p2, ?_⟩⟩
      intro he
      rw [he] at hin
      exact absurd hin (List.not_mem_nil g)
    · rw [hrec _ hGe]
      exact ⟨p1, b', j', (hmem _ _ _).2 ⟨p2, fun _ => hGe⟩⟩
  · intro b' j'
    simp only [BattleGroundQueue.removeFrom]
    split
    · exact (w3 b' j').erase _
    · exact w3 b' j'
  · intro b1 j1 b2 j2 G h1 h2
    exact w4 b1 j1 b2 j2 G ((hmem _ _ _).1 h1).1 ((hmem _ _ _).1 h2).1

theorem RemovePlayer_keeps_wellFormed (c : Consts) (mgr : BattleGroundMgr) (q : BattleGroundQueue)
    (guid : ObjectGuid) (d : Bool) (hwf : q.WellFormed c) :
    (q.RemovePlayer c mgr guid d).2.2.WellFormed c := by
  cases hq : q.m_QueuedPlayers guid with
  | none =>
    have : q.RemovePlayer c mgr guid d = (RemoveLog.couldntFindForRemove, mgr, q) := by
      simp [BattleGroundQueue.RemovePlayer, hq]
    rw [this]
    exact hwf
  | some info =>
    obtain ⟨b, j, hG, e⟩ := RemovePlayer_wellFormed c mgr q guid d info hwf hq
    rw [e]
    exact removeFrom_wellFormed c q guid info b j hwf hq hG

theorem runOps_wellFormed (c : Consts) (ops : List QueueOp) (s : BattleGroundMgr × BattleGroundQueue)
    (hwf : s.2.WellFormed c) (hrun : AdmissibleRun c s ops) : (runOps c s ops).2.WellFormed c := by
  induction ops generalizing s with
  | nil => exact hwf
  | cons op rest ih =>
    obtain ⟨hop, hrest⟩ := hrun
    simp only [runOps, List.foldl_cons]
    apply ih _ _ hrest
    cases op with
    | enqueue now leader grp ty b pm =>
      obtain ⟨h1, h2, h3⟩ := hop
      exact AddGroup_wellFormed c s.2 now leader grp ty b pm hwf h1 h2 h3
    | removePlayer g d =>
      exact RemovePlayer_keeps_wellFormed c s.1 s.2 g d hwf

theorem WellFormed.queueInvariant (c : Consts) (q : BattleGroundQueue) (hwf : q.WellFormed c) :
    q.QueueInvariant c := by
  obtain ⟨w1, w2, w3, w4⟩ := hwf
  have hj : ∀ b j G, G ∈ q.m_QueuedGroups b j → j < BG_QUEUE_GROUP_TYPES_COUNT := by
    intro b j G h
    have h2 := (w1 b j G h).2.1
    have h3 := GetTeamIndexByTeamId_lt (q.m_Groups G).GroupTeam
    unfold BG_QUEUE_GROUP_TYPES_COUNT
    unfold BG_QUEUE_NORMAL_ALLIANCE at h2
    omega
  refine ⟨?_, ?_⟩
  · intro g
    constructor
    · intro h
      obtain ⟨info, hi⟩ := Option.isSome_iff_exists.1 h
      obtain ⟨p1, b, j, p2⟩ := w2 g info hi
      exact ⟨b, j, _, (w1 b j _ p2).1, hj b j _ p2, p2, p1⟩
    · rintro ⟨b, j, G, -, -, hG, hg⟩
      obtain ⟨info, hi, -⟩ := (w1 b j G hG).2.2.2.2 g hg
      rw [hi]
      rfl
  · intro b j G _ _ hG
    exact (w1 b j G hG).2.2.2.1

/-- Well-formedness reads the buckets, the queued players, the address counter
and, of the group records, the players and the faction only. -/
theorem WellFormed_congr (c : Consts) (q q' : BattleGroundQueue) (hwf : q.WellFormed c)
    (h1 : q'.m_QueuedGroups = q.m_QueuedGroups) (h2 : q'.m_QueuedPlayers = q.m_QueuedPlayers)
    (h3 : q'.m_NextGroup = q.m_NextGroup)
    (h4 : ∀ p, (q'.m_Groups p).Players = (q.m_Groups p).Players)
    (h5 : ∀ p, (q'.m_Groups p).GroupTeam = (q.m_Groups p).GroupTeam) : q'.WellFormed c := by
  obtain ⟨w1, w2, w3, w4⟩ := hwf
  unfold BattleGroundQueue.WellFormed
  simp only [h1, h2, h3, h4, h5]
  exact ⟨w1, w2, w3, w4⟩

theorem oneGroup_wellFormed : BattleGroundQueue.oneGroup.WellFormed sampleConsts := by
  apply AddGroup_wellFormed _ _ _ _ _ _ _ _ (WellFormed_new _)
  · decide
  · decide
  · intro g _
    rfl

theorem oneInvitedGroup_wellFormed : BattleGroundQueue.oneInvitedGroup.WellFormed sampleConsts :=
  WellFormed_congr _ _ _ oneGroup_wellFormed rfl rfl rfl (fun _ => rfl) (fun _ => rfl)

/-- C4, counterexample: the queue invariant fails after `AddGroup` for a group
without members (a stored group has no player), and after a player is enqueued
twice and removed once (the first group still lists the player, who is no
longer in the queued-player map). -/
theorem runOps_queueInvariant_counterexample :
    ¬ (runOps sampleConsts (BattleGroundMgr.noBattleGrounds, BattleGroundQueue.new)
        [QueueOp.enqueue 100 { guid := 7, team := Team.ALLIANCE } (some []) 2 0 false]).2.QueueInvariant
        sampleConsts ∧
    ¬ (runOps sampleConsts (BattleGroundMgr.noBattleGrounds, BattleGroundQueue.new)
        [QueueOp.enqueue 100 { guid := 7, team := Team.ALLIANCE } none 2 0 false,
         QueueOp.enqueue 101 { guid := 7, team := Team.ALLIANCE } none 2 0 false,
         QueueOp.removePlayer 7 false]).2.QueueInvariant sampleConsts := by
  constructor
  · rintro ⟨-, h⟩
    exact h 0 2 0 (by decide) (by decide) (by decide) rfl
  · rintro ⟨h, -⟩
    have h7 := (h 7).2 ⟨0, 2, 0, by decide, by decide, by decide, by decide⟩
    revert h7
    decide

/-- C4, amended: after every sequence of `AddGroup` and `RemovePlayer` calls from
the empty queue in which each `AddGroup` is for a valid bracket and a non-empty
set of players none of whom is queued at that moment, the keys of the
queued-player map are exactly the members of the groups stored in the buckets
and no bucket holds a group without players. -/
theorem runOps_queueInvariant (c : Consts) (mgr : BattleGroundMgr) (ops : List QueueOp)
    (h : AdmissibleRun c (mgr, BattleGroundQueue.new) ops) :
    (runOps c (mgr, BattleGroundQueue.new) ops).2.QueueInvariant c :=
  WellFormed.queueInvariant c _ (runOps_wellFormed c ops _ (WellFormed_new c) h)

theorem runOps_queueInvariant_witness :
    (runOps sampleConsts (BattleGroundMgr.noBattleGrounds, BattleGroundQueue.new)
      [QueueOp.enqueue 100 { guid := 7, team := Team.ALLIANCE } none 2 0 false,
       QueueOp.enqueue 101 { guid := 8, team := Team.HORDE }
         (some [some { guid := 8, team := Team.HORDE }, some { guid := 9, team := Team.HORDE }]) 2 0 true,
       QueueOp.removePlayer 7 false,
       QueueOp.removePlayer 9 true]).2.QueueInvariant sampleConsts :=
  runOps_queueInvariant sampleConsts BattleGroundMgr.noBattleGrounds _
    ⟨⟨by decide, by decide, fun _ _ => rfl⟩,
     ⟨by decide, by decide, by
        intro g hg
        have hg2 : g = 8 ∨ g = 9 := by simpa [enqueuedPlayers, memberGuids] using hg
        rcases hg2 with rfl | rfl <;> rfl⟩,
     trivial, trivial, trivial⟩

theorem eraseKey_eq_nil (guid : ObjectGuid) (keys : List ObjectGuid) :
    eraseKey guid keys = [] ↔ ∀ g, g ∈ keys → g = guid := by
  simp [eraseKey, List.filter_eq_nil_iff]

/-- C6: on a well-formed queue, `RemovePlayer` for a queued player removes the
player from the queued-player map and from its group; if the player was the
only player of the group, the group is in no bucket afterwards and every bucket
keeps its other groups in their order; otherwise all buckets are unchanged;
all other group records and all other players' entries are unchanged. -/
theorem BattleGroundQueue.RemovePlayer_removes (c : Consts) (mgr : BattleGroundMgr)
    (q : BattleGroundQueue) (guid : ObjectGuid) (d : Bool) (info : PlayerQueueInfo)
    (hwf : q.WellFormed c) (hq : q.m_QueuedPlayers guid = some info) :
    (q.RemovePlayer c mgr guid d).1 = RemoveLog.removing ∧
    (q.RemovePlayer c mgr guid d).2.2.m_QueuedPlayers guid = none ∧
    (q.RemovePlayer c mgr guid d).2.2.m_Groups info.GroupInfo =
      { q.m_Groups info.GroupInfo with
        Players := eraseKey guid (q.m_Groups info.GroupInfo).Players } ∧
    guid ∉ ((q.RemovePlayer c mgr guid d).2.2.m_Groups info.GroupInfo).Players ∧
    (∀ g, g ≠ guid → (g ∈ ((q.RemovePlayer c mgr guid d).2.2.m_Groups info.GroupInfo).Players ↔
      g ∈ (q.m_Groups info.GroupInfo).Players)) ∧
    ((∀ g, g ∈ (q.m_Groups info.GroupInfo).Players → g = guid) →
      ∀ b j, info.GroupInfo ∉ (q.RemovePlayer c mgr guid d).2.2.m_QueuedGroups b j ∧
        (q.RemovePlayer c mgr guid d).2.2.m_QueuedGroups b j =
          (q.m_QueuedGroups b j).filter (fun G => decide (G ≠ info.GroupInfo))) ∧
    (¬ (∀ g, g ∈ (q.m_Groups info.GroupInfo).Players → g = guid) →
      (q.RemovePlayer c mgr guid d).2.2.m_QueuedGroups = q.m_QueuedGroups) ∧
    (∀ p, p ≠ info.GroupInfo → (q.RemovePlayer c mgr guid d).2.2.m_Groups p = q.m_Groups p) ∧
    (∀ g, g ≠ guid → (q.RemovePlayer c mgr guid d).2.2.m_QueuedPlayers g = q.m_QueuedPlayers g) := by
  obtain ⟨b, j, hG, e⟩ := RemovePlayer_wellFormed c mgr q guid d info hwf hq
  obtain ⟨-, -, w3, w4⟩ := hwf
  rw [e]
  refine ⟨rfl, ?_, ?_, ?_, ?_, ?_, ?_, ?_, ?_⟩
  · simp [BattleGroundQueue.removeFrom]
  · simp [BattleGroundQueue.removeFrom]
  · simp [BattleGroundQueue.removeFrom, mem_eraseKey]
  · intro g hg
    simp [BattleGroundQueue.removeFrom, mem_eraseKey, hg]
  · intro hall b' j'
    have he := (eraseKey_eq_nil guid _).2 hall
    simp only [BattleGroundQueue.removeFrom, he, true_and]
    by_cases hbj : b' = b ∧ j' = j
    · rw [if_pos hbj]
      refine ⟨fun h => (((w3 b' j').mem_erase_iff).1 h).1 rfl, ?_⟩
      rw [(w3 b' j').erase_eq_filter]
      exact List.filter_congr (fun x _ => by by_cases hx : x = info.GroupInfo <;> simp [hx])
    · rw [if_neg hbj]
      have hn : info.GroupInfo ∉ q.m_QueuedGroups b' j' := fun h => hbj (w4 _ _ _ _ _ h hG)
      refine ⟨hn, ?_⟩
      symm
      apply List.filter_eq_self.2
      intro G hGm
      simp only [decide_eq_true_eq]
      rintro rfl
      exact hn hGm
  · intro hall
    have he : ¬ eraseKey guid (q.m_Groups info.GroupInfo).Players = [] :=
      fun h => hall ((eraseKey_eq_nil guid _).1 h)
    funext b' j'
    simp [BattleGroundQueue.removeFrom, he]
  · intro p hp
    simp [BattleGroundQueue.removeFrom, hp]
  · intro g hg
    simp [BattleGroundQueue.removeFrom, hg]

theorem BattleGroundQueue.RemovePlayer_removes_witness :
    (BattleGroundQueue.oneGroup.RemovePlayer sampleConsts BattleGroundMgr.noBattleGrounds 7 true).1 =
        RemoveLog.removing ∧
      (BattleGroundQueue.oneGroup.RemovePlayer sampleConsts BattleGroundMgr.noBattleGrounds 7
        true).2.2.m_QueuedPlayers 7 = none :=
  ⟨(BattleGroundQueue.RemovePlayer_removes sampleConsts BattleGroundMgr.noBattleGrounds
      BattleGroundQueue.oneGroup 7 true { LastOnlineTime := 100, GroupInfo := 0 }
      oneGroup_wellFormed rfl).1,
   (BattleGroundQueue.RemovePlayer_removes sampleConsts BattleGroundMgr.noBattleGrounds
      BattleGroundQueue.oneGroup 7 true { LastOnlineTime := 100, GroupInfo := 0 }
      oneGroup_wellFormed rfl).2.1⟩

theorem DecreaseInvitedCount_count (bg : BattleGround) (team other : Team) :
    (bg.DecreaseInvitedCount team).GetInvitedCount team =
        toUInt32 ((bg.GetInvitedCount team : Int) - 1) ∧
      (other ≠ team →
        (bg.DecreaseInvitedCount team).GetInvitedCount other = bg.GetInvitedCount other) ∧
      (0 < bg.GetInvitedCount team → bg.GetInvitedCount team < UINT32_MOD →
        (bg.DecreaseInvitedCount team).GetInvitedCount team + 1 = bg.GetInvitedCount team) := by
  cases team <;> cases other <;>
    simp only [BattleGround.DecreaseInvitedCount, BattleGround.GetInvitedCount, UINT32_MOD,
      toUInt32, ne_eq, not_true_eq_false, not_false_eq_true, true_implies, false_implies,
      true_and, and_true, reduceCtorEq] <;>
    omega

/-- C10: on a well-formed queue, `RemovePlayer(p, decreaseInvitedCount)` lowers
the invited counter of the group's faction by one (in `uint32`), in the
battleground the group is invited to, exactly when `decreaseInvitedCount` is
true, the group of `p` is invited and that battleground is still known to the
manager; the other faction's counter and every other battleground are
unchanged, and in every other case the manager is unchanged. -/
theorem BattleGroundQueue.RemovePlayer_invited_count (c : Consts) (mgr : BattleGroundMgr)
    (q : BattleGroundQueue) (guid : ObjectGuid) (d : Bool) (hwf : q.WellFormed c) :
    (q.m_QueuedPlayers guid = none → (q.RemovePlayer c mgr guid d).2.1 = mgr) ∧
    (∀ info, q.m_QueuedPlayers guid = some info →
      (¬ (d = true ∧ (q.m_Groups info.GroupInfo).IsInvitedToBGInstanceGUID ≠ 0 ∧
          (mgr.GetBattleGround c (q.m_Groups info.GroupInfo).IsInvitedToBGInstanceGUID
            (q.m_Groups info.GroupInfo).BgTypeId).isSome = true) →
        (q.RemovePlayer c mgr guid d).2.1 = mgr) ∧
      (d = true → (q.m_Groups info.GroupInfo).IsInvitedToBGInstanceGUID ≠ 0 →
        ∀ t bg, mgr.GetBattleGround c (q.m_Groups info.GroupInfo).IsInvitedToBGInstanceGUID
            (q.m_Groups info.GroupInfo).BgTypeId = some (t, bg) →
          (∃ bg', (q.RemovePlayer c mgr guid d).2.1.m_BattleGrounds t
                (q.m_Groups info.GroupInfo).IsInvitedToBGInstanceGUID = some bg' ∧
              bg'.GetInvitedCount (q.m_Groups info.GroupInfo).GroupTeam =
                toUInt32 ((bg.GetInvitedCount (q.m_Groups info.GroupInfo).GroupTeam : Int) - 1) ∧
              (0 < bg.GetInvitedCount (q.m_Groups info.GroupInfo).GroupTeam →
                bg.GetInvitedCount (q.m_Groups info.GroupInfo).GroupTeam < UINT32_MOD →
                bg'.GetInvitedCount (q.m_Groups info.GroupInfo).GroupTeam + 1 =
                  bg.GetInvitedCount (q.m_Groups info.GroupInfo).GroupTeam) ∧
              ∀ other, other ≠ (q.m_Groups info.GroupInfo).GroupTeam →
                bg'.GetInvitedCount other = bg.GetInvitedCount other) ∧
            ∀ t' i', ¬ (t' = t ∧ i' = (q.m_Groups info.GroupInfo).IsInvitedToBGInstanceGUID) →
              (q.RemovePlayer c mgr guid d).2.1.m_BattleGrounds t' i' =
                mgr.m_BattleGrounds t' i')) := by
  constructor
  · intro hq
    simp [BattleGroundQueue.RemovePlayer, hq]
  · intro info hq
    obtain ⟨b, j, -, e⟩ := RemovePlayer_wellFormed c mgr q guid d info hwf hq
    rw [e]
    simp only [BattleGroundQueue.removeInvite]
    constructor
    · intro hn
      by_cases h1 : d = true ∧ (q.m_Groups info.GroupInfo).IsInvitedToBGInstanceGUID ≠ 0
      · rw [if_pos h1]
        cases hg : mgr.GetBattleGround c (q.m_Groups info.GroupInfo).IsInvitedToBGInstanceGUID
            (q.m_Groups info.GroupInfo).BgTypeId with
        | none => rfl
        | some r =>
          exfalso
          apply hn
          rw [hg]
          exact ⟨h1.1, h1.2, rfl⟩
      · rw [if_neg h1]
    · intro hd hinv t bg hg
      rw [if_pos ⟨hd, hinv⟩, hg]
      simp only [BattleGroundMgr.store]
      obtain ⟨c1, c2, c3⟩ := DecreaseInvitedCount_count bg (q.m_Groups info.GroupInfo).GroupTeam
        (q.m_Groups info.GroupInfo).GroupTeam
      refine ⟨⟨_, by simp, c1, c3, ?_⟩, ?_⟩
      · intro other ho
        exact (DecreaseInvitedCount_count bg (q.m_Groups info.GroupInfo).GroupTeam other).2.1 ho
      · intro t' i' hne
        rw [if_neg hne]

theorem BattleGroundQueue.RemovePlayer_invited_count_witness :
    ∃ bg', (BattleGroundQueue.oneInvitedGroup.RemovePlayer sampleConsts
          BattleGroundMgr.oneBattleGround 8 true).2.1.m_BattleGrounds 2 5 = some bg' ∧
      bg'.GetInvitedCount Team.HORDE + 1 = 3 := by
  obtain ⟨⟨bg', h1, -, h3, -⟩, -⟩ :=
    (BattleGroundQueue.RemovePlayer_invited_count sampleConsts BattleGroundMgr.oneBattleGround
      BattleGroundQueue.oneInvitedGroup 8 true oneInvitedGroup_wellFormed).2
      { LastOnlineTime := 100, GroupInfo := 0 } rfl |>.2 rfl (by decide) 2
      { m_InstanceID := 5, m_TypeID := 2, m_BracketId := 3, m_InvitedAlliance := 0,
        m_InvitedHorde := 3, m_Status := 2, m_ClientInstanceID := 1, m_MinPlayersPerTeam := 5,
        m_MaxPlayersPerTeam := 10 } rfl
  exact ⟨bg', h1, h3 (by decide) (by decide)⟩

/-! ## Selection pools in `FillPlayersToBG` -/

theorem toUInt32_lt (x : Int) : toUInt32 x < 4294967296 := by
  unfold toUInt32
  omega

theorem AddGroup_count_le_max (groups : GroupStore) (pool : SelectionPool) (ginfo : GroupPtr)
    (desiredCount bound : Nat) (h1 : pool.PlayerCount ≤ bound) (h2 : desiredCount ≤ bound) :
    (pool.AddGroup groups ginfo desiredCount).2.PlayerCount ≤ bound := by
  unfold SelectionPool.AddGroup
  split
  · rename_i hc
    exact le_trans (le_trans (Nat.mod_le _ _) hc.2) h2
  · split <;> exact h1

theorem AddGroup_sound (groups : GroupStore) (pool : SelectionPool) (ginfo : GroupPtr)
    (desiredCount : Nat) (hd : desiredCount < 4294967296) (hs : pool.Sound groups) :
    (pool.AddGroup groups ginfo desiredCount).2.Sound groups := by
  unfold SelectionPool.AddGroup
  split
  · rename_i hc
    have hlt : pool.PlayerCount + groupSize groups ginfo < 4294967296 := lt_of_le_of_lt hc.2 hd
    unfold SelectionPool.Sound at hs ⊢
    simp only [UINT32_MOD, Nat.mod_eq_of_lt hlt, List.map_append, List.sum_append, List.map_cons,
      List.map_nil, List.sum_cons, List.sum_nil, Nat.add_zero]
    rw [hs]
  · split <;> exact hs

theorem AddGroup_false (groups : GroupStore) (pool : SelectionPool) (ginfo : GroupPtr)
    (desiredCount : Nat) (h : (pool.AddGroup groups ginfo desiredCount).1 ≠ true) :
    (pool.AddGroup groups ginfo desiredCount).2 = pool := by
  unfold SelectionPool.AddGroup at h ⊢
  split
  · rename_i hc
    rw [if_pos hc] at h
    exact absurd rfl h
  · split <;> rfl

theorem AddGroup_length (groups : GroupStore) (pool : SelectionPool) (ginfo : GroupPtr)
    (desiredCount : Nat) :
    (pool.AddGroup groups ginfo desiredCount).2.SelectedGroups.length ≤
      pool.SelectedGroups.length + 1 := by
  unfold SelectionPool.AddGroup
  split
  · simp
  · split <;> simp

/-- The refill loop keeps the pool sound and under the bound, and either
changes nothing or uses up more of the bucket than it adds to the pool. -/
theorem addLoop_spec (groups : GroupStore) (desiredCount bound : Nat)
    (hd : desiredCount < 4294967296) (hb : desiredCount ≤ bound) (itr : List GroupPtr)
    (pool : SelectionPool) (hs : pool.Sound groups) (hc : pool.PlayerCount ≤ bound) :
    (FillPlayersToBG.addLoop groups desiredCount itr pool).2.Sound groups ∧
    (FillPlayersToBG.addLoop groups desiredCount itr pool).2.PlayerCount ≤ bound ∧
    (FillPlayersToBG.addLoop groups desiredCount itr pool = (itr, pool) ∨
      2 * (FillPlayersToBG.addLoop groups desiredCount itr pool).1.length +
          (FillPlayersToBG.addLoop groups desiredCount itr pool).2.SelectedGroups.length <
        2 * itr.length + pool.SelectedGroups.length) := by
  induction itr generalizing pool with
  | nil => exact ⟨hs, hc, Or.inl rfl⟩
  | cons g rest ih =>
    unfold FillPlayersToBG.addLoop
    by_cases ht : (pool.AddGroup groups g desiredCount).1 = true
    · rw [if_pos ht]
      obtain ⟨i1, i2, i3⟩ := ih (pool.AddGroup groups g desiredCount).2
        (AddGroup_sound groups pool g desiredCount hd hs)
        (AddGroup_count_le_max groups pool g desiredCount bound hc hb)
      refine ⟨i1, i2, Or.inr ?_⟩
      have hl := AddGroup_length groups pool g desiredCount
      rcases i3 with i3 | i3
      · rw [i3]
        simp only [List.length_cons]
        omega
      · simp only [List.length_cons]
        omega
    · rw [if_neg ht, AddGroup_false groups pool g desiredCount ht]
      exact ⟨hs, hc, Or.inl rfl⟩

/-! ## `SelectionPool::KickGroup` -/

theorem scan_getElem (groups : GroupStore) (size : Nat) (l pre : List GroupPtr)
    (k : Nat × GroupPtr) (found : Bool) (hk : (pre ++ l)[k.1]? = some k.2) :
    (pre ++ l)[(SelectionPool.KickGroup.scan groups size l pre.length k found).1]? =
      some (SelectionPool.KickGroup.scan groups size l pre.length k found).2 := by
  induction l generalizing pre k found with
  | nil => exact hk
  | cons g rest ih =>
    have hpre : pre ++ g :: rest = (pre ++ [g]) ++ rest := by simp
    have hlen : (pre ++ [g]).length = pre.length + 1 := by simp
    have hg : ((pre ++ [g]) ++ rest)[pre.length]? = some g := by
      rw [← hpre, List.getElem?_append_right (le_refl _)]
      simp
    unfold SelectionPool.KickGroup.scan
    rw [hpre, ← hlen]
    split
    · exact ih (pre ++ [g]) (pre.length, g) true hg
    · split
      · exact ih (pre ++ [g]) (pre.length, g) found hg
      · exact ih (pre ++ [g]) k found (hpre ▸ hk)

theorem sum_eraseIdx (f : GroupPtr → Nat) (l : List GroupPtr) (i : Nat) (g : GroupPtr)
    (h : l[i]? = some g) :
    ((l.eraseIdx i).map f).sum + f g = (l.map f).sum ∧ (l.eraseIdx i).length + 1 = l.length := by
  induction l generalizing i with
  | nil => simp at h
  | cons a rest ih =>
    cases i with
    | zero =>
      simp only [List.getElem?_cons_zero, Option.some.injEq] at h
      subst h
      simp [Nat.add_comm]
    | succ i =>
      simp only [List.getElem?_cons_succ] at h
      obtain ⟨h1, h2⟩ := ih i h
      simp only [List.eraseIdx_cons_succ, List.map_cons, List.sum_cons, List.length_cons]
      omega

/-- The method `KickGroup` on a sound pool: it never reads past the list; a pool without
players is left as it is, with the answer true; otherwise one group is removed
and the pool stays sound. -/
theorem KickGroup_spec (groups : GroupStore) (pool : SelectionPool) (size : Nat)
    (hs : pool.Sound groups) (hc : pool.PlayerCount < 4294967296) :
    ∃ again pool1, pool.KickGroup groups size = some (again, pool1) ∧
      pool1.Sound groups ∧ pool1.PlayerCount ≤ pool.PlayerCount ∧
      (pool.PlayerCount = 0 → again = true ∧ pool1 = pool) ∧
      (pool.PlayerCount ≠ 0 → pool1.SelectedGroups.length + 1 = pool.SelectedGroups.length) := by
  unfold SelectionPool.KickGroup SelectionPool.GetPlayerCount
  cases hl : pool.SelectedGroups with
  | nil =>
    have h0 : pool.PlayerCount = 0 := by
      unfold SelectionPool.Sound at hs
      rw [hs, hl]
      rfl
    simp only [h0, ne_eq, not_true_eq_false, if_false]
    exact ⟨true, pool, rfl, hs, by omega, fun _ => ⟨rfl, rfl⟩, fun h => h.elim⟩
  | cons g rest =>
    simp only
    by_cases h0 : pool.PlayerCount = 0
    · simp only [h0, ne_eq, not_true_eq_false, if_false]
      exact ⟨true, pool, rfl, hs, by omega, fun _ => ⟨rfl, rfl⟩, fun h => h.elim⟩
    · rw [if_pos h0]
      have hget := scan_getElem groups size (g :: rest) [] (0, g) false (by simp)
      simp only [List.nil_append, List.length_nil] at hget
      obtain ⟨e1, e2⟩ := sum_eraseIdx (groupSize groups) (g :: rest) _ _ hget
      unfold SelectionPool.Sound at hs
      rw [hl] at hs
      generalize SelectionPool.KickGroup.scan groups size (g :: rest) 0 (0, g) false = k at *
      have hcount : toUInt32 ((pool.PlayerCount : Int) - (groupSize groups k.2 : Int)) =
          (((g :: rest).eraseIdx k.1).map (groupSize groups)).sum := by
        unfold toUInt32
        omega
      have hpool1 : SelectionPool.Sound groups
          { SelectedGroups := (g :: rest).eraseIdx k.1,
            PlayerCount := toUInt32 ((pool.PlayerCount : Int) - (groupSize groups k.2 : Int)) } :=
        hcount
      have hle : toUInt32 ((pool.PlayerCount : Int) - (groupSize groups k.2 : Int)) ≤
          pool.PlayerCount := by
        rw [hcount]
        omega
      split
      · exact ⟨false, _, rfl, hpool1, hle, fun h => absurd h h0, fun _ => e2⟩
      · exact ⟨true, _, rfl, hpool1, hle, fun h => absurd h h0, fun _ => e2⟩

/-! ## The balancing loop of `FillPlayersToBG` -/

theorem diff_eq (free : Int) (pool : SelectionPool) (h1 : 0 ≤ free) (h2 : free < 2147483648)
    (h3 : (pool.PlayerCount : Int) ≤ free) :
    FillPlayersToBG.diff free pool = free - (pool.PlayerCount : Int) := by
  unfold FillPlayersToBG.diff SelectionPool.GetPlayerCount
  rw [toInt32_eq_self (pool.PlayerCount : Int) (by omega) (by omega)]
  exact toInt32_eq_self _ (by omega) (by omega)

/-- In a state within the free slots the `abs` of the condition of the balancing
loop is the absolute value: the difference of the free slots left is above
-2^31. -/
theorem abs_balance (aliFree hordeFree : Int) (a h : Nat) (hA : 0 ≤ aliFree)
    (hA2 : aliFree < 2147483648) (hH : 0 ≤ hordeFree) (hH2 : hordeFree < 2147483648)
    (cA : (a : Int) ≤ aliFree) (cH : (h : Int) ≤ hordeFree) :
    absInt32 (toInt32 (aliFree - (a : Int) - (hordeFree - (h : Int)))) =
      (((aliFree - (a : Int) - (hordeFree - (h : Int))).natAbs : Nat) : Int) := by
  rw [toInt32_eq_self _ (by omega) (by omega), absInt32_eq_natAbs _ (by omega) (by omega)]

theorem budget_le (free d : Int) (h1 : 0 ≤ free) (h2 : free < 2147483648) (h3 : 0 ≤ d) :
    FillPlayersToBG.budget free d ≤ free.toNat := by
  unfold FillPlayersToBG.budget
  split
  · rw [toInt32_eq_self _ (by omega) (by omega), toUInt32_eq_toNat _ (by omega) (by omega)]
    omega
  · unfold toUInt32
    omega

theorem budget_lt (free d : Int) : FillPlayersToBG.budget free d < 4294967296 :=
  toUInt32_lt _

/-- One side of a pass of the balancing loop: `KickGroup` followed, when it
asks for it, by the refill loop. -/
theorem kick_refill (groups : GroupStore) (X : SelectionPool) (itr : List GroupPtr)
    (target budget B : Nat) (hS : X.Sound groups) (hXB : X.PlayerCount ≤ B) (hB : B < 2147483648)
    (hbud : budget ≤ B) :
    ∃ again X1, X.KickGroup groups target = some (again, X1) ∧
      (if again = true then FillPlayersToBG.addLoop groups budget itr X1 else (itr, X1)).2.Sound
        groups ∧
      (if again = true then FillPlayersToBG.addLoop groups budget itr X1
        else (itr, X1)).2.PlayerCount ≤ B ∧
      2 * (if again = true then FillPlayersToBG.addLoop groups budget itr X1
            else (itr, X1)).1.length +
          (if again = true then FillPlayersToBG.addLoop groups budget itr X1
            else (itr, X1)).2.SelectedGroups.length ≤
        2 * itr.length + X.SelectedGroups.length ∧
      ((X.PlayerCount ≠ 0 ∨
          (if again = true then FillPlayersToBG.addLoop groups budget itr X1
            else (itr, X1)).2.PlayerCount ≠ 0) →
        2 * (if again = true then FillPlayersToBG.addLoop groups budget itr X1
              else (itr, X1)).1.length +
            (if again = true then FillPlayersToBG.addLoop groups budget itr X1
              else (itr, X1)).2.SelectedGroups.length <
          2 * itr.length + X.SelectedGroups.length) := by
  obtain ⟨again, X1, hk, k1, k2, k3, k4⟩ := KickGroup_spec groups X target hS (by omega)
  refine ⟨again, X1, hk, ?_⟩
  by_cases ha : again = true
  · simp only [ha, if_true]
    obtain ⟨a1, a2, a3⟩ := addLoop_spec groups budget B (by omega) hbud itr X1 k1 (by omega)
    refine ⟨a1, a2, ?_, ?_⟩
    · by_cases h0 : X.PlayerCount = 0
      · obtain ⟨-, e⟩ := k3 h0
        subst e
        rcases a3 with a3 | a3
        · rw [a3]
        · omega
      · have := k4 h0
        rcases a3 with a3 | a3
        · rw [a3]
          simp only
          omega
        · omega
    · intro hor
      by_cases h0 : X.PlayerCount = 0
      · obtain ⟨-, e⟩ := k3 h0
        subst e
        rcases a3 with a3 | a3
        · rw [a3] at hor
          simp only at hor
          omega
        · exact a3
      · have := k4 h0
        rcases a3 with a3 | a3
        · rw [a3]
          simp only
          omega
        · omega
  · simp only [ha]
    have h0 : X.PlayerCount ≠ 0 := fun h => ha (k3 h).1
    have := k4 h0
    simp only [Bool.false_eq_true, if_false]
    refine ⟨k1, by omega, by omega, fun _ => by omega⟩

/-- The balancing loop ends, within as many passes as its measure, in a state
where both pools are sound and within the free slots. -/
theorem balance_terminates (groups : GroupStore) (hordeFree aliFree : Int)
    (hA : 0 ≤ aliFree) (hA2 : aliFree < 2147483648) (hH : 0 ≤ hordeFree)
    (hH2 : hordeFree < 2147483648) (fuel : Nat) (s : FillState)
    (hg : s.Good groups hordeFree aliFree) (hm : s.measure < fuel) :
    ∃ s1, FillPlayersToBG.balance groups hordeFree aliFree fuel s = some s1 ∧
      s1.Good groups hordeFree aliFree := by
  induction fuel generalizing s with
  | zero => omega
  | succ fuel ih =>
    obtain ⟨gA, gH, cA, cH⟩ := hg
    unfold FillState.measure at hm
    rw [FillPlayersToBG.balance]
    simp only
    rw [diff_eq aliFree s.ali hA hA2 cA, diff_eq hordeFree s.horde hH hH2 cH]
    by_cases hcond0 : absInt32 (toInt32 (aliFree - (s.ali.PlayerCount : Int) -
        (hordeFree - (s.horde.PlayerCount : Int)))) > 1 ∧
        (s.horde.GetPlayerCount > 0 ∨ s.ali.GetPlayerCount > 0)
    · rw [if_pos hcond0]
      have hcond : (toInt32 (aliFree - (s.ali.PlayerCount : Int) -
          (hordeFree - (s.horde.PlayerCount : Int)))).natAbs > 1 ∧
          (s.horde.GetPlayerCount > 0 ∨ s.ali.GetPlayerCount > 0) := by
        refine ⟨?_, hcond0.2⟩
        have h1 := hcond0.1
        rw [abs_balance aliFree hordeFree _ _ hA hA2 hH hH2 cA cH] at h1
        rw [toInt32_eq_self _ (by omega) (by omega)]
        omega
      unfold SelectionPool.GetPlayerCount at hcond
      by_cases hlt : aliFree - (s.ali.PlayerCount : Int) < hordeFree - (s.horde.PlayerCount : Int)
      · rw [if_pos hlt]
        obtain ⟨again, X1, hk, r1, r2, r3, r4⟩ := kick_refill groups s.ali s.Ali_itr
          (toUInt32 (hordeFree - (s.horde.PlayerCount : Int) - (aliFree - (s.ali.PlayerCount : Int))))
          (FillPlayersToBG.budget aliFree (hordeFree - (s.horde.PlayerCount : Int)))
          aliFree.toNat gA (by omega) (by omega) (budget_le _ _ hA hA2 (by omega))
        rw [hk]
        simp only
        generalize (if again = true then
          FillPlayersToBG.addLoop groups
            (FillPlayersToBG.budget aliFree (hordeFree - (s.horde.PlayerCount : Int))) s.Ali_itr X1
          else (s.Ali_itr, X1)) = refill at *
        unfold SelectionPool.GetPlayerCount
        by_cases hz : refill.2.PlayerCount = 0
        · rw [if_pos hz]
          split
          · exact ⟨_, rfl, r1, gH, (by show (refill.2.PlayerCount : Int) ≤ aliFree; omega), cH⟩
          · obtain ⟨again2, Y1, hk2, y1, y2, y3, y4⟩ := KickGroup_spec groups s.horde
              (toUInt32 (hordeFree - (s.horde.PlayerCount : Int) - (aliFree - (s.ali.PlayerCount : Int))))
              gH (by omega)
            rw [hk2]
            simp only
            apply ih
            · exact ⟨r1, y1, (by show (refill.2.PlayerCount : Int) ≤ aliFree; omega), (by show (Y1.PlayerCount : Int) ≤ hordeFree; omega)⟩
            · unfold FillState.measure
              simp only
              by_cases ha0 : s.ali.PlayerCount = 0
              · have hh0 : s.horde.PlayerCount ≠ 0 := by omega
                have := y4 hh0
                omega
              · have := r4 (Or.inl ha0)
                have : Y1.SelectedGroups.length ≤ s.horde.SelectedGroups.length := by
                  by_cases hh0 : s.horde.PlayerCount = 0
                  · rw [(y3 hh0).2]
                  · have := y4 hh0
                    omega
                omega
        · rw [if_neg hz]
          apply ih
          · exact ⟨r1, gH, (by show (refill.2.PlayerCount : Int) ≤ aliFree; omega), cH⟩
          · unfold FillState.measure
            simp only
            have := r4 (Or.inr hz)
            omega
      · rw [if_neg hlt]
        obtain ⟨again, X1, hk, r1, r2, r3, r4⟩ := kick_refill groups s.horde s.Horde_itr
          (toUInt32 (aliFree - (s.ali.PlayerCount : Int) - (hordeFree - (s.horde.PlayerCount : Int))))
          (FillPlayersToBG.budget hordeFree (aliFree - (s.ali.PlayerCount : Int)))
          hordeFree.toNat gH (by omega) (by omega) (budget_le _ _ hH hH2 (by omega))
        rw [hk]
        simp only
        generalize (if again = true then
          FillPlayersToBG.addLoop groups
            (FillPlayersToBG.budget hordeFree (aliFree - (s.ali.PlayerCount : Int))) s.Horde_itr X1
          else (s.Horde_itr, X1)) = refill at *
        unfold SelectionPool.GetPlayerCount
        by_cases hz : refill.2.PlayerCount = 0
        · rw [if_pos hz]
          split
          · exact ⟨_, rfl, gA, r1, cA, (by show (refill.2.PlayerCount : Int) ≤ hordeFree; omega)⟩
          · obtain ⟨again2, Y1, hk2, y1, y2, y3, y4⟩ := KickGroup_spec groups s.ali
              (toUInt32 (aliFree - (s.ali.PlayerCount : Int) - (hordeFree - (s.horde.PlayerCount : Int))))
              gA (by omega)
            rw [hk2]
            simp only
            apply ih
            · exact ⟨y1, r1, (by show (Y1.PlayerCount : Int) ≤ aliFree; omega), (by show (refill.2.PlayerCount : Int) ≤ hordeFree; omega)⟩
            · unfold FillState.measure
              simp only
              by_cases hh0 : s.horde.PlayerCount = 0
              · have ha0 : s.ali.PlayerCount ≠ 0 := by omega
                have := y4 ha0
                omega
              · have := r4 (Or.inl hh0)
                have : Y1.SelectedGroups.length ≤ s.ali.SelectedGroups.length := by
                  by_cases ha0 : s.ali.PlayerCount = 0
                  · rw [(y3 ha0).2]
                  · have := y4 ha0
                    omega
                omega
        · rw [if_neg hz]
          apply ih
          · exact ⟨gA, r1, cA, (by show (refill.2.PlayerCount : Int) ≤ hordeFree; omega)⟩
          · unfold FillState.measure
            simp only
            have := r4 (Or.inr hz)
            omega
    · rw [if_neg hcond0]
      exact ⟨s, rfl, gA, gH, cA, cH⟩

theorem Init_sound (groups : GroupStore) : SelectionPool.Init.Sound groups := rfl

/-- The first two loops of `FillPlayersToBG`, started from empty pools, leave a
state the balancing loop can start from, of measure at most twice the number of
groups in the two normal buckets. -/
theorem fillFirst_good (q : BattleGroundQueue) (hordeFree aliFree : Int) (bracket_id : Nat)
    (hA : 0 ≤ aliFree) (hA2 : aliFree < 2147483648) (hH : 0 ≤ hordeFree)
    (hH2 : hordeFree < 2147483648)
    (hpA : q.m_SelectionPools TEAM_INDEX_ALLIANCE = SelectionPool.Init)
    (hpH : q.m_SelectionPools TEAM_INDEX_HORDE = SelectionPool.Init) :
    (q.fillFirst hordeFree aliFree bracket_id).Good q.m_Groups hordeFree aliFree ∧
    (q.fillFirst hordeFree aliFree bracket_id).measure ≤
      2 * ((q.m_QueuedGroups bracket_id BG_QUEUE_NORMAL_ALLIANCE).length +
        (q.m_QueuedGroups bracket_id BG_QUEUE_NORMAL_HORDE).length) := by
  have eA : toUInt32 aliFree = aliFree.toNat := toUInt32_eq_toNat _ hA (by omega)
  have eH : toUInt32 hordeFree = hordeFree.toNat := toUInt32_eq_toNat _ hH (by omega)
  obtain ⟨a1, a2, a3⟩ := addLoop_spec q.m_Groups (toUInt32 aliFree) aliFree.toNat (toUInt32_lt _)
    (by omega) (q.m_QueuedGroups bracket_id BG_QUEUE_NORMAL_ALLIANCE) SelectionPool.Init
    (Init_sound _) (Nat.zero_le _)
  obtain ⟨h1, h2, h3⟩ := addLoop_spec q.m_Groups (toUInt32 hordeFree) hordeFree.toNat
    (toUInt32_lt _) (by omega) (q.m_QueuedGroups bracket_id BG_QUEUE_NORMAL_HORDE)
    SelectionPool.Init (Init_sound _) (Nat.zero_le _)
  have hinit : SelectionPool.Init.SelectedGroups.length = 0 := rfl
  unfold BattleGroundQueue.fillFirst FillState.Good FillState.measure
  rw [hpA, hpH]
  simp only
  generalize FillPlayersToBG.addLoop q.m_Groups (toUInt32 aliFree)
    (q.m_QueuedGroups bracket_id BG_QUEUE_NORMAL_ALLIANCE) SelectionPool.Init = rA at *
  generalize FillPlayersToBG.addLoop q.m_Groups (toUInt32 hordeFree)
    (q.m_QueuedGroups bracket_id BG_QUEUE_NORMAL_HORDE) SelectionPool.Init = rH at *
  refine ⟨⟨a1, h1, by omega, by omega⟩, ?_⟩
  have ha : 2 * rA.1.length + rA.2.SelectedGroups.length ≤
      2 * (q.m_QueuedGroups bracket_id BG_QUEUE_NORMAL_ALLIANCE).length := by
    rcases a3 with a3 | a3
    · rw [a3]
      simp only
      omega
    · omega
  have hh : 2 * rH.1.length + rH.2.SelectedGroups.length ≤
      2 * (q.m_QueuedGroups bracket_id BG_QUEUE_NORMAL_HORDE).length := by
    rcases h3 with h3 | h3
    · rw [h3]
      simp only
      omega
    · omega
  omega

/-- C1: for every queue whose two selection pools are empty and for non-negative
free slots of both factions, `FillPlayersToBG` ends in either invitation mode
(its balancing loop returns whenever it is given more passes than twice the
number of groups in the two normal buckets) with each faction's pool player
count not greater than that faction's free slots. -/
theorem BattleGroundQueue.FillPlayersToBG_within_free_slots (q : BattleGroundQueue)
    (hordeFree aliFree : Int) (invitationType bracket_id fuel : Nat)
    (hA : 0 ≤ aliFree) (hA2 : aliFree < 2147483648) (hH : 0 ≤ hordeFree)
    (hH2 : hordeFree < 2147483648)
    (hpA : q.m_SelectionPools TEAM_INDEX_ALLIANCE = SelectionPool.Init)
    (hpH : q.m_SelectionPools TEAM_INDEX_HORDE = SelectionPool.Init)
    (hfuel : 2 * ((q.m_QueuedGroups bracket_id BG_QUEUE_NORMAL_ALLIANCE).length +
      (q.m_QueuedGroups bracket_id BG_QUEUE_NORMAL_HORDE).length) < fuel) :
    ∃ q', q.FillPlayersToBG hordeFree aliFree invitationType bracket_id fuel = some q' ∧
      ((q'.m_SelectionPools TEAM_INDEX_ALLIANCE).PlayerCount : Int) ≤ aliFree ∧
      ((q'.m_SelectionPools TEAM_INDEX_HORDE).PlayerCount : Int) ≤ hordeFree := by
  obtain ⟨⟨g1, g2, g3, g4⟩, hm⟩ :=
    fillFirst_good q hordeFree aliFree bracket_id hA hA2 hH hH2 hpA hpH
  unfold BattleGroundQueue.FillPlayersToBG
  simp only
  by_cases hi : invitationType = 0
  · rw [if_pos hi]
    exact ⟨_, rfl, g3, g4⟩
  · rw [if_neg hi]
    obtain ⟨s1, e, -, -, b3, b4⟩ := balance_terminates q.m_Groups hordeFree aliFree hA hA2 hH hH2
      fuel (q.fillFirst hordeFree aliFree bracket_id) ⟨g1, g2, g3, g4⟩ (by omega)
    rw [e]
    exact ⟨_, rfl, b3, b4⟩

theorem BattleGroundQueue.FillPlayersToBG_within_free_slots_witness :
    ∃ q', BattleGroundQueue.oneGroup.FillPlayersToBG 4 5 1 3 3 = some q' ∧
      ((q'.m_SelectionPools TEAM_INDEX_ALLIANCE).PlayerCount : Int) ≤ 5 ∧
      ((q'.m_SelectionPools TEAM_INDEX_HORDE).PlayerCount : Int) ≤ 4 :=
  BattleGroundQueue.FillPlayersToBG_within_free_slots BattleGroundQueue.oneGroup 4 5 1 3 3
    (by decide) (by decide) (by decide) (by decide) rfl rfl (by decide)

/-! ## Average wait time -/

theorem recordAll_append (c : Consts) (l1 l2 : List WaitSample) (q : BattleGroundQueue) :
    BattleGroundQueue.recordAll c (l1 ++ l2) q =
      BattleGroundQueue.recordAll c l2 (BattleGroundQueue.recordAll c l1 q) := by
  induction l1 generalizing q with
  | nil => rfl
  | cons w rest ih => exact ih _

/-- Recording for one team and bracket leaves the buffers of the others alone. -/
theorem recordWaitTime_other (c : Consts) (q : BattleGroundQueue) (t b v t' b' : Nat)
    (h : ¬ (t' = t ∧ b' = b)) :
    (q.recordWaitTime c t b v).m_WaitTimes t' b' = q.m_WaitTimes t' b' ∧
    (q.recordWaitTime c t b v).m_WaitTimeLastPlayer t' b' = q.m_WaitTimeLastPlayer t' b' ∧
    (q.recordWaitTime c t b v).m_SumOfWaitTimes t' b' = q.m_SumOfWaitTimes t' b' := by
  refine ⟨?_, ?_, ?_⟩
  · funext k
    simp only [BattleGroundQueue.recordWaitTime]
    rw [if_neg (fun hh => h ⟨hh.1, hh.2.1⟩)]
  · simp only [BattleGroundQueue.recordWaitTime]
    rw [if_neg h]
  · simp only [BattleGroundQueue.recordWaitTime]
    rw [if_neg h]

/-- While fewer wait times than the buffer has slots were recorded, the cursor
counts them and the slots from the cursor on are still zero. -/
theorem recordAll_warmup (c : Consts) (t b : Nat)
    (hN : c.COUNT_OF_PLAYERS_TO_AVERAGE_WAIT_TIME ≤ 4294967296) (samples : List WaitSample)
    (q : BattleGroundQueue) (k : Nat) (hk : q.m_WaitTimeLastPlayer t b = k)
    (hz : ∀ i, k ≤ i → q.m_WaitTimes t b i = 0)
    (hlt : k + samplesFor t b samples < c.COUNT_OF_PLAYERS_TO_AVERAGE_WAIT_TIME) :
    (BattleGroundQueue.recordAll c samples q).m_WaitTimes t b
      (c.COUNT_OF_PLAYERS_TO_AVERAGE_WAIT_TIME - 1) = 0 := by
  induction samples generalizing q k with
  | nil =>
    simp only [BattleGroundQueue.recordAll]
    apply hz
    simp only [samplesFor, List.filter_nil, List.length_nil] at hlt
    omega
  | cons w rest ih =>
    simp only [BattleGroundQueue.recordAll]
    by_cases hw : w.team_index = t ∧ w.bracket_id = b
    · have hcount : samplesFor t b (w :: rest) = samplesFor t b rest + 1 := by
        simp [samplesFor, List.filter_cons, hw]
      rw [hcount] at hlt
      obtain ⟨rfl, rfl⟩ := hw
      apply ih _ (k + 1)
      · simp only [BattleGroundQueue.recordWaitTime, and_self, if_true, hk, UINT32_MOD]
        rw [Nat.mod_eq_of_lt (by omega), Nat.mod_eq_of_lt (by omega)]
      · intro i hi
        simp only [BattleGroundQueue.recordWaitTime, hk, true_and]
        rw [if_neg (by omega)]
        exact hz i (by omega)
      · omega
    · have hcount : samplesFor t b (w :: rest) = samplesFor t b rest := by
        simp [samplesFor, List.filter_cons, hw]
      rw [hcount] at hlt
      have ho := recordWaitTime_other c q w.team_index w.bracket_id w.timeInQueue t b
        (fun hh => hw ⟨hh.1.symm, hh.2.symm⟩)
      apply ih _ k
      · rw [ho.2.1, hk]
      · intro i hi
        rw [ho.1]
        exact hz i hi
      · exact hlt

theorem sumSlots_update (slots : Nat → Nat) (p v n : Nat) (hp : p < n) :
    sumSlots (fun k => if k = p then v else slots k) n + slots p = sumSlots slots n + v := by
  induction n with
  | zero => omega
  | succ n ih =>
    simp only [sumSlots]
    by_cases hpn : p = n
    · subst hpn
      have hsame : sumSlots (fun k => if k = p then v else slots k) p = sumSlots slots p := by
        clear ih hp
        have : ∀ m, m ≤ p → sumSlots (fun k => if k = p then v else slots k) m = sumSlots slots m := by
          intro m hm
          induction m with
          | zero => rfl
          | succ m ihm =>
            simp only [sumSlots]
            rw [ihm (by omega), if_neg (by omega)]
        exact this p (le_refl p)
      rw [hsame, if_pos rfl]
      omega
    · have := ih (by omega)
      rw [if_neg (fun h => hpn h.symm)]
      omega

theorem sumSlots_const (slots : Nat → Nat) (v n : Nat) (h : ∀ i, i < n → slots i = v) :
    sumSlots slots n = n * v := by
  induction n with
  | zero => simp [sumSlots]
  | succ n ih =>
    simp only [sumSlots]
    rw [ih (fun i hi => h i (by omega)), h n (by omega), Nat.succ_mul]

theorem TrackerOk_new (c : Consts) (t b : Nat) (hN : 0 < c.COUNT_OF_PLAYERS_TO_AVERAGE_WAIT_TIME) :
    BattleGroundQueue.new.TrackerOk c t b := by
  have hs : ∀ n, sumSlots (fun _ => 0) n = 0 := by
    intro n
    induction n with
    | zero => rfl
    | succ n ih => simp [sumSlots, ih]
  refine ⟨hN, by simp [BattleGroundQueue.new], ?_⟩
  simp only [BattleGroundQueue.new]
  rw [hs]

theorem recordWaitTime_trackerOk (c : Consts) (q : BattleGroundQueue) (t b t' b' v : Nat)
    (hN : 0 < c.COUNT_OF_PLAYERS_TO_AVERAGE_WAIT_TIME) (h : q.TrackerOk c t b) :
    (q.recordWaitTime c t' b' v).TrackerOk c t b := by
  by_cases hw : t = t' ∧ b = b'
  · obtain ⟨rfl, rfl⟩ := hw
    obtain ⟨h1, h2, h3⟩ := h
    have hu := sumSlots_update (q.m_WaitTimes t b) (q.m_WaitTimeLastPlayer t b) v
      c.COUNT_OF_PLAYERS_TO_AVERAGE_WAIT_TIME h1
    have hslots : (q.recordWaitTime c t b v).m_WaitTimes t b =
        fun k => if k = q.m_WaitTimeLastPlayer t b then v else q.m_WaitTimes t b k := by
      funext k
      simp [BattleGroundQueue.recordWaitTime]
    unfold BattleGroundQueue.TrackerOk
    rw [hslots]
    simp only [BattleGroundQueue.recordWaitTime, and_self, if_true, UINT32_MOD, toUInt32]
    refine ⟨Nat.mod_lt _ hN, Nat.mod_lt _ (by norm_num), ?_⟩
    omega
  · obtain ⟨o1, o2, o3⟩ := recordWaitTime_other c q t' b' v t b hw
    unfold BattleGroundQueue.TrackerOk
    rw [o1, o2, o3]
    exact h

theorem recordAll_trackerOk (c : Consts) (t b : Nat)
    (hN : 0 < c.COUNT_OF_PLAYERS_TO_AVERAGE_WAIT_TIME) (samples : List WaitSample)
    (q : BattleGroundQueue) (h : q.TrackerOk c t b) :
    (BattleGroundQueue.recordAll c samples q).TrackerOk c t b := by
  induction samples generalizing q with
  | nil => exact h
  | cons w rest ih => exact ih _ (recordWaitTime_trackerOk c q t b _ _ _ hN h)

/-- After `j` wait times `v` in a row for one team and bracket, the `j` slots
from the old cursor on hold `v` and the cursor has moved `j` slots on. -/
theorem recordAll_replicate (c : Consts) (t b v : Nat)
    (hN : 0 < c.COUNT_OF_PLAYERS_TO_AVERAGE_WAIT_TIME)
    (hN2 : c.COUNT_OF_PLAYERS_TO_AVERAGE_WAIT_TIME ≤ 4294967296) (q : BattleGroundQueue)
    (hq : q.m_WaitTimeLastPlayer t b < c.COUNT_OF_PLAYERS_TO_AVERAGE_WAIT_TIME) (j : Nat) :
    (BattleGroundQueue.recordAll c (List.replicate j ⟨t, b, v⟩) q).m_WaitTimeLastPlayer t b =
        (q.m_WaitTimeLastPlayer t b + j) % c.COUNT_OF_PLAYERS_TO_AVERAGE_WAIT_TIME ∧
    ∀ i, i < j →
      (BattleGroundQueue.recordAll c (List.replicate j ⟨t, b, v⟩) q).m_WaitTimes t b
        ((q.m_WaitTimeLastPlayer t b + i) % c.COUNT_OF_PLAYERS_TO_AVERAGE_WAIT_TIME) = v := by
  induction j with
  | zero =>
    refine ⟨?_, fun i hi => absurd hi (Nat.not_lt_zero i)⟩
    simp only [List.replicate, BattleGroundQueue.recordAll, Nat.add_zero]
    exact (Nat.mod_eq_of_lt hq).symm
  | succ j ih =>
    obtain ⟨ih1, ih2⟩ := ih
    rw [List.replicate_succ', recordAll_append]
    simp only [BattleGroundQueue.recordAll]
    generalize BattleGroundQueue.recordAll c (List.replicate j ⟨t, b, v⟩) q = qj at ih1 ih2
    have hcur : qj.m_WaitTimeLastPlayer t b < c.COUNT_OF_PLAYERS_TO_AVERAGE_WAIT_TIME := by
      rw [ih1]
      exact Nat.mod_lt _ hN
    constructor
    · simp only [BattleGroundQueue.recordWaitTime, and_self, if_true, UINT32_MOD]
      have hstep : (qj.m_WaitTimeLastPlayer t b + 1) % 4294967296 %
          c.COUNT_OF_PLAYERS_TO_AVERAGE_WAIT_TIME =
          (qj.m_WaitTimeLastPlayer t b + 1) % c.COUNT_OF_PLAYERS_TO_AVERAGE_WAIT_TIME := by
        by_cases hlt : qj.m_WaitTimeLastPlayer t b + 1 < 4294967296
        · rw [Nat.mod_eq_of_lt hlt]
        · have e1 : qj.m_WaitTimeLastPlayer t b + 1 = 4294967296 := by omega
          have e2 : c.COUNT_OF_PLAYERS_TO_AVERAGE_WAIT_TIME = 4294967296 := by omega
          rw [e1, e2]
      rw [hstep, ih1, Nat.mod_add_mod, Nat.add_assoc]
    · intro i hi
      simp only [BattleGroundQueue.recordWaitTime, true_and]
      by_cases hpos : (q.m_WaitTimeLastPlayer t b + i) % c.COUNT_OF_PLAYERS_TO_AVERAGE_WAIT_TIME =
          qj.m_WaitTimeLastPlayer t b
      · rw [if_pos hpos]
      · rw [if_neg hpos]
        have hij : i < j := by
          rcases Nat.lt_succ_iff_lt_or_eq.1 hi with h | h
          · exact h
          · exfalso
            apply hpos
            rw [h, ih1]
        exact ih2 i hij

theorem mod_cover (p x n : Nat) (hp : p < n) (hx : x < n) : ∃ i, i < n ∧ (p + i) % n = x := by
  by_cases h : p ≤ x
  · refine ⟨x - p, by omega, ?_⟩
    rw [Nat.add_sub_cancel' h]
    exact Nat.mod_eq_of_lt hx
  · refine ⟨x + n - p, by omega, ?_⟩
    have : p + (x + n - p) = x + n := by omega
    rw [this, Nat.add_mod_right]
    exact Nat.mod_eq_of_lt hx

/-- C11: starting from the all-zero buffers of a new queue, after any sequence
of recorded wait times (for any teams and brackets, with any values) of which
fewer than `COUNT_OF_PLAYERS_TO_AVERAGE_WAIT_TIME` are for one team and bracket,
the average wait time reported for that team and bracket is 0. -/
theorem BattleGroundQueue.averageWaitTime_warmup (c : Consts) (samples : List WaitSample)
    (team_index bracket_id : Nat)
    (hN : c.COUNT_OF_PLAYERS_TO_AVERAGE_WAIT_TIME ≤ UINT32_MOD)
    (h : samplesFor team_index bracket_id samples < c.COUNT_OF_PLAYERS_TO_AVERAGE_WAIT_TIME) :
    (BattleGroundQueue.recordAll c samples BattleGroundQueue.new).averageWaitTime c team_index
      bracket_id = 0 := by
  unfold BattleGroundQueue.averageWaitTime
  rw [recordAll_warmup c team_index bracket_id hN samples BattleGroundQueue.new 0 rfl
    (fun _ _ => rfl) (by omega)]
  simp

theorem BattleGroundQueue.averageWaitTime_warmup_witness :
    (BattleGroundQueue.recordAll sampleConsts
      [⟨0, 1, 500⟩, ⟨1, 1, 70⟩, ⟨0, 1, 900⟩, ⟨0, 1, 20⟩, ⟨0, 1, 4000⟩, ⟨0, 1, 1⟩, ⟨0, 1, 60000⟩,
        ⟨0, 1, 333⟩, ⟨0, 1, 1000⟩, ⟨0, 1, 42⟩]
      BattleGroundQueue.new).averageWaitTime sampleConsts 0 1 = 0 :=
  BattleGroundQueue.averageWaitTime_warmup sampleConsts _ 0 1 (by decide) (by decide)

/-- C12, counterexample: with ten slots, ten wait times 4294967295 in a row make
the `uint32` sum wrap to 4294967286, and the average reported is 429496728. -/
theorem BattleGroundQueue.averageWaitTime_refill_counterexample :
    (BattleGroundQueue.recordAll sampleConsts (List.replicate 10 ⟨0, 1, 4294967295⟩)
      BattleGroundQueue.new).averageWaitTime sampleConsts 0 1 = 429496728 := by
  decide

/-- C12, amended: for every value `v` with
`COUNT_OF_PLAYERS_TO_AVERAGE_WAIT_TIME * v < 2^32` and every state reached by
recording wait times, after `COUNT_OF_PLAYERS_TO_AVERAGE_WAIT_TIME` wait times
`v` in a row for one team and bracket the average reported for that team and
bracket is `v`. -/
theorem BattleGroundQueue.averageWaitTime_refill (c : Consts) (prior : List WaitSample)
    (team_index bracket_id v : Nat) (hN : 0 < c.COUNT_OF_PLAYERS_TO_AVERAGE_WAIT_TIME)
    (hN2 : c.COUNT_OF_PLAYERS_TO_AVERAGE_WAIT_TIME ≤ UINT32_MOD)
    (hv : c.COUNT_OF_PLAYERS_TO_AVERAGE_WAIT_TIME * v < UINT32_MOD) :
    (BattleGroundQueue.recordAll c
      (List.replicate c.COUNT_OF_PLAYERS_TO_AVERAGE_WAIT_TIME ⟨team_index, bracket_id, v⟩)
      (BattleGroundQueue.recordAll c prior BattleGroundQueue.new)).averageWaitTime c team_index
        bracket_id = v := by
  unfold UINT32_MOD at hN2 hv
  have hok0 := recordAll_trackerOk c team_index bracket_id hN prior _
    (TrackerOk_new c team_index bracket_id hN)
  generalize BattleGroundQueue.recordAll c prior BattleGroundQueue.new = q0 at hok0
  obtain ⟨-, hfill⟩ := recordAll_replicate c team_index bracket_id v hN hN2 q0 hok0.1
    c.COUNT_OF_PLAYERS_TO_AVERAGE_WAIT_TIME
  obtain ⟨-, hs1, hs2⟩ := recordAll_trackerOk c team_index bracket_id hN
    (List.replicate c.COUNT_OF_PLAYERS_TO_AVERAGE_WAIT_TIME ⟨team_index, bracket_id, v⟩) q0 hok0
  generalize BattleGroundQueue.recordAll c
    (List.replicate c.COUNT_OF_PLAYERS_TO_AVERAGE_WAIT_TIME ⟨team_index, bracket_id, v⟩) q0 = q1
    at hfill hs1 hs2
  have hall : ∀ x, x < c.COUNT_OF_PLAYERS_TO_AVERAGE_WAIT_TIME →
      q1.m_WaitTimes team_index bracket_id x = v := by
    intro x hx
    obtain ⟨i, hi, e⟩ := mod_cover _ x _ hok0.1 hx
    rw [← e]
    exact hfill i hi
  rw [sumSlots_const _ v _ hall] at hs2
  have hsum : q1.m_SumOfWaitTimes team_index bracket_id =
      c.COUNT_OF_PLAYERS_TO_AVERAGE_WAIT_TIME * v := by
    rw [Nat.mod_eq_of_lt hs1, Nat.mod_eq_of_lt hv] at hs2
    exact hs2
  unfold BattleGroundQueue.averageWaitTime
  rw [hall _ (by omega), hsum]
  by_cases hv0 : v = 0
  · simp [hv0]
  · rw [if_pos hv0]
    exact Nat.mul_div_cancel_left v hN

theorem BattleGroundQueue.averageWaitTime_refill_witness :
    (BattleGroundQueue.recordAll sampleConsts
      (List.replicate sampleConsts.COUNT_OF_PLAYERS_TO_AVERAGE_WAIT_TIME ⟨0, 1, 45000⟩)
      (BattleGroundQueue.recordAll sampleConsts [⟨0, 1, 500⟩, ⟨1, 1, 70⟩, ⟨0, 1, 900⟩]
        BattleGroundQueue.new)).averageWaitTime sampleConsts 0 1 = 45000 :=
  BattleGroundQueue.averageWaitTime_refill sampleConsts _ 0 1 45000 (by decide) (by decide)
    (by decide)

/-- C20, counterexample: `InviteGroupToBG` for the invited Horde group of
`oneInvitedGroup` with the Alliance as the side returns false and leaves the
group with the Alliance as its team. -/
theorem BattleGroundQueue.InviteGroupToBG_invited_counterexample :
    (BattleGroundQueue.oneInvitedGroup.m_Groups 0).IsInvitedToBGInstanceGUID = 5 ∧
    (BattleGroundQueue.oneInvitedGroup.m_Groups 0).GroupTeam = Team.HORDE ∧
    (BattleGroundQueue.oneInvitedGroup.InviteGroupToBG sampleConsts 1000 (fun _ => true) 0
      BattleGround.sample (some Team.ALLIANCE)).1 = false ∧
    ((BattleGroundQueue.oneInvitedGroup.InviteGroupToBG sampleConsts 1000 (fun _ => true) 0
      BattleGround.sample (some Team.ALLIANCE)).2.2.1.m_Groups 0).GroupTeam = Team.ALLIANCE := by
  decide

/-- C20, amended: for every group that is already invited and every value of
the side, `InviteGroupToBG` returns false, sends nothing, and leaves the
battleground with its invited counters and the queue with its wait-time buffers
unchanged; of the group records only the team of the group can change, to the
side when one is given; with no side, or with the team of the group as the
side, the queue is unchanged. -/
theorem BattleGroundQueue.InviteGroupToBG_invited (c : Consts) (q : BattleGroundQueue) (now : Nat)
    (online : ObjectGuid → Bool) (ginfo : GroupPtr) (bg : BattleGround) (side : Option Team)
    (h : (q.m_Groups ginfo).IsInvitedToBGInstanceGUID ≠ 0) :
    (q.InviteGroupToBG c now online ginfo bg side).1 = false ∧
    (q.InviteGroupToBG c now online ginfo bg side).2.1 = bg ∧
    (q.InviteGroupToBG c now online ginfo bg side).2.2.2 = [] ∧
    (q.InviteGroupToBG c now online ginfo bg side).2.2.1 = q.setSide ginfo side ∧
    (q.setSide ginfo side).m_WaitTimes = q.m_WaitTimes ∧
    (q.setSide ginfo side).m_SumOfWaitTimes = q.m_SumOfWaitTimes ∧
    (q.setSide ginfo side).m_WaitTimeLastPlayer = q.m_WaitTimeLastPlayer ∧
    (q.setSide ginfo side).m_QueuedPlayers = q.m_QueuedPlayers ∧
    (q.setSide ginfo side).m_QueuedGroups = q.m_QueuedGroups ∧
    (∀ p, p ≠ ginfo → (q.setSide ginfo side).m_Groups p = q.m_Groups p) ∧
    ((q.setSide ginfo side).m_Groups ginfo =
      { q.m_Groups ginfo with
        GroupTeam := match side with
          | none => (q.m_Groups ginfo).GroupTeam
          | some team => team }) ∧
    ((side = none ∨ side = some (q.m_Groups ginfo).GroupTeam) → q.setSide ginfo side = q) := by
  have hinv : ((q.setSide ginfo side).m_Groups ginfo).IsInvitedToBGInstanceGUID ≠ 0 := by
    cases side with
    | none => exact h
    | some team => simpa [BattleGroundQueue.setSide] using h
  unfold BattleGroundQueue.InviteGroupToBG
  rw [if_neg hinv]
  refine ⟨rfl, rfl, rfl, rfl, ?_, ?_, ?_, ?_, ?_, ?_, ?_, ?_⟩
  · cases side <;> rfl
  · cases side <;> rfl
  · cases side <;> rfl
  · cases side <;> rfl
  · cases side <;> rfl
  · intro p hp
    cases side with
    | none => rfl
    | some team => simp [BattleGroundQueue.setSide, hp]
  · cases side with
    | none => rfl
    | some team => simp [BattleGroundQueue.setSide]
  · rintro (rfl | rfl)
    · rfl
    · simp only [BattleGroundQueue.setSide]
      have : (fun p => if p = ginfo then
          { q.m_Groups ginfo with GroupTeam := (q.m_Groups ginfo).GroupTeam }
          else q.m_Groups p) = q.m_Groups := by
        funext p
        by_cases hp : p = ginfo
        · rw [if_pos hp, hp]
        · rw [if_neg hp]
      rw [this]

theorem BattleGroundQueue.InviteGroupToBG_invited_witness :
    (BattleGroundQueue.oneInvitedGroup.InviteGroupToBG sampleConsts 1000 (fun _ => true) 0
        BattleGround.sample (some Team.ALLIANCE)).1 = false ∧
      (BattleGroundQueue.oneInvitedGroup.InviteGroupToBG sampleConsts 1000 (fun _ => true) 0
        BattleGround.sample (some Team.ALLIANCE)).2.1 = BattleGround.sample :=
  ⟨(BattleGroundQueue.InviteGroupToBG_invited sampleConsts BattleGroundQueue.oneInvitedGroup 1000
      (fun _ => true) 0 BattleGround.sample (some Team.ALLIANCE) (by decide)).1,
   (BattleGroundQueue.InviteGroupToBG_invited sampleConsts BattleGroundQueue.oneInvitedGroup 1000
      (fun _ => true) 0 BattleGround.sample (some Team.ALLIANCE) (by decide)).2.1⟩

/-! ## Passes of the balancing loop -/

/-- The balancing loop is the repetition of its pass. -/
theorem balance_succ (groups : GroupStore) (hordeFree aliFree : Int) (fuel : Nat) (s : FillState) :
    FillPlayersToBG.balance groups hordeFree aliFree (fuel + 1) s =
      match FillPlayersToBG.pass groups hordeFree aliFree s with
      | PassResult.done => some s
      | PassResult.broke s1 => some s1
      | PassResult.again s1 => FillPlayersToBG.balance groups hordeFree aliFree fuel s1
      | PassResult.undefined => none := by
  rw [FillPlayersToBG.balance]
  unfold FillPlayersToBG.pass
  simp only
  by_cases h1 : absInt32 (toInt32 (FillPlayersToBG.diff aliFree s.ali -
      FillPlayersToBG.diff hordeFree s.horde)) > 1 ∧
      (s.horde.GetPlayerCount > 0 ∨ s.ali.GetPlayerCount > 0)
  · simp only [h1, and_self, if_true]
    by_cases h2 : FillPlayersToBG.diff aliFree s.ali < FillPlayersToBG.diff hordeFree s.horde
    · simp only [h2, if_true]
      cases s.ali.KickGroup groups (toUInt32 (FillPlayersToBG.diff hordeFree s.horde -
          FillPlayersToBG.diff aliFree s.ali)) with
      | none => rfl
      | some r =>
        simp only
        by_cases h3 : (if r.1 = true then
            FillPlayersToBG.addLoop groups
              (FillPlayersToBG.budget aliFree (FillPlayersToBG.diff hordeFree s.horde)) s.Ali_itr r.2
            else (s.Ali_itr, r.2)).2.GetPlayerCount = 0
        · simp only [h3, if_true]
          by_cases h4 : aliFree ≤ toInt32 (FillPlayersToBG.diff hordeFree s.horde + 1)
          · simp only [h4, if_true]
          · simp only [h4, if_false]
            cases s.horde.KickGroup groups (toUInt32 (FillPlayersToBG.diff hordeFree s.horde -
                FillPlayersToBG.diff aliFree s.ali)) with
            | none => rfl
            | some r2 => rfl
        · simp only [h3, if_false]
    · simp only [h2, if_false]
      cases s.horde.KickGroup groups (toUInt32 (FillPlayersToBG.diff aliFree s.ali -
          FillPlayersToBG.diff hordeFree s.horde)) with
      | none => rfl
      | some r =>
        simp only
        by_cases h3 : (if r.1 = true then
            FillPlayersToBG.addLoop groups
              (FillPlayersToBG.budget hordeFree (FillPlayersToBG.diff aliFree s.ali)) s.Horde_itr r.2
            else (s.Horde_itr, r.2)).2.GetPlayerCount = 0
        · simp only [h3, if_true]
          by_cases h4 : hordeFree ≤ toInt32 (FillPlayersToBG.diff aliFree s.ali + 1)
          · simp only [h4, if_true]
          · simp only [h4, if_false]
            cases s.ali.KickGroup groups (toUInt32 (FillPlayersToBG.diff aliFree s.ali -
                FillPlayersToBG.diff hordeFree s.horde)) with
            | none => rfl
            | some r2 => rfl
        · simp only [h3, if_false]
  · simp only [h1, if_false]

theorem AddGroup_list (groups : GroupStore) (pool : SelectionPool) (ginfo : GroupPtr)
    (desiredCount : Nat) :
    (pool.AddGroup groups ginfo desiredCount).2.SelectedGroups = pool.SelectedGroups ∨
      (pool.AddGroup groups ginfo desiredCount).2.SelectedGroups = pool.SelectedGroups ++ [ginfo] := by
  unfold SelectionPool.AddGroup
  split
  · exact Or.inr rfl
  · split <;> exact Or.inl rfl

/-- The refill loop moves the iterator over a part of the bucket and appends to
the pool some of the groups it moved over, in their order. -/
theorem addLoop_lists (groups : GroupStore) (desiredCount : Nat) (itr : List GroupPtr)
    (pool : SelectionPool) :
    ∃ consumed added,
      itr = consumed ++ (FillPlayersToBG.addLoop groups desiredCount itr pool).1 ∧
      (FillPlayersToBG.addLoop groups desiredCount itr pool).2.SelectedGroups =
        pool.SelectedGroups ++ added ∧
      added.Sublist consumed := by
  induction itr generalizing pool with
  | nil => exact ⟨[], [], rfl, by simp [FillPlayersToBG.addLoop], List.Sublist.refl _⟩
  | cons g rest ih =>
    unfold FillPlayersToBG.addLoop
    by_cases ht : (pool.AddGroup groups g desiredCount).1 = true
    · rw [if_pos ht]
      obtain ⟨consumed, added, h1, h2, h3⟩ := ih (pool.AddGroup groups g desiredCount).2
      rcases AddGroup_list groups pool g desiredCount with e | e
      · refine ⟨g :: consumed, added, ?_, ?_, ?_⟩
        · rw [List.cons_append, ← h1]
        · rw [h2, e]
        · exact List.Sublist.cons _ h3
      · refine ⟨g :: consumed, g :: added, ?_, ?_, ?_⟩
        · rw [List.cons_append, ← h1]
        · rw [h2, e]
          simp
        · exact List.Sublist.cons₂ _ h3
    · rw [if_neg ht, AddGroup_false groups pool g desiredCount ht]
      exact ⟨[], [], rfl, by simp, List.Sublist.refl _⟩

theorem addLoop_zero (groups : GroupStore) (itr : List GroupPtr) (pool : SelectionPool)
    (h : pool.PlayerCount = 0) :
    (FillPlayersToBG.addLoop groups 0 itr pool).2.PlayerCount = 0 := by
  induction itr generalizing pool with
  | nil => exact h
  | cons g rest ih =>
    unfold FillPlayersToBG.addLoop
    have hc : (pool.AddGroup groups g 0).2.PlayerCount = 0 := by
      have := AddGroup_count_le_max groups pool g 0 0 (by omega) (le_refl 0)
      omega
    split
    · exact ih _ hc
    · exact hc

theorem budget_zero (free d : Int) (h : free < d) : FillPlayersToBG.budget free d = 0 := by
  unfold FillPlayersToBG.budget
  rw [if_neg (by omega)]
  rfl

/-- The list `KickGroup` leaves: one group is taken out of a pool that counts
players. -/
theorem KickGroup_lists (groups : GroupStore) (pool pool1 : SelectionPool) (size : Nat)
    (again : Bool) (hs : pool.Sound groups)
    (hk : pool.KickGroup groups size = some (again, pool1)) (h0 : pool.PlayerCount ≠ 0) :
    Kicked pool.SelectedGroups pool1.SelectedGroups := by
  unfold SelectionPool.KickGroup SelectionPool.GetPlayerCount at hk
  cases hl : pool.SelectedGroups with
  | nil =>
    exfalso
    apply h0
    unfold SelectionPool.Sound at hs
    rw [hs, hl]
    rfl
  | cons g rest =>
    rw [hl] at hk
    simp only [ne_eq, h0, not_false_eq_true, if_true] at hk
    have hget := scan_getElem groups size (g :: rest) [] (0, g) false (by simp)
    simp only [List.nil_append, List.length_nil] at hget
    generalize SelectionPool.KickGroup.scan groups size (g :: rest) 0 (0, g) false = k at hk hget
    have hlt : k.1 < (g :: rest).length := by
      by_contra hn
      rw [List.getElem?_eq_none (by omega)] at hget
      cases hget
    refine ⟨k.1, hlt, ?_⟩
    split at hk
    · cases hk
      rfl
    · cases hk
      rfl

/-- The kicked side of a pass: what `KickGroup` and the refill loop leave. -/
theorem kick_refill_lists (groups : GroupStore) (X : SelectionPool) (itr : List GroupPtr)
    (target budget B : Nat) (hS : X.Sound groups) (hXB : X.PlayerCount ≤ B) (hB : B < 2147483648)
    (hbud : budget ≤ B) (hzero : X.PlayerCount = 0 → budget = 0) :
    ∃ again X1, X.KickGroup groups target = some (again, X1) ∧
      (if again = true then FillPlayersToBG.addLoop groups budget itr X1 else (itr, X1)).2.Sound
        groups ∧
      (if again = true then FillPlayersToBG.addLoop groups budget itr X1
        else (itr, X1)).2.PlayerCount ≤ B ∧
      (X.PlayerCount = 0 →
        (if again = true then FillPlayersToBG.addLoop groups budget itr X1
          else (itr, X1)).2.PlayerCount = 0) ∧
      ∃ consumed added mid,
        itr = consumed ++
          (if again = true then FillPlayersToBG.addLoop groups budget itr X1 else (itr, X1)).1 ∧
        (if again = true then FillPlayersToBG.addLoop groups budget itr X1
          else (itr, X1)).2.SelectedGroups = mid ++ added ∧
        added.Sublist consumed ∧
        (mid = X.SelectedGroups ∨ Kicked X.SelectedGroups mid) ∧
        (X.PlayerCount ≠ 0 → Kicked X.SelectedGroups mid) := by
  obtain ⟨again, X1, hk, k1, k2, k3, -⟩ := KickGroup_spec groups X target hS (by omega)
  have hkl := KickGroup_lists groups X X1 target again hS hk
  have hmid : X1.SelectedGroups = X.SelectedGroups ∨ Kicked X.SelectedGroups X1.SelectedGroups := by
    by_cases h0 : X.PlayerCount = 0
    · exact Or.inl (by rw [(k3 h0).2])
    · exact Or.inr (hkl h0)
  refine ⟨again, X1, hk, ?_⟩
  by_cases ha : again = true
  · simp only [ha, if_true]
    obtain ⟨a1, a2, -⟩ := addLoop_spec groups budget B (by omega) hbud itr X1 k1 (by omega)
    obtain ⟨consumed, added, l1, l2, l3⟩ := addLoop_lists groups budget itr X1
    refine ⟨a1, a2, ?_, consumed, added, X1.SelectedGroups, l1, l2, l3, hmid, hkl⟩
    intro h0
    rw [hzero h0]
    apply addLoop_zero
    rw [(k3 h0).2]
    exact h0
  · have h0 : X.PlayerCount ≠ 0 := fun h => ha (k3 h).1
    simp only [ha, Bool.false_eq_true, if_false]
    refine ⟨k1, by omega, fun h => absurd h h0, [], [], X1.SelectedGroups, rfl, by simp,
      List.Sublist.refl _, hmid, hkl⟩

/-- A pass of the balancing loop from a good state never dereferences an end
iterator, and when the loop goes on the next state is good and the pass made
progress. -/
theorem pass_progress (groups : GroupStore) (hordeFree aliFree : Int)
    (hA : 0 ≤ aliFree) (hA2 : aliFree < 2147483648) (hH : 0 ≤ hordeFree)
    (hH2 : hordeFree < 2147483648) (s : FillState) (hg : s.Good groups hordeFree aliFree) :
    FillPlayersToBG.pass groups hordeFree aliFree s ≠ PassResult.undefined ∧
    ∀ s1, FillPlayersToBG.pass groups hordeFree aliFree s = PassResult.again s1 →
      s1.Good groups hordeFree aliFree ∧ s.Progress s1 := by
  obtain ⟨gA, gH, cA, cH⟩ := hg
  unfold FillPlayersToBG.pass
  simp only
  rw [diff_eq aliFree s.ali hA hA2 cA, diff_eq hordeFree s.horde hH hH2 cH]
  by_cases hcond0 : absInt32 (toInt32 (aliFree - (s.ali.PlayerCount : Int) -
      (hordeFree - (s.horde.PlayerCount : Int)))) > 1 ∧
      (s.horde.GetPlayerCount > 0 ∨ s.ali.GetPlayerCount > 0)
  · rw [if_pos hcond0]
    have hcond : (toInt32 (aliFree - (s.ali.PlayerCount : Int) -
        (hordeFree - (s.horde.PlayerCount : Int)))).natAbs > 1 ∧
        (s.horde.GetPlayerCount > 0 ∨ s.ali.GetPlayerCount > 0) := by
      refine ⟨?_, hcond0.2⟩
      have h1 := hcond0.1
      rw [abs_balance aliFree hordeFree _ _ hA hA2 hH hH2 cA cH] at h1
      rw [toInt32_eq_self _ (by omega) (by omega)]
      omega
    unfold SelectionPool.GetPlayerCount at hcond
    by_cases hlt : aliFree - (s.ali.PlayerCount : Int) < hordeFree - (s.horde.PlayerCount : Int)
    · rw [if_pos hlt]
      obtain ⟨again, X1, hk, r1, r2, r3, consumed, added, mid, l1, l2, l3, l4, l5⟩ :=
        kick_refill_lists groups s.ali s.Ali_itr
          (toUInt32 (hordeFree - (s.horde.PlayerCount : Int) - (aliFree - (s.ali.PlayerCount : Int))))
          (FillPlayersToBG.budget aliFree (hordeFree - (s.horde.PlayerCount : Int)))
          aliFree.toNat gA (by omega) (by omega) (budget_le _ _ hA hA2 (by omega))
          (fun h0 => budget_zero _ _ (by omega))
      rw [hk]
      simp only
      generalize (if again = true then
        FillPlayersToBG.addLoop groups
          (FillPlayersToBG.budget aliFree (hordeFree - (s.horde.PlayerCount : Int))) s.Ali_itr X1
        else (s.Ali_itr, X1)) = refill at *
      unfold SelectionPool.GetPlayerCount
      by_cases hz : refill.2.PlayerCount = 0
      · rw [if_pos hz]
        split
        · exact ⟨(fun h => by cases h), (fun s1 h => by cases h)⟩
        · obtain ⟨again2, Y1, hk2, y1, y2, y3, -⟩ := KickGroup_spec groups s.horde
            (toUInt32 (hordeFree - (s.horde.PlayerCount : Int) - (aliFree - (s.ali.PlayerCount : Int))))
            gH (by omega)
          have hkl2 := KickGroup_lists groups s.horde Y1 _ again2 gH hk2
          rw [hk2]
          simp only
          refine ⟨(fun h => by cases h), ?_⟩
          intro s1 h
          cases h
          refine ⟨⟨r1, y1, (by show (refill.2.PlayerCount : Int) ≤ aliFree; omega),
            (by show (Y1.PlayerCount : Int) ≤ hordeFree; omega)⟩, ?_⟩
          refine ⟨consumed, [], added, [], mid, Y1.SelectedGroups, l1, by simp, l3,
            List.Sublist.refl _, l2, by simp, l4, ?_, ?_⟩
          · by_cases hh0 : s.horde.PlayerCount = 0
            · exact Or.inl (by rw [(y3 hh0).2])
            · exact Or.inr (hkl2 hh0)
          · by_cases ha0 : s.ali.PlayerCount = 0
            · exact Or.inr (hkl2 (by omega))
            · exact Or.inl (l5 ha0)
      · rw [if_neg hz]
        refine ⟨(fun h => by cases h), ?_⟩
        intro s1 h
        cases h
        refine ⟨⟨r1, gH, (by show (refill.2.PlayerCount : Int) ≤ aliFree; omega), cH⟩, ?_⟩
        refine ⟨consumed, [], added, [], mid, s.horde.SelectedGroups, l1, by simp, l3,
          List.Sublist.refl _, l2, by simp, l4, Or.inl rfl, Or.inl (l5 (fun h0 => hz (r3 h0)))⟩
    · rw [if_neg hlt]
      obtain ⟨again, X1, hk, r1, r2, r3, consumed, added, mid, l1, l2, l3, l4, l5⟩ :=
        kick_refill_lists groups s.horde s.Horde_itr
          (toUInt32 (aliFree - (s.ali.PlayerCount : Int) - (hordeFree - (s.horde.PlayerCount : Int))))
          (FillPlayersToBG.budget hordeFree (aliFree - (s.ali.PlayerCount : Int)))
          hordeFree.toNat gH (by omega) (by omega) (budget_le _ _ hH hH2 (by omega))
          (fun h0 => budget_zero _ _ (by
            have := hcond.1
            rw [toInt32_eq_self _ (by omega) (by omega)] at this
            omega))
      rw [hk]
      simp only
      generalize (if again = true then
        FillPlayersToBG.addLoop groups
          (FillPlayersToBG.budget hordeFree (aliFree - (s.ali.PlayerCount : Int))) s.Horde_itr X1
        else (s.Horde_itr, X1)) = refill at *
      unfold SelectionPool.GetPlayerCount
      by_cases hz : refill.2.PlayerCount = 0
      · rw [if_pos hz]
        split
        · exact ⟨(fun h => by cases h), (fun s1 h => by cases h)⟩
        · obtain ⟨again2, Y1, hk2, y1, y2, y3, -⟩ := KickGroup_spec groups s.ali
            (toUInt32 (aliFree - (s.ali.PlayerCount : Int) - (hordeFree - (s.horde.PlayerCount : Int))))
            gA (by omega)
          have hkl2 := KickGroup_lists groups s.ali Y1 _ again2 gA hk2
          rw [hk2]
          simp only
          refine ⟨(fun h => by cases h), ?_⟩
          intro s1 h
          cases h
          refine ⟨⟨y1, r1, (by show (Y1.PlayerCount : Int) ≤ aliFree; omega),
            (by show (refill.2.PlayerCount : Int) ≤ hordeFree; omega)⟩, ?_⟩
          refine ⟨[], consumed, [], added, Y1.SelectedGroups, mid, by simp, l1,
            List.Sublist.refl _, l3, by simp, l2, ?_, l4, ?_⟩
          · by_cases ha0 : s.ali.PlayerCount = 0
            · exact Or.inl (by rw [(y3 ha0).2])
            · exact Or.inr (hkl2 ha0)
          · by_cases hh0 : s.horde.PlayerCount = 0
            · exact Or.inl (hkl2 (by omega))
            · exact Or.inr (l5 hh0)
      · rw [if_neg hz]
        refine ⟨(fun h => by cases h), ?_⟩
        intro s1 h
        cases h
        refine ⟨⟨gA, r1, cA, (by show (refill.2.PlayerCount : Int) ≤ hordeFree; omega)⟩, ?_⟩
        refine ⟨[], consumed, [], added, s.ali.SelectedGroups, mid, by simp, l1,
          List.Sublist.refl _, l3, by simp, l2, Or.inl rfl, l4,
          Or.inr (l5 (fun h0 => hz (r3 h0)))⟩
  · rw [if_neg hcond0]
    exact ⟨(fun h => by cases h), (fun s1 h => by cases h)⟩

/-- How a pass leaves the loop: with a false condition, or by `break` with the
pool of the kicked side empty. -/
theorem pass_exit (groups : GroupStore) (hordeFree aliFree : Int) (s : FillState) :
    (FillPlayersToBG.pass groups hordeFree aliFree s = PassResult.done →
      ¬ (absInt32 (toInt32 (FillPlayersToBG.diff aliFree s.ali -
          FillPlayersToBG.diff hordeFree s.horde)) > 1 ∧
        (s.horde.PlayerCount > 0 ∨ s.ali.PlayerCount > 0))) ∧
    ∀ s2, FillPlayersToBG.pass groups hordeFree aliFree s = PassResult.broke s2 →
      s2.ali.PlayerCount = 0 ∨ s2.horde.PlayerCount = 0 := by
  unfold FillPlayersToBG.pass
  simp only
  by_cases h1 : absInt32 (toInt32 (FillPlayersToBG.diff aliFree s.ali -
      FillPlayersToBG.diff hordeFree s.horde)) > 1 ∧
      (s.horde.GetPlayerCount > 0 ∨ s.ali.GetPlayerCount > 0)
  · simp only [h1, and_self, if_true]
    by_cases h2 : FillPlayersToBG.diff aliFree s.ali < FillPlayersToBG.diff hordeFree s.horde
    · simp only [h2, if_true]
      cases s.ali.KickGroup groups (toUInt32 (FillPlayersToBG.diff hordeFree s.horde -
          FillPlayersToBG.diff aliFree s.ali)) with
      | none => exact ⟨(fun h => by cases h), (fun s2 h => by cases h)⟩
      | some r =>
        simp only
        by_cases h3 : (if r.1 = true then
            FillPlayersToBG.addLoop groups
              (FillPlayersToBG.budget aliFree (FillPlayersToBG.diff hordeFree s.horde)) s.Ali_itr r.2
            else (s.Ali_itr, r.2)).2.GetPlayerCount = 0
        · simp only [h3, if_true]
          by_cases h4 : aliFree ≤ toInt32 (FillPlayersToBG.diff hordeFree s.horde + 1)
          · simp only [h4, if_true]
            refine ⟨(fun h => by cases h), ?_⟩
            intro s2 h
            cases h
            exact Or.inl h3
          · simp only [h4, if_false]
            cases s.horde.KickGroup groups (toUInt32 (FillPlayersToBG.diff hordeFree s.horde -
                FillPlayersToBG.diff aliFree s.ali)) with
            | none => exact ⟨(fun h => by cases h), (fun s2 h => by cases h)⟩
            | some r2 => exact ⟨(fun h => by cases h), (fun s2 h => by cases h)⟩
        · simp only [h3, if_false]
          exact ⟨(fun h => by cases h), (fun s2 h => by cases h)⟩
    · simp only [h2, if_false]
      cases s.horde.KickGroup groups (toUInt32 (FillPlayersToBG.diff aliFree s.ali -
          FillPlayersToBG.diff hordeFree s.horde)) with
      | none => exact ⟨(fun h => by cases h), (fun s2 h => by cases h)⟩
      | some r =>
        simp only
        by_cases h3 : (if r.1 = true then
            FillPlayersToBG.addLoop groups
              (FillPlayersToBG.budget hordeFree (FillPlayersToBG.diff aliFree s.ali)) s.Horde_itr r.2
            else (s.Horde_itr, r.2)).2.GetPlayerCount = 0
        · simp only [h3, if_true]
          by_cases h4 : hordeFree ≤ toInt32 (FillPlayersToBG.diff aliFree s.ali + 1)
          · simp only [h4, if_true]
            refine ⟨(fun h => by cases h), ?_⟩
            intro s2 h
            cases h
            exact Or.inr h3
          · simp only [h4, if_false]
            cases s.ali.KickGroup groups (toUInt32 (FillPlayersToBG.diff aliFree s.ali -
                FillPlayersToBG.diff hordeFree s.horde)) with
            | none => exact ⟨(fun h => by cases h), (fun s2 h => by cases h)⟩
            | some r2 => exact ⟨(fun h => by cases h), (fun s2 h => by cases h)⟩
        · simp only [h3, if_false]
          exact ⟨(fun h => by cases h), (fun s2 h => by cases h)⟩
  · simp only [h1, if_false]
    exact ⟨(fun _ => h1), (fun s2 h => by cases h)⟩

/-- A state the balancing loop returns: the free slots left differ by at most
one between the factions, or a pool counts no player. -/
theorem balance_exit (groups : GroupStore) (hordeFree aliFree : Int) (fuel : Nat)
    (s s1 : FillState) (h : FillPlayersToBG.balance groups hordeFree aliFree fuel s = some s1) :
    absInt32 (toInt32 (FillPlayersToBG.diff aliFree s1.ali -
        FillPlayersToBG.diff hordeFree s1.horde)) ≤ 1 ∨
      s1.ali.PlayerCount = 0 ∨ s1.horde.PlayerCount = 0 := by
  induction fuel generalizing s with
  | zero => simp [FillPlayersToBG.balance] at h
  | succ fuel ih =>
    rw [balance_succ] at h
    obtain ⟨e1, e2⟩ := pass_exit groups hordeFree aliFree s
    cases hp : FillPlayersToBG.pass groups hordeFree aliFree s with
    | undefined =>
      rw [hp] at h
      cases h
    | again s2 =>
      rw [hp] at h
      exact ih s2 h
    | done =>
      rw [hp] at h
      cases h
      have hc := e1 hp
      by_cases hn : absInt32 (toInt32 (FillPlayersToBG.diff aliFree s1.ali -
          FillPlayersToBG.diff hordeFree s1.horde)) ≤ 1
      · exact Or.inl hn
      · right
        left
        by_contra h0
        exact hc ⟨by omega, Or.inr (by omega)⟩
    | broke s2 =>
      rw [hp] at h
      cases h
      exact Or.inr (e2 _ hp)

/-- C18: with the invitation-fairness mode on, non-negative free slots and both
pools empty at entry, `FillPlayersToBG` returns (its balancing loop given more
passes than twice the number of groups in the two normal buckets) in a state
where the free slots of the Alliance minus its pool count and the free slots of
the Horde minus its pool count differ by at most 1, unless one of the two pools
ended without players. -/
theorem BattleGroundQueue.FillPlayersToBG_balanced (q : BattleGroundQueue)
    (hordeFree aliFree : Int) (invitationType bracket_id fuel : Nat)
    (hA : 0 ≤ aliFree) (hA2 : aliFree < 2147483648) (hH : 0 ≤ hordeFree)
    (hH2 : hordeFree < 2147483648)
    (hpA : q.m_SelectionPools TEAM_INDEX_ALLIANCE = SelectionPool.Init)
    (hpH : q.m_SelectionPools TEAM_INDEX_HORDE = SelectionPool.Init)
    (hfuel : 2 * ((q.m_QueuedGroups bracket_id BG_QUEUE_NORMAL_ALLIANCE).length +
      (q.m_QueuedGroups bracket_id BG_QUEUE_NORMAL_HORDE).length) < fuel)
    (hinv : invitationType ≠ 0) :
    ∃ q', q.FillPlayersToBG hordeFree aliFree invitationType bracket_id fuel = some q' ∧
      (((aliFree - ((q'.m_SelectionPools TEAM_INDEX_ALLIANCE).PlayerCount : Int)) -
          (hordeFree - ((q'.m_SelectionPools TEAM_INDEX_HORDE).PlayerCount : Int))).natAbs ≤ 1 ∨
        (q'.m_SelectionPools TEAM_INDEX_ALLIANCE).PlayerCount = 0 ∨
        (q'.m_SelectionPools TEAM_INDEX_HORDE).PlayerCount = 0) := by
  obtain ⟨hgood, hm⟩ := fillFirst_good q hordeFree aliFree bracket_id hA hA2 hH hH2 hpA hpH
  obtain ⟨s1, e, -, -, b3, b4⟩ := balance_terminates q.m_Groups hordeFree aliFree hA hA2 hH hH2
    fuel (q.fillFirst hordeFree aliFree bracket_id) hgood (by omega)
  have hexit := balance_exit q.m_Groups hordeFree aliFree fuel _ s1 e
  rw [diff_eq aliFree s1.ali hA hA2 b3, diff_eq hordeFree s1.horde hH hH2 b4,
    abs_balance aliFree hordeFree _ _ hA hA2 hH hH2 b3 b4] at hexit
  have hexit2 : ((aliFree - (s1.ali.PlayerCount : Int)) -
      (hordeFree - (s1.horde.PlayerCount : Int))).natAbs ≤ 1 ∨
      s1.ali.PlayerCount = 0 ∨ s1.horde.PlayerCount = 0 := by
    rcases hexit with h | h
    · left
      omega
    · exact Or.inr h
  unfold BattleGroundQueue.FillPlayersToBG
  simp only
  rw [if_neg hinv, e]
  exact ⟨_, rfl, hexit2⟩

theorem BattleGroundQueue.FillPlayersToBG_balanced_witness :
    ∃ q', BattleGroundQueue.oneGroup.FillPlayersToBG 4 5 1 3 3 = some q' ∧
      ((((5 : Int) - ((q'.m_SelectionPools TEAM_INDEX_ALLIANCE).PlayerCount : Int)) -
          (4 - ((q'.m_SelectionPools TEAM_INDEX_HORDE).PlayerCount : Int))).natAbs ≤ 1 ∨
        (q'.m_SelectionPools TEAM_INDEX_ALLIANCE).PlayerCount = 0 ∨
        (q'.m_SelectionPools TEAM_INDEX_HORDE).PlayerCount = 0) :=
  BattleGroundQueue.FillPlayersToBG_balanced BattleGroundQueue.oneGroup 4 5 1 3 3
    (by decide) (by decide) (by decide) (by decide) rfl rfl (by decide) (by decide)

/-- C19: for non-negative free slots and pools empty at entry, the balancing
loop of `FillPlayersToBG` terminates (it returns whenever it is given more
passes than twice the number of groups in the two normal buckets); the loop is
the repetition of its pass, it starts from a good state, and from a good state
a pass never dereferences an end iterator and either leaves the loop or takes a
group out of a pool and leaves a good state, in which the pools gained only
groups that the iterators of their buckets moved over. -/
theorem BattleGroundQueue.FillPlayersToBG_terminates (q : BattleGroundQueue)
    (hordeFree aliFree : Int) (bracket_id : Nat)
    (hA : 0 ≤ aliFree) (hA2 : aliFree < 2147483648) (hH : 0 ≤ hordeFree)
    (hH2 : hordeFree < 2147483648)
    (hpA : q.m_SelectionPools TEAM_INDEX_ALLIANCE = SelectionPool.Init)
    (hpH : q.m_SelectionPools TEAM_INDEX_HORDE = SelectionPool.Init) :
    (∀ fuel, 2 * ((q.m_QueuedGroups bracket_id BG_QUEUE_NORMAL_ALLIANCE).length +
        (q.m_QueuedGroups bracket_id BG_QUEUE_NORMAL_HORDE).length) < fuel →
      ∃ s1, FillPlayersToBG.balance q.m_Groups hordeFree aliFree fuel
        (q.fillFirst hordeFree aliFree bracket_id) = some s1) ∧
    (∀ fuel s, FillPlayersToBG.balance q.m_Groups hordeFree aliFree (fuel + 1) s =
      match FillPlayersToBG.pass q.m_Groups hordeFree aliFree s with
      | PassResult.done => some s
      | PassResult.broke s1 => some s1
      | PassResult.again s1 => FillPlayersToBG.balance q.m_Groups hordeFree aliFree fuel s1
      | PassResult.undefined => none) ∧
    (q.fillFirst hordeFree aliFree bracket_id).Good q.m_Groups hordeFree aliFree ∧
    (∀ s, s.Good q.m_Groups hordeFree aliFree →
      FillPlayersToBG.pass q.m_Groups hordeFree aliFree s ≠ PassResult.undefined ∧
      ∀ s1, FillPlayersToBG.pass q.m_Groups hordeFree aliFree s = PassResult.again s1 →
        s1.Good q.m_Groups hordeFree aliFree ∧ s.Progress s1) := by
  obtain ⟨hgood, hm⟩ := fillFirst_good q hordeFree aliFree bracket_id hA hA2 hH hH2 hpA hpH
  refine ⟨?_, fun fuel s => balance_succ _ _ _ fuel s, hgood,
    fun s hs => pass_progress q.m_Groups hordeFree aliFree hA hA2 hH hH2 s hs⟩
  intro fuel hfuel
  obtain ⟨s1, e, -⟩ := balance_terminates q.m_Groups hordeFree aliFree hA hA2 hH hH2
    fuel (q.fillFirst hordeFree aliFree bracket_id) hgood (by omega)
  exact ⟨s1, e⟩

theorem BattleGroundQueue.FillPlayersToBG_terminates_witness :
    ∃ s1, FillPlayersToBG.balance BattleGroundQueue.oneGroup.m_Groups 4 5 3
      (BattleGroundQueue.oneGroup.fillFirst 4 5 3) = some s1 :=
  (BattleGroundQueue.FillPlayersToBG_terminates BattleGroundQueue.oneGroup 4 5 3
    (by decide) (by decide) (by decide) (by decide) rfl rfl).1 3 (by decide)

/-! ## `BattleGroundQueue::CheckPremadeMatch` -/

theorem firstNotInvited_isSome (groups : GroupStore) (l : List GroupPtr) :
    (firstNotInvited groups l).isSome = true ↔
      ∃ g, g ∈ l ∧ (groups g).IsInvitedToBGInstanceGUID = 0 := by
  induction l with
  | nil => simp [firstNotInvited]
  | cons a rest ih =>
    unfold firstNotInvited
    by_cases ha : (groups a).IsInvitedToBGInstanceGUID = 0
    · rw [if_pos ha]
      simp only [Option.isSome_some, true_iff]
      exact ⟨a, List.mem_cons_self _ _, ha⟩
    · rw [if_neg ha, ih]
      constructor
      · rintro ⟨g, hg, h0⟩
        exact ⟨g, List.mem_cons_of_mem _ hg, h0⟩
      · rintro ⟨g, hg, h0⟩
        rcases List.mem_cons.1 hg with rfl | hg
        · exact absurd h0 ha
        · exact ⟨g, hg, h0⟩

theorem firstNotInvited_unique (groups : GroupStore) (l : List GroupPtr) (a : GroupPtr)
    (hmem : a ∈ l) (ha : (groups a).IsInvitedToBGInstanceGUID = 0)
    (honly : ∀ g, g ∈ l → (groups g).IsInvitedToBGInstanceGUID = 0 → g = a) :
    firstNotInvited groups l = some a := by
  induction l with
  | nil => cases hmem
  | cons x rest ih =>
    unfold firstNotInvited
    by_cases hx : (groups x).IsInvitedToBGInstanceGUID = 0
    · rw [if_pos hx, honly x (List.mem_cons_self _ _) hx]
    · rw [if_neg hx]
      apply ih
      · rcases List.mem_cons.1 hmem with rfl | h
        · exact absurd ha hx
        · exact h
      · intro g hg h0
        exact honly g (List.mem_cons_of_mem _ hg) h0

theorem firstNotInvited_head (groups : GroupStore) (g : GroupPtr) (rest : List GroupPtr)
    (h : (groups g).IsInvitedToBGInstanceGUID = 0) :
    firstNotInvited groups (g :: rest) = some g := by
  simp [firstNotInvited, h]

/-- The answer of `CheckPremadeMatch` is whether it found a pair of premade
groups. -/
theorem CheckPremadeMatch_fst (q : BattleGroundQueue) (now premadeWait bracket_id
    MinPlayersPerTeam MaxPlayersPerTeam : Nat) :
    (q.CheckPremadeMatch now premadeWait bracket_id MinPlayersPerTeam MaxPlayersPerTeam).1 =
      (q.premadePair bracket_id).isSome := by
  unfold BattleGroundQueue.CheckPremadeMatch
  cases q.premadePair bracket_id with
  | none => rfl
  | some r => rfl

theorem premadePair_isSome (q : BattleGroundQueue) (bracket_id : Nat) :
    (q.premadePair bracket_id).isSome = true ↔
      (∃ g, g ∈ q.m_QueuedGroups bracket_id BG_QUEUE_PREMADE_ALLIANCE ∧
        (q.m_Groups g).IsInvitedToBGInstanceGUID = 0) ∧
      (∃ g, g ∈ q.m_QueuedGroups bracket_id BG_QUEUE_PREMADE_HORDE ∧
        (q.m_Groups g).IsInvitedToBGInstanceGUID = 0) := by
  rw [← firstNotInvited_isSome, ← firstNotInvited_isSome]
  unfold BattleGroundQueue.premadePair
  cases hA : firstNotInvited q.m_Groups (q.m_QueuedGroups bracket_id BG_QUEUE_PREMADE_ALLIANCE) with
  | none =>
    simp only [Option.isSome_none, Bool.false_eq_true, false_and, iff_false]
    split <;> simp
  | some a =>
    cases hH : firstNotInvited q.m_Groups (q.m_QueuedGroups bracket_id BG_QUEUE_PREMADE_HORDE) with
    | none =>
      simp only [Option.isSome_none, Bool.false_eq_true, and_false, iff_false]
      split <;> simp
    | some h =>
      have h1 : q.m_QueuedGroups bracket_id BG_QUEUE_PREMADE_ALLIANCE ≠ [] := by
        intro e
        rw [e] at hA
        cases hA
      have h2 : q.m_QueuedGroups bracket_id BG_QUEUE_PREMADE_HORDE ≠ [] := by
        intro e
        rw [e] at hH
        cases hH
      rw [if_pos ⟨h1, h2⟩]
      simp

/-- C14, counterexample: the premade Alliance bucket of bracket 1 holds the
groups 0 and 1, its head 0 is invited to the instance 7, the premade Horde
bucket holds the group 2, and `CheckPremadeMatch` returns true. -/
theorem BattleGroundQueue.CheckPremadeMatch_iff_counterexample :
    (sampleQueue [10, 10, 8] [7, 0, 0] [0, 1] [2] [] []).m_QueuedGroups 1
        BG_QUEUE_PREMADE_ALLIANCE = [0, 1] ∧
    ((sampleQueue [10, 10, 8] [7, 0, 0] [0, 1] [2] [] []).m_Groups 0).IsInvitedToBGInstanceGUID = 7 ∧
    ((sampleQueue [10, 10, 8] [7, 0, 0] [0, 1] [2] [] []).CheckPremadeMatch 1000 500 1 10 10).1 =
      true := by
  decide

/-- C14, amended: `CheckPremadeMatch` returns true if and only if each of the
two premade buckets of the bracket holds a group that is not invited; so it
returns true whenever both buckets are non-empty and their heads are not
invited. -/
theorem BattleGroundQueue.CheckPremadeMatch_iff (q : BattleGroundQueue) (now premadeWait bracket_id
    MinPlayersPerTeam MaxPlayersPerTeam : Nat) :
    ((q.CheckPremadeMatch now premadeWait bracket_id MinPlayersPerTeam MaxPlayersPerTeam).1 = true ↔
      (∃ g, g ∈ q.m_QueuedGroups bracket_id BG_QUEUE_PREMADE_ALLIANCE ∧
        (q.m_Groups g).IsInvitedToBGInstanceGUID = 0) ∧
      (∃ g, g ∈ q.m_QueuedGroups bracket_id BG_QUEUE_PREMADE_HORDE ∧
        (q.m_Groups g).IsInvitedToBGInstanceGUID = 0)) ∧
    (∀ a restA h restH,
      q.m_QueuedGroups bracket_id BG_QUEUE_PREMADE_ALLIANCE = a :: restA →
      q.m_QueuedGroups bracket_id BG_QUEUE_PREMADE_HORDE = h :: restH →
      (q.m_Groups a).IsInvitedToBGInstanceGUID = 0 →
      (q.m_Groups h).IsInvitedToBGInstanceGUID = 0 →
      (q.CheckPremadeMatch now premadeWait bracket_id MinPlayersPerTeam MaxPlayersPerTeam).1 =
        true) := by
  rw [CheckPremadeMatch_fst]
  refine ⟨premadePair_isSome q bracket_id, ?_⟩
  intro a restA h restH eA eH ha hh
  rw [premadePair_isSome, eA, eH]
  exact ⟨⟨a, List.mem_cons_self _ _, ha⟩, ⟨h, List.mem_cons_self _ _, hh⟩⟩

/-- C13: when the premade Alliance bucket of a bracket holds exactly one group
that is not invited, and so does the premade Horde bucket, each of at most
`MaxPlayersPerTeam` (a `uint32`) players, the normal buckets of the bracket are
empty and both pools are empty, `CheckPremadeMatch` returns true and leaves in
each faction's pool exactly that faction's premade group, with the size of the
group as player count. -/
theorem BattleGroundQueue.CheckPremadeMatch_pair (q : BattleGroundQueue) (now premadeWait
    bracket_id MinPlayersPerTeam MaxPlayersPerTeam : Nat) (a h : GroupPtr)
    (haM : a ∈ q.m_QueuedGroups bracket_id BG_QUEUE_PREMADE_ALLIANCE)
    (ha : (q.m_Groups a).IsInvitedToBGInstanceGUID = 0)
    (haO : ∀ g, g ∈ q.m_QueuedGroups bracket_id BG_QUEUE_PREMADE_ALLIANCE →
      (q.m_Groups g).IsInvitedToBGInstanceGUID = 0 → g = a)
    (hhM : h ∈ q.m_QueuedGroups bracket_id BG_QUEUE_PREMADE_HORDE)
    (hh : (q.m_Groups h).IsInvitedToBGInstanceGUID = 0)
    (hhO : ∀ g, g ∈ q.m_QueuedGroups bracket_id BG_QUEUE_PREMADE_HORDE →
      (q.m_Groups g).IsInvitedToBGInstanceGUID = 0 → g = h)
    (hsa : groupSize q.m_Groups a ≤ MaxPlayersPerTeam)
    (hsh : groupSize q.m_Groups h ≤ MaxPlayersPerTeam)
    (hmax : MaxPlayersPerTeam < UINT32_MOD)
    (hnA : q.m_QueuedGroups bracket_id BG_QUEUE_NORMAL_ALLIANCE = [])
    (hnH : q.m_QueuedGroups bracket_id BG_QUEUE_NORMAL_HORDE = [])
    (hpA : q.m_SelectionPools TEAM_INDEX_ALLIANCE = SelectionPool.Init)
    (hpH : q.m_SelectionPools TEAM_INDEX_HORDE = SelectionPool.Init) :
    (q.CheckPremadeMatch now premadeWait bracket_id MinPlayersPerTeam MaxPlayersPerTeam).1 = true ∧
    (q.CheckPremadeMatch now premadeWait bracket_id MinPlayersPerTeam
        MaxPlayersPerTeam).2.m_SelectionPools TEAM_INDEX_ALLIANCE =
      { SelectedGroups := [a], PlayerCount := groupSize q.m_Groups a } ∧
    (q.CheckPremadeMatch now premadeWait bracket_id MinPlayersPerTeam
        MaxPlayersPerTeam).2.m_SelectionPools TEAM_INDEX_HORDE =
      { SelectedGroups := [h], PlayerCount := groupSize q.m_Groups h } := by
  have hpair : q.premadePair bracket_id = some (a, h) := by
    unfold BattleGroundQueue.premadePair
    rw [if_pos ⟨List.ne_nil_of_mem haM, List.ne_nil_of_mem hhM⟩,
      firstNotInvited_unique _ _ a haM ha haO, firstNotInvited_unique _ _ h hhM hh hhO]
  have hadd : ∀ g, (q.m_Groups g).IsInvitedToBGInstanceGUID = 0 →
      groupSize q.m_Groups g ≤ MaxPlayersPerTeam →
      (SelectionPool.Init.AddGroup q.m_Groups g MaxPlayersPerTeam).2 =
        { SelectedGroups := [g], PlayerCount := groupSize q.m_Groups g } := by
    intro g hg hs
    unfold UINT32_MOD at hmax
    have hlt : groupSize q.m_Groups g < 4294967296 := by omega
    simp [SelectionPool.AddGroup, SelectionPool.Init, hg, hs, UINT32_MOD, Nat.mod_eq_of_lt hlt]
  unfold BattleGroundQueue.CheckPremadeMatch
  rw [hpair]
  refine ⟨rfl, ?_, ?_⟩
  · simp only [hnA, hnH, hpA, hpH, topUpLoop, hadd a ha hsa, hadd h hh hsh]
    rfl
  · simp only [hnA, hnH, hpA, hpH, topUpLoop, hadd a ha hsa, hadd h hh hsh]
    rfl

theorem BattleGroundQueue.CheckPremadeMatch_pair_witness :
    ((sampleQueue [10, 10] [0, 0] [0] [1] [] []).CheckPremadeMatch 1000 500 1 10 10).1 = true ∧
    ((sampleQueue [10, 10] [0, 0] [0] [1] [] []).CheckPremadeMatch 1000 500 1 10
        10).2.m_SelectionPools TEAM_INDEX_ALLIANCE =
      { SelectedGroups := [0],
        PlayerCount := groupSize (sampleQueue [10, 10] [0, 0] [0] [1] [] []).m_Groups 0 } ∧
    ((sampleQueue [10, 10] [0, 0] [0] [1] [] []).CheckPremadeMatch 1000 500 1 10
        10).2.m_SelectionPools TEAM_INDEX_HORDE =
      { SelectedGroups := [1],
        PlayerCount := groupSize (sampleQueue [10, 10] [0, 0] [0] [1] [] []).m_Groups 1 } :=
  BattleGroundQueue.CheckPremadeMatch_pair (sampleQueue [10, 10] [0, 0] [0] [1] [] []) 1000 500 1
    10 10 0 1 (by decide) (by decide) (by decide) (by decide) (by decide) (by decide) (by decide)
    (by decide) (by decide) rfl rfl rfl rfl

/-! ## `BattleGroundQueue::CheckNormalMatch` -/

theorem setPools_alliance (q : BattleGroundQueue) (ali horde : SelectionPool) :
    (q.setPools ali horde).m_SelectionPools TEAM_INDEX_ALLIANCE = ali := rfl

theorem setPools_horde (q : BattleGroundQueue) (ali horde : SelectionPool) :
    (q.setPools ali horde).m_SelectionPools TEAM_INDEX_HORDE = horde := rfl

theorem AddGroup_count_ge (groups : GroupStore) (pool : SelectionPool) (ginfo : GroupPtr)
    (desiredCount : Nat) (hd : desiredCount < UINT32_MOD) :
    pool.PlayerCount ≤ (pool.AddGroup groups ginfo desiredCount).2.PlayerCount := by
  unfold SelectionPool.AddGroup
  split
  · rename_i hc
    have h2 := hc.2
    show pool.PlayerCount ≤ (pool.PlayerCount + groupSize groups ginfo) % UINT32_MOD
    rw [Nat.mod_eq_of_lt (lt_of_le_of_lt h2 hd)]
    exact Nat.le_add_right _ _
  · split <;> exact le_refl _

theorem gather_count_le (groups : GroupStore) (minPlayers maxPlayers : Nat) (l : List GroupPtr) :
    ∀ pool : SelectionPool, pool.PlayerCount ≤ maxPlayers →
      (CheckNormalMatch.gather groups minPlayers maxPlayers l pool).2.PlayerCount ≤ maxPlayers := by
  induction l with
  | nil => intro pool h; exact h
  | cons g rest ih =>
    intro pool h
    unfold CheckNormalMatch.gather
    have h1 := AddGroup_count_le_max groups pool g maxPlayers maxPlayers h (le_refl _)
    by_cases hi : (groups g).IsInvitedToBGInstanceGUID = 0
    · rw [if_pos hi]
      by_cases hb : (pool.AddGroup groups g maxPlayers).2.GetPlayerCount ≥ minPlayers
      · rw [if_pos hb]
        exact h1
      · rw [if_neg hb]
        exact ih _ h1
    · rw [if_neg hi]
      exact ih _ h

/-- When the first loop of `CheckNormalMatch` brings a pool from below
`minPlayers` to `minPlayers` or more, it left through `break`: its iterator
is not at the end of the bucket. -/
theorem gather_iter (groups : GroupStore) (minPlayers maxPlayers : Nat) (l : List GroupPtr) :
    ∀ pool : SelectionPool, pool.PlayerCount < minPlayers →
      minPlayers ≤ (CheckNormalMatch.gather groups minPlayers maxPlayers l pool).2.PlayerCount →
      (CheckNormalMatch.gather groups minPlayers maxPlayers l pool).1 ≠ [] := by
  induction l with
  | nil =>
    intro pool h1 h2
    exact absurd (lt_of_le_of_lt h2 h1) (Nat.lt_irrefl _)
  | cons g rest ih =>
    intro pool h1
    unfold CheckNormalMatch.gather
    by_cases hi : (groups g).IsInvitedToBGInstanceGUID = 0
    · rw [if_pos hi]
      by_cases hb : (pool.AddGroup groups g maxPlayers).2.GetPlayerCount ≥ minPlayers
      · rw [if_pos hb]
        intro _
        exact List.cons_ne_nil _ _
      · rw [if_neg hb]
        exact ih _ (Nat.lt_of_not_le hb)
    · rw [if_neg hi]
      exact ih _ h1

theorem topUpLoop_count_ge (groups : GroupStore) (desiredCount : Nat)
    (hd : desiredCount < UINT32_MOD) (l : List GroupPtr) :
    ∀ pool : SelectionPool,
      pool.PlayerCount ≤ (topUpLoop groups desiredCount l pool).PlayerCount := by
  induction l with
  | nil => intro pool; exact le_refl _
  | cons g rest ih =>
    intro pool
    unfold topUpLoop
    have h1 := AddGroup_count_ge groups pool g desiredCount hd
    by_cases hi : (groups g).IsInvitedToBGInstanceGUID = 0
    · rw [if_pos hi]
      by_cases hb : (pool.AddGroup groups g desiredCount).1 = true
      · rw [if_pos hb]
        exact le_trans h1 (ih _)
      · rw [if_neg hb]
        exact h1
    · rw [if_neg hi]
      exact ih _

theorem topUpLoop_count_le (groups : GroupStore) (desiredCount bound : Nat)
    (hd : desiredCount ≤ bound) (l : List GroupPtr) :
    ∀ pool : SelectionPool, pool.PlayerCount ≤ bound →
      (topUpLoop groups desiredCount l pool).PlayerCount ≤ bound := by
  induction l with
  | nil => intro pool h; exact h
  | cons g rest ih =>
    intro pool h
    unfold topUpLoop
    have h1 := AddGroup_count_le_max groups pool g desiredCount bound h hd
    by_cases hi : (groups g).IsInvitedToBGInstanceGUID = 0
    · rw [if_pos hi]
      by_cases hb : (pool.AddGroup groups g desiredCount).1 = true
      · rw [if_pos hb]
        exact ih _ h1
      · rw [if_neg hb]
        exact h1
    · rw [if_neg hi]
      exact ih _ h

/-- For counts that fit an `int32`, the fairness test of `CheckNormalMatch`
fails exactly when the counts differ by more than 2. -/
theorem unbalanced_iff (ali horde : SelectionPool) (ha : ali.PlayerCount < 2147483648)
    (hh : horde.PlayerCount < 2147483648) :
    CheckNormalMatch.unbalanced ali horde = true ↔
      ali.PlayerCount + 2 < horde.PlayerCount ∨ horde.PlayerCount + 2 < ali.PlayerCount := by
  unfold CheckNormalMatch.unbalanced SelectionPool.GetPlayerCount
  rw [decide_eq_true_iff]
  generalize ali.PlayerCount = a at ha
  generalize horde.PlayerCount = h at hh
  have e : toInt32 ((toUInt32 ((h : Int) - (a : Int)) : Nat) : Int) = (h : Int) - (a : Int) := by
    unfold toInt32 toUInt32
    by_cases hle : a ≤ h
    · have e1 : (((h : Int) - (a : Int)) % 4294967296) = (h : Int) - (a : Int) := by omega
      rw [e1]
      have e2 : (((((h : Int) - (a : Int)).toNat : Nat) : Int)) = (h : Int) - (a : Int) := by
        omega
      rw [e2, e1]
      split <;> omega
    · have e1 : (((h : Int) - (a : Int)) % 4294967296) = (h : Int) - (a : Int) + 4294967296 := by
        omega
      rw [e1]
      have e2 : (((((h : Int) - (a : Int) + 4294967296).toNat : Nat) : Int)) =
          (h : Int) - (a : Int) + 4294967296 := by omega
      rw [e2]
      have e3 : ((h : Int) - (a : Int) + 4294967296) % 4294967296 =
          (h : Int) - (a : Int) + 4294967296 := by omega
      rw [e3]
      split <;> omega
  rw [e, absInt32_eq_natAbs _ (by omega) (by omega)]
  omega

theorem enough_iff (isTesting : Bool) (minPlayers : Nat) (ali horde : SelectionPool) :
    CheckNormalMatch.enough isTesting minPlayers ali horde = true ↔
      (isTesting = true ∧ (ali.PlayerCount ≠ 0 ∨ horde.PlayerCount ≠ 0)) ∨
      (minPlayers ≤ ali.PlayerCount ∧ minPlayers ≤ horde.PlayerCount) := by
  unfold CheckNormalMatch.enough SelectionPool.GetPlayerCount
  by_cases h : isTesting = true ∧ (ali.PlayerCount ≠ 0 ∨ horde.PlayerCount ≠ 0)
  · rw [if_pos h]
    simp only [true_iff]
    exact Or.inl h
  · rw [if_neg h, decide_eq_true_iff]
    constructor
    · intro h2
      exact Or.inr h2
    · rintro (h2 | h2)
      · exact absurd h2 h
      · exact h2

/-- What `CheckNormalMatch` answers, in terms of the player counts of the two
pools it leaves: false when the fairness mode is on, both pools reached
`minPlayers` and the counts differ by more than 2; otherwise true in testing
mode with a player in a pool, and else whether both pools reached
`minPlayers`. -/
theorem CheckNormalMatch_result (q : BattleGroundQueue) (invitationType : Nat) (isTesting : Bool)
    (bracket_id minPlayers maxPlayers : Nat) (hmax : maxPlayers < 2147483648)
    (hpA : (q.m_SelectionPools TEAM_INDEX_ALLIANCE).PlayerCount ≤ maxPlayers)
    (hpH : (q.m_SelectionPools TEAM_INDEX_HORDE).PlayerCount ≤ maxPlayers)
    (r : Bool) (q1 : BattleGroundQueue)
    (hr : q.CheckNormalMatch invitationType isTesting bracket_id minPlayers maxPlayers =
      some (r, q1)) :
    (r = true ↔
      ¬(invitationType ≠ 0 ∧
        minPlayers ≤ (q1.m_SelectionPools TEAM_INDEX_ALLIANCE).PlayerCount ∧
        minPlayers ≤ (q1.m_SelectionPools TEAM_INDEX_HORDE).PlayerCount ∧
        ((q1.m_SelectionPools TEAM_INDEX_ALLIANCE).PlayerCount + 2 <
            (q1.m_SelectionPools TEAM_INDEX_HORDE).PlayerCount ∨
          (q1.m_SelectionPools TEAM_INDEX_HORDE).PlayerCount + 2 <
            (q1.m_SelectionPools TEAM_INDEX_ALLIANCE).PlayerCount)) ∧
      ((isTesting = true ∧ ((q1.m_SelectionPools TEAM_INDEX_ALLIANCE).PlayerCount ≠ 0 ∨
          (q1.m_SelectionPools TEAM_INDEX_HORDE).PlayerCount ≠ 0)) ∨
        (minPlayers ≤ (q1.m_SelectionPools TEAM_INDEX_ALLIANCE).PlayerCount ∧
          minPlayers ≤ (q1.m_SelectionPools TEAM_INDEX_HORDE).PlayerCount))) := by
  have hA := gather_count_le q.m_Groups minPlayers maxPlayers
    (q.m_QueuedGroups bracket_id BG_QUEUE_NORMAL_ALLIANCE) _ hpA
  have hH := gather_count_le q.m_Groups minPlayers maxPlayers
    (q.m_QueuedGroups bracket_id BG_QUEUE_NORMAL_HORDE) _ hpH
  unfold BattleGroundQueue.CheckNormalMatch at hr
  simp only [SelectionPool.GetPlayerCount] at hr
  generalize CheckNormalMatch.gather q.m_Groups minPlayers maxPlayers
    (q.m_QueuedGroups bracket_id BG_QUEUE_NORMAL_ALLIANCE)
    (q.m_SelectionPools TEAM_INDEX_ALLIANCE) = a at hr hA
  generalize CheckNormalMatch.gather q.m_Groups minPlayers maxPlayers
    (q.m_QueuedGroups bracket_id BG_QUEUE_NORMAL_HORDE)
    (q.m_SelectionPools TEAM_INDEX_HORDE) = h at hr hH
  have key : ∀ ali horde : SelectionPool, ali.PlayerCount < 2147483648 →
      horde.PlayerCount < 2147483648 →
      (invitationType ≠ 0 ∧ minPlayers ≤ horde.PlayerCount ∧ minPlayers ≤ ali.PlayerCount) →
      (if CheckNormalMatch.unbalanced ali horde = true then some (false, q.setPools ali horde)
        else some (CheckNormalMatch.enough isTesting minPlayers ali horde,
          q.setPools ali horde)) = some (r, q1) →
      (r = true ↔
        ¬(invitationType ≠ 0 ∧
          minPlayers ≤ (q1.m_SelectionPools TEAM_INDEX_ALLIANCE).PlayerCount ∧
          minPlayers ≤ (q1.m_SelectionPools TEAM_INDEX_HORDE).PlayerCount ∧
          ((q1.m_SelectionPools TEAM_INDEX_ALLIANCE).PlayerCount + 2 <
              (q1.m_SelectionPools TEAM_INDEX_HORDE).PlayerCount ∨
            (q1.m_SelectionPools TEAM_INDEX_HORDE).PlayerCount + 2 <
              (q1.m_SelectionPools TEAM_INDEX_ALLIANCE).PlayerCount)) ∧
        ((isTesting = true ∧ ((q1.m_SelectionPools TEAM_INDEX_ALLIANCE).PlayerCount ≠ 0 ∨
            (q1.m_SelectionPools TEAM_INDEX_HORDE).PlayerCount ≠ 0)) ∨
          (minPlayers ≤ (q1.m_SelectionPools TEAM_INDEX_ALLIANCE).PlayerCount ∧
            minPlayers ≤ (q1.m_SelectionPools TEAM_INDEX_HORDE).PlayerCount))) := by
    intro ali horde hal hho hc hres
    have hu := unbalanced_iff ali horde hal hho
    by_cases hub : CheckNormalMatch.unbalanced ali horde = true
    · rw [if_pos hub] at hres
      cases hres
      rw [setPools_alliance, setPools_horde]
      have hd := hu.1 hub
      constructor
      · intro hf
        cases hf
      · rintro ⟨hn, _⟩
        exact absurd ⟨hc.1, hc.2.2, hc.2.1, hd⟩ hn
    · rw [if_neg hub] at hres
      cases hres
      rw [setPools_alliance, setPools_horde, enough_iff]
      constructor
      · intro he
        refine ⟨?_, he⟩
        rintro ⟨_, _, _, hd⟩
        exact hub (hu.2 hd)
      · rintro ⟨_, he⟩
        exact he
  by_cases hc : invitationType ≠ 0 ∧ h.2.PlayerCount ≥ minPlayers ∧ a.2.PlayerCount ≥ minPlayers
  · rw [if_pos hc] at hr
    by_cases hj : h.2.PlayerCount < a.2.PlayerCount
    · rw [if_pos hj] at hr
      cases hl : h.1 with
      | nil =>
        rw [hl] at hr
        cases hr
      | cons x rest =>
        rw [hl] at hr
        have hle := topUpLoop_count_le q.m_Groups a.2.PlayerCount maxPlayers hA rest h.2 hH
        have hge := topUpLoop_count_ge q.m_Groups a.2.PlayerCount
          (by unfold UINT32_MOD; omega) rest h.2
        exact key a.2 _ (by omega) (by omega) ⟨hc.1, le_trans hc.2.1 hge, hc.2.2⟩ hr
    · rw [if_neg hj] at hr
      cases hl : a.1 with
      | nil =>
        rw [hl] at hr
        cases hr
      | cons x rest =>
        rw [hl] at hr
        have hle := topUpLoop_count_le q.m_Groups h.2.PlayerCount maxPlayers hH rest a.2 hA
        have hge := topUpLoop_count_ge q.m_Groups h.2.PlayerCount
          (by unfold UINT32_MOD; omega) rest a.2
        exact key _ h.2 (by omega) (by omega) ⟨hc.1, hc.2.1, le_trans hc.2.2 hge⟩ hr
  · rw [if_neg hc] at hr
    cases hr
    rw [setPools_alliance, setPools_horde, enough_iff]
    constructor
    · intro he
      refine ⟨?_, he⟩
      rintro ⟨h1, h2, h3, _⟩
      exact hc ⟨h1, h3, h2⟩
    · rintro ⟨_, he⟩
      exact he

/-- The call of `CheckNormalMatch` returns: with empty pools and `minPlayers`
at least 1, or with the fairness mode off, the iterator it increments is never
at the end of its bucket. -/
theorem CheckNormalMatch_returns (q : BattleGroundQueue) (invitationType : Nat) (isTesting : Bool)
    (bracket_id minPlayers maxPlayers : Nat)
    (h : invitationType = 0 ∨
      ((q.m_SelectionPools TEAM_INDEX_ALLIANCE).PlayerCount < minPlayers ∧
        (q.m_SelectionPools TEAM_INDEX_HORDE).PlayerCount < minPlayers)) :
    ∃ r q1, q.CheckNormalMatch invitationType isTesting bracket_id minPlayers maxPlayers =
      some (r, q1) := by
  unfold BattleGroundQueue.CheckNormalMatch
  simp only [SelectionPool.GetPlayerCount]
  by_cases hc : invitationType ≠ 0 ∧
      (CheckNormalMatch.gather q.m_Groups minPlayers maxPlayers
        (q.m_QueuedGroups bracket_id BG_QUEUE_NORMAL_HORDE)
        (q.m_SelectionPools TEAM_INDEX_HORDE)).2.PlayerCount ≥ minPlayers ∧
      (CheckNormalMatch.gather q.m_Groups minPlayers maxPlayers
        (q.m_QueuedGroups bracket_id BG_QUEUE_NORMAL_ALLIANCE)
        (q.m_SelectionPools TEAM_INDEX_ALLIANCE)).2.PlayerCount ≥ minPlayers
  · rw [if_pos hc]
    rcases h with h | h
    · exact absurd h hc.1
    · have iA := gather_iter q.m_Groups minPlayers maxPlayers
        (q.m_QueuedGroups bracket_id BG_QUEUE_NORMAL_ALLIANCE) _ h.1 hc.2.2
      have iH := gather_iter q.m_Groups minPlayers maxPlayers
        (q.m_QueuedGroups bracket_id BG_QUEUE_NORMAL_HORDE) _ h.2 hc.2.1
      split
      · split
        · rename_i e
          exact absurd e iH
        · split <;> exact ⟨_, _, rfl⟩
      · split
        · rename_i e
          exact absurd e iA
        · split <;> exact ⟨_, _, rfl⟩
  · rw [if_neg hc]
    exact ⟨_, _, rfl⟩

theorem AddGroup_single (groups : GroupStore) (pool : SelectionPool) (g : GroupPtr)
    (desiredCount : Nat) (hi : (groups g).IsInvitedToBGInstanceGUID = 0)
    (hs : groupSize groups g = 1) (hc : pool.PlayerCount < desiredCount)
    (hd : desiredCount < UINT32_MOD) :
    (pool.AddGroup groups g desiredCount).2.PlayerCount = pool.PlayerCount + 1 := by
  unfold SelectionPool.AddGroup
  rw [hs, if_pos ⟨hi, hc⟩]
  show (pool.PlayerCount + 1) % UINT32_MOD = pool.PlayerCount + 1
  exact Nat.mod_eq_of_lt (lt_of_le_of_lt hc hd)

/-- The first loop of `CheckNormalMatch` over a bucket of single players that
are not invited: it takes them one by one and stops at `minPlayers`. -/
theorem gather_singles (groups : GroupStore) (minPlayers maxPlayers : Nat)
    (hmm : minPlayers ≤ maxPlayers) (hmax : maxPlayers < UINT32_MOD) (l : List GroupPtr) :
    ∀ pool : SelectionPool,
      (∀ g, g ∈ l → (groups g).IsInvitedToBGInstanceGUID = 0 ∧ groupSize groups g = 1) →
      pool.PlayerCount < minPlayers →
      (pool.PlayerCount + l.length < minPlayers →
        (CheckNormalMatch.gather groups minPlayers maxPlayers l pool).2.PlayerCount =
          pool.PlayerCount + l.length) ∧
      (minPlayers ≤ pool.PlayerCount + l.length →
        (CheckNormalMatch.gather groups minPlayers maxPlayers l pool).2.PlayerCount = minPlayers ∧
        ∃ g rest, (CheckNormalMatch.gather groups minPlayers maxPlayers l pool).1 = g :: rest ∧
          ∀ x, x ∈ rest → (groups x).IsInvitedToBGInstanceGUID = 0 ∧ groupSize groups x = 1) := by
  induction l with
  | nil =>
    intro pool _ hc
    constructor
    · intro _
      rfl
    · intro h
      simp only [List.length_nil, Nat.add_zero] at h
      exact absurd (lt_of_le_of_lt h hc) (Nat.lt_irrefl _)
  | cons g rest ih =>
    intro pool hall hc
    have hg := hall g (List.mem_cons_self _ _)
    have hrest : ∀ x, x ∈ rest →
        (groups x).IsInvitedToBGInstanceGUID = 0 ∧ groupSize groups x = 1 :=
      fun x hx => hall x (List.mem_cons_of_mem _ hx)
    have hadd := AddGroup_single groups pool g maxPlayers hg.1 hg.2 (lt_of_lt_of_le hc hmm) hmax
    unfold CheckNormalMatch.gather
    rw [if_pos hg.1]
    simp only [SelectionPool.GetPlayerCount, List.length_cons]
    by_cases hb : (pool.AddGroup groups g maxPlayers).2.PlayerCount ≥ minPlayers
    · rw [if_pos hb]
      rw [hadd] at hb
      constructor
      · intro h
        omega
      · intro _
        refine ⟨?_, g, rest, rfl, hrest⟩
        show (pool.AddGroup groups g maxPlayers).2.PlayerCount = minPlayers
        rw [hadd]
        omega
    · rw [if_neg hb]
      have hlt : (pool.AddGroup groups g maxPlayers).2.PlayerCount < minPlayers :=
        Nat.lt_of_not_le hb
      have h2 := ih (pool.AddGroup groups g maxPlayers).2 hrest hlt
      rw [hadd] at h2
      constructor
      · intro h
        rw [h2.1 (by omega)]
        omega
      · intro h
        exact h2.2 (by omega)

/-- The second loop of `CheckNormalMatch` adds nothing to a pool that already
counts the desired number of players, when the groups are single players. -/
theorem topUpLoop_full (groups : GroupStore) (desiredCount : Nat) (pool : SelectionPool)
    (hc : pool.PlayerCount = desiredCount) (l : List GroupPtr)
    (hall : ∀ g, g ∈ l → (groups g).IsInvitedToBGInstanceGUID = 0 ∧ groupSize groups g = 1) :
    topUpLoop groups desiredCount l pool = pool := by
  cases l with
  | nil => rfl
  | cons g rest =>
    have hg := hall g (List.mem_cons_self _ _)
    have hadd : pool.AddGroup groups g desiredCount = (false, pool) := by
      unfold SelectionPool.AddGroup
      rw [hg.2, hc, if_neg (by omega), if_neg (Nat.lt_irrefl _)]
    unfold topUpLoop
    rw [if_pos hg.1, hadd]
    simp

theorem unbalanced_eq (ali horde : SelectionPool) (h : ali.PlayerCount = horde.PlayerCount) :
    CheckNormalMatch.unbalanced ali horde = false := by
  unfold CheckNormalMatch.unbalanced SelectionPool.GetPlayerCount
  rw [h, Int.sub_self]
  decide

/-- C15: for a bracket whose normal buckets hold only single players that are
not invited, with the testing mode off, both pools empty and
`1 ≤ minPlayers ≤ maxPlayers` (a `uint32`), `CheckNormalMatch` returns, in
either invitation mode; it returns true if and only if each of the two buckets
holds at least `minPlayers` groups, and when it returns true both pools count
exactly `minPlayers` players. -/
theorem BattleGroundQueue.CheckNormalMatch_singles (q : BattleGroundQueue)
    (invitationType bracket_id minPlayers maxPlayers : Nat)
    (hmin : 1 ≤ minPlayers) (hmm : minPlayers ≤ maxPlayers) (hmax : maxPlayers < UINT32_MOD)
    (hpA : q.m_SelectionPools TEAM_INDEX_ALLIANCE = SelectionPool.Init)
    (hpH : q.m_SelectionPools TEAM_INDEX_HORDE = SelectionPool.Init)
    (hA : ∀ g, g ∈ q.m_QueuedGroups bracket_id BG_QUEUE_NORMAL_ALLIANCE →
      (q.m_Groups g).IsInvitedToBGInstanceGUID = 0 ∧ groupSize q.m_Groups g = 1)
    (hH : ∀ g, g ∈ q.m_QueuedGroups bracket_id BG_QUEUE_NORMAL_HORDE →
      (q.m_Groups g).IsInvitedToBGInstanceGUID = 0 ∧ groupSize q.m_Groups g = 1) :
    ∃ r q1, q.CheckNormalMatch invitationType false bracket_id minPlayers maxPlayers =
        some (r, q1) ∧
      (r = true ↔
        minPlayers ≤ (q.m_QueuedGroups bracket_id BG_QUEUE_NORMAL_ALLIANCE).length ∧
        minPlayers ≤ (q.m_QueuedGroups bracket_id BG_QUEUE_NORMAL_HORDE).length) ∧
      (r = true →
        (q1.m_SelectionPools TEAM_INDEX_ALLIANCE).PlayerCount = minPlayers ∧
        (q1.m_SelectionPools TEAM_INDEX_HORDE).PlayerCount = minPlayers) := by
  have h0 : SelectionPool.Init.PlayerCount = 0 := rfl
  have gA := gather_singles q.m_Groups minPlayers maxPlayers hmm hmax
    (q.m_QueuedGroups bracket_id BG_QUEUE_NORMAL_ALLIANCE) SelectionPool.Init hA
    (by rw [h0]; exact hmin)
  have gH := gather_singles q.m_Groups minPlayers maxPlayers hmm hmax
    (q.m_QueuedGroups bracket_id BG_QUEUE_NORMAL_HORDE) SelectionPool.Init hH
    (by rw [h0]; exact hmin)
  rw [h0, Nat.zero_add] at gA gH
  unfold BattleGroundQueue.CheckNormalMatch
  simp only [SelectionPool.GetPlayerCount, hpA, hpH]
  generalize CheckNormalMatch.gather q.m_Groups minPlayers maxPlayers
    (q.m_QueuedGroups bracket_id BG_QUEUE_NORMAL_ALLIANCE) SelectionPool.Init = a at gA
  generalize CheckNormalMatch.gather q.m_Groups minPlayers maxPlayers
    (q.m_QueuedGroups bracket_id BG_QUEUE_NORMAL_HORDE) SelectionPool.Init = h at gH
  generalize (q.m_QueuedGroups bracket_id BG_QUEUE_NORMAL_ALLIANCE).length = na at gA
  generalize (q.m_QueuedGroups bracket_id BG_QUEUE_NORMAL_HORDE).length = nh at gH
  by_cases hboth : minPlayers ≤ na ∧ minPlayers ≤ nh
  · obtain ⟨ca, g, rest, ea, hrest⟩ := gA.2 hboth.1
    obtain ⟨ch, _⟩ := gH.2 hboth.2
    have hen : CheckNormalMatch.enough false minPlayers a.2 h.2 = true :=
      (enough_iff false minPlayers a.2 h.2).2 (Or.inr ⟨le_of_eq ca.symm, le_of_eq ch.symm⟩)
    by_cases hinv : invitationType ≠ 0
    · rw [if_pos ⟨hinv, le_of_eq ch.symm, le_of_eq ca.symm⟩,
        if_neg (by rw [ca, ch]; exact Nat.lt_irrefl _), ea]
      simp only []
      rw [topUpLoop_full q.m_Groups h.2.PlayerCount a.2 (by rw [ca, ch]) rest hrest,
        unbalanced_eq a.2 h.2 (by rw [ca, ch]), if_neg (by simp), hen]
      exact ⟨true, _, rfl, ⟨fun _ => hboth, fun _ => rfl⟩, fun _ => ⟨ca, ch⟩⟩
    · rw [if_neg (fun hc => hinv hc.1), hen]
      exact ⟨true, _, rfl, ⟨fun _ => hboth, fun _ => rfl⟩, fun _ => ⟨ca, ch⟩⟩
  · have hlow : ¬(minPlayers ≤ a.2.PlayerCount ∧ minPlayers ≤ h.2.PlayerCount) := by
      intro hc
      by_cases h1 : minPlayers ≤ na
      · have h2 : nh < minPlayers := by
          apply Nat.lt_of_not_le
          intro h3
          exact hboth ⟨h1, h3⟩
        have := gH.1 h2
        omega
      · have := gA.1 (Nat.lt_of_not_le h1)
        omega
    have hen : CheckNormalMatch.enough false minPlayers a.2 h.2 = false := by
      cases he : CheckNormalMatch.enough false minPlayers a.2 h.2 with
      | false => rfl
      | true =>
        rcases (enough_iff false minPlayers a.2 h.2).1 he with h1 | h1
        · exact absurd h1.1 (by decide)
        · exact absurd h1 hlow
    rw [if_neg (fun hc => hlow ⟨hc.2.2, hc.2.1⟩), hen]
    refine ⟨false, _, rfl, ⟨fun hf => ?_, fun hb => absurd hb hboth⟩, fun hf => ?_⟩
    · cases hf
    · cases hf

theorem BattleGroundQueue.CheckNormalMatch_singles_witness :
    ∃ r q1, (sampleQueue [1, 1, 1, 1, 1, 1, 1, 1, 1, 1] [] [] [] [0, 1, 2, 3, 4]
          [5, 6, 7, 8, 9]).CheckNormalMatch 1 false 1 5 10 = some (r, q1) ∧
      (r = true ↔
        5 ≤ ((sampleQueue [1, 1, 1, 1, 1, 1, 1, 1, 1, 1] [] [] [] [0, 1, 2, 3, 4]
          [5, 6, 7, 8, 9]).m_QueuedGroups 1 BG_QUEUE_NORMAL_ALLIANCE).length ∧
        5 ≤ ((sampleQueue [1, 1, 1, 1, 1, 1, 1, 1, 1, 1] [] [] [] [0, 1, 2, 3, 4]
          [5, 6, 7, 8, 9]).m_QueuedGroups 1 BG_QUEUE_NORMAL_HORDE).length) ∧
      (r = true →
        (q1.m_SelectionPools TEAM_INDEX_ALLIANCE).PlayerCount = 5 ∧
        (q1.m_SelectionPools TEAM_INDEX_HORDE).PlayerCount = 5) :=
  BattleGroundQueue.CheckNormalMatch_singles
    (sampleQueue [1, 1, 1, 1, 1, 1, 1, 1, 1, 1] [] [] [] [0, 1, 2, 3, 4] [5, 6, 7, 8, 9])
    1 1 5 10 (by decide) (by decide) (by decide) rfl rfl (by decide) (by decide)

/-- C16: with the testing mode off, both pools empty at entry and
`maxPlayers` below 2^31 (so that the difference of two counts fits the
`int32` it is cast to), `CheckNormalMatch` returns when `minPlayers` is at
least 1 or the fairness mode is off, and whenever it returns, it returns true
if and only if both pools it leaves count at least `minPlayers` players and,
when the fairness mode is on (`invitationType ≠ 0`), the two counts differ by
at most 2. -/
theorem BattleGroundQueue.CheckNormalMatch_verdict (q : BattleGroundQueue)
    (invitationType bracket_id minPlayers maxPlayers : Nat)
    (hmax : maxPlayers < 2147483648)
    (hpA : q.m_SelectionPools TEAM_INDEX_ALLIANCE = SelectionPool.Init)
    (hpH : q.m_SelectionPools TEAM_INDEX_HORDE = SelectionPool.Init) :
    (invitationType = 0 ∨ 1 ≤ minPlayers →
      ∃ r q1, q.CheckNormalMatch invitationType false bracket_id minPlayers maxPlayers =
        some (r, q1)) ∧
    ∀ r q1, q.CheckNormalMatch invitationType false bracket_id minPlayers maxPlayers =
        some (r, q1) →
      (r = true ↔
        minPlayers ≤ (q1.m_SelectionPools TEAM_INDEX_ALLIANCE).PlayerCount ∧
        minPlayers ≤ (q1.m_SelectionPools TEAM_INDEX_HORDE).PlayerCount ∧
        (invitationType ≠ 0 →
          (q1.m_SelectionPools TEAM_INDEX_ALLIANCE).PlayerCount ≤
            (q1.m_SelectionPools TEAM_INDEX_HORDE).PlayerCount + 2 ∧
          (q1.m_SelectionPools TEAM_INDEX_HORDE).PlayerCount ≤
            (q1.m_SelectionPools TEAM_INDEX_ALLIANCE).PlayerCount + 2)) := by
  have h0 : SelectionPool.Init.PlayerCount = 0 := rfl
  constructor
  · intro h
    apply CheckNormalMatch_returns
    rcases h with h | h
    · exact Or.inl h
    · right
      rw [hpA, hpH, h0]
      exact ⟨h, h⟩
  · intro r q1 hr
    have hres := CheckNormalMatch_result q invitationType false bracket_id minPlayers maxPlayers
      hmax (by rw [hpA, h0]; exact Nat.zero_le _) (by rw [hpH, h0]; exact Nat.zero_le _) r q1 hr
    rw [hres]
    generalize (q1.m_SelectionPools TEAM_INDEX_ALLIANCE).PlayerCount = A
    generalize (q1.m_SelectionPools TEAM_INDEX_HORDE).PlayerCount = H
    constructor
    · rintro ⟨hn, hor⟩
      rcases hor with ht | hb
      · exact absurd ht.1 (by decide)
      · refine ⟨hb.1, hb.2, fun hinv => ?_⟩
        by_contra hc
        apply hn
        refine ⟨hinv, hb.1, hb.2, ?_⟩
        omega
    · rintro ⟨h1, h2, h3⟩
      refine ⟨?_, Or.inr ⟨h1, h2⟩⟩
      rintro ⟨hinv, _, _, hd⟩
      have := h3 hinv
      omega

theorem BattleGroundQueue.CheckNormalMatch_verdict_witness :
    (1 = 0 ∨ 1 ≤ 2 →
      ∃ r q1, (sampleQueue [2, 3, 4] [] [] [] [0] [1, 2]).CheckNormalMatch 1 false 1 2 10 =
        some (r, q1)) ∧
    ∀ r q1, (sampleQueue [2, 3, 4] [] [] [] [0] [1, 2]).CheckNormalMatch 1 false 1 2 10 =
        some (r, q1) →
      (r = true ↔
        2 ≤ (q1.m_SelectionPools TEAM_INDEX_ALLIANCE).PlayerCount ∧
        2 ≤ (q1.m_SelectionPools TEAM_INDEX_HORDE).PlayerCount ∧
        (1 ≠ 0 →
          (q1.m_SelectionPools TEAM_INDEX_ALLIANCE).PlayerCount ≤
            (q1.m_SelectionPools TEAM_INDEX_HORDE).PlayerCount + 2 ∧
          (q1.m_SelectionPools TEAM_INDEX_HORDE).PlayerCount ≤
            (q1.m_SelectionPools TEAM_INDEX_ALLIANCE).PlayerCount + 2)) :=
  BattleGroundQueue.CheckNormalMatch_verdict (sampleQueue [2, 3, 4] [] [] [] [0] [1, 2]) 1 1 2 10
    (by decide) rfl rfl

/-- C17, counterexample: in testing mode with the fairness mode on, both pools
empty at entry, a group of 5 Alliance players and a single Horde player queued
and `minPlayers` 1, `CheckNormalMatch` leaves pools of 5 and 1 players and
returns false. -/
theorem BattleGroundQueue.CheckNormalMatch_testing_counterexample :
    (sampleQueue [5, 1] [] [] [] [0] [1]).m_SelectionPools TEAM_INDEX_ALLIANCE =
      SelectionPool.Init ∧
    (sampleQueue [5, 1] [] [] [] [0] [1]).m_SelectionPools TEAM_INDEX_HORDE =
      SelectionPool.Init ∧
    ((sampleQueue [5, 1] [] [] [] [0] [1]).CheckNormalMatch 1 true 1 1 10).map
        (fun p => (p.1, (p.2.m_SelectionPools TEAM_INDEX_ALLIANCE).PlayerCount,
          (p.2.m_SelectionPools TEAM_INDEX_HORDE).PlayerCount)) =
      some (false, 5, 1) := by
  decide

/-- C17, amended: in testing mode, with both pools empty at entry and
`maxPlayers` below 2^31: `CheckNormalMatch` returns when the fairness mode is
off or `minPlayers` is at least 1 (in testing mode `Update` passes 1); it
returns false when the fairness mode is on, both pools reached `minPlayers` and
their counts differ by more than 2, and otherwise it returns true whenever a
pool ends with a player; so with the fairness mode off it returns true whenever
a pool ends with a player.  The same holds of every result of the call. -/
theorem BattleGroundQueue.CheckNormalMatch_testing (q : BattleGroundQueue)
    (invitationType bracket_id minPlayers maxPlayers : Nat)
    (hmax : maxPlayers < 2147483648)
    (hpA : q.m_SelectionPools TEAM_INDEX_ALLIANCE = SelectionPool.Init)
    (hpH : q.m_SelectionPools TEAM_INDEX_HORDE = SelectionPool.Init) :
    (∀ r q1, q.CheckNormalMatch invitationType true bracket_id minPlayers maxPlayers =
        some (r, q1) →
      ((q1.m_SelectionPools TEAM_INDEX_ALLIANCE).PlayerCount ≠ 0 ∨
        (q1.m_SelectionPools TEAM_INDEX_HORDE).PlayerCount ≠ 0) →
      (r = true ↔
        ¬(invitationType ≠ 0 ∧
          minPlayers ≤ (q1.m_SelectionPools TEAM_INDEX_ALLIANCE).PlayerCount ∧
          minPlayers ≤ (q1.m_SelectionPools TEAM_INDEX_HORDE).PlayerCount ∧
          ((q1.m_SelectionPools TEAM_INDEX_ALLIANCE).PlayerCount + 2 <
              (q1.m_SelectionPools TEAM_INDEX_HORDE).PlayerCount ∨
            (q1.m_SelectionPools TEAM_INDEX_HORDE).PlayerCount + 2 <
              (q1.m_SelectionPools TEAM_INDEX_ALLIANCE).PlayerCount)))) ∧
    (invitationType = 0 ∨ 1 ≤ minPlayers →
      ∃ r q1, q.CheckNormalMatch invitationType true bracket_id minPlayers maxPlayers =
          some (r, q1) ∧
        ((invitationType ≠ 0 ∧
          minPlayers ≤ (q1.m_SelectionPools TEAM_INDEX_ALLIANCE).PlayerCount ∧
          minPlayers ≤ (q1.m_SelectionPools TEAM_INDEX_HORDE).PlayerCount ∧
          ((q1.m_SelectionPools TEAM_INDEX_ALLIANCE).PlayerCount + 2 <
              (q1.m_SelectionPools TEAM_INDEX_HORDE).PlayerCount ∨
            (q1.m_SelectionPools TEAM_INDEX_HORDE).PlayerCount + 2 <
              (q1.m_SelectionPools TEAM_INDEX_ALLIANCE).PlayerCount)) → r = false) ∧
        (¬(invitationType ≠ 0 ∧
          minPlayers ≤ (q1.m_SelectionPools TEAM_INDEX_ALLIANCE).PlayerCount ∧
          minPlayers ≤ (q1.m_SelectionPools TEAM_INDEX_HORDE).PlayerCount ∧
          ((q1.m_SelectionPools TEAM_INDEX_ALLIANCE).PlayerCount + 2 <
              (q1.m_SelectionPools TEAM_INDEX_HORDE).PlayerCount ∨
            (q1.m_SelectionPools TEAM_INDEX_HORDE).PlayerCount + 2 <
              (q1.m_SelectionPools TEAM_INDEX_ALLIANCE).PlayerCount)) →
          ((q1.m_SelectionPools TEAM_INDEX_ALLIANCE).PlayerCount ≠ 0 ∨
            (q1.m_SelectionPools TEAM_INDEX_HORDE).PlayerCount ≠ 0) → r = true)) ∧
    (invitationType = 0 →
      ∃ r q1, q.CheckNormalMatch invitationType true bracket_id minPlayers maxPlayers =
          some (r, q1) ∧
        (((q1.m_SelectionPools TEAM_INDEX_ALLIANCE).PlayerCount ≠ 0 ∨
          (q1.m_SelectionPools TEAM_INDEX_HORDE).PlayerCount ≠ 0) → r = true)) := by
  have h0 : SelectionPool.Init.PlayerCount = 0 := rfl
  have hres := CheckNormalMatch_result q invitationType true bracket_id minPlayers maxPlayers
    hmax (by rw [hpA, h0]; exact Nat.zero_le _) (by rw [hpH, h0]; exact Nat.zero_le _)
  refine ⟨?_, ?_, ?_⟩
  · intro r q1 hr hne
    rw [hres r q1 hr]
    constructor
    · rintro ⟨hn, _⟩
      exact hn
    · intro hn
      exact ⟨hn, Or.inl ⟨rfl, hne⟩⟩
  · intro hret
    obtain ⟨r, q1, hr⟩ := CheckNormalMatch_returns q invitationType true bracket_id minPlayers
      maxPlayers (by
        rcases hret with h | h
        · exact Or.inl h
        · right
          rw [hpA, hpH, h0]
          exact ⟨h, h⟩)
    refine ⟨r, q1, hr, fun hexc => ?_, fun hn hne => ?_⟩
    · cases hb : r with
      | false => rfl
      | true => exact absurd hexc ((hres r q1 hr).1 hb).1
    · rw [hres r q1 hr]
      exact ⟨hn, Or.inl ⟨rfl, hne⟩⟩
  · intro hinv
    obtain ⟨r, q1, hr⟩ := CheckNormalMatch_returns q invitationType true bracket_id minPlayers
      maxPlayers (Or.inl hinv)
    refine ⟨r, q1, hr, fun hne => ?_⟩
    rw [hres r q1 hr]
    exact ⟨fun hc => hc.1 hinv, Or.inl ⟨rfl, hne⟩⟩

/-- C17, witness: in testing mode with the fairness mode on and `minPlayers` 1,
for a group of 5 Alliance players and a single Horde player, the call returns,
and returns false when the pools it leaves both reached 1 player and differ by
more than 2 (they count 5 and 1). -/
theorem BattleGroundQueue.CheckNormalMatch_testing_witness :
    ∃ r q1, (sampleQueue [5, 1] [] [] [] [0] [1]).CheckNormalMatch 1 true 1 1 10 =
        some (r, q1) ∧
      ((1 ≠ 0 ∧
        1 ≤ (q1.m_SelectionPools TEAM_INDEX_ALLIANCE).PlayerCount ∧
        1 ≤ (q1.m_SelectionPools TEAM_INDEX_HORDE).PlayerCount ∧
        ((q1.m_SelectionPools TEAM_INDEX_ALLIANCE).PlayerCount + 2 <
            (q1.m_SelectionPools TEAM_INDEX_HORDE).PlayerCount ∨
          (q1.m_SelectionPools TEAM_INDEX_HORDE).PlayerCount + 2 <
            (q1.m_SelectionPools TEAM_INDEX_ALLIANCE).PlayerCount)) → r = false) ∧
      (¬(1 ≠ 0 ∧
        1 ≤ (q1.m_SelectionPools TEAM_INDEX_ALLIANCE).PlayerCount ∧
        1 ≤ (q1.m_SelectionPools TEAM_INDEX_HORDE).PlayerCount ∧
        ((q1.m_SelectionPools TEAM_INDEX_ALLIANCE).PlayerCount + 2 <
            (q1.m_SelectionPools TEAM_INDEX_HORDE).PlayerCount ∨
          (q1.m_SelectionPools TEAM_INDEX_HORDE).PlayerCount + 2 <
            (q1.m_SelectionPools TEAM_INDEX_ALLIANCE).PlayerCount)) →
        ((q1.m_SelectionPools TEAM_INDEX_ALLIANCE).PlayerCount ≠ 0 ∨
          (q1.m_SelectionPools TEAM_INDEX_HORDE).PlayerCount ≠ 0) → r = true) :=
  (BattleGroundQueue.CheckNormalMatch_testing (sampleQueue [5, 1] [] [] [] [0] [1]) 1 1 1 10
    (by decide) rfl rfl).2.1 (Or.inr (by decide))

/-! ## The choice of `KickGroup` -/

theorem getElem?_snoc_lt (pre : List GroupPtr) (g : GroupPtr) (j : Nat) (x : GroupPtr)
    (h : (pre ++ [g])[j]? = some x) : (j < pre.length ∧ pre[j]? = some x) ∨
      (j = pre.length ∧ x = g) := by
  by_cases hj : j < pre.length
  · rw [List.getElem?_append_left hj] at h
    exact Or.inl ⟨hj, h⟩
  · rw [List.getElem?_append_right (Nat.le_of_not_lt hj)] at h
    cases hd : j - pre.length with
    | zero =>
      rw [hd] at h
      simp only [List.getElem?_cons_zero, Option.some.injEq] at h
      exact Or.inr ⟨by omega, h.symm⟩
    | succ d =>
      rw [hd] at h
      simp at h

/-- What the search loop of `KickGroup` leaves in `groupToKick`: when some
group of the list passes the test of the loop, the last such group; otherwise
the last group of maximal size. -/
theorem scan_choice (groups : GroupStore) (size : Nat) (l : List GroupPtr) :
    ∀ (pre : List GroupPtr) (k : Nat × GroupPtr) (found : Bool),
      (pre ++ l)[k.1]? = some k.2 →
      (found = true → SelectionPool.KickGroup.near groups size k.2 ∧
        ∀ j x, k.1 < j → pre[j]? = some x → ¬SelectionPool.KickGroup.near groups size x) →
      (found = false →
        (∀ x, x ∈ pre → ¬SelectionPool.KickGroup.near groups size x ∧
          groupSize groups x ≤ groupSize groups k.2) ∧
        ∀ j x, k.1 < j → pre[j]? = some x → groupSize groups x < groupSize groups k.2) →
      ((∃ x, x ∈ pre ++ l ∧ SelectionPool.KickGroup.near groups size x) →
        SelectionPool.KickGroup.near groups size
            (SelectionPool.KickGroup.scan groups size l pre.length k found).2 ∧
          ∀ j x, (SelectionPool.KickGroup.scan groups size l pre.length k found).1 < j →
            (pre ++ l)[j]? = some x → ¬SelectionPool.KickGroup.near groups size x) ∧
      ((∀ x, x ∈ pre ++ l → ¬SelectionPool.KickGroup.near groups size x) →
        (∀ x, x ∈ pre ++ l → groupSize groups x ≤
            groupSize groups (SelectionPool.KickGroup.scan groups size l pre.length k found).2) ∧
          ∀ j x, (SelectionPool.KickGroup.scan groups size l pre.length k found).1 < j →
            (pre ++ l)[j]? = some x →
            groupSize groups x <
              groupSize groups
                (SelectionPool.KickGroup.scan groups size l pre.length k found).2) := by
  induction l with
  | nil =>
    intro pre k found hk hT hF
    simp only [List.append_nil] at hk ⊢
    unfold SelectionPool.KickGroup.scan
    cases found with
    | true =>
      obtain ⟨h1, h2⟩ := hT rfl
      refine ⟨fun _ => ⟨h1, h2⟩, fun hall => ?_⟩
      exact absurd h1 (hall k.2 (List.getElem?_mem hk))
    | false =>
      obtain ⟨h1, h2⟩ := hF rfl
      refine ⟨fun hex => ?_, fun _ => ⟨fun x hx => (h1 x hx).2, h2⟩⟩
      obtain ⟨x, hx, hn⟩ := hex
      exact absurd hn (h1 x hx).1
  | cons g rest ih =>
    intro pre k found hk hT hF
    have hpre : pre ++ g :: rest = (pre ++ [g]) ++ rest := by simp
    have hlen : (pre ++ [g]).length = pre.length + 1 := by simp
    have hg : ((pre ++ [g]) ++ rest)[pre.length]? = some g := by
      rw [← hpre, List.getElem?_append_right (le_refl _)]
      simp
    unfold SelectionPool.KickGroup.scan
    rw [hpre, ← hlen]
    by_cases hn : absInt32 (toInt32 ((groupSize groups g : Int) - (size : Int))) ≤ 1
    · rw [if_pos hn]
      apply ih (pre ++ [g]) (pre.length, g) true hg
      · intro _
        refine ⟨hn, fun j x hj hx => ?_⟩
        have hj2 : pre.length < j := hj
        rcases getElem?_snoc_lt pre g j x hx with ⟨h1, _⟩ | ⟨h1, _⟩
        · omega
        · omega
      · intro hf
        cases hf
    · rw [if_neg hn]
      by_cases hc : found = false ∧ groupSize groups g ≥ groupSize groups k.2
      · rw [if_pos hc]
        obtain ⟨h1, h2⟩ := hF hc.1
        apply ih (pre ++ [g]) (pre.length, g) found hg
        · intro ht
          rw [hc.1] at ht
          cases ht
        · intro _
          refine ⟨fun x hx => ?_, fun j x hj hx => ?_⟩
          · rcases List.mem_append.1 hx with hx | hx
            · exact ⟨(h1 x hx).1, le_trans (h1 x hx).2 hc.2⟩
            · rw [List.mem_singleton.1 hx]
              exact ⟨hn, le_refl _⟩
          · have hj2 : pre.length < j := hj
            rcases getElem?_snoc_lt pre g j x hx with ⟨h3, _⟩ | ⟨h3, _⟩
            · omega
            · omega
      · rw [if_neg hc]
        apply ih (pre ++ [g]) k found (hpre ▸ hk)
        · intro ht
          obtain ⟨h1, h2⟩ := hT ht
          refine ⟨h1, fun j x hj hx => ?_⟩
          rcases getElem?_snoc_lt pre g j x hx with ⟨_, h3⟩ | ⟨_, h3⟩
          · exact h2 j x hj h3
          · rw [h3]
            exact hn
        · intro hf
          obtain ⟨h1, h2⟩ := hF hf
          have hlt : groupSize groups g < groupSize groups k.2 := by
            apply Nat.lt_of_not_le
            intro hge
            exact hc ⟨hf, hge⟩
          refine ⟨fun x hx => ?_, fun j x hj hx => ?_⟩
          · rcases List.mem_append.1 hx with hx | hx
            · exact h1 x hx
            · rw [List.mem_singleton.1 hx]
              exact ⟨hn, le_of_lt hlt⟩
          · rcases getElem?_snoc_lt pre g j x hx with ⟨_, h3⟩ | ⟨_, h3⟩
            · exact h2 j x hj h3
            · rw [h3]
              exact hlt

/-- The method `KickGroup` on a pool that has a group and counts a player: the group the
search loop chose is taken out of the list, its size leaves the count, and the
answer is whether its size is above `size + 1` (a `uint32` sum). -/
theorem KickGroup_some (groups : GroupStore) (pool : SelectionPool) (size : Nat)
    (hl : pool.SelectedGroups ≠ []) (h0 : pool.PlayerCount ≠ 0) :
    ∃ i g, pool.SelectedGroups[i]? = some g ∧
      pool.KickGroup groups size =
        some (decide (groupSize groups g > (size + 1) % UINT32_MOD),
          { SelectedGroups := pool.SelectedGroups.eraseIdx i,
            PlayerCount := toUInt32 ((pool.PlayerCount : Int) - (groupSize groups g : Int)) }) ∧
      ((∃ x, x ∈ pool.SelectedGroups ∧ SelectionPool.KickGroup.near groups size x) →
        SelectionPool.KickGroup.near groups size g ∧
          ∀ j x, i < j → pool.SelectedGroups[j]? = some x →
            ¬SelectionPool.KickGroup.near groups size x) ∧
      ((∀ x, x ∈ pool.SelectedGroups → ¬SelectionPool.KickGroup.near groups size x) →
        (∀ x, x ∈ pool.SelectedGroups → groupSize groups x ≤ groupSize groups g) ∧
          ∀ j x, i < j → pool.SelectedGroups[j]? = some x →
            groupSize groups x < groupSize groups g) := by
  unfold SelectionPool.KickGroup SelectionPool.GetPlayerCount
  cases hl2 : pool.SelectedGroups with
  | nil => exact absurd hl2 hl
  | cons a rest =>
    simp only
    rw [if_pos h0]
    have hget := scan_getElem groups size (a :: rest) [] (0, a) false (by simp)
    have hch := scan_choice groups size (a :: rest) [] (0, a) false (by simp)
      (fun hf => by cases hf)
      (fun _ => ⟨fun x hx => (by cases hx), fun j x _ hx => (by simp at hx)⟩)
    simp only [List.nil_append, List.length_nil] at hget hch
    generalize SelectionPool.KickGroup.scan groups size (a :: rest) 0 (0, a) false = k at *
    refine ⟨k.1, k.2, hget, ?_, hch.1, hch.2⟩
    by_cases hle : groupSize groups k.2 ≤ (size + 1) % UINT32_MOD
    · rw [if_pos hle]
      have : decide (groupSize groups k.2 > (size + 1) % UINT32_MOD) = false := by
        rw [decide_eq_false_iff_not]
        omega
      rw [this]
    · rw [if_neg hle]
      have : decide (groupSize groups k.2 > (size + 1) % UINT32_MOD) = true := by
        rw [decide_eq_true_iff]
        omega
      rw [this]

/-- For sizes that fit an `int32`, the test of the search loop of `KickGroup`
holds for the groups whose size differs from `size` by at most 1. -/
theorem near_iff (groups : GroupStore) (size : Nat) (g : GroupPtr)
    (hs : size < 2147483648) (hg : groupSize groups g < 2147483648) :
    SelectionPool.KickGroup.near groups size g ↔
      groupSize groups g ≤ size + 1 ∧ size ≤ groupSize groups g + 1 := by
  unfold SelectionPool.KickGroup.near
  rw [toInt32_eq_self _ (by omega) (by omega), absInt32_eq_natAbs _ (by omega) (by omega)]
  omega

/-- C25, counterexample: `KickGroup` on the empty pool returns true. -/
theorem SelectionPool.KickGroup_empty_counterexample :
    SelectionPool.Init.SelectedGroups = [] ∧
    SelectionPool.Init.KickGroup (sampleGroups [2, 10] []) 4 = some (true, SelectionPool.Init) := by
  decide

/-- C25, amended: for an empty selection pool (no selected group, no player
counted) and every `size`, `KickGroup` returns true and leaves the pool
unchanged; so it does for every pool that counts no player. -/
theorem SelectionPool.KickGroup_empty (groups : GroupStore) (pool : SelectionPool) (size : Nat)
    (h0 : pool.PlayerCount = 0) :
    pool.KickGroup groups size = some (true, pool) ∧
    SelectionPool.Init.KickGroup groups size = some (true, SelectionPool.Init) := by
  refine ⟨?_, rfl⟩
  unfold SelectionPool.KickGroup SelectionPool.GetPlayerCount
  cases pool.SelectedGroups with
  | nil => simp [h0]
  | cons g rest => simp [h0]

theorem SelectionPool.KickGroup_empty_witness :
    SelectionPool.Init.KickGroup (sampleGroups [2, 10] []) 4 = some (true, SelectionPool.Init) ∧
    SelectionPool.Init.KickGroup (sampleGroups [2, 10] []) 4 = some (true, SelectionPool.Init) :=
  SelectionPool.KickGroup_empty (sampleGroups [2, 10] []) SelectionPool.Init 4 rfl

/-- C26, counterexample: from the pool of a group of 2 and a group of 10
players, `KickGroup(4)` removes the group of 10, whose size is 6 away from 4,
and keeps the group of 2, whose size is 2 away from 4. -/
theorem SelectionPool.KickGroup_closest_counterexample :
    groupSize (sampleGroups [2, 10] []) 0 = 2 ∧ groupSize (sampleGroups [2, 10] []) 1 = 10 ∧
    SelectionPool.sample.KickGroup (sampleGroups [2, 10] []) 4 =
      some (true, { SelectedGroups := [0], PlayerCount := 2 }) := by
  decide

/-- C26, amended: for every selection pool that has a group and counts a
player, every `size` below 2^31 and groups of fewer than 2^31 players,
`KickGroup` removes one entry: an entry whose size differs from `size` by at
most 1 when the pool has such an entry, and otherwise, when the size of every
entry is more than 1 away from `size`, an entry of maximal size. -/
theorem SelectionPool.KickGroup_closest (groups : GroupStore) (pool : SelectionPool) (size : Nat)
    (hl : pool.SelectedGroups ≠ []) (h0 : pool.PlayerCount ≠ 0) (hs : size < 2147483648)
    (hg : ∀ x, x ∈ pool.SelectedGroups → groupSize groups x < 2147483648) :
    ∃ i g again pool1, pool.SelectedGroups[i]? = some g ∧
      pool.KickGroup groups size = some (again, pool1) ∧
      pool1.SelectedGroups = pool.SelectedGroups.eraseIdx i ∧
      ((∃ x, x ∈ pool.SelectedGroups ∧ groupSize groups x ≤ size + 1 ∧
          size ≤ groupSize groups x + 1) →
        groupSize groups g ≤ size + 1 ∧ size ≤ groupSize groups g + 1) ∧
      ((∀ x, x ∈ pool.SelectedGroups → ¬(groupSize groups x ≤ size + 1 ∧
          size ≤ groupSize groups x + 1)) →
        ∀ x, x ∈ pool.SelectedGroups → groupSize groups x ≤ groupSize groups g) := by
  obtain ⟨i, g, hi, hk, hnear, hmax⟩ := KickGroup_some groups pool size hl h0
  refine ⟨i, g, _, _, hi, hk, rfl, ?_, ?_⟩
  · rintro ⟨x, hx, hd⟩
    have h1 := (hnear ⟨x, hx, (near_iff groups size x hs (hg x hx)).2 hd⟩).1
    exact (near_iff groups size g hs (hg g (List.getElem?_mem hi))).1 h1
  · intro hall
    apply (hmax ?_).1
    intro x hx hn
    exact hall x hx ((near_iff groups size x hs (hg x hx)).1 hn)

theorem SelectionPool.KickGroup_closest_witness :
    ∃ i g again pool1, SelectionPool.sample.SelectedGroups[i]? = some g ∧
      SelectionPool.sample.KickGroup (sampleGroups [2, 10] []) 4 = some (again, pool1) ∧
      pool1.SelectedGroups = SelectionPool.sample.SelectedGroups.eraseIdx i ∧
      ((∃ x, x ∈ SelectionPool.sample.SelectedGroups ∧
          groupSize (sampleGroups [2, 10] []) x ≤ 4 + 1 ∧
          4 ≤ groupSize (sampleGroups [2, 10] []) x + 1) →
        groupSize (sampleGroups [2, 10] []) g ≤ 4 + 1 ∧
          4 ≤ groupSize (sampleGroups [2, 10] []) g + 1) ∧
      ((∀ x, x ∈ SelectionPool.sample.SelectedGroups →
          ¬(groupSize (sampleGroups [2, 10] []) x ≤ 4 + 1 ∧
            4 ≤ groupSize (sampleGroups [2, 10] []) x + 1)) →
        ∀ x, x ∈ SelectionPool.sample.SelectedGroups →
          groupSize (sampleGroups [2, 10] []) x ≤ groupSize (sampleGroups [2, 10] []) g) :=
  SelectionPool.KickGroup_closest (sampleGroups [2, 10] []) SelectionPool.sample 4 (by decide)
    (by decide) (by decide) (by decide)

/-- C27, counterexample: from the pool of one single player, counted 1,
`KickGroup(4294967295)` removes the player and returns true, although the size 1
is not greater than 4294967295 + 1: the sum `size + 1` is taken in `uint32` and
is 0. -/
theorem SelectionPool.KickGroup_flag_counterexample :
    groupSize (sampleGroups [1] []) 0 = 1 ∧
    SelectionPool.KickGroup (sampleGroups [1] []) { SelectedGroups := [0], PlayerCount := 1 }
      4294967295 = some (true, { SelectedGroups := [], PlayerCount := 0 }) := by
  decide

/-- C27, amended: for every selection pool that has a group, whose count (a
`uint32`) is the sum of the sizes of its entries, all at least 1, and every
`size` below 2^32 - 1, `KickGroup` removes exactly one entry, lowers the count
by exactly the size of that entry, keeps the other entries in their order, and
returns true if and only if the size of the entry removed is greater than
`size + 1`; for every `size` it returns true if and only if that size is
greater than `size + 1` reduced modulo 2^32. -/
theorem SelectionPool.KickGroup_flag (groups : GroupStore) (pool : SelectionPool) (size : Nat)
    (hl : pool.SelectedGroups ≠ []) (hs : pool.Sound groups)
    (hpos : ∀ x, x ∈ pool.SelectedGroups → 1 ≤ groupSize groups x)
    (hc : pool.PlayerCount < UINT32_MOD) :
    ∃ i g again pool1, pool.SelectedGroups[i]? = some g ∧
      pool.KickGroup groups size = some (again, pool1) ∧
      pool1.SelectedGroups = pool.SelectedGroups.eraseIdx i ∧
      pool1.SelectedGroups.length + 1 = pool.SelectedGroups.length ∧
      pool1.PlayerCount + groupSize groups g = pool.PlayerCount ∧
      pool1.Sound groups ∧
      (again = true ↔ groupSize groups g > (size + 1) % UINT32_MOD) ∧
      (size + 1 < UINT32_MOD → (again = true ↔ groupSize groups g > size + 1)) := by
  have h0 : pool.PlayerCount ≠ 0 := by
    unfold SelectionPool.Sound at hs
    rw [hs]
    cases hl2 : pool.SelectedGroups with
    | nil => exact absurd hl2 hl
    | cons a rest =>
      have := hpos a (by rw [hl2]; exact List.mem_cons_self _ _)
      simp only [List.map_cons, List.sum_cons]
      omega
  obtain ⟨i, g, hi, hk, -, -⟩ := KickGroup_some groups pool size hl h0
  obtain ⟨e1, e2⟩ := sum_eraseIdx (groupSize groups) pool.SelectedGroups i g hi
  unfold SelectionPool.Sound at hs
  have hcount : toUInt32 ((pool.PlayerCount : Int) - (groupSize groups g : Int)) =
      ((pool.SelectedGroups.eraseIdx i).map (groupSize groups)).sum := by
    unfold UINT32_MOD at hc
    unfold toUInt32
    omega
  refine ⟨i, g, _, _, hi, hk, rfl, e2, ?_, hcount, ?_, ?_⟩
  · show toUInt32 ((pool.PlayerCount : Int) - (groupSize groups g : Int)) + groupSize groups g =
      pool.PlayerCount
    rw [hcount]
    omega
  · exact decide_eq_true_iff
  · intro hlt
    rw [decide_eq_true_iff, Nat.mod_eq_of_lt hlt]

theorem SelectionPool.KickGroup_flag_witness :
    ∃ i g again pool1, SelectionPool.sample.SelectedGroups[i]? = some g ∧
      SelectionPool.sample.KickGroup (sampleGroups [2, 10] []) 4 = some (again, pool1) ∧
      pool1.SelectedGroups = SelectionPool.sample.SelectedGroups.eraseIdx i ∧
      pool1.SelectedGroups.length + 1 = SelectionPool.sample.SelectedGroups.length ∧
      pool1.PlayerCount + groupSize (sampleGroups [2, 10] []) g =
        SelectionPool.sample.PlayerCount ∧
      pool1.Sound (sampleGroups [2, 10] []) ∧
      (again = true ↔ groupSize (sampleGroups [2, 10] []) g > (4 + 1) % UINT32_MOD) ∧
      (4 + 1 < UINT32_MOD → (again = true ↔ groupSize (sampleGroups [2, 10] []) g > 4 + 1)) :=
  SelectionPool.KickGroup_flag (sampleGroups [2, 10] []) SelectionPool.sample 4 (by decide)
    (by unfold SelectionPool.Sound; decide) (by decide) (by decide)

/-! ## Demotion of premade groups -/

theorem demotePremade_fields (q : BattleGroundQueue) (bracket_id i time_before
    MinPlayersPerTeam : Nat) :
    (q.demotePremade bracket_id i time_before MinPlayersPerTeam).m_Groups = q.m_Groups ∧
    (q.demotePremade bracket_id i time_before MinPlayersPerTeam).m_QueuedPlayers =
      q.m_QueuedPlayers ∧
    (q.demotePremade bracket_id i time_before MinPlayersPerTeam).m_NextGroup = q.m_NextGroup ∧
    (q.demotePremade bracket_id i time_before MinPlayersPerTeam).m_SelectionPools =
      q.m_SelectionPools ∧
    (q.demotePremade bracket_id i time_before MinPlayersPerTeam).m_WaitTimes = q.m_WaitTimes ∧
    (q.demotePremade bracket_id i time_before MinPlayersPerTeam).m_WaitTimeLastPlayer =
      q.m_WaitTimeLastPlayer ∧
    (q.demotePremade bracket_id i time_before MinPlayersPerTeam).m_SumOfWaitTimes =
      q.m_SumOfWaitTimes := by
  unfold BattleGroundQueue.demotePremade
  split
  · exact ⟨rfl, rfl, rfl, rfl, rfl, rfl, rfl⟩
  · split <;> exact ⟨rfl, rfl, rfl, rfl, rfl, rfl, rfl⟩

/-- One pass of the last loop of `CheckPremadeMatch` when the head of the
premade bucket is to be moved. -/
theorem demotePremade_moved (q : BattleGroundQueue) (bracket_id i time_before
    MinPlayersPerTeam : Nat) (g : GroupPtr) (rest : List GroupPtr)
    (hb : q.m_QueuedGroups bracket_id (BG_QUEUE_PREMADE_ALLIANCE + i) = g :: rest)
    (hc : (q.m_Groups g).IsInvitedToBGInstanceGUID = 0 ∧
      ((q.m_Groups g).JoinTime < time_before ∨ groupSize q.m_Groups g < MinPlayersPerTeam)) :
    ∀ b j, (q.demotePremade bracket_id i time_before MinPlayersPerTeam).m_QueuedGroups b j =
      if b = bracket_id ∧ j = BG_QUEUE_NORMAL_ALLIANCE + i then g :: q.m_QueuedGroups b j
      else if b = bracket_id ∧ j = BG_QUEUE_PREMADE_ALLIANCE + i then rest
      else q.m_QueuedGroups b j := by
  intro b j
  unfold BattleGroundQueue.demotePremade
  rw [hb]
  simp only
  rw [if_pos hc]

/-- One pass of the last loop of `CheckPremadeMatch` when the premade bucket is
empty or its head is not to be moved. -/
theorem demotePremade_kept (q : BattleGroundQueue) (bracket_id i time_before
    MinPlayersPerTeam : Nat)
    (h : ∀ g rest, q.m_QueuedGroups bracket_id (BG_QUEUE_PREMADE_ALLIANCE + i) = g :: rest →
      ¬((q.m_Groups g).IsInvitedToBGInstanceGUID = 0 ∧
        ((q.m_Groups g).JoinTime < time_before ∨
          groupSize q.m_Groups g < MinPlayersPerTeam))) :
    q.demotePremade bracket_id i time_before MinPlayersPerTeam = q := by
  unfold BattleGroundQueue.demotePremade
  cases hb : q.m_QueuedGroups bracket_id (BG_QUEUE_PREMADE_ALLIANCE + i) with
  | nil => rfl
  | cons g rest =>
    simp only
    rw [if_neg (h g rest hb)]

/-- The queue `CheckPremadeMatch` leaves when it finds no pair of premade
groups: both passes of its last loop. -/
theorem CheckPremadeMatch_none (q : BattleGroundQueue) (now premadeWait bracket_id
    MinPlayersPerTeam MaxPlayersPerTeam : Nat)
    (h : (q.CheckPremadeMatch now premadeWait bracket_id MinPlayersPerTeam
      MaxPlayersPerTeam).1 = false) :
    (q.CheckPremadeMatch now premadeWait bracket_id MinPlayersPerTeam MaxPlayersPerTeam).2 =
      (q.demotePremade bracket_id 0 (toUInt32 ((now : Int) - (premadeWait : Int)))
        MinPlayersPerTeam).demotePremade bracket_id 1
          (toUInt32 ((now : Int) - (premadeWait : Int))) MinPlayersPerTeam := by
  unfold BattleGroundQueue.CheckPremadeMatch at h ⊢
  cases hp : q.premadePair bracket_id with
  | none => rfl
  | some r =>
    rw [hp] at h
    cases h

/-- The buckets of one faction after the two passes of the last loop of
`CheckPremadeMatch`. -/
theorem demote_twice (q : BattleGroundQueue) (bracket_id tb m i : Nat) (hi : i < 2) :
    (∀ g rest, q.m_QueuedGroups bracket_id (BG_QUEUE_PREMADE_ALLIANCE + i) = g :: rest →
      (q.m_Groups g).IsInvitedToBGInstanceGUID = 0 ∧
        ((q.m_Groups g).JoinTime < tb ∨ groupSize q.m_Groups g < m) →
      ((q.demotePremade bracket_id 0 tb m).demotePremade bracket_id 1 tb m).m_QueuedGroups
          bracket_id (BG_QUEUE_PREMADE_ALLIANCE + i) = rest ∧
      ((q.demotePremade bracket_id 0 tb m).demotePremade bracket_id 1 tb m).m_QueuedGroups
          bracket_id (BG_QUEUE_NORMAL_ALLIANCE + i) =
        g :: q.m_QueuedGroups bracket_id (BG_QUEUE_NORMAL_ALLIANCE + i)) ∧
    ((∀ g rest, q.m_QueuedGroups bracket_id (BG_QUEUE_PREMADE_ALLIANCE + i) = g :: rest →
        ¬((q.m_Groups g).IsInvitedToBGInstanceGUID = 0 ∧
          ((q.m_Groups g).JoinTime < tb ∨ groupSize q.m_Groups g < m))) →
      ((q.demotePremade bracket_id 0 tb m).demotePremade bracket_id 1 tb m).m_QueuedGroups
          bracket_id (BG_QUEUE_PREMADE_ALLIANCE + i) =
        q.m_QueuedGroups bracket_id (BG_QUEUE_PREMADE_ALLIANCE + i) ∧
      ((q.demotePremade bracket_id 0 tb m).demotePremade bracket_id 1 tb m).m_QueuedGroups
          bracket_id (BG_QUEUE_NORMAL_ALLIANCE + i) =
        q.m_QueuedGroups bracket_id (BG_QUEUE_NORMAL_ALLIANCE + i)) := by
  have key : ∀ (q0 : BattleGroundQueue) (k : Nat) (b j : Nat),
      ¬(b = bracket_id ∧ (j = BG_QUEUE_NORMAL_ALLIANCE + k ∨ j = BG_QUEUE_PREMADE_ALLIANCE + k)) →
      (q0.demotePremade bracket_id k tb m).m_QueuedGroups b j = q0.m_QueuedGroups b j := by
    intro q0 k b j hne
    unfold BattleGroundQueue.demotePremade
    split
    · rfl
    · split
      · show (if b = bracket_id ∧ j = BG_QUEUE_NORMAL_ALLIANCE + k then _
          else if b = bracket_id ∧ j = BG_QUEUE_PREMADE_ALLIANCE + k then _ else _) = _
        rw [if_neg (fun hh => hne ⟨hh.1, Or.inl hh.2⟩), if_neg (fun hh => hne ⟨hh.1, Or.inr hh.2⟩)]
      · rfl
  have hG := (demotePremade_fields q bracket_id 0 tb m).1
  have hcases : i = 0 ∨ i = 1 := by omega
  rcases hcases with rfl | rfl
  · -- the Alliance: moved by the first pass, untouched by the second
    have k1 := key (q.demotePremade bracket_id 0 tb m) 1 bracket_id (BG_QUEUE_PREMADE_ALLIANCE + 0)
      (by unfold BG_QUEUE_NORMAL_ALLIANCE BG_QUEUE_PREMADE_ALLIANCE; omega)
    have k2 := key (q.demotePremade bracket_id 0 tb m) 1 bracket_id (BG_QUEUE_NORMAL_ALLIANCE + 0)
      (by unfold BG_QUEUE_NORMAL_ALLIANCE BG_QUEUE_PREMADE_ALLIANCE; omega)
    rw [k1, k2]
    constructor
    · intro g rest hb hc
      have hm := demotePremade_moved q bracket_id 0 tb m g rest hb hc
      rw [hm, hm]
      simp [BG_QUEUE_NORMAL_ALLIANCE, BG_QUEUE_PREMADE_ALLIANCE]
    · intro hn
      rw [demotePremade_kept q bracket_id 0 tb m hn]
      exact ⟨rfl, rfl⟩
  · -- the Horde: untouched by the first pass, moved by the second
    have k1 := key q 0 bracket_id (BG_QUEUE_PREMADE_ALLIANCE + 1)
      (by unfold BG_QUEUE_NORMAL_ALLIANCE BG_QUEUE_PREMADE_ALLIANCE; omega)
    have k2 := key q 0 bracket_id (BG_QUEUE_NORMAL_ALLIANCE + 1)
      (by unfold BG_QUEUE_NORMAL_ALLIANCE BG_QUEUE_PREMADE_ALLIANCE; omega)
    constructor
    · intro g rest hb hc
      have hm := demotePremade_moved (q.demotePremade bracket_id 0 tb m) bracket_id 1 tb m g rest
        (by rw [k1]; exact hb) (by rw [hG]; exact hc)
      rw [hm, hm, k2]
      simp [BG_QUEUE_NORMAL_ALLIANCE, BG_QUEUE_PREMADE_ALLIANCE]
    · intro hn
      rw [demotePremade_kept (q.demotePremade bracket_id 0 tb m) bracket_id 1 tb m
        (by
          intro g rest hb
          rw [k1] at hb
          rw [hG]
          exact hn g rest hb)]
      exact ⟨k1, k2⟩

/-- The buckets of other brackets and of other indices than the four queue
classes are left alone by the last loop of `CheckPremadeMatch`. -/
theorem demote_twice_other (q : BattleGroundQueue) (bracket_id tb m b j : Nat)
    (h : b ≠ bracket_id ∨ BG_QUEUE_GROUP_TYPES_COUNT ≤ j) :
    ((q.demotePremade bracket_id 0 tb m).demotePremade bracket_id 1 tb m).m_QueuedGroups b j =
      q.m_QueuedGroups b j := by
  have key : ∀ (q0 : BattleGroundQueue) (k : Nat), k < 2 →
      (q0.demotePremade bracket_id k tb m).m_QueuedGroups b j = q0.m_QueuedGroups b j := by
    intro q0 k hk
    have hne1 : ¬(b = bracket_id ∧ j = BG_QUEUE_NORMAL_ALLIANCE + k) := by
      unfold BG_QUEUE_GROUP_TYPES_COUNT at h
      unfold BG_QUEUE_NORMAL_ALLIANCE
      rintro ⟨h1, h2⟩
      rcases h with h | h
      · exact h h1
      · omega
    have hne2 : ¬(b = bracket_id ∧ j = BG_QUEUE_PREMADE_ALLIANCE + k) := by
      unfold BG_QUEUE_GROUP_TYPES_COUNT at h
      unfold BG_QUEUE_PREMADE_ALLIANCE
      rintro ⟨h1, h2⟩
      rcases h with h | h
      · exact h h1
      · omega
    unfold BattleGroundQueue.demotePremade
    split
    · rfl
    · split
      · show (if b = bracket_id ∧ j = BG_QUEUE_NORMAL_ALLIANCE + k then _
          else if b = bracket_id ∧ j = BG_QUEUE_PREMADE_ALLIANCE + k then _ else _) = _
        rw [if_neg hne1, if_neg hne2]
      · rfl
  rw [key _ 1 (by omega), key _ 0 (by omega)]

/-- The last loop of `CheckPremadeMatch`, in terms of the test the code makes:
when no pair of premade groups is found (the call returns false), then for each
faction `i`: if the head of the premade bucket of the bracket is not invited
and its join time is before `now - premadeWait` (a `uint32`) or it has fewer
players than `MinPlayersPerTeam`, the premade bucket loses exactly its head and
the head becomes the first group of the normal bucket of the same faction and
bracket, all other groups keeping their place; otherwise (empty bucket, or a
head that does not pass the test) both buckets are unchanged, whatever the
groups behind the head are; the buckets of other brackets and the group records
are unchanged. -/
theorem CheckPremadeMatch_demotes_test (q : BattleGroundQueue) (now premadeWait
    bracket_id MinPlayersPerTeam MaxPlayersPerTeam : Nat)
    (h : (q.CheckPremadeMatch now premadeWait bracket_id MinPlayersPerTeam
      MaxPlayersPerTeam).1 = false) :
    (∀ i, i < 2 →
      (∀ g rest, q.m_QueuedGroups bracket_id (BG_QUEUE_PREMADE_ALLIANCE + i) = g :: rest →
        (q.m_Groups g).IsInvitedToBGInstanceGUID = 0 ∧
          ((q.m_Groups g).JoinTime < toUInt32 ((now : Int) - (premadeWait : Int)) ∨
            groupSize q.m_Groups g < MinPlayersPerTeam) →
        (q.CheckPremadeMatch now premadeWait bracket_id MinPlayersPerTeam
            MaxPlayersPerTeam).2.m_QueuedGroups bracket_id (BG_QUEUE_PREMADE_ALLIANCE + i) =
          rest ∧
        (q.CheckPremadeMatch now premadeWait bracket_id MinPlayersPerTeam
            MaxPlayersPerTeam).2.m_QueuedGroups bracket_id (BG_QUEUE_NORMAL_ALLIANCE + i) =
          g :: q.m_QueuedGroups bracket_id (BG_QUEUE_NORMAL_ALLIANCE + i)) ∧
      ((∀ g rest, q.m_QueuedGroups bracket_id (BG_QUEUE_PREMADE_ALLIANCE + i) = g :: rest →
          ¬((q.m_Groups g).IsInvitedToBGInstanceGUID = 0 ∧
            ((q.m_Groups g).JoinTime < toUInt32 ((now : Int) - (premadeWait : Int)) ∨
              groupSize q.m_Groups g < MinPlayersPerTeam))) →
        (q.CheckPremadeMatch now premadeWait bracket_id MinPlayersPerTeam
            MaxPlayersPerTeam).2.m_QueuedGroups bracket_id (BG_QUEUE_PREMADE_ALLIANCE + i) =
          q.m_QueuedGroups bracket_id (BG_QUEUE_PREMADE_ALLIANCE + i) ∧
        (q.CheckPremadeMatch now premadeWait bracket_id MinPlayersPerTeam
            MaxPlayersPerTeam).2.m_QueuedGroups bracket_id (BG_QUEUE_NORMAL_ALLIANCE + i) =
          q.m_QueuedGroups bracket_id (BG_QUEUE_NORMAL_ALLIANCE + i))) ∧
    (∀ b j, b ≠ bracket_id ∨ BG_QUEUE_GROUP_TYPES_COUNT ≤ j →
      (q.CheckPremadeMatch now premadeWait bracket_id MinPlayersPerTeam
          MaxPlayersPerTeam).2.m_QueuedGroups b j = q.m_QueuedGroups b j) ∧
    (q.CheckPremadeMatch now premadeWait bracket_id MinPlayersPerTeam
        MaxPlayersPerTeam).2.m_Groups = q.m_Groups ∧
    (q.CheckPremadeMatch now premadeWait bracket_id MinPlayersPerTeam
        MaxPlayersPerTeam).2.m_QueuedPlayers = q.m_QueuedPlayers := by
  rw [CheckPremadeMatch_none q now premadeWait bracket_id MinPlayersPerTeam MaxPlayersPerTeam h]
  refine ⟨fun i hi => demote_twice q bracket_id _ MinPlayersPerTeam i hi,
    fun b j hbj => demote_twice_other q bracket_id _ MinPlayersPerTeam b j hbj, ?_, ?_⟩
  · rw [(demotePremade_fields _ bracket_id 1 _ MinPlayersPerTeam).1,
      (demotePremade_fields _ bracket_id 0 _ MinPlayersPerTeam).1]
  · rw [(demotePremade_fields _ bracket_id 1 _ MinPlayersPerTeam).2.1,
      (demotePremade_fields _ bracket_id 0 _ MinPlayersPerTeam).2.1]

/-- C29, failing input: at `now = 60000` with `premadeWait = 1800000`, the premade
Horde bucket of bracket 1 holds one group, not invited, of 10 players (the
minimum per team) that joined at time 0, and the premade Alliance bucket is
empty: the call finds no pair, the head has waited 60000, not more than 1800000,
and is not short of players, yet it is moved to the normal Horde bucket
(`now - premadeWait` wraps to 4293227296).  Whenever `premadeWait` is at most
`now` (a `uint32`), a call that finds no pair moves, for each faction, the head
of the premade bucket if and only if it is not invited and has waited longer
than `premadeWait` or has fewer players than `MinPlayersPerTeam`; the group
moved is the head, it becomes the first group of the normal bucket of the same
faction and bracket, and every other bucket and every group record is
unchanged. -/
theorem BattleGroundQueue.CheckPremadeMatch_demotes :
    (((sampleQueue [10] [] [] [0] [] []).CheckPremadeMatch 60000 1800000 1 10 10).1 = false ∧
      (sampleQueue [10] [] [] [0] [] []).m_QueuedGroups 1 (BG_QUEUE_PREMADE_ALLIANCE + 1) = [0] ∧
      (sampleQueue [10] [] [] [0] [] []).m_QueuedGroups 1 (BG_QUEUE_NORMAL_ALLIANCE + 1) = [] ∧
      ((sampleQueue [10] [] [] [0] [] []).m_Groups 0).IsInvitedToBGInstanceGUID = 0 ∧
      ¬(1800000 < 60000 - ((sampleQueue [10] [] [] [0] [] []).m_Groups 0).JoinTime) ∧
      ¬(groupSize (sampleQueue [10] [] [] [0] [] []).m_Groups 0 < 10) ∧
      toUInt32 ((60000 : Int) - (1800000 : Int)) = 4293227296 ∧
      ((sampleQueue [10] [] [] [0] [] []).CheckPremadeMatch 60000 1800000 1 10
          10).2.m_QueuedGroups 1 (BG_QUEUE_PREMADE_ALLIANCE + 1) = [] ∧
      ((sampleQueue [10] [] [] [0] [] []).CheckPremadeMatch 60000 1800000 1 10
          10).2.m_QueuedGroups 1 (BG_QUEUE_NORMAL_ALLIANCE + 1) = [0]) ∧
    ∀ (q : BattleGroundQueue) (now premadeWait bracket_id MinPlayersPerTeam
        MaxPlayersPerTeam : Nat),
      now < UINT32_MOD → premadeWait ≤ now →
      (q.CheckPremadeMatch now premadeWait bracket_id MinPlayersPerTeam
        MaxPlayersPerTeam).1 = false →
      (∀ i, i < 2 →
        (∀ g rest, q.m_QueuedGroups bracket_id (BG_QUEUE_PREMADE_ALLIANCE + i) = g :: rest →
          (q.m_Groups g).IsInvitedToBGInstanceGUID = 0 ∧
            (premadeWait < now - (q.m_Groups g).JoinTime ∨
              groupSize q.m_Groups g < MinPlayersPerTeam) →
          (q.CheckPremadeMatch now premadeWait bracket_id MinPlayersPerTeam
              MaxPlayersPerTeam).2.m_QueuedGroups bracket_id (BG_QUEUE_PREMADE_ALLIANCE + i) =
            rest ∧
          (q.CheckPremadeMatch now premadeWait bracket_id MinPlayersPerTeam
              MaxPlayersPerTeam).2.m_QueuedGroups bracket_id (BG_QUEUE_NORMAL_ALLIANCE + i) =
            g :: q.m_QueuedGroups bracket_id (BG_QUEUE_NORMAL_ALLIANCE + i)) ∧
        ((∀ g rest, q.m_QueuedGroups bracket_id (BG_QUEUE_PREMADE_ALLIANCE + i) = g :: rest →
            ¬((q.m_Groups g).IsInvitedToBGInstanceGUID = 0 ∧
              (premadeWait < now - (q.m_Groups g).JoinTime ∨
                groupSize q.m_Groups g < MinPlayersPerTeam))) →
          (q.CheckPremadeMatch now premadeWait bracket_id MinPlayersPerTeam
              MaxPlayersPerTeam).2.m_QueuedGroups bracket_id (BG_QUEUE_PREMADE_ALLIANCE + i) =
            q.m_QueuedGroups bracket_id (BG_QUEUE_PREMADE_ALLIANCE + i) ∧
          (q.CheckPremadeMatch now premadeWait bracket_id MinPlayersPerTeam
              MaxPlayersPerTeam).2.m_QueuedGroups bracket_id (BG_QUEUE_NORMAL_ALLIANCE + i) =
            q.m_QueuedGroups bracket_id (BG_QUEUE_NORMAL_ALLIANCE + i))) ∧
      (∀ b j, b ≠ bracket_id ∨ BG_QUEUE_GROUP_TYPES_COUNT ≤ j →
        (q.CheckPremadeMatch now premadeWait bracket_id MinPlayersPerTeam
            MaxPlayersPerTeam).2.m_QueuedGroups b j = q.m_QueuedGroups b j) ∧
      (q.CheckPremadeMatch now premadeWait bracket_id MinPlayersPerTeam
          MaxPlayersPerTeam).2.m_Groups = q.m_Groups ∧
      (q.CheckPremadeMatch now premadeWait bracket_id MinPlayersPerTeam
          MaxPlayersPerTeam).2.m_QueuedPlayers = q.m_QueuedPlayers := by
  refine ⟨by decide, ?_⟩
  intro q now premadeWait bracket_id MinPlayersPerTeam MaxPlayersPerTeam hn hw h
  obtain ⟨h1, h2, h3, h4⟩ := CheckPremadeMatch_demotes_test q now premadeWait bracket_id
    MinPlayersPerTeam MaxPlayersPerTeam h
  have e : toUInt32 ((now : Int) - (premadeWait : Int)) = now - premadeWait := by
    unfold toUInt32
    unfold UINT32_MOD at hn
    omega
  rw [e] at h1
  refine ⟨fun i hi => ⟨fun g rest hb hc => ?_, fun hall => ?_⟩, h2, h3, h4⟩
  · refine (h1 i hi).1 g rest hb ⟨hc.1, ?_⟩
    rcases hc.2 with hc2 | hc2
    · left
      omega
    · exact Or.inr hc2
  · refine (h1 i hi).2 (fun g rest hb hc => hall g rest hb ⟨hc.1, ?_⟩)
    rcases hc.2 with hc2 | hc2
    · left
      omega
    · exact Or.inr hc2

/-- The staleness test of `CheckPremadeMatch`, `JoinTime < time_before` with
`time_before = now - premadeWait` in `uint32`: for a group that joined at or
before `now` it holds when the group waited longer than `premadeWait`, and also
whenever `premadeWait` is greater than `now`, where the subtraction wraps. -/
theorem stale_iff (now premadeWait joinTime : Nat) (hn : now < UINT32_MOD)
    (hw : premadeWait < UINT32_MOD) (hj : joinTime ≤ now) :
    joinTime < toUInt32 ((now : Int) - (premadeWait : Int)) ↔
      now < premadeWait ∨ premadeWait < now - joinTime := by
  unfold UINT32_MOD at hn hw
  unfold toUInt32
  omega

/-- C28, failing input: at `now = 1000` with `premadeWait = 1800000`, a premade
Alliance group of 10 players (the minimum per team) that joined at time 0 and is
not invited has waited 1000, not more than 1800000, yet the staleness test of
`CheckPremadeMatch` holds for it (`time_before` wraps to 4293168296) and the
group is moved to the normal bucket. -/
theorem BattleGroundQueue.CheckPremadeMatch_stale_wraps :
    ((sampleQueue [10] [] [0] [] [] []).m_Groups 0).JoinTime = 0 ∧
    groupSize (sampleQueue [10] [] [0] [] [] []).m_Groups 0 = 10 ∧
    ¬(1000 - ((sampleQueue [10] [] [0] [] [] []).m_Groups 0).JoinTime > 1800000) ∧
    toUInt32 ((1000 : Int) - (1800000 : Int)) = 4293168296 ∧
    ((sampleQueue [10] [] [0] [] [] []).CheckPremadeMatch 1000 1800000 1 10
        10).2.m_QueuedGroups 1 BG_QUEUE_PREMADE_ALLIANCE = [] ∧
    ((sampleQueue [10] [] [0] [] [] []).CheckPremadeMatch 1000 1800000 1 10
        10).2.m_QueuedGroups 1 BG_QUEUE_NORMAL_ALLIANCE = [0] := by
  decide

/-! ## Groups are stored once -/

theorem BucketsDistinct_new : BattleGroundQueue.new.BucketsDistinct :=
  ⟨fun _ _ _ h => (by cases h), fun _ _ => List.nodup_nil, fun _ _ _ _ _ h => (by cases h)⟩

theorem AddGroup_bucketsDistinct (q : BattleGroundQueue) (now : Nat) (leader : Player)
    (grp : Option Group) (BgTypeId bracketId : Nat) (isPremade : Bool)
    (h : q.BucketsDistinct) :
    (q.AddGroup now leader grp BgTypeId bracketId isPremade).2.BucketsDistinct := by
  obtain ⟨w1, w2, w3⟩ := h
  obtain ⟨-, a2, a3, -⟩ := AddGroup_result q now leader grp BgTypeId bracketId isPremade
  have hmem : ∀ b j G,
      G ∈ (q.AddGroup now leader grp BgTypeId bracketId isPremade).2.m_QueuedGroups b j →
      G ∈ q.m_QueuedGroups b j ∨
        (G = q.m_NextGroup ∧ b = bracketId ∧ j = queueIndex isPremade leader.team) := by
    intro b j G hG
    rw [a3] at hG
    by_cases hc : b = bracketId ∧ j = queueIndex isPremade leader.team
    · rw [if_pos hc] at hG
      rcases List.mem_append.1 hG with hG | hG
      · exact Or.inl hG
      · exact Or.inr ⟨List.mem_singleton.1 hG, hc⟩
    · rw [if_neg hc] at hG
      exact Or.inl hG
  have hfresh : ∀ b j, q.m_NextGroup ∉ q.m_QueuedGroups b j :=
    fun b j hin => Nat.lt_irrefl _ (w1 b j _ hin)
  refine ⟨fun b j G hG => ?_, fun b j => ?_, fun b j b' j' G hG hG' => ?_⟩
  · rw [a2]
    rcases hmem b j G hG with h1 | ⟨h1, -⟩
    · exact Nat.lt_succ_of_lt (w1 b j G h1)
    · rw [h1]
      exact Nat.lt_succ_self _
  · rw [a3]
    by_cases hc : b = bracketId ∧ j = queueIndex isPremade leader.team
    · rw [if_pos hc]
      apply List.Nodup.append (w2 b j) (List.nodup_singleton _)
      intro x hx hx2
      rw [List.mem_singleton.1 hx2] at hx
      exact hfresh b j hx
    · rw [if_neg hc]
      exact w2 b j
  · rcases hmem b j G hG with h1 | ⟨h1, hb, hj⟩
    · rcases hmem b' j' G hG' with h2 | ⟨h2, -, -⟩
      · exact w3 b j b' j' G h1 h2
      · rw [h2] at h1
        exact absurd h1 (hfresh b j)
    · rcases hmem b' j' G hG' with h2 | ⟨-, hb', hj'⟩
      · rw [h1] at h2
        exact absurd h2 (hfresh b' j')
      · exact ⟨hb.trans hb'.symm, hj.trans hj'.symm⟩

/-- The method `RemovePlayer` allocates nothing and only takes groups out of buckets. -/
theorem RemovePlayer_buckets (c : Consts) (mgr : BattleGroundMgr) (q : BattleGroundQueue)
    (guid : ObjectGuid) (d : Bool) :
    (q.RemovePlayer c mgr guid d).2.2.m_NextGroup = q.m_NextGroup ∧
    ∀ b j, ((q.RemovePlayer c mgr guid d).2.2.m_QueuedGroups b j).Sublist
      (q.m_QueuedGroups b j) := by
  unfold BattleGroundQueue.RemovePlayer
  cases hq : q.m_QueuedPlayers guid with
  | none => exact ⟨rfl, fun _ _ => List.Sublist.refl _⟩
  | some info =>
    simp only
    cases hs : (RemoveSearch.brackets q.m_QueuedGroups info.GroupInfo
      (GetTeamIndexByTeamId (q.m_Groups info.GroupInfo).GroupTeam) c.MAX_BATTLEGROUND_BRACKETS
      { bracket_id := none, group_itr := 0,
        index := GetTeamIndexByTeamId (q.m_Groups info.GroupInfo).GroupTeam }).bracket_id with
    | none => exact ⟨rfl, fun _ _ => List.Sublist.refl _⟩
    | some bracket_id =>
      simp only
      by_cases he : eraseKey guid (q.m_Groups info.GroupInfo).Players = []
      · rw [if_pos he]
        refine ⟨rfl, fun b j => ?_⟩
        simp only
        split
        · exact List.eraseIdx_sublist _ _
        · exact List.Sublist.refl _
      · rw [if_neg he]
        exact ⟨rfl, fun _ _ => List.Sublist.refl _⟩

theorem RemovePlayer_bucketsDistinct (c : Consts) (mgr : BattleGroundMgr) (q : BattleGroundQueue)
    (guid : ObjectGuid) (d : Bool) (h : q.BucketsDistinct) :
    (q.RemovePlayer c mgr guid d).2.2.BucketsDistinct := by
  obtain ⟨w1, w2, w3⟩ := h
  obtain ⟨r1, r2⟩ := RemovePlayer_buckets c mgr q guid d
  refine ⟨fun b j G hG => ?_, fun b j => (w2 b j).sublist (r2 b j), fun b j b' j' G hG hG' => ?_⟩
  · rw [r1]
    exact w1 b j G ((r2 b j).subset hG)
  · exact w3 b j b' j' G ((r2 b j).subset hG) ((r2 b' j').subset hG')

/-- One pass of the last loop of `CheckPremadeMatch` keeps every group stored once. -/
theorem demotePremade_bucketsDistinct (q : BattleGroundQueue) (bracket_id i tb m : Nat)
    (h : q.BucketsDistinct) : (q.demotePremade bracket_id i tb m).BucketsDistinct := by
  by_cases hk : ∀ g rest, q.m_QueuedGroups bracket_id (BG_QUEUE_PREMADE_ALLIANCE + i) = g :: rest →
      ¬((q.m_Groups g).IsInvitedToBGInstanceGUID = 0 ∧
        ((q.m_Groups g).JoinTime < tb ∨ groupSize q.m_Groups g < m))
  · rw [demotePremade_kept q bracket_id i tb m hk]
    exact h
  · have hk2 : ∃ g rest, q.m_QueuedGroups bracket_id (BG_QUEUE_PREMADE_ALLIANCE + i) = g :: rest ∧
        ((q.m_Groups g).IsInvitedToBGInstanceGUID = 0 ∧
          ((q.m_Groups g).JoinTime < tb ∨ groupSize q.m_Groups g < m)) := by
      by_contra hne
      apply hk
      intro g rest hb hc
      exact hne ⟨g, rest, hb, hc⟩
    obtain ⟨g, rest, hb, hc⟩ := hk2
    obtain ⟨w1, w2, w3⟩ := h
    have hm := demotePremade_moved q bracket_id i tb m g rest hb hc
    have hN := (demotePremade_fields q bracket_id i tb m).2.2.1
    have hPN : BG_QUEUE_NORMAL_ALLIANCE + i ≠ BG_QUEUE_PREMADE_ALLIANCE + i := by
      unfold BG_QUEUE_NORMAL_ALLIANCE BG_QUEUE_PREMADE_ALLIANCE
      omega
    have hgP : g ∈ q.m_QueuedGroups bracket_id (BG_QUEUE_PREMADE_ALLIANCE + i) := by
      rw [hb]
      exact List.mem_cons_self _ _
    have hnd : (g :: rest).Nodup := hb ▸ w2 bracket_id (BG_QUEUE_PREMADE_ALLIANCE + i)
    have hgrest : g ∉ rest := (List.nodup_cons.1 hnd).1
    have hgN : g ∉ q.m_QueuedGroups bracket_id (BG_QUEUE_NORMAL_ALLIANCE + i) := by
      intro hin
      exact hPN (w3 _ _ _ _ g hin hgP).2
    -- where a group is stored after the move
    have hloc : ∀ b j G, G ∈ (q.demotePremade bracket_id i tb m).m_QueuedGroups b j ↔
        ((G = g ∧ b = bracket_id ∧ j = BG_QUEUE_NORMAL_ALLIANCE + i) ∨
          (G ≠ g ∧ G ∈ q.m_QueuedGroups b j)) := by
      intro b j G
      rw [hm]
      by_cases c1 : b = bracket_id ∧ j = BG_QUEUE_NORMAL_ALLIANCE + i
      · rw [if_pos c1, c1.1, c1.2, List.mem_cons]
        constructor
        · rintro (e | e)
          · exact Or.inl ⟨e, rfl, rfl⟩
          · right
            refine ⟨fun e2 => ?_, e⟩
            rw [e2] at e
            exact hgN e
        · rintro (⟨e, -, -⟩ | ⟨-, e⟩)
          · exact Or.inl e
          · exact Or.inr e
      · rw [if_neg c1]
        by_cases c2 : b = bracket_id ∧ j = BG_QUEUE_PREMADE_ALLIANCE + i
        · rw [if_pos c2, c2.1, c2.2, hb]
          constructor
          · intro e
            right
            refine ⟨fun e2 => ?_, List.mem_cons_of_mem _ e⟩
            rw [e2] at e
            exact hgrest e
          · rintro (⟨-, -, e⟩ | ⟨e1, e2⟩)
            · exact absurd e.symm hPN
            · rcases List.mem_cons.1 e2 with e3 | e3
              · exact absurd e3 e1
              · exact e3
        · rw [if_neg c2]
          constructor
          · intro e
            right
            refine ⟨fun e2 => ?_, e⟩
            rw [e2] at e
            exact c2 (w3 _ _ _ _ g e hgP)
          · rintro (⟨-, e1, e2⟩ | ⟨-, e⟩)
            · exact absurd ⟨e1, e2⟩ c1
            · exact e
    refine ⟨fun b j G hG => ?_, fun b j => ?_, fun b j b' j' G hG hG' => ?_⟩
    · rw [hN]
      rcases (hloc b j G).1 hG with ⟨e, -, -⟩ | ⟨-, e⟩
      · rw [e]
        exact w1 _ _ g hgP
      · exact w1 b j G e
    · rw [hm]
      by_cases c1 : b = bracket_id ∧ j = BG_QUEUE_NORMAL_ALLIANCE + i
      · rw [if_pos c1, c1.1, c1.2]
        exact List.nodup_cons.2 ⟨hgN, w2 _ _⟩
      · rw [if_neg c1]
        by_cases c2 : b = bracket_id ∧ j = BG_QUEUE_PREMADE_ALLIANCE + i
        · rw [if_pos c2]
          exact (List.nodup_cons.1 hnd).2
        · rw [if_neg c2]
          exact w2 b j
    · rcases (hloc b j G).1 hG with ⟨e, e1, e2⟩ | ⟨e, e1⟩
      · rcases (hloc b' j' G).1 hG' with ⟨-, e3, e4⟩ | ⟨e3, -⟩
        · exact ⟨e1.trans e3.symm, e2.trans e4.symm⟩
        · exact absurd e e3
      · rcases (hloc b' j' G).1 hG' with ⟨e3, -, -⟩ | ⟨-, e3⟩
        · exact absurd e3 e
        · exact w3 b j b' j' G e1 e3

/-- When `CheckPremadeMatch` finds a pair it changes the selection pools only. -/
theorem CheckPremadeMatch_true_buckets (q : BattleGroundQueue) (now premadeWait bracket_id
    MinPlayersPerTeam MaxPlayersPerTeam : Nat)
    (h : (q.CheckPremadeMatch now premadeWait bracket_id MinPlayersPerTeam
      MaxPlayersPerTeam).1 = true) :
    (q.CheckPremadeMatch now premadeWait bracket_id MinPlayersPerTeam
        MaxPlayersPerTeam).2.m_QueuedGroups = q.m_QueuedGroups ∧
    (q.CheckPremadeMatch now premadeWait bracket_id MinPlayersPerTeam
        MaxPlayersPerTeam).2.m_NextGroup = q.m_NextGroup ∧
    (q.CheckPremadeMatch now premadeWait bracket_id MinPlayersPerTeam
        MaxPlayersPerTeam).2.m_Groups = q.m_Groups ∧
    (q.CheckPremadeMatch now premadeWait bracket_id MinPlayersPerTeam
        MaxPlayersPerTeam).2.m_QueuedPlayers = q.m_QueuedPlayers := by
  unfold BattleGroundQueue.CheckPremadeMatch at h ⊢
  cases hp : q.premadePair bracket_id with
  | none =>
    rw [hp] at h
    cases h
  | some r => exact ⟨rfl, rfl, rfl, rfl⟩

theorem CheckPremadeMatch_bucketsDistinct (q : BattleGroundQueue) (now premadeWait bracket_id
    MinPlayersPerTeam MaxPlayersPerTeam : Nat) (h : q.BucketsDistinct) :
    (q.CheckPremadeMatch now premadeWait bracket_id MinPlayersPerTeam
      MaxPlayersPerTeam).2.BucketsDistinct := by
  cases hr : (q.CheckPremadeMatch now premadeWait bracket_id MinPlayersPerTeam
      MaxPlayersPerTeam).1 with
  | true =>
    obtain ⟨e1, e2, -, -⟩ := CheckPremadeMatch_true_buckets q now premadeWait bracket_id
      MinPlayersPerTeam MaxPlayersPerTeam hr
    unfold BattleGroundQueue.BucketsDistinct
    rw [e1, e2]
    exact h
  | false =>
    rw [CheckPremadeMatch_none q now premadeWait bracket_id MinPlayersPerTeam MaxPlayersPerTeam hr]
    exact demotePremade_bucketsDistinct _ _ _ _ _ (demotePremade_bucketsDistinct _ _ _ _ _ h)

theorem runCalls_distinct (c : Consts) (calls : List QueueCall)
    (s : BattleGroundMgr × BattleGroundQueue) (h : s.2.BucketsDistinct) :
    (runCalls c s calls).2.BucketsDistinct := by
  induction calls generalizing s with
  | nil => exact h
  | cons call rest ih =>
    apply ih
    cases call with
    | op o =>
      cases o with
      | enqueue now leader grp BgTypeId bracketId isPremade =>
        exact AddGroup_bucketsDistinct s.2 now leader grp BgTypeId bracketId isPremade h
      | removePlayer guid d => exact RemovePlayer_bucketsDistinct c s.1 s.2 guid d h
    | checkPremadeMatch now premadeWait bracket_id mn mx =>
      exact CheckPremadeMatch_bucketsDistinct s.2 now premadeWait bracket_id mn mx h

/-- The call `CheckPremadeMatch` neither copies nor drops a group: the premade and the normal
bucket of a faction hold together the same groups before and after it. -/
theorem CheckPremadeMatch_perm (q : BattleGroundQueue) (now premadeWait bracket_id
    MinPlayersPerTeam MaxPlayersPerTeam i : Nat) (hi : i < 2) :
    ((q.CheckPremadeMatch now premadeWait bracket_id MinPlayersPerTeam
          MaxPlayersPerTeam).2.m_QueuedGroups bracket_id (BG_QUEUE_PREMADE_ALLIANCE + i) ++
        (q.CheckPremadeMatch now premadeWait bracket_id MinPlayersPerTeam
          MaxPlayersPerTeam).2.m_QueuedGroups bracket_id (BG_QUEUE_NORMAL_ALLIANCE + i)).Perm
      (q.m_QueuedGroups bracket_id (BG_QUEUE_PREMADE_ALLIANCE + i) ++
        q.m_QueuedGroups bracket_id (BG_QUEUE_NORMAL_ALLIANCE + i)) := by
  cases hr : (q.CheckPremadeMatch now premadeWait bracket_id MinPlayersPerTeam
      MaxPlayersPerTeam).1 with
  | true =>
    rw [(CheckPremadeMatch_true_buckets q now premadeWait bracket_id MinPlayersPerTeam
      MaxPlayersPerTeam hr).1]
  | false =>
    rw [CheckPremadeMatch_none q now premadeWait bracket_id MinPlayersPerTeam MaxPlayersPerTeam hr]
    obtain ⟨hmove, hkeep⟩ := demote_twice q bracket_id
      (toUInt32 ((now : Int) - (premadeWait : Int))) MinPlayersPerTeam i hi
    by_cases hk : ∀ g rest,
        q.m_QueuedGroups bracket_id (BG_QUEUE_PREMADE_ALLIANCE + i) = g :: rest →
        ¬((q.m_Groups g).IsInvitedToBGInstanceGUID = 0 ∧
          ((q.m_Groups g).JoinTime < toUInt32 ((now : Int) - (premadeWait : Int)) ∨
            groupSize q.m_Groups g < MinPlayersPerTeam))
    · obtain ⟨e1, e2⟩ := hkeep hk
      rw [e1, e2]
    · have hk2 : ∃ g rest,
          q.m_QueuedGroups bracket_id (BG_QUEUE_PREMADE_ALLIANCE + i) = g :: rest ∧
          ((q.m_Groups g).IsInvitedToBGInstanceGUID = 0 ∧
            ((q.m_Groups g).JoinTime < toUInt32 ((now : Int) - (premadeWait : Int)) ∨
              groupSize q.m_Groups g < MinPlayersPerTeam)) := by
        by_contra hne
        apply hk
        intro g rest hb hc
        exact hne ⟨g, rest, hb, hc⟩
      obtain ⟨g, rest, hb, hc⟩ := hk2
      obtain ⟨e1, e2⟩ := hmove g rest hb hc
      rw [e1, e2, hb]
      exact List.perm_middle

/-- C30: after every sequence of `AddGroup`, `RemovePlayer` and
`CheckPremadeMatch` calls from the empty queue, every group is stored at most
once in a bucket and in at most one bucket; and a further `CheckPremadeMatch`
neither copies nor drops a group: for each faction the premade and the normal
bucket of the bracket hold together the same groups as before (a demoted group
leaves the premade bucket and enters the normal one), and the other buckets are
unchanged. -/
theorem runCalls_stored_once (c : Consts) (mgr : BattleGroundMgr) (calls : List QueueCall) :
    (∀ b j, ((runCalls c (mgr, BattleGroundQueue.new) calls).2.m_QueuedGroups b j).Nodup) ∧
    (∀ b j b' j' G,
      G ∈ (runCalls c (mgr, BattleGroundQueue.new) calls).2.m_QueuedGroups b j →
      G ∈ (runCalls c (mgr, BattleGroundQueue.new) calls).2.m_QueuedGroups b' j' →
      b = b' ∧ j = j') ∧
    (∀ now premadeWait bracket_id MinPlayersPerTeam MaxPlayersPerTeam i, i < 2 →
      (((runCalls c (mgr, BattleGroundQueue.new) calls).2.CheckPremadeMatch now premadeWait
            bracket_id MinPlayersPerTeam MaxPlayersPerTeam).2.m_QueuedGroups bracket_id
            (BG_QUEUE_PREMADE_ALLIANCE + i) ++
          ((runCalls c (mgr, BattleGroundQueue.new) calls).2.CheckPremadeMatch now premadeWait
            bracket_id MinPlayersPerTeam MaxPlayersPerTeam).2.m_QueuedGroups bracket_id
            (BG_QUEUE_NORMAL_ALLIANCE + i)).Perm
        ((runCalls c (mgr, BattleGroundQueue.new) calls).2.m_QueuedGroups bracket_id
            (BG_QUEUE_PREMADE_ALLIANCE + i) ++
          (runCalls c (mgr, BattleGroundQueue.new) calls).2.m_QueuedGroups bracket_id
            (BG_QUEUE_NORMAL_ALLIANCE + i))) ∧
    (∀ now premadeWait bracket_id MinPlayersPerTeam MaxPlayersPerTeam b j,
      b ≠ bracket_id ∨ BG_QUEUE_GROUP_TYPES_COUNT ≤ j →
      ((runCalls c (mgr, BattleGroundQueue.new) calls).2.CheckPremadeMatch now premadeWait
          bracket_id MinPlayersPerTeam MaxPlayersPerTeam).2.m_QueuedGroups b j =
        (runCalls c (mgr, BattleGroundQueue.new) calls).2.m_QueuedGroups b j) := by
  obtain ⟨-, w2, w3⟩ := runCalls_distinct c calls (mgr, BattleGroundQueue.new) BucketsDistinct_new
  refine ⟨w2, w3, fun now premadeWait bracket_id mn mx i hi =>
    CheckPremadeMatch_perm _ now premadeWait bracket_id mn mx i hi, ?_⟩
  intro now premadeWait bracket_id mn mx b j hbj
  generalize (runCalls c (mgr, BattleGroundQueue.new) calls).2 = q
  cases hr : (q.CheckPremadeMatch now premadeWait bracket_id mn mx).1 with
  | true => rw [(CheckPremadeMatch_true_buckets q now premadeWait bracket_id mn mx hr).1]
  | false =>
    rw [CheckPremadeMatch_none q now premadeWait bracket_id mn mx hr]
    exact demote_twice_other q bracket_id _ mn b j hbj

/-! ## Invitation of a group -/

theorem IncreaseInvitedCount_fields (bg : BattleGround) (team : Team) :
    (bg.IncreaseInvitedCount team).m_InstanceID = bg.m_InstanceID ∧
    (bg.IncreaseInvitedCount team).m_TypeID = bg.m_TypeID ∧
    (bg.IncreaseInvitedCount team).m_BracketId = bg.m_BracketId ∧
    (bg.IncreaseInvitedCount team).GetInvitedCount team =
      (bg.GetInvitedCount team + 1) % UINT32_MOD ∧
    ∀ t, t ≠ team → (bg.IncreaseInvitedCount team).GetInvitedCount t = bg.GetInvitedCount t := by
  cases team
  · refine ⟨rfl, rfl, rfl, rfl, fun t ht => ?_⟩
    cases t
    · exact absurd rfl ht
    · rfl
  · refine ⟨rfl, rfl, rfl, rfl, fun t ht => ?_⟩
    cases t
    · rfl
    · exact absurd rfl ht

/-- The battleground after `n` calls of `IncreaseInvitedCount` for one team. -/
theorem IncreaseInvitedCount_iterate (team : Team) (n : Nat) : ∀ bg : BattleGround,
    ((fun b : BattleGround => b.IncreaseInvitedCount team)^[n] bg).m_InstanceID =
      bg.m_InstanceID ∧
    ((fun b : BattleGround => b.IncreaseInvitedCount team)^[n] bg).m_TypeID = bg.m_TypeID ∧
    ((fun b : BattleGround => b.IncreaseInvitedCount team)^[n] bg).m_BracketId =
      bg.m_BracketId ∧
    (0 < n → ((fun b : BattleGround => b.IncreaseInvitedCount team)^[n] bg).GetInvitedCount team =
      (bg.GetInvitedCount team + n) % UINT32_MOD) ∧
    ∀ t, t ≠ team →
      ((fun b : BattleGround => b.IncreaseInvitedCount team)^[n] bg).GetInvitedCount t =
        bg.GetInvitedCount t := by
  induction n with
  | zero =>
    intro bg
    exact ⟨rfl, rfl, rfl, fun h => absurd h (Nat.lt_irrefl _), fun _ _ => rfl⟩
  | succ n ih =>
    intro bg
    rw [Function.iterate_succ_apply]
    obtain ⟨f1, f2, f3, f4, f5⟩ := IncreaseInvitedCount_fields bg team
    obtain ⟨i1, i2, i3, i4, i5⟩ := ih (bg.IncreaseInvitedCount team)
    refine ⟨i1.trans f1, i2.trans f2, i3.trans f3, fun _ => ?_, fun t ht => (i5 t ht).trans (f5 t ht)⟩
    cases n with
    | zero =>
      rw [Function.iterate_zero_apply, f4]
    | succ k =>
      rw [i4 (Nat.succ_pos _), f4]
      unfold UINT32_MOD
      omega

/-- The loop of `InviteGroupToBG` over players that are all online: one more
invited player and one wait time recorded for each of them, and one notice
each. -/
theorem inviteLoop_online (c : Consts) (now : Nat) (online : ObjectGuid → Bool) (ginfo : GroupPtr)
    (players : List ObjectGuid) (hon : ∀ g, g ∈ players → online g = true) :
    ∀ (bg : BattleGround) (q : BattleGroundQueue) (notices : List InviteNotice),
      BattleGroundQueue.inviteLoop c now online ginfo players (bg, q, notices) =
        ((fun b : BattleGround => b.IncreaseInvitedCount (q.m_Groups ginfo).GroupTeam)^[
            players.length] bg,
          BattleGroundQueue.recordAll c
            (List.replicate players.length
              ⟨waitTimeTeamIndex (q.m_Groups ginfo).GroupTeam, bg.m_BracketId,
                getMSTimeDiff (q.m_Groups ginfo).JoinTime now⟩) q,
          notices ++ players.map (fun g =>
            { guid := g, bgInstanceGUID := (q.m_Groups ginfo).IsInvitedToBGInstanceGUID,
              bgTypeId := bg.m_TypeID, removeTime := (q.m_Groups ginfo).RemoveInviteTime })) := by
  induction players with
  | nil =>
    intro bg q notices
    simp [BattleGroundQueue.inviteLoop, BattleGroundQueue.recordAll]
  | cons g rest ih =>
    intro bg q notices
    have hg := hon g (List.mem_cons_self _ _)
    unfold BattleGroundQueue.inviteLoop
    rw [if_pos hg]
    simp only
    rw [ih (fun x hx => hon x (List.mem_cons_of_mem _ hx))]
    obtain ⟨-, f2, f3, -, -⟩ := IncreaseInvitedCount_fields bg (q.m_Groups ginfo).GroupTeam
    have hG : (q.PlayerInvitedToBGUpdateAverageWaitTime c now ginfo bg.m_BracketId).m_Groups =
        q.m_Groups := rfl
    rw [hG, f2, f3]
    simp only [List.length_cons, Function.iterate_succ_apply, List.replicate_succ,
      BattleGroundQueue.recordAll, List.map_cons, List.append_assoc, List.singleton_append]
    rfl

theorem recordAll_fields (c : Consts) (samples : List WaitSample) : ∀ q : BattleGroundQueue,
    (BattleGroundQueue.recordAll c samples q).m_Groups = q.m_Groups ∧
    (BattleGroundQueue.recordAll c samples q).m_QueuedPlayers = q.m_QueuedPlayers ∧
    (BattleGroundQueue.recordAll c samples q).m_QueuedGroups = q.m_QueuedGroups ∧
    (BattleGroundQueue.recordAll c samples q).m_NextGroup = q.m_NextGroup ∧
    (BattleGroundQueue.recordAll c samples q).m_SelectionPools = q.m_SelectionPools := by
  induction samples with
  | nil => intro q; exact ⟨rfl, rfl, rfl, rfl, rfl⟩
  | cons w rest ih =>
    intro q
    unfold BattleGroundQueue.recordAll
    obtain ⟨h1, h2, h3, h4, h5⟩ := ih (q.recordWaitTime c w.team_index w.bracket_id w.timeInQueue)
    exact ⟨h1, h2, h3, h4, h5⟩

theorem recordAll_congr (c : Consts) (samples : List WaitSample) :
    ∀ q q' : BattleGroundQueue, q'.m_WaitTimes = q.m_WaitTimes →
      q'.m_SumOfWaitTimes = q.m_SumOfWaitTimes →
      q'.m_WaitTimeLastPlayer = q.m_WaitTimeLastPlayer →
      (BattleGroundQueue.recordAll c samples q').m_WaitTimes =
        (BattleGroundQueue.recordAll c samples q).m_WaitTimes ∧
      (BattleGroundQueue.recordAll c samples q').m_SumOfWaitTimes =
        (BattleGroundQueue.recordAll c samples q).m_SumOfWaitTimes ∧
      (BattleGroundQueue.recordAll c samples q').m_WaitTimeLastPlayer =
        (BattleGroundQueue.recordAll c samples q).m_WaitTimeLastPlayer := by
  induction samples with
  | nil => intro q q' h1 h2 h3; exact ⟨h1, h2, h3⟩
  | cons w rest ih =>
    intro q q' h1 h2 h3
    unfold BattleGroundQueue.recordAll
    apply ih
    · unfold BattleGroundQueue.recordWaitTime
      simp only [h1, h3]
    · unfold BattleGroundQueue.recordWaitTime
      simp only [h1, h2, h3]
    · unfold BattleGroundQueue.recordWaitTime
      simp only [h3]

theorem setSide_fields (q : BattleGroundQueue) (ginfo : GroupPtr) (side : Option Team) :
    (q.setSide ginfo side).m_Groups ginfo =
      { q.m_Groups ginfo with GroupTeam := side.getD (q.m_Groups ginfo).GroupTeam } ∧
    (∀ p, p ≠ ginfo → (q.setSide ginfo side).m_Groups p = q.m_Groups p) ∧
    (q.setSide ginfo side).m_QueuedPlayers = q.m_QueuedPlayers ∧
    (q.setSide ginfo side).m_QueuedGroups = q.m_QueuedGroups ∧
    (q.setSide ginfo side).m_NextGroup = q.m_NextGroup ∧
    (q.setSide ginfo side).m_WaitTimes = q.m_WaitTimes ∧
    (q.setSide ginfo side).m_SumOfWaitTimes = q.m_SumOfWaitTimes ∧
    (q.setSide ginfo side).m_WaitTimeLastPlayer = q.m_WaitTimeLastPlayer := by
  cases side with
  | none => exact ⟨rfl, fun _ _ => rfl, rfl, rfl, rfl, rfl, rfl, rfl⟩
  | some team =>
    refine ⟨?_, fun p hp => ?_, rfl, rfl, rfl, rfl, rfl, rfl⟩
    · simp [BattleGroundQueue.setSide]
    · simp [BattleGroundQueue.setSide, hp]

/-- The result of `InviteGroupToBG` for a group that is not invited and whose
players are all online. -/
theorem InviteGroupToBG_online (c : Consts) (q : BattleGroundQueue) (now : Nat)
    (online : ObjectGuid → Bool) (ginfo : GroupPtr) (bg : BattleGround) (side : Option Team)
    (hnot : (q.m_Groups ginfo).IsInvitedToBGInstanceGUID = 0)
    (hon : ∀ g, g ∈ (q.m_Groups ginfo).Players → online g = true) :
    q.InviteGroupToBG c now online ginfo bg side =
      (true,
        (fun b : BattleGround =>
          b.IncreaseInvitedCount (side.getD (q.m_Groups ginfo).GroupTeam))^[
            groupSize q.m_Groups ginfo] bg,
        BattleGroundQueue.recordAll c
          (List.replicate (groupSize q.m_Groups ginfo)
            ⟨waitTimeTeamIndex (side.getD (q.m_Groups ginfo).GroupTeam), bg.m_BracketId,
              getMSTimeDiff (q.m_Groups ginfo).JoinTime now⟩)
          { q.setSide ginfo side with
            m_Groups := fun p =>
              if p = ginfo then
                { (q.setSide ginfo side).m_Groups ginfo with
                  IsInvitedToBGInstanceGUID := bg.m_InstanceID,
                  RemoveInviteTime := (now + c.INVITE_ACCEPT_WAIT_TIME) % UINT32_MOD }
              else (q.setSide ginfo side).m_Groups p },
        (q.m_Groups ginfo).Players.map (fun g =>
          { guid := g, bgInstanceGUID := bg.m_InstanceID, bgTypeId := bg.m_TypeID,
            removeTime := (now + c.INVITE_ACCEPT_WAIT_TIME) % UINT32_MOD })) := by
  obtain ⟨s1, -⟩ := setSide_fields q ginfo side
  unfold BattleGroundQueue.InviteGroupToBG
  have h0 : ((q.setSide ginfo side).m_Groups ginfo).IsInvitedToBGInstanceGUID = 0 := by
    rw [s1]
    exact hnot
  have hp : ((q.setSide ginfo side).m_Groups ginfo).Players = (q.m_Groups ginfo).Players := by
    rw [s1]
  rw [if_pos h0, hp, inviteLoop_online c now online ginfo _ hon]
  simp only [if_true, List.nil_append, s1, groupSize]

/-- C21: for every group stored in a bucket of a well-formed queue that is not
yet invited and whose members are all online, `InviteGroupToBG` returns true;
it sets the invited instance of the group to the instance id of the
battleground and its removal time to `now + INVITE_ACCEPT_WAIT_TIME` (a
`uint32` clock value), and changes no other field of the group but its team,
which becomes the side when one is given; it raises the invited counter of the
team of the group by exactly the size of the group (a `uint32` counter) and
leaves the counter of the other team; it records one wait time
`getMSTimeDiff(JoinTime, now)` for each member, for the team of the group and
the bracket of the battleground, and sends one notice to each member; and
afterwards `IsPlayerInvited` holds for every member with that instance id and
that removal time. -/
theorem BattleGroundQueue.InviteGroupToBG_invites (c : Consts) (q : BattleGroundQueue) (now : Nat)
    (online : ObjectGuid → Bool) (ginfo : GroupPtr) (bg : BattleGround) (side : Option Team)
    (b j : Nat) (hwf : q.WellFormed c) (hmem : ginfo ∈ q.m_QueuedGroups b j)
    (hnot : (q.m_Groups ginfo).IsInvitedToBGInstanceGUID = 0)
    (hon : ∀ g, g ∈ (q.m_Groups ginfo).Players → online g = true) :
    ∃ bg1 q1 notices, q.InviteGroupToBG c now online ginfo bg side = (true, bg1, q1, notices) ∧
      q1.m_Groups ginfo =
        { q.m_Groups ginfo with
          GroupTeam := side.getD (q.m_Groups ginfo).GroupTeam,
          IsInvitedToBGInstanceGUID := bg.m_InstanceID,
          RemoveInviteTime := (now + c.INVITE_ACCEPT_WAIT_TIME) % UINT32_MOD } ∧
      (now + c.INVITE_ACCEPT_WAIT_TIME < UINT32_MOD →
        (q1.m_Groups ginfo).RemoveInviteTime = now + c.INVITE_ACCEPT_WAIT_TIME) ∧
      (∀ p, p ≠ ginfo → q1.m_Groups p = q.m_Groups p) ∧
      q1.m_QueuedPlayers = q.m_QueuedPlayers ∧
      q1.m_QueuedGroups = q.m_QueuedGroups ∧
      bg1.GetInvitedCount (side.getD (q.m_Groups ginfo).GroupTeam) =
        (bg.GetInvitedCount (side.getD (q.m_Groups ginfo).GroupTeam) +
          groupSize q.m_Groups ginfo) % UINT32_MOD ∧
      (bg.GetInvitedCount (side.getD (q.m_Groups ginfo).GroupTeam) +
          groupSize q.m_Groups ginfo < UINT32_MOD →
        bg1.GetInvitedCount (side.getD (q.m_Groups ginfo).GroupTeam) =
          bg.GetInvitedCount (side.getD (q.m_Groups ginfo).GroupTeam) +
            groupSize q.m_Groups ginfo) ∧
      (∀ t, t ≠ side.getD (q.m_Groups ginfo).GroupTeam →
        bg1.GetInvitedCount t = bg.GetInvitedCount t) ∧
      bg1.m_InstanceID = bg.m_InstanceID ∧
      q1.m_WaitTimes =
        (BattleGroundQueue.recordAll c
          (List.replicate (groupSize q.m_Groups ginfo)
            ⟨waitTimeTeamIndex (side.getD (q.m_Groups ginfo).GroupTeam), bg.m_BracketId,
              getMSTimeDiff (q.m_Groups ginfo).JoinTime now⟩) q).m_WaitTimes ∧
      q1.m_SumOfWaitTimes =
        (BattleGroundQueue.recordAll c
          (List.replicate (groupSize q.m_Groups ginfo)
            ⟨waitTimeTeamIndex (side.getD (q.m_Groups ginfo).GroupTeam), bg.m_BracketId,
              getMSTimeDiff (q.m_Groups ginfo).JoinTime now⟩) q).m_SumOfWaitTimes ∧
      q1.m_WaitTimeLastPlayer =
        (BattleGroundQueue.recordAll c
          (List.replicate (groupSize q.m_Groups ginfo)
            ⟨waitTimeTeamIndex (side.getD (q.m_Groups ginfo).GroupTeam), bg.m_BracketId,
              getMSTimeDiff (q.m_Groups ginfo).JoinTime now⟩) q).m_WaitTimeLastPlayer ∧
      notices = (q.m_Groups ginfo).Players.map (fun g =>
        { guid := g, bgInstanceGUID := bg.m_InstanceID, bgTypeId := bg.m_TypeID,
          removeTime := (now + c.INVITE_ACCEPT_WAIT_TIME) % UINT32_MOD }) ∧
      ∀ g, g ∈ (q.m_Groups ginfo).Players →
        q1.IsPlayerInvited g bg.m_InstanceID
          ((now + c.INVITE_ACCEPT_WAIT_TIME) % UINT32_MOD) = true := by
  obtain ⟨w1, -, -, -⟩ := hwf
  obtain ⟨-, -, -, hne, hmap⟩ := w1 b j ginfo hmem
  obtain ⟨s1, s2, s3, s4, -, s6, s7, s8⟩ := setSide_fields q ginfo side
  have hsize : 0 < groupSize q.m_Groups ginfo := by
    unfold groupSize
    exact List.length_pos.2 hne
  obtain ⟨i1, -, -, i4, i5⟩ := IncreaseInvitedCount_iterate
    (side.getD (q.m_Groups ginfo).GroupTeam) (groupSize q.m_Groups ginfo) bg
  obtain ⟨r1, r2, r3, -, -⟩ := recordAll_fields c
    (List.replicate (groupSize q.m_Groups ginfo)
      ⟨waitTimeTeamIndex (side.getD (q.m_Groups ginfo).GroupTeam), bg.m_BracketId,
        getMSTimeDiff (q.m_Groups ginfo).JoinTime now⟩)
    { q.setSide ginfo side with
      m_Groups := fun p =>
        if p = ginfo then
          { (q.setSide ginfo side).m_Groups ginfo with
            IsInvitedToBGInstanceGUID := bg.m_InstanceID,
            RemoveInviteTime := (now + c.INVITE_ACCEPT_WAIT_TIME) % UINT32_MOD }
        else (q.setSide ginfo side).m_Groups p }
  obtain ⟨c1, c2, c3⟩ := recordAll_congr c
    (List.replicate (groupSize q.m_Groups ginfo)
      ⟨waitTimeTeamIndex (side.getD (q.m_Groups ginfo).GroupTeam), bg.m_BracketId,
        getMSTimeDiff (q.m_Groups ginfo).JoinTime now⟩) q
    { q.setSide ginfo side with
      m_Groups := fun p =>
        if p = ginfo then
          { (q.setSide ginfo side).m_Groups ginfo with
            IsInvitedToBGInstanceGUID := bg.m_InstanceID,
            RemoveInviteTime := (now + c.INVITE_ACCEPT_WAIT_TIME) % UINT32_MOD }
        else (q.setSide ginfo side).m_Groups p } s6 s7 s8
  have hG : (BattleGroundQueue.recordAll c
      (List.replicate (groupSize q.m_Groups ginfo)
        ⟨waitTimeTeamIndex (side.getD (q.m_Groups ginfo).GroupTeam), bg.m_BracketId,
          getMSTimeDiff (q.m_Groups ginfo).JoinTime now⟩)
      { q.setSide ginfo side with
        m_Groups := fun p =>
          if p = ginfo then
            { (q.setSide ginfo side).m_Groups ginfo with
              IsInvitedToBGInstanceGUID := bg.m_InstanceID,
              RemoveInviteTime := (now + c.INVITE_ACCEPT_WAIT_TIME) % UINT32_MOD }
          else (q.setSide ginfo side).m_Groups p }).m_Groups ginfo =
      { q.m_Groups ginfo with
        GroupTeam := side.getD (q.m_Groups ginfo).GroupTeam,
        IsInvitedToBGInstanceGUID := bg.m_InstanceID,
        RemoveInviteTime := (now + c.INVITE_ACCEPT_WAIT_TIME) % UINT32_MOD } := by
    rw [r1]
    simp only [if_true, s1]
  refine ⟨_, _, _, InviteGroupToBG_online c q now online ginfo bg side hnot hon, hG, ?_, ?_,
    r2.trans s3, r3.trans s4, i4 hsize, ?_, i5, i1, c1, c2, c3, rfl, ?_⟩
  · intro hlt
    rw [hG]
    exact Nat.mod_eq_of_lt hlt
  · intro p hp
    rw [r1]
    simp only [hp, if_false]
    exact s2 p hp
  · intro hlt
    rw [i4 hsize]
    exact Nat.mod_eq_of_lt hlt
  · intro g hg
    obtain ⟨info, hinfo, hgi⟩ := hmap g hg
    unfold BattleGroundQueue.IsPlayerInvited
    rw [r2, s3, hinfo]
    simp only
    rw [hgi, hG]
    simp

theorem BattleGroundQueue.InviteGroupToBG_invites_witness :
    ∃ bg1 q1 notices,
      BattleGroundQueue.oneGroup.InviteGroupToBG sampleConsts 1000 (fun _ => true) 0
          BattleGround.sample none = (true, bg1, q1, notices) ∧
        bg1.GetInvitedCount Team.HORDE = 5 ∧
        (q1.m_Groups 0).IsInvitedToBGInstanceGUID = 5 ∧
        (q1.m_Groups 0).RemoveInviteTime = 81000 ∧
        q1.IsPlayerInvited 7 5 81000 = true ∧ q1.IsPlayerInvited 8 5 81000 = true :=
  match BattleGroundQueue.InviteGroupToBG_invites sampleConsts BattleGroundQueue.oneGroup 1000
      (fun _ => true) 0 BattleGround.sample none 3 3 oneGroup_wellFormed (by decide) (by decide)
      (fun _ _ => rfl) with
  | ⟨bg1, q1, notices, h, hg, _, _, _, _, hc, _, _, _, _, _, _, _, hinv⟩ =>
    ⟨bg1, q1, notices, h, hc, by rw [hg]; rfl, by rw [hg]; rfl,
      hinv 7 (by decide), hinv 8 (by decide)⟩

/-! ## Scheduled queue updates -/

theorem mem_iff_getD (l : List Nat) (key : Nat) :
    key ∈ l ↔ ∃ k, k < l.length ∧ l.getD k 0 = key := by
  rw [List.mem_iff_getElem?]
  constructor
  · rintro ⟨k, hk⟩
    have hlt : k < l.length := by
      by_contra hge
      rw [List.getElem?_eq_none (Nat.le_of_not_lt hge)] at hk
      cases hk
    refine ⟨k, hlt, ?_⟩
    rw [List.getD_eq_getElem?_getD, hk]
    rfl
  · rintro ⟨k, hlt, hk⟩
    refine ⟨k, ?_⟩
    rw [List.getD_eq_getElem?_getD, List.getElem?_eq_getElem hlt] at hk
    rw [List.getElem?_eq_getElem hlt]
    simp only [Option.getD_some] at hk
    rw [hk]

/-- The search loop of `ScheduleQueueUpdate` finds a number that stands at one
of the first 256 places of the list. -/
theorem find_found (sched : List Nat) (key k : Nat) (hk : k < 256) (hlen : k < sched.length)
    (hkey : sched.getD k 0 = key) :
    ∀ fuel i, i ≤ k → k - i < fuel →
      BattleGroundMgr.ScheduleQueueUpdate.find sched key fuel i = some true := by
  intro fuel
  induction fuel with
  | zero => intro i _ h; omega
  | succ fuel ih =>
    intro i hik hf
    unfold BattleGroundMgr.ScheduleQueueUpdate.find
    rw [if_pos (by omega)]
    by_cases he : sched.getD i 0 = key
    · rw [if_pos he]
    · rw [if_neg he]
      have hne : i ≠ k := by
        intro e
        rw [e] at he
        exact he hkey
      have hmod : (i + 1) % 256 = i + 1 := Nat.mod_eq_of_lt (by omega)
      rw [hmod]
      exact ih (i + 1) (by omega) (by omega)

/-- The search loop of `ScheduleQueueUpdate` ends without finding a number that is
not in a list of fewer than 256 numbers. -/
theorem find_absent (sched : List Nat) (key : Nat) (hlen : sched.length < 256)
    (habs : ∀ k, k < sched.length → sched.getD k 0 ≠ key) :
    ∀ fuel i, i ≤ sched.length → sched.length - i < fuel →
      BattleGroundMgr.ScheduleQueueUpdate.find sched key fuel i = some false := by
  intro fuel
  induction fuel with
  | zero => intro i _ h; omega
  | succ fuel ih =>
    intro i hi hf
    unfold BattleGroundMgr.ScheduleQueueUpdate.find
    by_cases hlt : i < sched.length
    · rw [if_pos hlt, if_neg (habs i hlt)]
      have hmod : (i + 1) % 256 = i + 1 := Nat.mod_eq_of_lt (by omega)
      rw [hmod]
      exact ih (i + 1) (by omega) (by omega)
    · rw [if_neg hlt]

/-- The call `ScheduleQueueUpdate` for a number that is in the list, at one of its first 256
places: the manager is unchanged. -/
theorem ScheduleQueueUpdate_present (mgr : BattleGroundMgr) (q t b fuel : Nat)
    (hlen : mgr.m_QueueUpdateScheduler.length ≤ 256)
    (hfuel : mgr.m_QueueUpdateScheduler.length ≤ fuel)
    (hin : BattleGroundMgr.scheduleId q t b ∈ mgr.m_QueueUpdateScheduler) :
    mgr.ScheduleQueueUpdate q t b fuel = some mgr := by
  obtain ⟨k, hk, hkey⟩ := (mem_iff_getD _ _).1 hin
  unfold BattleGroundMgr.ScheduleQueueUpdate
  rw [find_found _ _ k (by omega) hk hkey fuel 0 (Nat.zero_le _) (by omega)]
  simp

/-- The call `ScheduleQueueUpdate` for a number that is not in a list of fewer than 256
numbers: the number is appended. -/
theorem ScheduleQueueUpdate_absent (mgr : BattleGroundMgr) (q t b fuel : Nat)
    (hlen : mgr.m_QueueUpdateScheduler.length < 256)
    (hfuel : mgr.m_QueueUpdateScheduler.length < fuel)
    (hout : BattleGroundMgr.scheduleId q t b ∉ mgr.m_QueueUpdateScheduler) :
    mgr.ScheduleQueueUpdate q t b fuel =
      some { mgr with
        m_QueueUpdateScheduler :=
          mgr.m_QueueUpdateScheduler ++ [BattleGroundMgr.scheduleId q t b] } := by
  unfold BattleGroundMgr.ScheduleQueueUpdate
  rw [find_absent _ _ hlen
    (fun k hk he => hout ((mem_iff_getD _ _).2 ⟨k, hk, he⟩)) fuel 0 (Nat.zero_le _) (by omega)]
  simp

/-- C23: for every list of scheduled numbers shorter than 256 and every queue
type, battleground type and bracket, `ScheduleQueueUpdate` (its search loop given
more evaluations of its condition than the list has numbers) leaves the manager
unchanged when the number made of them is in the list, and otherwise appends
the number at the end of the list and changes nothing else; so a list without
duplicates stays without duplicates, and a second call for the same queue type,
battleground type and bracket changes nothing. -/
theorem BattleGroundMgr.ScheduleQueueUpdate_dedup (mgr : BattleGroundMgr) (q t b fuel : Nat)
    (hlen : mgr.m_QueueUpdateScheduler.length < 256)
    (hfuel : mgr.m_QueueUpdateScheduler.length < fuel) :
    (BattleGroundMgr.scheduleId q t b ∈ mgr.m_QueueUpdateScheduler →
      mgr.ScheduleQueueUpdate q t b fuel = some mgr) ∧
    (BattleGroundMgr.scheduleId q t b ∉ mgr.m_QueueUpdateScheduler →
      mgr.ScheduleQueueUpdate q t b fuel =
        some { mgr with
          m_QueueUpdateScheduler :=
            mgr.m_QueueUpdateScheduler ++ [BattleGroundMgr.scheduleId q t b] }) ∧
    ∃ mgr1, mgr.ScheduleQueueUpdate q t b fuel = some mgr1 ∧
      (mgr.m_QueueUpdateScheduler.Nodup → mgr1.m_QueueUpdateScheduler.Nodup) ∧
      mgr1.ScheduleQueueUpdate q t b (fuel + 1) = some mgr1 := by
  have h1 := ScheduleQueueUpdate_present mgr q t b fuel (by omega) (by omega)
  have h2 := ScheduleQueueUpdate_absent mgr q t b fuel hlen hfuel
  refine ⟨h1, h2, ?_⟩
  by_cases hin : BattleGroundMgr.scheduleId q t b ∈ mgr.m_QueueUpdateScheduler
  · refine ⟨mgr, h1 hin, fun hnd => hnd, ?_⟩
    exact ScheduleQueueUpdate_present mgr q t b (fuel + 1) (by omega) (by omega) hin
  · refine ⟨_, h2 hin, fun hnd => ?_, ?_⟩
    · show (mgr.m_QueueUpdateScheduler ++ [BattleGroundMgr.scheduleId q t b]).Nodup
      apply List.Nodup.append hnd (List.nodup_singleton _)
      intro x hx hx2
      rw [List.mem_singleton.1 hx2] at hx
      exact hin hx
    · apply ScheduleQueueUpdate_present
      · show (mgr.m_QueueUpdateScheduler ++ [BattleGroundMgr.scheduleId q t b]).length ≤ 256
        rw [List.length_append, List.length_singleton]
        omega
      · show (mgr.m_QueueUpdateScheduler ++ [BattleGroundMgr.scheduleId q t b]).length ≤ fuel + 1
        rw [List.length_append, List.length_singleton]
        omega
      · show BattleGroundMgr.scheduleId q t b ∈
          mgr.m_QueueUpdateScheduler ++ [BattleGroundMgr.scheduleId q t b]
        exact List.mem_append_right _ (List.mem_singleton_self _)

theorem BattleGroundMgr.ScheduleQueueUpdate_dedup_witness :
    ∃ mgr1, (BattleGroundMgr.scheduled [65793, 131587]).ScheduleQueueUpdate 1 1 2 3 = some mgr1 ∧
      mgr1.m_QueueUpdateScheduler = [65793, 131587, 65794] ∧
      mgr1.ScheduleQueueUpdate 1 1 2 4 = some mgr1 :=
  match BattleGroundMgr.ScheduleQueueUpdate_dedup (BattleGroundMgr.scheduled [65793, 131587])
      1 1 2 3 (by decide) (by decide) with
  | ⟨_, h2, mgr1, h3, _, h4⟩ =>
    ⟨mgr1, h3, by
      rw [h2 (by decide)] at h3
      cases h3
      rfl, h4⟩

/-! ## The event that removes an invitation -/

theorem IsPlayerInvited_queued (q : BattleGroundQueue) (guid : ObjectGuid) (i r : Nat)
    (h : q.IsPlayerInvited guid i r = true) : ∃ info, q.m_QueuedPlayers guid = some info := by
  unfold BattleGroundQueue.IsPlayerInvited at h
  cases hq : q.m_QueuedPlayers guid with
  | none =>
    rw [hq] at h
    cases h
  | some info => exact ⟨info, rfl⟩

theorem IsPlayerInvited_none (q : BattleGroundQueue) (guid : ObjectGuid) (i r : Nat)
    (h : q.m_QueuedPlayers guid = none) : q.IsPlayerInvited guid i r = false := by
  unfold BattleGroundQueue.IsPlayerInvited
  rw [h]

/-- The method `RemovePlayer` changes nothing of the manager but the battlegrounds it stores. -/
theorem RemovePlayer_mgr_fields (c : Consts) (mgr : BattleGroundMgr) (q : BattleGroundQueue)
    (guid : ObjectGuid) (d : Bool) :
    (q.RemovePlayer c mgr guid d).2.1.m_BattleGroundQueues = mgr.m_BattleGroundQueues ∧
    (q.RemovePlayer c mgr guid d).2.1.m_QueueUpdateScheduler = mgr.m_QueueUpdateScheduler ∧
    (q.RemovePlayer c mgr guid d).2.1.BGFreeSlotQueue = mgr.BGFreeSlotQueue ∧
    (q.RemovePlayer c mgr guid d).2.1.m_ClientBattleGroundIds = mgr.m_ClientBattleGroundIds ∧
    (q.RemovePlayer c mgr guid d).2.1.m_Testing = mgr.m_Testing := by
  unfold BattleGroundQueue.RemovePlayer
  cases q.m_QueuedPlayers guid with
  | none => exact ⟨rfl, rfl, rfl, rfl, rfl⟩
  | some info =>
    simp only
    split
    · exact ⟨rfl, rfl, rfl, rfl, rfl⟩
    · simp only
      split
      · split <;> exact ⟨rfl, rfl, rfl, rfl, rfl⟩
      · exact ⟨rfl, rfl, rfl, rfl, rfl⟩

theorem ScheduleQueueUpdate_fields (mgr mgr1 : BattleGroundMgr) (q t b fuel : Nat)
    (h : mgr.ScheduleQueueUpdate q t b fuel = some mgr1) :
    mgr1.m_BattleGrounds = mgr.m_BattleGrounds ∧
    mgr1.m_BattleGroundQueues = mgr.m_BattleGroundQueues ∧
    mgr1.BGFreeSlotQueue = mgr.BGFreeSlotQueue ∧
    mgr1.m_ClientBattleGroundIds = mgr.m_ClientBattleGroundIds ∧
    mgr1.m_Testing = mgr.m_Testing := by
  unfold BattleGroundMgr.ScheduleQueueUpdate at h
  cases hf : BattleGroundMgr.ScheduleQueueUpdate.find mgr.m_QueueUpdateScheduler
      (BattleGroundMgr.scheduleId q t b) fuel 0 with
  | none =>
    rw [hf] at h
    cases h
  | some found =>
    rw [hf] at h
    simp only at h
    by_cases hfo : found = false
    · rw [if_pos hfo] at h
      cases h
      exact ⟨rfl, rfl, rfl, rfl, rfl⟩
    · rw [if_neg hfo] at h
      cases h
      exact ⟨rfl, rfl, rfl, rfl, rfl⟩

theorem ScheduleQueueUpdate_returns (mgr : BattleGroundMgr) (q t b fuel : Nat)
    (hlen : mgr.m_QueueUpdateScheduler.length < 256)
    (hfuel : mgr.m_QueueUpdateScheduler.length < fuel) :
    ∃ mgr1, mgr.ScheduleQueueUpdate q t b fuel = some mgr1 := by
  by_cases hin : BattleGroundMgr.scheduleId q t b ∈ mgr.m_QueueUpdateScheduler
  · exact ⟨_, ScheduleQueueUpdate_present mgr q t b fuel (by omega) (by omega) hin⟩
  · exact ⟨_, ScheduleQueueUpdate_absent mgr q t b fuel hlen hfuel hin⟩

/-- The call `Execute` when the player is offline, has no queue slot for the queue type or
is not invited with the instance and removal time of the event: nothing
happens. -/
theorem Execute_skips (c : Consts) (mgr : BattleGroundMgr) (ev : BGQueueRemoveEvent)
    (plr : Option Nat) (fuel : Nat)
    (h : ¬∃ queueSlot, plr = some queueSlot ∧ queueSlot < c.PLAYER_MAX_BATTLEGROUND_QUEUES ∧
      (mgr.m_BattleGroundQueues ev.m_BgQueueTypeId).IsPlayerInvited ev.m_PlayerGuid
        ev.m_BgInstanceGUID ev.m_RemoveTime = true) :
    ev.Execute c mgr plr fuel = some (true, mgr, []) := by
  unfold BGQueueRemoveEvent.Execute
  cases plr with
  | none => rfl
  | some queueSlot =>
    simp only
    by_cases h1 : queueSlot < c.PLAYER_MAX_BATTLEGROUND_QUEUES
    · rw [if_pos h1]
      by_cases h2 : (mgr.m_BattleGroundQueues ev.m_BgQueueTypeId).IsPlayerInvited ev.m_PlayerGuid
          ev.m_BgInstanceGUID ev.m_RemoveTime = true
      · exact absurd ⟨queueSlot, rfl, h1, h2⟩ h
      · rw [if_neg h2]
    · rw [if_neg h1]

/-- The call `Execute` when the player is online, has a queue slot for the queue type and is
invited with the instance and removal time of the event: `RemovePlayer` is
called with `decreaseInvitedCount = true`, its queue is written back, and at
most a queue update is scheduled. -/
theorem Execute_fires (c : Consts) (mgr : BattleGroundMgr) (ev : BGQueueRemoveEvent)
    (queueSlot fuel : Nat) (h1 : queueSlot < c.PLAYER_MAX_BATTLEGROUND_QUEUES)
    (h2 : (mgr.m_BattleGroundQueues ev.m_BgQueueTypeId).IsPlayerInvited ev.m_PlayerGuid
      ev.m_BgInstanceGUID ev.m_RemoveTime = true)
    (hlen : mgr.m_QueueUpdateScheduler.length < 256)
    (hfuel : mgr.m_QueueUpdateScheduler.length < fuel) :
    ∃ mgr1, ev.Execute c mgr (some queueSlot) fuel =
        some (true, mgr1,
          [{ guid := ev.m_PlayerGuid, bgQueueTypeId := ev.m_BgQueueTypeId,
             queueSlot := queueSlot }]) ∧
      mgr1.m_BattleGroundQueues ev.m_BgQueueTypeId =
        ((mgr.m_BattleGroundQueues ev.m_BgQueueTypeId).RemovePlayer c mgr ev.m_PlayerGuid
          true).2.2 ∧
      (∀ i, i ≠ ev.m_BgQueueTypeId → mgr1.m_BattleGroundQueues i = mgr.m_BattleGroundQueues i) ∧
      mgr1.m_BattleGrounds =
        ((mgr.m_BattleGroundQueues ev.m_BgQueueTypeId).RemovePlayer c mgr ev.m_PlayerGuid
          true).2.1.m_BattleGrounds := by
  obtain ⟨r1, r2, -, -, -⟩ := RemovePlayer_mgr_fields c mgr
    (mgr.m_BattleGroundQueues ev.m_BgQueueTypeId) ev.m_PlayerGuid true
  have hq : ∀ i, (((mgr.m_BattleGroundQueues ev.m_BgQueueTypeId).RemovePlayer c mgr
      ev.m_PlayerGuid true).2.1.setQueue ev.m_BgQueueTypeId
        ((mgr.m_BattleGroundQueues ev.m_BgQueueTypeId).RemovePlayer c mgr ev.m_PlayerGuid
          true).2.2).m_BattleGroundQueues i =
      if i = ev.m_BgQueueTypeId then
        ((mgr.m_BattleGroundQueues ev.m_BgQueueTypeId).RemovePlayer c mgr ev.m_PlayerGuid
          true).2.2
      else mgr.m_BattleGroundQueues i := by
    intro i
    unfold BattleGroundMgr.setQueue
    simp only [r1]
  have hsched : (((mgr.m_BattleGroundQueues ev.m_BgQueueTypeId).RemovePlayer c mgr
      ev.m_PlayerGuid true).2.1.setQueue ev.m_BgQueueTypeId
        ((mgr.m_BattleGroundQueues ev.m_BgQueueTypeId).RemovePlayer c mgr ev.m_PlayerGuid
          true).2.2).m_QueueUpdateScheduler = mgr.m_QueueUpdateScheduler := r2
  have hmine := hq ev.m_BgQueueTypeId
  rw [if_pos rfl] at hmine
  have hother : ∀ i, i ≠ ev.m_BgQueueTypeId →
      (((mgr.m_BattleGroundQueues ev.m_BgQueueTypeId).RemovePlayer c mgr
        ev.m_PlayerGuid true).2.1.setQueue ev.m_BgQueueTypeId
          ((mgr.m_BattleGroundQueues ev.m_BgQueueTypeId).RemovePlayer c mgr ev.m_PlayerGuid
            true).2.2).m_BattleGroundQueues i = mgr.m_BattleGroundQueues i := by
    intro i hi
    rw [hq i, if_neg hi]
  have hbgs : (((mgr.m_BattleGroundQueues ev.m_BgQueueTypeId).RemovePlayer c mgr
      ev.m_PlayerGuid true).2.1.setQueue ev.m_BgQueueTypeId
        ((mgr.m_BattleGroundQueues ev.m_BgQueueTypeId).RemovePlayer c mgr ev.m_PlayerGuid
          true).2.2).m_BattleGrounds =
      ((mgr.m_BattleGroundQueues ev.m_BgQueueTypeId).RemovePlayer c mgr ev.m_PlayerGuid
        true).2.1.m_BattleGrounds := rfl
  unfold BGQueueRemoveEvent.Execute
  simp only
  rw [if_pos h1, if_pos h2]
  generalize ((mgr.m_BattleGroundQueues ev.m_BgQueueTypeId).RemovePlayer c mgr
    ev.m_PlayerGuid true).2.1.setQueue ev.m_BgQueueTypeId
      ((mgr.m_BattleGroundQueues ev.m_BgQueueTypeId).RemovePlayer c mgr ev.m_PlayerGuid
        true).2.2 = m1 at hsched hmine hother hbgs ⊢
  cases hg : mgr.GetBattleGround c ev.m_BgInstanceGUID ev.m_BgTypeId with
  | none => exact ⟨m1, rfl, hmine, hother, hbgs⟩
  | some tb =>
    simp only
    by_cases hst : tb.2.m_Status ≠ c.STATUS_WAIT_LEAVE
    · rw [if_pos hst]
      obtain ⟨m2, hm2⟩ := ScheduleQueueUpdate_returns m1 ev.m_BgQueueTypeId ev.m_BgTypeId
        tb.2.m_BracketId fuel (by rw [hsched]; exact hlen) (by rw [hsched]; exact hfuel)
      obtain ⟨f1, f2, -, -, -⟩ := ScheduleQueueUpdate_fields m1 m2 _ _ _ _ hm2
      rw [hm2]
      refine ⟨m2, rfl, ?_, ?_, ?_⟩
      · rw [f2]
        exact hmine
      · intro i hi
        rw [f2]
        exact hother i hi
      · rw [f1]
        exact hbgs
    · rw [if_neg hst]
      exact ⟨m1, rfl, hmine, hother, hbgs⟩

/-- C22: on a manager whose queue of the queue type of the event is well formed
and whose list of scheduled updates is shorter than 256, firing the removal
event returns true; it calls `RemovePlayer(player, true)`, which takes the
player out of the queue and lowers the invited counter, only if the player is
online, has a queue slot for the queue type and `IsPlayerInvited(player,
instance, removal time)` holds at that moment, and then the queue of the queue
type and the battlegrounds of the manager are those `RemovePlayer` leaves, the
other queues are unchanged and the player is queued no more; otherwise the
manager is unchanged and nothing is sent.  Firing the same event again leaves
the manager as the first firing left it, and after a removal so does every
further firing, whatever the player then is. -/
theorem BGQueueRemoveEvent.Execute_once (c : Consts) (mgr : BattleGroundMgr)
    (ev : BGQueueRemoveEvent) (plr : Option Nat) (fuel : Nat)
    (hwf : (mgr.m_BattleGroundQueues ev.m_BgQueueTypeId).WellFormed c)
    (hlen : mgr.m_QueueUpdateScheduler.length < 256)
    (hfuel : mgr.m_QueueUpdateScheduler.length < fuel) :
    ∃ mgr1 notices, ev.Execute c mgr plr fuel = some (true, mgr1, notices) ∧
      ((¬∃ queueSlot, plr = some queueSlot ∧ queueSlot < c.PLAYER_MAX_BATTLEGROUND_QUEUES ∧
          (mgr.m_BattleGroundQueues ev.m_BgQueueTypeId).IsPlayerInvited ev.m_PlayerGuid
            ev.m_BgInstanceGUID ev.m_RemoveTime = true) →
        mgr1 = mgr ∧ notices = []) ∧
      ((∃ queueSlot, plr = some queueSlot ∧ queueSlot < c.PLAYER_MAX_BATTLEGROUND_QUEUES ∧
          (mgr.m_BattleGroundQueues ev.m_BgQueueTypeId).IsPlayerInvited ev.m_PlayerGuid
            ev.m_BgInstanceGUID ev.m_RemoveTime = true) →
        mgr1.m_BattleGroundQueues ev.m_BgQueueTypeId =
          ((mgr.m_BattleGroundQueues ev.m_BgQueueTypeId).RemovePlayer c mgr ev.m_PlayerGuid
            true).2.2 ∧
        (∀ i, i ≠ ev.m_BgQueueTypeId →
          mgr1.m_BattleGroundQueues i = mgr.m_BattleGroundQueues i) ∧
        mgr1.m_BattleGrounds =
          ((mgr.m_BattleGroundQueues ev.m_BgQueueTypeId).RemovePlayer c mgr ev.m_PlayerGuid
            true).2.1.m_BattleGrounds ∧
        (mgr1.m_BattleGroundQueues ev.m_BgQueueTypeId).m_QueuedPlayers ev.m_PlayerGuid = none ∧
        ∀ plr2 fuel2, ev.Execute c mgr1 plr2 fuel2 = some (true, mgr1, [])) ∧
      ev.Execute c mgr1 plr fuel = some (true, mgr1, []) := by
  by_cases hf : ∃ queueSlot, plr = some queueSlot ∧
      queueSlot < c.PLAYER_MAX_BATTLEGROUND_QUEUES ∧
      (mgr.m_BattleGroundQueues ev.m_BgQueueTypeId).IsPlayerInvited ev.m_PlayerGuid
        ev.m_BgInstanceGUID ev.m_RemoveTime = true
  · obtain ⟨queueSlot, hp, h1, h2⟩ := hf
    subst hp
    obtain ⟨mgr1, he, e1, e2, e3⟩ := Execute_fires c mgr ev queueSlot fuel h1 h2 hlen hfuel
    obtain ⟨info, hinfo⟩ := IsPlayerInvited_queued _ _ _ _ h2
    obtain ⟨b, j, -, hrem⟩ := RemovePlayer_wellFormed c mgr
      (mgr.m_BattleGroundQueues ev.m_BgQueueTypeId) ev.m_PlayerGuid true info hwf hinfo
    have hgone : (mgr1.m_BattleGroundQueues ev.m_BgQueueTypeId).m_QueuedPlayers
        ev.m_PlayerGuid = none := by
      rw [e1, hrem]
      simp [BattleGroundQueue.removeFrom]
    have hagain : ∀ plr2 fuel2, ev.Execute c mgr1 plr2 fuel2 = some (true, mgr1, []) := by
      intro plr2 fuel2
      apply Execute_skips
      rintro ⟨s2, -, -, hinv⟩
      rw [IsPlayerInvited_none _ _ _ _ hgone] at hinv
      cases hinv
    refine ⟨mgr1, _, he, fun hn => absurd ⟨queueSlot, rfl, h1, h2⟩ hn,
      fun _ => ⟨e1, e2, e3, hgone, hagain⟩, hagain _ _⟩
  · have hs := Execute_skips c mgr ev plr fuel hf
    exact ⟨mgr, [], hs, fun _ => ⟨rfl, rfl⟩, fun h => absurd h hf, hs⟩

theorem BGQueueRemoveEvent.Execute_once_witness :
    ∃ mgr1 notices,
      BGQueueRemoveEvent.sample.Execute sampleConsts BattleGroundMgr.sample (some 0) 1 =
        some (true, mgr1, notices) ∧
      (mgr1.m_BattleGroundQueues 2).m_QueuedPlayers 7 = none ∧
      BGQueueRemoveEvent.sample.Execute sampleConsts mgr1 (some 0) 1 = some (true, mgr1, []) :=
  match BGQueueRemoveEvent.Execute_once sampleConsts BattleGroundMgr.sample
      BGQueueRemoveEvent.sample (some 0) 1 oneInvitedGroup_wellFormed (by decide) (by decide) with
  | ⟨mgr1, notices, h, _, hfire, hagain⟩ =>
    ⟨mgr1, notices, h, (hfire ⟨0, rfl, by decide, by decide⟩).2.2.2.1, hagain⟩

/-! ## The drain of the scheduled updates -/

theorem CreateNewBattleGround_sched (c : Consts) (env : Env) (mgr : BattleGroundMgr)
    (bgTypeId bracket_id : Nat) :
    (mgr.CreateNewBattleGround c env bgTypeId bracket_id).2.m_QueueUpdateScheduler =
      mgr.m_QueueUpdateScheduler := by
  unfold BattleGroundMgr.CreateNewBattleGround
  cases mgr.GetBattleGroundTemplate bgTypeId with
  | none => rfl
  | some bg_template =>
    simp only
    split
    · unfold BattleGroundMgr.CreateClientVisibleInstanceId
      cases BattleGroundMgr.CreateClientVisibleInstanceId.loop
          (mgr.m_ClientBattleGroundIds bgTypeId bracket_id) 3 0 with
      | none => rfl
      | some lastId => rfl
    · rfl

theorem start_sched (c : Consts) (env : Env) (bgTypeId bracket_id : Nat)
    (s s1 : BattleGroundMgr × BattleGroundQueue × List InviteNotice)
    (h : BattleGroundQueue.Update.start c env bgTypeId bracket_id s = some s1) :
    s1.1.m_QueueUpdateScheduler = s.1.m_QueueUpdateScheduler := by
  have hc := CreateNewBattleGround_sched c env s.1 bgTypeId bracket_id
  unfold BattleGroundQueue.Update.start at h
  generalize s.1.CreateNewBattleGround c env bgTypeId bracket_id = r at h hc
  obtain ⟨o, m⟩ := r
  cases o with
  | none => cases h
  | some bg2 =>
    simp only at h
    cases h
    exact hc

theorem fill_sched (c : Consts) (env : Env) (bgTypeId bracket_id : Nat)
    (s s1 : BattleGroundMgr × BattleGroundQueue × List InviteNotice) (p : Nat × Nat)
    (h : BattleGroundQueue.Update.fill c env bgTypeId bracket_id s p = some s1) :
    s1.1.m_QueueUpdateScheduler = s.1.m_QueueUpdateScheduler := by
  unfold BattleGroundQueue.Update.fill at h
  cases hb : s.1.m_BattleGrounds p.1 p.2 with
  | none =>
    rw [hb] at h
    cases h
    rfl
  | some bg =>
    rw [hb] at h
    simp only at h
    split at h
    · split at h
      · cases h
      · split at h
        · cases h
          rfl
        · cases h
          rfl
    · cases h
      rfl

theorem fillAll_sched (c : Consts) (env : Env) (bgTypeId bracket_id : Nat)
    (l : List (Nat × Nat)) :
    ∀ s s1 : BattleGroundMgr × BattleGroundQueue × List InviteNotice,
      BattleGroundQueue.Update.fillAll c env bgTypeId bracket_id l s = some s1 →
      s1.1.m_QueueUpdateScheduler = s.1.m_QueueUpdateScheduler := by
  induction l with
  | nil =>
    intro s s1 h
    cases h
    rfl
  | cons p rest ih =>
    intro s s1 h
    unfold BattleGroundQueue.Update.fillAll at h
    cases hf : BattleGroundQueue.Update.fill c env bgTypeId bracket_id s p with
    | none =>
      rw [hf] at h
      cases h
    | some s2 =>
      rw [hf] at h
      exact (ih s2 s1 h).trans (fill_sched c env bgTypeId bracket_id s s2 p hf)

theorem normal_sched (c : Consts) (env : Env) (bgTypeId bracket_id mn mx : Nat)
    (s : BattleGroundMgr × BattleGroundQueue × List InviteNotice)
    (r : UpdateLog × BattleGroundMgr × BattleGroundQueue × List InviteNotice)
    (h : BattleGroundQueue.Update.normal c env bgTypeId bracket_id mn mx s = some r) :
    r.2.1.m_QueueUpdateScheduler = s.1.m_QueueUpdateScheduler := by
  unfold BattleGroundQueue.Update.normal at h
  cases hn : s.2.1.CheckNormalMatch env.invitationType s.1.m_Testing bracket_id mn mx with
  | none =>
    rw [hn] at h
    cases h
  | some res =>
    rw [hn] at h
    obtain ⟨ok, q1⟩ := res
    cases ok with
    | false =>
      simp only at h
      cases h
      rfl
    | true =>
      simp only at h
      cases hs : BattleGroundQueue.Update.start c env bgTypeId bracket_id (s.1, q1, s.2.2) with
      | none =>
        rw [hs] at h
        cases h
        rfl
      | some s1 =>
        rw [hs] at h
        cases h
        exact start_sched c env bgTypeId bracket_id (s.1, q1, s.2.2) s1 hs

/-- A call of `BattleGroundQueue::Update` schedules nothing. -/
theorem Update_sched (c : Consts) (env : Env) (mgr : BattleGroundMgr) (q : BattleGroundQueue)
    (bgTypeId bracket_id : Nat)
    (r : UpdateLog × BattleGroundMgr × BattleGroundQueue × List InviteNotice)
    (h : q.Update c env mgr bgTypeId bracket_id = some r) :
    r.2.1.m_QueueUpdateScheduler = mgr.m_QueueUpdateScheduler := by
  unfold BattleGroundQueue.Update at h
  split at h
  · cases h
    rfl
  · cases hf : BattleGroundQueue.Update.fillAll c env bgTypeId bracket_id
        (mgr.BGFreeSlotQueue bgTypeId) (mgr, q, []) with
    | none =>
      rw [hf] at h
      cases h
    | some s =>
      rw [hf] at h
      have hs := fillAll_sched c env bgTypeId bracket_id _ _ s hf
      simp only at h hs
      cases ht : s.1.GetBattleGroundTemplate bgTypeId with
      | none =>
        rw [ht] at h
        cases h
        exact hs
      | some bg_template =>
        rw [ht] at h
        simp only at h
        generalize (if s.1.m_Testing = true then 1 else bg_template.m_MinPlayersPerTeam) = mn at h
        generalize (s.2.1.setPools SelectionPool.Init SelectionPool.Init).CheckPremadeMatch env.now
          env.premadeWait bracket_id mn bg_template.m_MaxPlayersPerTeam = pm at h
        by_cases hp : pm.1 = true
        · rw [if_pos hp] at h
          cases hst : BattleGroundQueue.Update.start c env bgTypeId bracket_id
              (s.1, pm.2, s.2.2) with
          | none =>
            rw [hst] at h
            cases h
            exact hs
          | some s1 =>
            rw [hst] at h
            have h1 := start_sched c env bgTypeId bracket_id (s.1, pm.2, s.2.2) s1 hst
            have h2 := normal_sched c env bgTypeId bracket_id _ _ _ r h
            exact h2.trans (h1.trans hs)
        · rw [if_neg hp] at h
          have h2 := normal_sched c env bgTypeId bracket_id _ _ _ r h
          exact h2.trans hs

theorem body_spec (c : Consts) (env : Env) (s s1 : DrainState) (key : Nat)
    (h : BattleGroundMgr.Update.body c env s key = some s1) :
    s1.1.m_QueueUpdateScheduler = s.1.m_QueueUpdateScheduler ∧
    ∃ log, s1.2.1 = s.2.1 ++ [log] := by
  unfold BattleGroundMgr.Update.body at h
  cases hu : (s.1.m_BattleGroundQueues ((key >>> 16) &&& 255)).Update c env s.1
      ((key >>> 8) &&& 255) (key &&& 255) with
  | none =>
    rw [hu] at h
    cases h
  | some r =>
    rw [hu] at h
    cases h
    exact ⟨Update_sched c env _ _ _ _ r hu, r.1, rfl⟩

/-- The queue updates for a list of scheduled numbers schedule nothing and end
in one way each. -/
theorem updateKeys_spec (c : Consts) (env : Env) (keys : List Nat) :
    ∀ s s1 : DrainState, BattleGroundMgr.updateKeys c env keys s = some s1 →
      s1.1.m_QueueUpdateScheduler = s.1.m_QueueUpdateScheduler ∧
      s1.2.1.length = s.2.1.length + keys.length := by
  induction keys with
  | nil =>
    intro s s1 h
    cases h
    exact ⟨rfl, rfl⟩
  | cons key rest ih =>
    intro s s1 h
    unfold BattleGroundMgr.updateKeys at h
    cases hb : BattleGroundMgr.Update.body c env s key with
    | none =>
      rw [hb] at h
      cases h
    | some s2 =>
      rw [hb] at h
      obtain ⟨b1, log, b2⟩ := body_spec c env s s2 key hb
      obtain ⟨i1, i2⟩ := ih s2 s1 h
      refine ⟨i1.trans b1, ?_⟩
      rw [i2, b2, List.length_append, List.length_singleton, List.length_cons]
      omega

theorem drop_eq_getD_cons (l : List Nat) (i : Nat) (h : i < l.length) :
    l.drop i = l.getD i 0 :: l.drop (i + 1) := by
  rw [List.drop_eq_getElem_cons h, List.getD_eq_getElem?_getD, List.getElem?_eq_getElem h]
  rfl

/-- The loop of `BattleGroundMgr::Update` over fewer than 256 scheduled numbers
is the sequence of the queue updates for the numbers from the counter on. -/
theorem loop_eq_updateKeys (c : Consts) (env : Env) (scheduled : List Nat)
    (hlen : scheduled.length < 256) :
    ∀ fuel i (s : DrainState), i ≤ scheduled.length → scheduled.length - i < fuel →
      BattleGroundMgr.Update.loop c env scheduled fuel i s =
        BattleGroundMgr.updateKeys c env (scheduled.drop i) s := by
  intro fuel
  induction fuel with
  | zero => intro i s _ h; omega
  | succ fuel ih =>
    intro i s hi hf
    unfold BattleGroundMgr.Update.loop
    by_cases hlt : i < scheduled.length
    · rw [if_pos hlt, drop_eq_getD_cons scheduled i hlt]
      unfold BattleGroundMgr.updateKeys
      cases BattleGroundMgr.Update.body c env s (scheduled.getD i 0) with
      | none => rfl
      | some s1 =>
        simp only
        have hmod : (i + 1) % 256 = i + 1 := Nat.mod_eq_of_lt (by omega)
        rw [hmod]
        exact ih (i + 1) s1 (by omega) (by omega)
    · rw [if_neg hlt]
      have : i = scheduled.length := by omega
      rw [this, List.drop_length]
      rfl

/-- The loop of `BattleGroundMgr::Update` over 256 or more scheduled numbers never
leaves: its `uint8` counter stays below the length of the list. -/
theorem loop_diverges (c : Consts) (env : Env) (scheduled : List Nat)
    (hlen : 256 ≤ scheduled.length) :
    ∀ fuel i (s : DrainState), i < 256 →
      BattleGroundMgr.Update.loop c env scheduled fuel i s = none := by
  intro fuel
  induction fuel with
  | zero => intro i s _; rfl
  | succ fuel ih =>
    intro i s hi
    unfold BattleGroundMgr.Update.loop
    rw [if_pos (by omega)]
    cases BattleGroundMgr.Update.body c env s (scheduled.getD i 0) with
    | none => rfl
    | some s1 => exact ih _ s1 (Nat.mod_lt _ (by decide))

theorem fill_returns (c : Consts) (env : Env) (bgTypeId bracket_id : Nat)
    (s : BattleGroundMgr × BattleGroundQueue × List InviteNotice) (p : Nat × Nat)
    (h0 : env.invitationType = 0) :
    ∃ s1, BattleGroundQueue.Update.fill c env bgTypeId bracket_id s p = some s1 := by
  unfold BattleGroundQueue.Update.fill
  cases s.1.m_BattleGrounds p.1 p.2 with
  | none => exact ⟨_, rfl⟩
  | some bg =>
    simp only
    split
    · unfold BattleGroundQueue.FillPlayersToBG
      rw [if_pos h0]
      simp only
      split <;> exact ⟨_, rfl⟩
    · exact ⟨_, rfl⟩

theorem fillAll_returns (c : Consts) (env : Env) (bgTypeId bracket_id : Nat)
    (h0 : env.invitationType = 0) (l : List (Nat × Nat)) :
    ∀ s : BattleGroundMgr × BattleGroundQueue × List InviteNotice,
      ∃ s1, BattleGroundQueue.Update.fillAll c env bgTypeId bracket_id l s = some s1 := by
  induction l with
  | nil => intro s; exact ⟨s, rfl⟩
  | cons p rest ih =>
    intro s
    obtain ⟨s2, h2⟩ := fill_returns c env bgTypeId bracket_id s p h0
    obtain ⟨s3, h3⟩ := ih s2
    unfold BattleGroundQueue.Update.fillAll
    rw [h2]
    exact ⟨s3, h3⟩

theorem normal_returns (c : Consts) (env : Env) (bgTypeId bracket_id mn mx : Nat)
    (s : BattleGroundMgr × BattleGroundQueue × List InviteNotice)
    (h0 : env.invitationType = 0) :
    ∃ r, BattleGroundQueue.Update.normal c env bgTypeId bracket_id mn mx s = some r := by
  obtain ⟨ok, q1, hn⟩ := CheckNormalMatch_returns s.2.1 env.invitationType s.1.m_Testing
    bracket_id mn mx (Or.inl h0)
  unfold BattleGroundQueue.Update.normal
  rw [hn]
  cases ok with
  | false => exact ⟨_, rfl⟩
  | true =>
    simp only
    cases BattleGroundQueue.Update.start c env bgTypeId bracket_id (s.1, q1, s.2.2) with
    | none => exact ⟨_, rfl⟩
    | some s1 => exact ⟨_, rfl⟩

/-- With the fairness mode off every call of `BattleGroundQueue::Update`
returns. -/
theorem Update_returns (c : Consts) (env : Env) (mgr : BattleGroundMgr) (q : BattleGroundQueue)
    (bgTypeId bracket_id : Nat) (h0 : env.invitationType = 0) :
    ∃ r, q.Update c env mgr bgTypeId bracket_id = some r := by
  unfold BattleGroundQueue.Update
  split
  · exact ⟨_, rfl⟩
  · obtain ⟨s, hs⟩ := fillAll_returns c env bgTypeId bracket_id h0
      (mgr.BGFreeSlotQueue bgTypeId) (mgr, q, [])
    rw [hs]
    simp only
    cases s.1.GetBattleGroundTemplate bgTypeId with
    | none => exact ⟨_, rfl⟩
    | some bg_template =>
      simp only
      generalize (if s.1.m_Testing = true then 1 else bg_template.m_MinPlayersPerTeam) = mn
      generalize (s.2.1.setPools SelectionPool.Init SelectionPool.Init).CheckPremadeMatch env.now
        env.premadeWait bracket_id mn bg_template.m_MaxPlayersPerTeam = pm
      by_cases hp : pm.1 = true
      · rw [if_pos hp]
        cases BattleGroundQueue.Update.start c env bgTypeId bracket_id (s.1, pm.2, s.2.2) with
        | none => exact ⟨_, rfl⟩
        | some s1 => exact normal_returns c env bgTypeId bracket_id _ _ _ h0
      · rw [if_neg hp]
        exact normal_returns c env bgTypeId bracket_id _ _ _ h0

theorem updateKeys_returns (c : Consts) (env : Env) (h0 : env.invitationType = 0)
    (keys : List Nat) : ∀ s : DrainState, ∃ s1, BattleGroundMgr.updateKeys c env keys s = some s1 := by
  induction keys with
  | nil => intro s; exact ⟨s, rfl⟩
  | cons key rest ih =>
    intro s
    obtain ⟨r, hr⟩ := Update_returns c env s.1 (s.1.m_BattleGroundQueues ((key >>> 16) &&& 255))
      ((key >>> 8) &&& 255) (key &&& 255) h0
    unfold BattleGroundMgr.updateKeys BattleGroundMgr.Update.body
    rw [hr]
    exact ih _

theorem firstBattleGround_none (mgr : BattleGroundMgr) (bgTypeId : Nat)
    (h : ∀ i, mgr.m_BattleGrounds bgTypeId i = none) :
    ∀ n i, BattleGroundMgr.firstBattleGround mgr bgTypeId n i = none := by
  intro n
  induction n with
  | zero => intro i; rfl
  | succ n ih =>
    intro i
    unfold BattleGroundMgr.firstBattleGround
    rw [h i]
    exact ih (i + 1)

/-- A call of `BattleGroundQueue::Update` for a bracket with a queued group, when no
battleground of the type has free slots and the type has no template: it ends
after the error line for the missing template and changes nothing. -/
theorem Update_templateNotFound (c : Consts) (env : Env) (mgr : BattleGroundMgr)
    (q : BattleGroundQueue) (bgTypeId bracket_id : Nat)
    (hq : ¬(q.m_QueuedGroups bracket_id BG_QUEUE_PREMADE_ALLIANCE = [] ∧
      q.m_QueuedGroups bracket_id BG_QUEUE_PREMADE_HORDE = [] ∧
      q.m_QueuedGroups bracket_id BG_QUEUE_NORMAL_ALLIANCE = [] ∧
      q.m_QueuedGroups bracket_id BG_QUEUE_NORMAL_HORDE = []))
    (hfree : mgr.BGFreeSlotQueue bgTypeId = [])
    (h : ∀ i, mgr.m_BattleGrounds bgTypeId i = none) :
    q.Update c env mgr bgTypeId bracket_id = some (UpdateLog.templateNotFound, mgr, q, []) := by
  unfold BattleGroundQueue.Update
  rw [if_neg hq, hfree]
  unfold BattleGroundQueue.Update.fillAll
  simp only
  unfold BattleGroundMgr.GetBattleGroundTemplate
  rw [firstBattleGround_none mgr bgTypeId h]

theorem Update_nothingQueued (c : Consts) (env : Env) (mgr : BattleGroundMgr)
    (q : BattleGroundQueue) (bgTypeId bracket_id : Nat)
    (hq : q.m_QueuedGroups bracket_id BG_QUEUE_PREMADE_ALLIANCE = [] ∧
      q.m_QueuedGroups bracket_id BG_QUEUE_PREMADE_HORDE = [] ∧
      q.m_QueuedGroups bracket_id BG_QUEUE_NORMAL_ALLIANCE = [] ∧
      q.m_QueuedGroups bracket_id BG_QUEUE_NORMAL_HORDE = []) :
    q.Update c env mgr bgTypeId bracket_id = some (UpdateLog.nothingQueued, mgr, q, []) := by
  unfold BattleGroundQueue.Update
  rw [if_pos hq]

theorem updateKeys_cons (c : Consts) (env : Env) (key : Nat) (rest : List Nat) (s : DrainState) :
    BattleGroundMgr.updateKeys c env (key :: rest) s =
      match BattleGroundMgr.Update.body c env s key with
      | none => none
      | some s1 => BattleGroundMgr.updateKeys c env rest s1 := rfl

theorem updateKeys_append (c : Consts) (env : Env) (keys1 : List Nat) (key : Nat)
    (keys2 : List Nat) :
    ∀ s : DrainState,
      BattleGroundMgr.updateKeys c env (keys1 ++ key :: keys2) s =
        match BattleGroundMgr.updateKeys c env keys1 s with
        | none => none
        | some s1 =>
          match BattleGroundMgr.Update.body c env s1 key with
          | none => none
          | some s2 => BattleGroundMgr.updateKeys c env keys2 s2 := by
  induction keys1 with
  | nil => intro s; rfl
  | cons k rest ih =>
    intro s
    rw [List.cons_append, updateKeys_cons, updateKeys_cons]
    cases BattleGroundMgr.Update.body c env s k with
    | none => rfl
    | some s1 => exact ih s1

theorem scheduled_sched (l : List Nat) :
    (BattleGroundMgr.scheduled l).m_QueueUpdateScheduler = l := rfl

theorem body_of_update (c : Consts) (env : Env) (s : DrainState) (key : Nat)
    (r : UpdateLog × BattleGroundMgr × BattleGroundQueue × List InviteNotice)
    (h : (s.1.m_BattleGroundQueues ((key >>> 16) &&& 255)).Update c env s.1
      ((key >>> 8) &&& 255) (key &&& 255) = some r) :
    BattleGroundMgr.Update.body c env s key =
      some (r.2.1.setQueue ((key >>> 16) &&& 255) r.2.2.1, s.2.1 ++ [r.1], s.2.2 ++ r.2.2.2) := by
  unfold BattleGroundMgr.Update.body
  rw [h]

theorem updateKeys_pair (c : Consts) (env : Env) (k1 k2 : Nat) (s s1 s2 : DrainState)
    (h1 : BattleGroundMgr.Update.body c env s k1 = some s1)
    (h2 : BattleGroundMgr.Update.body c env s1 k2 = some s2) :
    BattleGroundMgr.updateKeys c env [k1, k2] s = some s2 := by
  rw [updateKeys_cons, h1]
  simp only
  rw [updateKeys_cons, h2]
  rfl

/-- The update of bracket 1 of the sample queue when the manager has no
battleground of the type 0: the template is not found. -/
theorem sampleQueue_update_first (mgr : BattleGroundMgr)
    (hfree : mgr.BGFreeSlotQueue ((1 >>> 8) &&& 255) = [])
    (hbg : ∀ i, mgr.m_BattleGrounds ((1 >>> 8) &&& 255) i = none) :
    (sampleQueue [1] [] [] [] [0] []).Update sampleConsts Env.sample mgr ((1 >>> 8) &&& 255)
      (1 &&& 255) =
    some (UpdateLog.templateNotFound, mgr, sampleQueue [1] [] [] [] [0] [], []) :=
  Update_templateNotFound sampleConsts Env.sample mgr _ _ _ (by decide) hfree hbg

/-- The update of bracket 2 of the sample queue: nothing is queued. -/
theorem sampleQueue_update_second (mgr : BattleGroundMgr) :
    (sampleQueue [1] [] [] [] [0] []).Update sampleConsts Env.sample mgr ((2 >>> 8) &&& 255)
      (2 &&& 255) =
    some (UpdateLog.nothingQueued, mgr, sampleQueue [1] [] [] [] [0] [], []) :=
  Update_nothingQueued sampleConsts Env.sample mgr _ _ _ (by decide)

/-- The drain and the queue updates: for a list of scheduled numbers shorter
than 256, `BattleGroundMgr::Update` (its loop given more evaluations of its
condition than the list has numbers) is the sequence of the calls of
`BattleGroundQueue::Update` for the scheduled numbers, in the order of the
list, each call made from the state the call before left, started from the
manager with the list cleared; a call is followed by the calls for the later
numbers however it ended (nothing queued, template not found, battleground not
created, finished); when the drain returns the list of scheduled numbers is
empty and one call was made for each number; and with the fairness mode off it
returns. -/
theorem drain_spec (c : Consts) (env : Env) (mgr : BattleGroundMgr)
    (fuel : Nat) (hlen : mgr.m_QueueUpdateScheduler.length < 256)
    (hfuel : mgr.m_QueueUpdateScheduler.length < fuel) :
    BattleGroundMgr.Update c env mgr fuel =
      BattleGroundMgr.updateKeys c env mgr.m_QueueUpdateScheduler
        ({ mgr with m_QueueUpdateScheduler := [] }, [], []) ∧
    (∀ s1, BattleGroundMgr.Update c env mgr fuel = some s1 →
      s1.1.m_QueueUpdateScheduler = [] ∧ s1.2.1.length = mgr.m_QueueUpdateScheduler.length) ∧
    (∀ keys1 key keys2 (s : DrainState),
      BattleGroundMgr.updateKeys c env (keys1 ++ key :: keys2) s =
        match BattleGroundMgr.updateKeys c env keys1 s with
        | none => none
        | some s1 =>
          match (s1.1.m_BattleGroundQueues ((key >>> 16) &&& 255)).Update c env s1.1
              ((key >>> 8) &&& 255) (key &&& 255) with
          | none => none
          | some r =>
            BattleGroundMgr.updateKeys c env keys2
              (r.2.1.setQueue ((key >>> 16) &&& 255) r.2.2.1, s1.2.1 ++ [r.1],
                s1.2.2 ++ r.2.2.2)) ∧
    (env.invitationType = 0 → ∃ s1, BattleGroundMgr.Update c env mgr fuel = some s1) := by
  have heq : BattleGroundMgr.Update c env mgr fuel =
      BattleGroundMgr.updateKeys c env mgr.m_QueueUpdateScheduler
        ({ mgr with m_QueueUpdateScheduler := [] }, [], []) := by
    unfold BattleGroundMgr.Update
    by_cases hne : mgr.m_QueueUpdateScheduler ≠ []
    · rw [if_pos hne, loop_eq_updateKeys c env _ hlen fuel 0 _ (Nat.zero_le _) (by omega)]
      rfl
    · rw [if_neg hne]
      have he : mgr.m_QueueUpdateScheduler = [] := by
        by_contra hc
        exact hne hc
      rw [he]
      have hm : ({ mgr with m_QueueUpdateScheduler := [] } : BattleGroundMgr) = mgr := by
        cases mgr
        simp only at he
        subst he
        rfl
      rw [hm]
      rfl
  refine ⟨heq, fun s1 h1 => ?_, fun keys1 key keys2 s => ?_, fun h0 => ?_⟩
  · rw [heq] at h1
    obtain ⟨e1, e2⟩ := updateKeys_spec c env _ _ s1 h1
    exact ⟨e1, by rw [e2]; simp⟩
  · rw [updateKeys_append]
    cases BattleGroundMgr.updateKeys c env keys1 s with
    | none => rfl
    | some s1 =>
      simp only
      unfold BattleGroundMgr.Update.body
      cases (s1.1.m_BattleGroundQueues ((key >>> 16) &&& 255)).Update c env s1.1
          ((key >>> 8) &&& 255) (key &&& 255) with
      | none => rfl
      | some r => rfl
  · rw [heq]
    exact updateKeys_returns c env h0 _ _

/-- The drain of the manager `pending`: the update of bracket 1 ends at the
missing template, and the update of bracket 2, where nothing is queued, is made
after it. -/
theorem pending_drain :
    ∃ s1, BattleGroundMgr.Update sampleConsts Env.sample BattleGroundMgr.pending 3 = some s1 ∧
      s1.1.m_QueueUpdateScheduler = [] ∧
      s1.2.1 = [UpdateLog.templateNotFound, UpdateLog.nothingQueued] :=
  ⟨_,
    ((drain_spec sampleConsts Env.sample BattleGroundMgr.pending 3
      (by decide) (by decide)).1).trans
      (updateKeys_pair sampleConsts Env.sample 1 2 _ _ _
        (body_of_update sampleConsts Env.sample _ 1 _
          (sampleQueue_update_first _ rfl (fun _ => rfl)))
        (body_of_update sampleConsts Env.sample _ 2 _ (sampleQueue_update_second _))),
    rfl, rfl⟩

/-- The loop of `CreateClientVisibleInstanceId` ends at the second evaluation of its
condition at the latest, so that more evaluations change nothing. -/
theorem CreateClientVisibleInstanceId_loop_ends (ids : List Nat) (fuel : Nat) :
    ∃ lastId, BattleGroundMgr.CreateClientVisibleInstanceId.loop ids (fuel + 2) 0 = some lastId ∧
      BattleGroundMgr.CreateClientVisibleInstanceId.loop ids 3 0 = some lastId := by
  cases ids with
  | nil => exact ⟨0, rfl, rfl⟩
  | cons first rest =>
    by_cases h1 : (0 + 1) % UINT32_MOD ≠ first
    · refine ⟨(0 + 1) % UINT32_MOD, ?_, ?_⟩
      · unfold BattleGroundMgr.CreateClientVisibleInstanceId.loop
        simp only
        rw [if_pos h1]
      · unfold BattleGroundMgr.CreateClientVisibleInstanceId.loop
        simp only
        rw [if_pos h1]
    · have h2 : (first + 1) % UINT32_MOD ≠ first := by
        have hf : first = 1 := by
          by_contra hc
          apply h1
          intro e
          apply hc
          rw [← e]
          rfl
        rw [hf]
        decide
      refine ⟨(first + 1) % UINT32_MOD, ?_, ?_⟩
      · unfold BattleGroundMgr.CreateClientVisibleInstanceId.loop
        simp only
        rw [if_neg h1]
        unfold BattleGroundMgr.CreateClientVisibleInstanceId.loop
        simp only
        rw [if_pos h2]
      · unfold BattleGroundMgr.CreateClientVisibleInstanceId.loop
        simp only
        rw [if_neg h1]
        unfold BattleGroundMgr.CreateClientVisibleInstanceId.loop
        simp only
        rw [if_pos h2]

/-! ## The last near entry and the last largest entry -/

theorem CreateClientVisibleInstanceId_loop_value (ids : List Nat) (fuel : Nat) :
    BattleGroundMgr.CreateClientVisibleInstanceId.loop ids (fuel + 2) 0 =
      some (match ids with
        | [] => 0
        | first :: _ => if first = 1 then 2 else 1) := by
  cases ids with
  | nil => rfl
  | cons first rest =>
    by_cases h : first = 1
    · subst h
      rfl
    · have h2 : (0 + 1) % UINT32_MOD ≠ first := fun e => h (by rw [← e]; rfl)
      show (if (0 + 1) % UINT32_MOD ≠ first then some ((0 + 1) % UINT32_MOD)
        else BattleGroundMgr.CreateClientVisibleInstanceId.loop (first :: rest) (fuel + 1) first) = _
      rw [if_pos h2]
      show some ((0 + 1) % UINT32_MOD) = some (if first = 1 then 2 else 1)
      rw [if_neg h]
      rfl

/-- C39, failing input: in every state `CreateClientVisibleInstanceId` returns 1
for an empty set of ids, 3 when the lowest id of the set is 1, and 2 otherwise;
so three calls in a row for the battleground type 2 and the bracket 1, from the
empty set, return 1, 3 and 3: the third call returns an id that is in the set,
and the id 2 is never given out. -/
theorem BattleGroundMgr.CreateClientVisibleInstanceId_repeats :
    (∀ (mgr : BattleGroundMgr) (bgTypeId bracket_id fuel : Nat),
      (mgr.CreateClientVisibleInstanceId bgTypeId bracket_id (fuel + 2)).map (fun r => r.1) =
        some (match mgr.m_ClientBattleGroundIds bgTypeId bracket_id with
          | [] => 1
          | first :: _ => if first = 1 then 3 else 2)) ∧
    ∃ mgr1 mgr2 mgr3,
      BattleGroundMgr.noBattleGrounds.CreateClientVisibleInstanceId 2 1 3 = some (1, mgr1) ∧
      mgr1.m_ClientBattleGroundIds 2 1 = [1] ∧
      mgr1.CreateClientVisibleInstanceId 2 1 3 = some (3, mgr2) ∧
      mgr2.m_ClientBattleGroundIds 2 1 = [1, 3] ∧
      mgr2.CreateClientVisibleInstanceId 2 1 3 = some (3, mgr3) ∧
      mgr3.m_ClientBattleGroundIds 2 1 = [1, 3] := by
  refine ⟨?_, _, _, _, rfl, rfl, rfl, rfl, rfl, rfl⟩
  intro mgr bgTypeId bracket_id fuel
  unfold BattleGroundMgr.CreateClientVisibleInstanceId
  rw [CreateClientVisibleInstanceId_loop_value]
  cases mgr.m_ClientBattleGroundIds bgTypeId bracket_id with
  | nil => rfl
  | cons first rest =>
    by_cases h : first = 1
    · simp [h, UINT32_MOD]
    · simp [h, UINT32_MOD]

/-! ## The numbers of the scheduled updates -/

theorem scheduleId_eq (q t b : Nat) (hq : q < 256) (ht : t < 256) (hb : b < 256) :
    BattleGroundMgr.scheduleId q t b = q * 65536 + t * 256 + b := by
  unfold BattleGroundMgr.scheduleId UINT32_MOD
  have e1 : q <<< 16 = 2 ^ 16 * q := by rw [Nat.shiftLeft_eq, Nat.mul_comm]
  have e2 : t <<< 8 = 2 ^ 8 * t := by rw [Nat.shiftLeft_eq, Nat.mul_comm]
  have hlt : 2 ^ 8 * t < 2 ^ 16 := by omega
  have hb2 : b < 2 ^ 8 := by omega
  have e3 : 2 ^ 16 * q + 2 ^ 8 * t = 2 ^ 8 * (256 * q + t) := by omega
  rw [e1, e2, ← Nat.mul_add_lt_is_or hlt q, e3, ← Nat.mul_add_lt_is_or hb2 (256 * q + t)]
  omega

theorem scheduleId_decode (q t b : Nat) (hq : q < 256) (ht : t < 256) (hb : b < 256) :
    (BattleGroundMgr.scheduleId q t b >>> 16) &&& 255 = q ∧
    (BattleGroundMgr.scheduleId q t b >>> 8) &&& 255 = t ∧
    BattleGroundMgr.scheduleId q t b &&& 255 = b := by
  rw [scheduleId_eq q t b hq ht hb]
  have m : ∀ x : Nat, x &&& 255 = x % 2 ^ 8 := fun x => Nat.and_pow_two_sub_one_eq_mod x 8
  rw [m, m, m, Nat.shiftRight_eq_div_pow, Nat.shiftRight_eq_div_pow]
  omega

theorem scheduleId_injective (q t b q' t' b' : Nat) (hq : q < 256) (ht : t < 256) (hb : b < 256)
    (hq' : q' < 256) (ht' : t' < 256) (hb' : b' < 256)
    (h : BattleGroundMgr.scheduleId q' t' b' = BattleGroundMgr.scheduleId q t b) :
    q' = q ∧ t' = t ∧ b' = b := by
  rw [scheduleId_eq q t b hq ht hb, scheduleId_eq q' t' b' hq' ht' hb'] at h
  omega

/-- C40: for all queue types, battleground types and brackets below 256, the
number `ScheduleQueueUpdate` makes of them is decoded by `BattleGroundMgr::Update`
into the same three values, so that the update made for the number is the update
of that queue for that battleground type and bracket; different triples have
different numbers; and `ScheduleQueueUpdate` for a triple that is not among the
scheduled triples appends its number, whatever other triples are scheduled. -/
theorem BattleGroundMgr.scheduleId_roundtrip (q t b : Nat) (hq : q < 256) (ht : t < 256)
    (hb : b < 256) :
    ((BattleGroundMgr.scheduleId q t b >>> 16) &&& 255 = q ∧
      (BattleGroundMgr.scheduleId q t b >>> 8) &&& 255 = t ∧
      BattleGroundMgr.scheduleId q t b &&& 255 = b) ∧
    (∀ q' t' b', q' < 256 → t' < 256 → b' < 256 →
      BattleGroundMgr.scheduleId q' t' b' = BattleGroundMgr.scheduleId q t b →
      q' = q ∧ t' = t ∧ b' = b) ∧
    (∀ (c : Consts) (env : Env) (s : DrainState),
      BattleGroundMgr.Update.body c env s (BattleGroundMgr.scheduleId q t b) =
        match (s.1.m_BattleGroundQueues q).Update c env s.1 t b with
        | none => none
        | some r => some (r.2.1.setQueue q r.2.2.1, s.2.1 ++ [r.1], s.2.2 ++ r.2.2.2)) ∧
    (∀ (mgr : BattleGroundMgr) (fuel : Nat) (tuples : List (Nat × Nat × Nat)),
      (∀ x, x ∈ tuples → x.1 < 256 ∧ x.2.1 < 256 ∧ x.2.2 < 256) →
      mgr.m_QueueUpdateScheduler =
        tuples.map (fun x => BattleGroundMgr.scheduleId x.1 x.2.1 x.2.2) →
      (q, t, b) ∉ tuples → tuples.length < 256 → tuples.length < fuel →
      mgr.ScheduleQueueUpdate q t b fuel =
        some { mgr with
          m_QueueUpdateScheduler :=
            mgr.m_QueueUpdateScheduler ++ [BattleGroundMgr.scheduleId q t b] }) := by
  obtain ⟨d1, d2, d3⟩ := scheduleId_decode q t b hq ht hb
  refine ⟨⟨d1, d2, d3⟩, ?_, ?_, ?_⟩
  · intro q' t' b' hq' ht' hb' h
    exact scheduleId_injective q t b q' t' b' hq ht hb hq' ht' hb' h
  · intro c env s
    unfold BattleGroundMgr.Update.body
    rw [d1, d2, d3]
  · intro mgr fuel tuples hall hsched hnot hlen hfuel
    apply ScheduleQueueUpdate_absent
    · rw [hsched, List.length_map]; exact hlen
    · rw [hsched, List.length_map]; exact hfuel
    · rw [hsched]
      intro hin
      obtain ⟨x, hx, he⟩ := List.mem_map.1 hin
      obtain ⟨x1, x2, x3⟩ := hall x hx
      obtain ⟨a1, a2, a3⟩ := scheduleId_injective q t b x.1 x.2.1 x.2.2 hq ht hb x1 x2 x3 he
      apply hnot
      have : x = (q, t, b) := by
        rcases x with ⟨y1, y2, y3⟩
        simp only at a1 a2 a3
        rw [a1, a2, a3]
      rw [← this]
      exact hx

/-- C40, witness: the number of the queue type 1, the battleground type 2 and
the bracket 3 is decoded into 1, 2 and 3. -/
theorem BattleGroundMgr.scheduleId_roundtrip_witness :
    (BattleGroundMgr.scheduleId 1 2 3 >>> 16) &&& 255 = 1 ∧
    (BattleGroundMgr.scheduleId 1 2 3 >>> 8) &&& 255 = 2 ∧
    BattleGroundMgr.scheduleId 1 2 3 &&& 255 = 3 :=
  (BattleGroundMgr.scheduleId_roundtrip 1 2 3 (by decide) (by decide) (by decide)).1

/-! ## The window of the wait times -/

theorem succ_mod_mod (x N M : Nat) (hx : x < N) (hNM : N ≤ M) : (x + 1) % M % N = (x + 1) % N := by
  by_cases h : x + 1 < M
  · rw [Nat.mod_eq_of_lt h]
  · have h1 : x + 1 = M := by omega
    have h2 : N = M := by omega
    rw [h1, h2, Nat.mod_self, Nat.zero_mod]

theorem mod_ne_of_close (j k N : Nat) (hjk : j < k) (hk : k < j + N) : j % N ≠ k % N := by
  intro h
  have h1 : (k - j) % N = 0 := Nat.sub_mod_eq_zero_of_mod_eq h.symm
  rw [Nat.mod_eq_of_lt (by omega)] at h1
  omega

theorem recordAll_singleton (c : Consts) (w : WaitSample) (q : BattleGroundQueue) :
    BattleGroundQueue.recordAll c [w] q = q.recordWaitTime c w.team_index w.bracket_id w.timeInQueue :=
  rfl

theorem drop_sum_snoc (l : List Nat) (a N : Nat) (hN : 0 < N) :
    ((l ++ [a]).drop (l.length + 1 - N)).sum + (if N ≤ l.length then l.getD (l.length - N) 0 else 0) =
      (l.drop (l.length - N)).sum + a := by
  by_cases h : N ≤ l.length
  · rw [if_pos h]
    have e1 : l.length + 1 - N = (l.length - N) + 1 := by omega
    have e2 : l.drop (l.length - N) = l.getD (l.length - N) 0 :: l.drop (l.length - N + 1) :=
      drop_eq_getD_cons l (l.length - N) (by omega)
    rw [e1, List.drop_append_of_le_length (by omega), e2]
    simp only [List.sum_append, List.sum_cons, List.sum_nil]
    omega
  · rw [if_neg h]
    have e1 : l.length + 1 - N = 0 := by omega
    have e2 : l.length - N = 0 := by omega
    rw [e1, e2]
    simp only [List.drop_zero, List.sum_append, List.sum_cons, List.sum_nil]
    omega

/-- The buffer of one team and bracket after the wait times `values` were
recorded for it, from the start: the cursor, the slots of the last wait times,
the slots never written, and the sum of the slots. -/
theorem recordAll_slots (c : Consts) (t b : Nat)
    (hN : 0 < c.COUNT_OF_PLAYERS_TO_AVERAGE_WAIT_TIME)
    (hN2 : c.COUNT_OF_PLAYERS_TO_AVERAGE_WAIT_TIME ≤ 4294967296) (values : List Nat) :
    (BattleGroundQueue.recordAll c (values.map (fun v => ⟨t, b, v⟩))
        BattleGroundQueue.new).m_WaitTimeLastPlayer t b =
      values.length % c.COUNT_OF_PLAYERS_TO_AVERAGE_WAIT_TIME ∧
    (∀ j, j < values.length → values.length ≤ j + c.COUNT_OF_PLAYERS_TO_AVERAGE_WAIT_TIME →
      (BattleGroundQueue.recordAll c (values.map (fun v => ⟨t, b, v⟩))
          BattleGroundQueue.new).m_WaitTimes t b (j % c.COUNT_OF_PLAYERS_TO_AVERAGE_WAIT_TIME) =
        values.getD j 0) ∧
    (∀ i, values.length ≤ i →
      (BattleGroundQueue.recordAll c (values.map (fun v => ⟨t, b, v⟩))
          BattleGroundQueue.new).m_WaitTimes t b i = 0) ∧
    sumSlots ((BattleGroundQueue.recordAll c (values.map (fun v => ⟨t, b, v⟩))
        BattleGroundQueue.new).m_WaitTimes t b) c.COUNT_OF_PLAYERS_TO_AVERAGE_WAIT_TIME =
      (values.drop (values.length - c.COUNT_OF_PLAYERS_TO_AVERAGE_WAIT_TIME)).sum := by
  induction values using List.reverseRecOn with
  | nil =>
    refine ⟨by simp [BattleGroundQueue.recordAll, BattleGroundQueue.new], ?_, ?_, ?_⟩
    · intro j hj
      simp at hj
    · intro i _
      rfl
    · have hs : ∀ n, sumSlots (fun _ => 0) n = 0 := by
        intro n
        induction n with
        | zero => rfl
        | succ n ih => simp [sumSlots, ih]
      simp only [List.map_nil, BattleGroundQueue.recordAll, BattleGroundQueue.new]
      rw [hs]
      simp
  | append_singleton l a ih =>
    obtain ⟨ih1, ih2, ih3, ih4⟩ := ih
    rw [List.map_append, recordAll_append, List.map_cons, List.map_nil, recordAll_singleton]
    generalize BattleGroundQueue.recordAll c (l.map (fun v => ⟨t, b, v⟩))
      BattleGroundQueue.new = q at ih1 ih2 ih3 ih4
    have hcur : q.m_WaitTimeLastPlayer t b < c.COUNT_OF_PLAYERS_TO_AVERAGE_WAIT_TIME := by
      rw [ih1]
      exact Nat.mod_lt _ hN
    have hslots : (q.recordWaitTime c t b a).m_WaitTimes t b =
        fun k => if k = q.m_WaitTimeLastPlayer t b then a else q.m_WaitTimes t b k := by
      funext k
      simp [BattleGroundQueue.recordWaitTime]
    have hlen : (l ++ [a]).length = l.length + 1 := by simp
    rw [hslots, hlen]
    refine ⟨?_, ?_, ?_, ?_⟩
    · simp only [BattleGroundQueue.recordWaitTime, and_self, if_true, UINT32_MOD]
      rw [succ_mod_mod _ _ _ hcur hN2, ih1, Nat.mod_add_mod]
    · intro j hj hw
      by_cases hjl : j = l.length
      · subst hjl
        simp only [ih1, if_true]
        simp [List.getD_eq_getElem?_getD]
      · have hj2 : j < l.length := by omega
        have hne : j % c.COUNT_OF_PLAYERS_TO_AVERAGE_WAIT_TIME ≠ q.m_WaitTimeLastPlayer t b := by
          rw [ih1]
          exact mod_ne_of_close j l.length _ hj2 (by omega)
        simp only [hne, if_false]
        rw [ih2 j hj2 (by omega)]
        simp [List.getD_eq_getElem?_getD, List.getElem?_append_left hj2]
    · intro i hi
      have hne : i ≠ q.m_WaitTimeLastPlayer t b := by
        rw [ih1]
        have := Nat.mod_le l.length c.COUNT_OF_PLAYERS_TO_AVERAGE_WAIT_TIME
        omega
      simp only [hne, if_false]
      exact ih3 i (by omega)
    · have hu := sumSlots_update (q.m_WaitTimes t b) (q.m_WaitTimeLastPlayer t b) a
        c.COUNT_OF_PLAYERS_TO_AVERAGE_WAIT_TIME hcur
      have hd := drop_sum_snoc l a c.COUNT_OF_PLAYERS_TO_AVERAGE_WAIT_TIME hN
      have hold : q.m_WaitTimes t b (q.m_WaitTimeLastPlayer t b) =
          if c.COUNT_OF_PLAYERS_TO_AVERAGE_WAIT_TIME ≤ l.length then
            l.getD (l.length - c.COUNT_OF_PLAYERS_TO_AVERAGE_WAIT_TIME) 0 else 0 := by
        by_cases h : c.COUNT_OF_PLAYERS_TO_AVERAGE_WAIT_TIME ≤ l.length
        · rw [if_pos h, ih1, Nat.mod_eq_sub_mod h]
          exact ih2 _ (by omega) (by omega)
        · rw [if_neg h, ih1, Nat.mod_eq_of_lt (by omega)]
          exact ih3 _ (le_refl _)
      rw [hold] at hu
      omega

theorem recordAll_same_other (c : Consts) (t b t' b' : Nat) (h : ¬(t' = t ∧ b' = b))
    (values : List Nat) : ∀ q : BattleGroundQueue,
    (BattleGroundQueue.recordAll c (values.map (fun v => ⟨t, b, v⟩)) q).m_WaitTimes t' b' =
      q.m_WaitTimes t' b' ∧
    (BattleGroundQueue.recordAll c (values.map (fun v => ⟨t, b, v⟩)) q).m_WaitTimeLastPlayer t' b' =
      q.m_WaitTimeLastPlayer t' b' ∧
    (BattleGroundQueue.recordAll c (values.map (fun v => ⟨t, b, v⟩)) q).m_SumOfWaitTimes t' b' =
      q.m_SumOfWaitTimes t' b' := by
  induction values with
  | nil => intro q; exact ⟨rfl, rfl, rfl⟩
  | cons v rest ih =>
    intro q
    obtain ⟨o1, o2, o3⟩ := recordWaitTime_other c q t b v t' b' h
    obtain ⟨i1, i2, i3⟩ := ih (q.recordWaitTime c t b v)
    simp only [List.map_cons, BattleGroundQueue.recordAll]
    exact ⟨i1.trans o1, i2.trans o2, i3.trans o3⟩

/-- C32: for every sequence `values` of wait times recorded for one team and
bracket from the start (the number of averaged wait times being positive and a
`uint32`): the sum kept is, modulo 2^32, the sum of the last
`min(k, COUNT_OF_PLAYERS_TO_AVERAGE_WAIT_TIME)` of the `k` wait times, and the
cursor is `k` modulo the number of averaged wait times; whenever the last slot
is not zero the average reported is that sum divided by the number of averaged
wait times; the buffers, cursors and sums of the other teams and brackets are
as at the start.  The two methods are the recording and the report used here. -/
theorem BattleGroundQueue.recordAll_window (c : Consts) (team_index bracket_id : Nat)
    (values : List Nat) (hN : 0 < c.COUNT_OF_PLAYERS_TO_AVERAGE_WAIT_TIME)
    (hN2 : c.COUNT_OF_PLAYERS_TO_AVERAGE_WAIT_TIME ≤ UINT32_MOD) :
    (BattleGroundQueue.recordAll c (values.map (fun v => ⟨team_index, bracket_id, v⟩))
        BattleGroundQueue.new).m_SumOfWaitTimes team_index bracket_id =
      (values.drop (values.length - c.COUNT_OF_PLAYERS_TO_AVERAGE_WAIT_TIME)).sum % UINT32_MOD ∧
    (values.drop (values.length - c.COUNT_OF_PLAYERS_TO_AVERAGE_WAIT_TIME)).length =
      min values.length c.COUNT_OF_PLAYERS_TO_AVERAGE_WAIT_TIME ∧
    (BattleGroundQueue.recordAll c (values.map (fun v => ⟨team_index, bracket_id, v⟩))
        BattleGroundQueue.new).m_WaitTimeLastPlayer team_index bracket_id =
      values.length % c.COUNT_OF_PLAYERS_TO_AVERAGE_WAIT_TIME ∧
    ((BattleGroundQueue.recordAll c (values.map (fun v => ⟨team_index, bracket_id, v⟩))
        BattleGroundQueue.new).m_WaitTimes team_index bracket_id
          (c.COUNT_OF_PLAYERS_TO_AVERAGE_WAIT_TIME - 1) ≠ 0 →
      (BattleGroundQueue.recordAll c (values.map (fun v => ⟨team_index, bracket_id, v⟩))
          BattleGroundQueue.new).averageWaitTime c team_index bracket_id =
        (values.drop (values.length - c.COUNT_OF_PLAYERS_TO_AVERAGE_WAIT_TIME)).sum % UINT32_MOD /
          c.COUNT_OF_PLAYERS_TO_AVERAGE_WAIT_TIME) ∧
    (∀ t b, ¬(t = team_index ∧ b = bracket_id) →
      (BattleGroundQueue.recordAll c (values.map (fun v => ⟨team_index, bracket_id, v⟩))
          BattleGroundQueue.new).m_WaitTimes t b = BattleGroundQueue.new.m_WaitTimes t b ∧
      (BattleGroundQueue.recordAll c (values.map (fun v => ⟨team_index, bracket_id, v⟩))
          BattleGroundQueue.new).m_WaitTimeLastPlayer t b =
        BattleGroundQueue.new.m_WaitTimeLastPlayer t b ∧
      (BattleGroundQueue.recordAll c (values.map (fun v => ⟨team_index, bracket_id, v⟩))
          BattleGroundQueue.new).m_SumOfWaitTimes t b =
        BattleGroundQueue.new.m_SumOfWaitTimes t b) ∧
    (∀ (q : BattleGroundQueue) (now : Nat) (ginfo : GroupPtr) (b : Nat),
      q.PlayerInvitedToBGUpdateAverageWaitTime c now ginfo b =
        q.recordWaitTime c (waitTimeTeamIndex (q.m_Groups ginfo).GroupTeam) b
          (getMSTimeDiff (q.m_Groups ginfo).JoinTime now) ∧
      q.GetAverageQueueWaitTime c ginfo b =
        q.averageWaitTime c (waitTimeTeamIndex (q.m_Groups ginfo).GroupTeam) b) := by
  unfold UINT32_MOD at hN2 ⊢
  obtain ⟨s1, -, -, s4⟩ := recordAll_slots c team_index bracket_id hN hN2 values
  obtain ⟨-, k2, k3⟩ := recordAll_trackerOk c team_index bracket_id hN
    (values.map (fun v => ⟨team_index, bracket_id, v⟩)) BattleGroundQueue.new
    (TrackerOk_new c team_index bracket_id hN)
  have hsum : (BattleGroundQueue.recordAll c (values.map (fun v => ⟨team_index, bracket_id, v⟩))
        BattleGroundQueue.new).m_SumOfWaitTimes team_index bracket_id =
      (values.drop (values.length - c.COUNT_OF_PLAYERS_TO_AVERAGE_WAIT_TIME)).sum % 4294967296 := by
    rw [← s4, ← k3]
    exact (Nat.mod_eq_of_lt k2).symm
  refine ⟨hsum, ?_, s1, ?_, ?_, ?_⟩
  · rw [List.length_drop]
    omega
  · intro hlast
    unfold BattleGroundQueue.averageWaitTime
    rw [if_pos hlast, hsum]
  · intro t b h
    exact recordAll_same_other c team_index bracket_id t b h values BattleGroundQueue.new
  · intro q now ginfo b
    exact ⟨rfl, rfl⟩

/-- C32, witness: twelve wait times recorded for the Alliance in bracket 1 with
ten averaged wait times: the sum is the sum of the last ten, the cursor is 2. -/
theorem BattleGroundQueue.recordAll_window_witness :
    (BattleGroundQueue.recordAll sampleConsts
        ([5, 7, 10, 20, 30, 40, 50, 60, 70, 80, 90, 100].map (fun v => ⟨0, 1, v⟩))
        BattleGroundQueue.new).m_SumOfWaitTimes 0 1 = 550 ∧
    (BattleGroundQueue.recordAll sampleConsts
        ([5, 7, 10, 20, 30, 40, 50, 60, 70, 80, 90, 100].map (fun v => ⟨0, 1, v⟩))
        BattleGroundQueue.new).m_WaitTimeLastPlayer 0 1 = 2 :=
  ⟨(BattleGroundQueue.recordAll_window sampleConsts 0 1
      [5, 7, 10, 20, 30, 40, 50, 60, 70, 80, 90, 100] (by decide) (by decide)).1,
    (BattleGroundQueue.recordAll_window sampleConsts 0 1
      [5, 7, 10, 20, 30, 40, 50, 60, 70, 80, 90, 100] (by decide) (by decide)).2.2.1⟩

/-! ## The groups the loops of the matches select -/

theorem notInvited_cons_pos (groups : GroupStore) (g : GroupPtr) (l : List GroupPtr)
    (h : (groups g).IsInvitedToBGInstanceGUID = 0) :
    notInvitedGroups groups (g :: l) = g :: notInvitedGroups groups l := by
  simp [notInvitedGroups, h]

theorem notInvited_cons_neg (groups : GroupStore) (g : GroupPtr) (l : List GroupPtr)
    (h : ¬(groups g).IsInvitedToBGInstanceGUID = 0) :
    notInvitedGroups groups (g :: l) = notInvitedGroups groups l := by
  simp [notInvitedGroups, h]

theorem notInvited_append (groups : GroupStore) (l m : List GroupPtr) :
    notInvitedGroups groups (l ++ m) = notInvitedGroups groups l ++ notInvitedGroups groups m := by
  simp [notInvitedGroups]

theorem mem_notInvited (groups : GroupStore) (g : GroupPtr) (l : List GroupPtr) :
    g ∈ notInvitedGroups groups l ↔ g ∈ l ∧ (groups g).IsInvitedToBGInstanceGUID = 0 := by
  simp [notInvitedGroups]

theorem notInvited_sublist (groups : GroupStore) (l : List GroupPtr) :
    (notInvitedGroups groups l).Sublist l :=
  List.filter_sublist l

theorem AddGroup_picks (groups : GroupStore) (pool : SelectionPool) (g : GroupPtr) (D : Nat) :
    (pool.AddGroup groups g D).2 = pool ∨
      ((groups g).IsInvitedToBGInstanceGUID = 0 ∧ pool.PlayerCount + groupSize groups g ≤ D ∧
        (pool.AddGroup groups g D).2.SelectedGroups = pool.SelectedGroups ++ [g]) := by
  unfold SelectionPool.AddGroup
  split
  · rename_i h
    exact Or.inr ⟨h.1, h.2, rfl⟩
  · split <;> exact Or.inl rfl

/-- The loop that tops a pool up from the rest of a normal bucket appends to the
pool groups of that rest that are not invited, in their order. -/
theorem topUpLoop_picks (groups : GroupStore) (D : Nat) (l : List GroupPtr) :
    ∀ pool : SelectionPool, ∃ added,
      (topUpLoop groups D l pool).SelectedGroups = pool.SelectedGroups ++ added ∧
      added.Sublist (notInvitedGroups groups l) := by
  induction l with
  | nil => intro pool; exact ⟨[], by simp [topUpLoop], List.Sublist.refl _⟩
  | cons g rest ih =>
    intro pool
    unfold topUpLoop
    by_cases hi : (groups g).IsInvitedToBGInstanceGUID = 0
    · rw [if_pos hi, notInvited_cons_pos groups g rest hi]
      by_cases hb : (pool.AddGroup groups g D).1 = true
      · rw [if_pos hb]
        obtain ⟨added, h1, h2⟩ := ih (pool.AddGroup groups g D).2
        rcases AddGroup_picks groups pool g D with e | ⟨-, -, e⟩
        · rw [e] at h1 ⊢
          exact ⟨added, h1, List.Sublist.cons _ h2⟩
        · refine ⟨g :: added, ?_, List.Sublist.cons₂ _ h2⟩
          rw [h1, e]
          simp
      · rw [if_neg hb, AddGroup_false groups pool g D hb]
        exact ⟨[], by simp, List.nil_sublist _⟩
    · rw [if_neg hi, notInvited_cons_neg groups g rest hi]
      exact ih pool

/-- The first loop of `CheckNormalMatch` appends to the pool groups that are not
invited among those up to its iterator, in their order. -/
theorem gather_picks (groups : GroupStore) (minPlayers maxPlayers : Nat) (l : List GroupPtr) :
    ∀ pool : SelectionPool, ∃ consumed added,
      l = consumed ++ (CheckNormalMatch.gather groups minPlayers maxPlayers l pool).1.tail ∧
      (CheckNormalMatch.gather groups minPlayers maxPlayers l pool).2.SelectedGroups =
        pool.SelectedGroups ++ added ∧
      added.Sublist (notInvitedGroups groups consumed) := by
  induction l with
  | nil => intro pool; exact ⟨[], [], rfl, by simp [CheckNormalMatch.gather], List.Sublist.refl _⟩
  | cons g rest ih =>
    intro pool
    unfold CheckNormalMatch.gather
    by_cases hi : (groups g).IsInvitedToBGInstanceGUID = 0
    · rw [if_pos hi]
      by_cases hb : (pool.AddGroup groups g maxPlayers).2.GetPlayerCount ≥ minPlayers
      · rw [if_pos hb]
        rcases AddGroup_picks groups pool g maxPlayers with e | ⟨-, -, e⟩
        · rw [e]
          exact ⟨[g], [], rfl, by simp, List.nil_sublist _⟩
        · refine ⟨[g], [g], rfl, e, ?_⟩
          rw [notInvited_cons_pos groups g [] hi]
          exact List.Sublist.refl _
      · rw [if_neg hb]
        obtain ⟨consumed, added, h1, h2, h3⟩ := ih (pool.AddGroup groups g maxPlayers).2
        rcases AddGroup_picks groups pool g maxPlayers with e | ⟨-, -, e⟩
        · rw [e] at h1 h2 ⊢
          refine ⟨g :: consumed, added, ?_, h2, ?_⟩
          · rw [List.cons_append, ← h1]
          · rw [notInvited_cons_pos groups g consumed hi]
            exact List.Sublist.cons _ h3
        · refine ⟨g :: consumed, g :: added, ?_, ?_, ?_⟩
          · rw [List.cons_append, ← h1]
          · rw [h2, e]
            simp
          · rw [notInvited_cons_pos groups g consumed hi]
            exact List.Sublist.cons₂ _ h3
    · rw [if_neg hi]
      obtain ⟨consumed, added, h1, h2, h3⟩ := ih pool
      refine ⟨g :: consumed, added, ?_, h2, ?_⟩
      · rw [List.cons_append, ← h1]
      · rw [notInvited_cons_neg groups g consumed hi]
        exact h3

/-- The iterator the first loop of `CheckNormalMatch` stops at is a position of
the bucket. -/
theorem gather_suffix (groups : GroupStore) (minPlayers maxPlayers : Nat) (l : List GroupPtr) :
    ∀ pool : SelectionPool, ∃ pre,
      l = pre ++ (CheckNormalMatch.gather groups minPlayers maxPlayers l pool).1 := by
  induction l with
  | nil => intro pool; exact ⟨[], rfl⟩
  | cons g rest ih =>
    intro pool
    unfold CheckNormalMatch.gather
    by_cases hi : (groups g).IsInvitedToBGInstanceGUID = 0
    · rw [if_pos hi]
      by_cases hb : (pool.AddGroup groups g maxPlayers).2.GetPlayerCount ≥ minPlayers
      · rw [if_pos hb]
        exact ⟨[], rfl⟩
      · rw [if_neg hb]
        obtain ⟨pre, h⟩ := ih (pool.AddGroup groups g maxPlayers).2
        exact ⟨g :: pre, by rw [List.cons_append, ← h]⟩
    · rw [if_neg hi]
      obtain ⟨pre, h⟩ := ih pool
      exact ⟨g :: pre, by rw [List.cons_append, ← h]⟩

theorem topUpLoop_sound (groups : GroupStore) (D : Nat) (hd : D < 4294967296)
    (l : List GroupPtr) :
    ∀ pool : SelectionPool, pool.Sound groups → (topUpLoop groups D l pool).Sound groups := by
  induction l with
  | nil => intro pool h; exact h
  | cons g rest ih =>
    intro pool h
    unfold topUpLoop
    have h1 := AddGroup_sound groups pool g D hd h
    by_cases hi : (groups g).IsInvitedToBGInstanceGUID = 0
    · rw [if_pos hi]
      by_cases hb : (pool.AddGroup groups g D).1 = true
      · rw [if_pos hb]
        exact ih _ h1
      · rw [if_neg hb]
        exact h1
    · rw [if_neg hi]
      exact ih _ h

theorem gather_sound (groups : GroupStore) (minPlayers maxPlayers : Nat)
    (hd : maxPlayers < 4294967296) (l : List GroupPtr) :
    ∀ pool : SelectionPool, pool.Sound groups →
      (CheckNormalMatch.gather groups minPlayers maxPlayers l pool).2.Sound groups := by
  induction l with
  | nil => intro pool h; exact h
  | cons g rest ih =>
    intro pool h
    unfold CheckNormalMatch.gather
    have h1 := AddGroup_sound groups pool g maxPlayers hd h
    by_cases hi : (groups g).IsInvitedToBGInstanceGUID = 0
    · rw [if_pos hi]
      by_cases hb : (pool.AddGroup groups g maxPlayers).2.GetPlayerCount ≥ minPlayers
      · rw [if_pos hb]
        exact h1
      · rw [if_neg hb]
        exact ih _ h1
    · rw [if_neg hi]
      exact ih _ h

/-- The pools `CheckNormalMatch` leaves: those of its first loops, one of them
topped up from the groups behind its iterator when the fairness branch is
entered. -/
theorem CheckNormalMatch_shape (q : BattleGroundQueue) (invitationType : Nat) (isTesting : Bool)
    (bracket_id minPlayers maxPlayers : Nat) (r : Bool) (q1 : BattleGroundQueue)
    (hr : q.CheckNormalMatch invitationType isTesting bracket_id minPlayers maxPlayers =
      some (r, q1)) :
    q1 = q.setPools
        (CheckNormalMatch.gather q.m_Groups minPlayers maxPlayers
          (q.m_QueuedGroups bracket_id BG_QUEUE_NORMAL_ALLIANCE)
          (q.m_SelectionPools TEAM_INDEX_ALLIANCE)).2
        (CheckNormalMatch.gather q.m_Groups minPlayers maxPlayers
          (q.m_QueuedGroups bracket_id BG_QUEUE_NORMAL_HORDE)
          (q.m_SelectionPools TEAM_INDEX_HORDE)).2 ∨
    (∃ g rest,
      (CheckNormalMatch.gather q.m_Groups minPlayers maxPlayers
        (q.m_QueuedGroups bracket_id BG_QUEUE_NORMAL_HORDE)
        (q.m_SelectionPools TEAM_INDEX_HORDE)).1 = g :: rest ∧
      q1 = q.setPools
        (CheckNormalMatch.gather q.m_Groups minPlayers maxPlayers
          (q.m_QueuedGroups bracket_id BG_QUEUE_NORMAL_ALLIANCE)
          (q.m_SelectionPools TEAM_INDEX_ALLIANCE)).2
        (topUpLoop q.m_Groups
          (CheckNormalMatch.gather q.m_Groups minPlayers maxPlayers
            (q.m_QueuedGroups bracket_id BG_QUEUE_NORMAL_ALLIANCE)
            (q.m_SelectionPools TEAM_INDEX_ALLIANCE)).2.PlayerCount rest
          (CheckNormalMatch.gather q.m_Groups minPlayers maxPlayers
            (q.m_QueuedGroups bracket_id BG_QUEUE_NORMAL_HORDE)
            (q.m_SelectionPools TEAM_INDEX_HORDE)).2)) ∨
    (∃ g rest,
      (CheckNormalMatch.gather q.m_Groups minPlayers maxPlayers
        (q.m_QueuedGroups bracket_id BG_QUEUE_NORMAL_ALLIANCE)
        (q.m_SelectionPools TEAM_INDEX_ALLIANCE)).1 = g :: rest ∧
      q1 = q.setPools
        (topUpLoop q.m_Groups
          (CheckNormalMatch.gather q.m_Groups minPlayers maxPlayers
            (q.m_QueuedGroups bracket_id BG_QUEUE_NORMAL_HORDE)
            (q.m_SelectionPools TEAM_INDEX_HORDE)).2.PlayerCount rest
          (CheckNormalMatch.gather q.m_Groups minPlayers maxPlayers
            (q.m_QueuedGroups bracket_id BG_QUEUE_NORMAL_ALLIANCE)
            (q.m_SelectionPools TEAM_INDEX_ALLIANCE)).2)
        (CheckNormalMatch.gather q.m_Groups minPlayers maxPlayers
          (q.m_QueuedGroups bracket_id BG_QUEUE_NORMAL_HORDE)
          (q.m_SelectionPools TEAM_INDEX_HORDE)).2) := by
  unfold BattleGroundQueue.CheckNormalMatch at hr
  simp only [SelectionPool.GetPlayerCount] at hr
  generalize CheckNormalMatch.gather q.m_Groups minPlayers maxPlayers
    (q.m_QueuedGroups bracket_id BG_QUEUE_NORMAL_ALLIANCE)
    (q.m_SelectionPools TEAM_INDEX_ALLIANCE) = a at hr ⊢
  generalize CheckNormalMatch.gather q.m_Groups minPlayers maxPlayers
    (q.m_QueuedGroups bracket_id BG_QUEUE_NORMAL_HORDE)
    (q.m_SelectionPools TEAM_INDEX_HORDE) = h at hr ⊢
  by_cases hc : invitationType ≠ 0 ∧ h.2.PlayerCount ≥ minPlayers ∧ a.2.PlayerCount ≥ minPlayers
  · rw [if_pos hc] at hr
    by_cases hlt : h.2.PlayerCount < a.2.PlayerCount
    · rw [if_pos hlt] at hr
      cases hh1 : h.1 with
      | nil =>
        rw [hh1] at hr
        cases hr
      | cons g rest =>
        rw [hh1] at hr
        simp only at hr
        refine Or.inr (Or.inl ⟨g, rest, rfl, ?_⟩)
        split at hr
        · cases hr
          rfl
        · cases hr
          rfl
    · rw [if_neg hlt] at hr
      cases ha1 : a.1 with
      | nil =>
        rw [ha1] at hr
        cases hr
      | cons g rest =>
        rw [ha1] at hr
        simp only at hr
        refine Or.inr (Or.inr ⟨g, rest, rfl, ?_⟩)
        split at hr
        · cases hr
          rfl
        · cases hr
          rfl
  · rw [if_neg hc] at hr
    cases hr
    exact Or.inl rfl

theorem firstNotInvited_some (groups : GroupStore) (l : List GroupPtr) (a : GroupPtr)
    (h : firstNotInvited groups l = some a) :
    (groups a).IsInvitedToBGInstanceGUID = 0 ∧
    ∃ pre post, l = pre ++ a :: post ∧
      ∀ x, x ∈ pre → (groups x).IsInvitedToBGInstanceGUID ≠ 0 := by
  induction l with
  | nil => cases h
  | cons g rest ih =>
    unfold firstNotInvited at h
    by_cases hi : (groups g).IsInvitedToBGInstanceGUID = 0
    · rw [if_pos hi] at h
      cases h
      exact ⟨hi, [], rest, rfl, fun x hx => by cases hx⟩
    · rw [if_neg hi] at h
      obtain ⟨h1, pre, post, h2, h3⟩ := ih h
      refine ⟨h1, g :: pre, post, by rw [h2]; rfl, ?_⟩
      intro x hx
      rcases List.mem_cons.1 hx with e | e
      · rw [e]; exact hi
      · exact h3 x e

theorem premadePair_some (q : BattleGroundQueue) (bracket_id : Nat) (a h : GroupPtr)
    (hp : q.premadePair bracket_id = some (a, h)) :
    firstNotInvited q.m_Groups (q.m_QueuedGroups bracket_id BG_QUEUE_PREMADE_ALLIANCE) = some a ∧
    firstNotInvited q.m_Groups (q.m_QueuedGroups bracket_id BG_QUEUE_PREMADE_HORDE) = some h := by
  unfold BattleGroundQueue.premadePair at hp
  split at hp
  · split at hp
    · rename_i e1 e2
      cases hp
      exact ⟨e1, e2⟩
    · cases hp
  · cases hp

/-- What `CheckPremadeMatch` leaves when it returns true: the queue with the
pools of the two premade groups, topped up from the normal buckets. -/
theorem CheckPremadeMatch_true (q : BattleGroundQueue) (now premadeWait bracket_id
    MinPlayersPerTeam MaxPlayersPerTeam : Nat)
    (h : (q.CheckPremadeMatch now premadeWait bracket_id MinPlayersPerTeam
      MaxPlayersPerTeam).1 = true) :
    ∃ a g, q.premadePair bracket_id = some (a, g) ∧
      (q.CheckPremadeMatch now premadeWait bracket_id MinPlayersPerTeam MaxPlayersPerTeam).2 =
        q.setPools
          (topUpLoop q.m_Groups
            (max ((q.m_SelectionPools TEAM_INDEX_ALLIANCE).AddGroup q.m_Groups a
                MaxPlayersPerTeam).2.PlayerCount
              ((q.m_SelectionPools TEAM_INDEX_HORDE).AddGroup q.m_Groups g
                MaxPlayersPerTeam).2.PlayerCount)
            (q.m_QueuedGroups bracket_id BG_QUEUE_NORMAL_ALLIANCE)
            ((q.m_SelectionPools TEAM_INDEX_ALLIANCE).AddGroup q.m_Groups a MaxPlayersPerTeam).2)
          (topUpLoop q.m_Groups
            (max ((q.m_SelectionPools TEAM_INDEX_ALLIANCE).AddGroup q.m_Groups a
                MaxPlayersPerTeam).2.PlayerCount
              ((q.m_SelectionPools TEAM_INDEX_HORDE).AddGroup q.m_Groups g
                MaxPlayersPerTeam).2.PlayerCount)
            (q.m_QueuedGroups bracket_id BG_QUEUE_NORMAL_HORDE)
            ((q.m_SelectionPools TEAM_INDEX_HORDE).AddGroup q.m_Groups g MaxPlayersPerTeam).2) := by
  unfold BattleGroundQueue.CheckPremadeMatch at h ⊢
  cases hp : q.premadePair bracket_id with
  | none =>
    rw [hp] at h
    cases h
  | some p =>
    obtain ⟨a, g⟩ := p
    exact ⟨a, g, rfl, rfl⟩

theorem CheckPremadeMatch_false_pools (q : BattleGroundQueue) (now premadeWait bracket_id
    MinPlayersPerTeam MaxPlayersPerTeam : Nat)
    (h : (q.CheckPremadeMatch now premadeWait bracket_id MinPlayersPerTeam
      MaxPlayersPerTeam).1 = false) :
    (q.CheckPremadeMatch now premadeWait bracket_id MinPlayersPerTeam
      MaxPlayersPerTeam).2.m_SelectionPools = q.m_SelectionPools := by
  rw [CheckPremadeMatch_none q now premadeWait bracket_id MinPlayersPerTeam MaxPlayersPerTeam h,
    (demotePremade_fields _ _ _ _ _).2.2.2.1, (demotePremade_fields _ _ _ _ _).2.2.2.1]

/-! ## The pools of the matches -/

/-- C35: with both pools empty at entry, after `CheckPremadeMatch` and after
`CheckNormalMatch` the player count of each pool is at most
`MaxPlayersPerTeam`; after `CheckPremadeMatch` returned true it is at most the
larger of the counts the two pools had once the premade groups were offered,
before the pools were topped up; `CheckNormalMatch` returns whenever the
fairness mode is off or `minPlayers` is at least 1. -/
theorem BattleGroundQueue.Check_count_le (q : BattleGroundQueue) (bracket_id
    MaxPlayersPerTeam : Nat)
    (hpA : q.m_SelectionPools TEAM_INDEX_ALLIANCE = SelectionPool.Init)
    (hpH : q.m_SelectionPools TEAM_INDEX_HORDE = SelectionPool.Init) :
    (∀ now premadeWait MinPlayersPerTeam,
      ((q.CheckPremadeMatch now premadeWait bracket_id MinPlayersPerTeam
          MaxPlayersPerTeam).2.m_SelectionPools TEAM_INDEX_ALLIANCE).PlayerCount ≤
        MaxPlayersPerTeam ∧
      ((q.CheckPremadeMatch now premadeWait bracket_id MinPlayersPerTeam
          MaxPlayersPerTeam).2.m_SelectionPools TEAM_INDEX_HORDE).PlayerCount ≤
        MaxPlayersPerTeam ∧
      ((q.CheckPremadeMatch now premadeWait bracket_id MinPlayersPerTeam
          MaxPlayersPerTeam).1 = true →
        ∃ a h, q.premadePair bracket_id = some (a, h) ∧
          ((q.CheckPremadeMatch now premadeWait bracket_id MinPlayersPerTeam
              MaxPlayersPerTeam).2.m_SelectionPools TEAM_INDEX_ALLIANCE).PlayerCount ≤
            max (SelectionPool.Init.AddGroup q.m_Groups a MaxPlayersPerTeam).2.PlayerCount
              (SelectionPool.Init.AddGroup q.m_Groups h MaxPlayersPerTeam).2.PlayerCount ∧
          ((q.CheckPremadeMatch now premadeWait bracket_id MinPlayersPerTeam
              MaxPlayersPerTeam).2.m_SelectionPools TEAM_INDEX_HORDE).PlayerCount ≤
            max (SelectionPool.Init.AddGroup q.m_Groups a MaxPlayersPerTeam).2.PlayerCount
              (SelectionPool.Init.AddGroup q.m_Groups h MaxPlayersPerTeam).2.PlayerCount)) ∧
    (∀ invitationType isTesting minPlayers,
      (invitationType = 0 ∨ 1 ≤ minPlayers →
        ∃ r q1, q.CheckNormalMatch invitationType isTesting bracket_id minPlayers
          MaxPlayersPerTeam = some (r, q1)) ∧
      ∀ r q1, q.CheckNormalMatch invitationType isTesting bracket_id minPlayers
          MaxPlayersPerTeam = some (r, q1) →
        (q1.m_SelectionPools TEAM_INDEX_ALLIANCE).PlayerCount ≤ MaxPlayersPerTeam ∧
        (q1.m_SelectionPools TEAM_INDEX_HORDE).PlayerCount ≤ MaxPlayersPerTeam) := by
  have h0 : SelectionPool.Init.PlayerCount ≤ MaxPlayersPerTeam := Nat.zero_le _
  refine ⟨?_, ?_⟩
  · intro now premadeWait MinPlayersPerTeam
    have key : (q.CheckPremadeMatch now premadeWait bracket_id MinPlayersPerTeam
          MaxPlayersPerTeam).1 = true →
        ∃ a h, q.premadePair bracket_id = some (a, h) ∧
          ((q.CheckPremadeMatch now premadeWait bracket_id MinPlayersPerTeam
              MaxPlayersPerTeam).2.m_SelectionPools TEAM_INDEX_ALLIANCE).PlayerCount ≤
            max (SelectionPool.Init.AddGroup q.m_Groups a MaxPlayersPerTeam).2.PlayerCount
              (SelectionPool.Init.AddGroup q.m_Groups h MaxPlayersPerTeam).2.PlayerCount ∧
          ((q.CheckPremadeMatch now premadeWait bracket_id MinPlayersPerTeam
              MaxPlayersPerTeam).2.m_SelectionPools TEAM_INDEX_HORDE).PlayerCount ≤
            max (SelectionPool.Init.AddGroup q.m_Groups a MaxPlayersPerTeam).2.PlayerCount
              (SelectionPool.Init.AddGroup q.m_Groups h MaxPlayersPerTeam).2.PlayerCount := by
      intro ht
      obtain ⟨a, h, hp, he⟩ := CheckPremadeMatch_true q now premadeWait bracket_id
        MinPlayersPerTeam MaxPlayersPerTeam ht
      rw [hpA, hpH] at he
      refine ⟨a, h, hp, ?_, ?_⟩
      · rw [he, setPools_alliance]
        exact topUpLoop_count_le _ _ _ (le_refl _) _ _ (le_max_left _ _)
      · rw [he, setPools_horde]
        exact topUpLoop_count_le _ _ _ (le_refl _) _ _ (le_max_right _ _)
    have hmax : ∀ a h,
        max (SelectionPool.Init.AddGroup q.m_Groups a MaxPlayersPerTeam).2.PlayerCount
          (SelectionPool.Init.AddGroup q.m_Groups h MaxPlayersPerTeam).2.PlayerCount ≤
        MaxPlayersPerTeam := by
      intro a h
      exact max_le (AddGroup_count_le_max _ _ _ _ _ h0 (le_refl _))
        (AddGroup_count_le_max _ _ _ _ _ h0 (le_refl _))
    refine ⟨?_, ?_, key⟩
    · cases ht : (q.CheckPremadeMatch now premadeWait bracket_id MinPlayersPerTeam
          MaxPlayersPerTeam).1 with
      | true =>
        obtain ⟨a, h, -, k1, -⟩ := key ht
        exact le_trans k1 (hmax a h)
      | false =>
        rw [CheckPremadeMatch_false_pools q _ _ _ _ _ ht, hpA]
        exact h0
    · cases ht : (q.CheckPremadeMatch now premadeWait bracket_id MinPlayersPerTeam
          MaxPlayersPerTeam).1 with
      | true =>
        obtain ⟨a, h, -, -, k2⟩ := key ht
        exact le_trans k2 (hmax a h)
      | false =>
        rw [CheckPremadeMatch_false_pools q _ _ _ _ _ ht, hpH]
        exact h0
  · intro invitationType isTesting minPlayers
    refine ⟨?_, ?_⟩
    · intro h
      apply CheckNormalMatch_returns
      rcases h with h | h
      · exact Or.inl h
      · refine Or.inr ⟨?_, ?_⟩
        · rw [hpA]; exact h
        · rw [hpH]; exact h
    · intro r q1 hr
      have gA := gather_count_le q.m_Groups minPlayers MaxPlayersPerTeam
        (q.m_QueuedGroups bracket_id BG_QUEUE_NORMAL_ALLIANCE)
        (q.m_SelectionPools TEAM_INDEX_ALLIANCE) (by rw [hpA]; exact h0)
      have gH := gather_count_le q.m_Groups minPlayers MaxPlayersPerTeam
        (q.m_QueuedGroups bracket_id BG_QUEUE_NORMAL_HORDE)
        (q.m_SelectionPools TEAM_INDEX_HORDE) (by rw [hpH]; exact h0)
      rcases CheckNormalMatch_shape q invitationType isTesting bracket_id minPlayers
        MaxPlayersPerTeam r q1 hr with e | ⟨g, rest, -, e⟩ | ⟨g, rest, -, e⟩
      · rw [e, setPools_alliance, setPools_horde]
        exact ⟨gA, gH⟩
      · rw [e, setPools_alliance, setPools_horde]
        exact ⟨gA, topUpLoop_count_le _ _ _ gA _ _ gH⟩
      · rw [e, setPools_alliance, setPools_horde]
        exact ⟨topUpLoop_count_le _ _ _ gH _ _ gA, gH⟩

/-- C35, witness: the premade groups 0 and 1 of 10 players each and the normal
groups 2 and 3 of 3 players each, with at most 10 players for a team. -/
theorem BattleGroundQueue.Check_count_le_witness :
    ((sampleQueue [10, 10, 3, 3] [] [0] [1] [2] [3]).CheckPremadeMatch 1000 500 1 5
        10).2.m_SelectionPools TEAM_INDEX_ALLIANCE = { SelectedGroups := [0], PlayerCount := 10 } ∧
    (((sampleQueue [10, 10, 3, 3] [] [0] [1] [2] [3]).CheckPremadeMatch 1000 500 1 5
        10).2.m_SelectionPools TEAM_INDEX_ALLIANCE).PlayerCount ≤ 10 :=
  ⟨by decide,
    ((BattleGroundQueue.Check_count_le (sampleQueue [10, 10, 3, 3] [] [0] [1] [2] [3]) 1 10 rfl
      rfl).1 1000 500 5).1⟩

/-- C34, counterexample: the first group that is not invited of the premade
Alliance bucket of bracket 1 is the group 0 of 11 players, at most 10 players
make a team, and `CheckPremadeMatch` returns true with the Alliance pool holding
only the group 2 of the normal bucket. -/
theorem BattleGroundQueue.CheckPremadeMatch_first_counterexample :
    (sampleQueue [11, 10, 3] [] [0] [1] [2] []).m_SelectionPools TEAM_INDEX_ALLIANCE =
      SelectionPool.Init ∧
    (sampleQueue [11, 10, 3] [] [0] [1] [2] []).m_SelectionPools TEAM_INDEX_HORDE =
      SelectionPool.Init ∧
    firstNotInvited (sampleQueue [11, 10, 3] [] [0] [1] [2] []).m_Groups
      ((sampleQueue [11, 10, 3] [] [0] [1] [2] []).m_QueuedGroups 1 BG_QUEUE_PREMADE_ALLIANCE) =
        some 0 ∧
    ((sampleQueue [11, 10, 3] [] [0] [1] [2] []).CheckPremadeMatch 1000 500 1 5 10).1 = true ∧
    ((sampleQueue [11, 10, 3] [] [0] [1] [2] []).CheckPremadeMatch 1000 500 1 5
        10).2.m_SelectionPools TEAM_INDEX_ALLIANCE = { SelectedGroups := [2], PlayerCount := 3 } := by
  decide

/-- C34, amended: whenever `CheckPremadeMatch` returns true (both pools empty at
entry), for each faction the first group of the premade bucket that is not
invited is the first entry of the pool of the faction when it has at most
`MaxPlayersPerTeam` players; when it has more, it is not added, and the pool
holds only groups of the normal bucket of the faction that are not invited. -/
theorem BattleGroundQueue.CheckPremadeMatch_first (q : BattleGroundQueue) (now premadeWait
    bracket_id MinPlayersPerTeam MaxPlayersPerTeam : Nat)
    (hpA : q.m_SelectionPools TEAM_INDEX_ALLIANCE = SelectionPool.Init)
    (hpH : q.m_SelectionPools TEAM_INDEX_HORDE = SelectionPool.Init)
    (ht : (q.CheckPremadeMatch now premadeWait bracket_id MinPlayersPerTeam
      MaxPlayersPerTeam).1 = true) :
    ∃ a h,
      firstNotInvited q.m_Groups (q.m_QueuedGroups bracket_id BG_QUEUE_PREMADE_ALLIANCE) =
        some a ∧
      firstNotInvited q.m_Groups (q.m_QueuedGroups bracket_id BG_QUEUE_PREMADE_HORDE) =
        some h ∧
      (groupSize q.m_Groups a ≤ MaxPlayersPerTeam →
        ∃ more, ((q.CheckPremadeMatch now premadeWait bracket_id MinPlayersPerTeam
          MaxPlayersPerTeam).2.m_SelectionPools TEAM_INDEX_ALLIANCE).SelectedGroups =
            a :: more) ∧
      (MaxPlayersPerTeam < groupSize q.m_Groups a →
        ((q.CheckPremadeMatch now premadeWait bracket_id MinPlayersPerTeam
          MaxPlayersPerTeam).2.m_SelectionPools TEAM_INDEX_ALLIANCE).SelectedGroups.Sublist
            (notInvitedGroups q.m_Groups
              (q.m_QueuedGroups bracket_id BG_QUEUE_NORMAL_ALLIANCE))) ∧
      (groupSize q.m_Groups h ≤ MaxPlayersPerTeam →
        ∃ more, ((q.CheckPremadeMatch now premadeWait bracket_id MinPlayersPerTeam
          MaxPlayersPerTeam).2.m_SelectionPools TEAM_INDEX_HORDE).SelectedGroups =
            h :: more) ∧
      (MaxPlayersPerTeam < groupSize q.m_Groups h →
        ((q.CheckPremadeMatch now premadeWait bracket_id MinPlayersPerTeam
          MaxPlayersPerTeam).2.m_SelectionPools TEAM_INDEX_HORDE).SelectedGroups.Sublist
            (notInvitedGroups q.m_Groups
              (q.m_QueuedGroups bracket_id BG_QUEUE_NORMAL_HORDE))) := by
  obtain ⟨a, h, hp, he⟩ := CheckPremadeMatch_true q now premadeWait bracket_id
    MinPlayersPerTeam MaxPlayersPerTeam ht
  obtain ⟨fa, fh⟩ := premadePair_some q bracket_id a h hp
  have ia := (firstNotInvited_some _ _ _ fa).1
  have ih := (firstNotInvited_some _ _ _ fh).1
  rw [hpA, hpH] at he
  have hfit : ∀ g, (q.m_Groups g).IsInvitedToBGInstanceGUID = 0 →
      groupSize q.m_Groups g ≤ MaxPlayersPerTeam →
      (SelectionPool.Init.AddGroup q.m_Groups g MaxPlayersPerTeam).2.SelectedGroups = [g] := by
    intro g hg hs
    simp [SelectionPool.AddGroup, SelectionPool.Init, hg, hs]
  have hbig : ∀ g, MaxPlayersPerTeam < groupSize q.m_Groups g →
      (SelectionPool.Init.AddGroup q.m_Groups g MaxPlayersPerTeam).2.SelectedGroups = [] := by
    intro g hs
    rcases AddGroup_picks q.m_Groups SelectionPool.Init g MaxPlayersPerTeam with e | ⟨-, e, -⟩
    · rw [e]; rfl
    · have : SelectionPool.Init.PlayerCount = 0 := rfl
      omega
  refine ⟨a, h, fa, fh, ?_, ?_, ?_, ?_⟩
  · intro hs
    obtain ⟨added, h1, -⟩ := topUpLoop_picks q.m_Groups
      (max (SelectionPool.Init.AddGroup q.m_Groups a MaxPlayersPerTeam).2.PlayerCount
        (SelectionPool.Init.AddGroup q.m_Groups h MaxPlayersPerTeam).2.PlayerCount)
      (q.m_QueuedGroups bracket_id BG_QUEUE_NORMAL_ALLIANCE)
      (SelectionPool.Init.AddGroup q.m_Groups a MaxPlayersPerTeam).2
    rw [he, setPools_alliance, h1, hfit a ia hs]
    exact ⟨added, rfl⟩
  · intro hs
    obtain ⟨added, h1, h2⟩ := topUpLoop_picks q.m_Groups
      (max (SelectionPool.Init.AddGroup q.m_Groups a MaxPlayersPerTeam).2.PlayerCount
        (SelectionPool.Init.AddGroup q.m_Groups h MaxPlayersPerTeam).2.PlayerCount)
      (q.m_QueuedGroups bracket_id BG_QUEUE_NORMAL_ALLIANCE)
      (SelectionPool.Init.AddGroup q.m_Groups a MaxPlayersPerTeam).2
    rw [he, setPools_alliance, h1, hbig a hs]
    exact h2
  · intro hs
    obtain ⟨added, h1, -⟩ := topUpLoop_picks q.m_Groups
      (max (SelectionPool.Init.AddGroup q.m_Groups a MaxPlayersPerTeam).2.PlayerCount
        (SelectionPool.Init.AddGroup q.m_Groups h MaxPlayersPerTeam).2.PlayerCount)
      (q.m_QueuedGroups bracket_id BG_QUEUE_NORMAL_HORDE)
      (SelectionPool.Init.AddGroup q.m_Groups h MaxPlayersPerTeam).2
    rw [he, setPools_horde, h1, hfit h ih hs]
    exact ⟨added, rfl⟩
  · intro hs
    obtain ⟨added, h1, h2⟩ := topUpLoop_picks q.m_Groups
      (max (SelectionPool.Init.AddGroup q.m_Groups a MaxPlayersPerTeam).2.PlayerCount
        (SelectionPool.Init.AddGroup q.m_Groups h MaxPlayersPerTeam).2.PlayerCount)
      (q.m_QueuedGroups bracket_id BG_QUEUE_NORMAL_HORDE)
      (SelectionPool.Init.AddGroup q.m_Groups h MaxPlayersPerTeam).2
    rw [he, setPools_horde, h1, hbig h hs]
    exact h2

/-- C34, witness: the premade groups 0 and 1 of 10 players each are the first
entries of the two pools. -/
theorem BattleGroundQueue.CheckPremadeMatch_first_witness :
    ∃ a h,
      firstNotInvited (sampleQueue [10, 10, 3, 3] [] [0] [1] [2] [3]).m_Groups
        ((sampleQueue [10, 10, 3, 3] [] [0] [1] [2] [3]).m_QueuedGroups 1
          BG_QUEUE_PREMADE_ALLIANCE) = some a ∧
      firstNotInvited (sampleQueue [10, 10, 3, 3] [] [0] [1] [2] [3]).m_Groups
        ((sampleQueue [10, 10, 3, 3] [] [0] [1] [2] [3]).m_QueuedGroups 1
          BG_QUEUE_PREMADE_HORDE) = some h ∧
      (groupSize (sampleQueue [10, 10, 3, 3] [] [0] [1] [2] [3]).m_Groups a ≤ 10 →
        ∃ more, (((sampleQueue [10, 10, 3, 3] [] [0] [1] [2] [3]).CheckPremadeMatch 1000 500 1 5
          10).2.m_SelectionPools TEAM_INDEX_ALLIANCE).SelectedGroups = a :: more) ∧
      (10 < groupSize (sampleQueue [10, 10, 3, 3] [] [0] [1] [2] [3]).m_Groups a →
        (((sampleQueue [10, 10, 3, 3] [] [0] [1] [2] [3]).CheckPremadeMatch 1000 500 1 5
          10).2.m_SelectionPools TEAM_INDEX_ALLIANCE).SelectedGroups.Sublist
            (notInvitedGroups (sampleQueue [10, 10, 3, 3] [] [0] [1] [2] [3]).m_Groups
              ((sampleQueue [10, 10, 3, 3] [] [0] [1] [2] [3]).m_QueuedGroups 1
                BG_QUEUE_NORMAL_ALLIANCE))) ∧
      (groupSize (sampleQueue [10, 10, 3, 3] [] [0] [1] [2] [3]).m_Groups h ≤ 10 →
        ∃ more, (((sampleQueue [10, 10, 3, 3] [] [0] [1] [2] [3]).CheckPremadeMatch 1000 500 1 5
          10).2.m_SelectionPools TEAM_INDEX_HORDE).SelectedGroups = h :: more) ∧
      (10 < groupSize (sampleQueue [10, 10, 3, 3] [] [0] [1] [2] [3]).m_Groups h →
        (((sampleQueue [10, 10, 3, 3] [] [0] [1] [2] [3]).CheckPremadeMatch 1000 500 1 5
          10).2.m_SelectionPools TEAM_INDEX_HORDE).SelectedGroups.Sublist
            (notInvitedGroups (sampleQueue [10, 10, 3, 3] [] [0] [1] [2] [3]).m_Groups
              ((sampleQueue [10, 10, 3, 3] [] [0] [1] [2] [3]).m_QueuedGroups 1
                BG_QUEUE_NORMAL_HORDE))) :=
  BattleGroundQueue.CheckPremadeMatch_first (sampleQueue [10, 10, 3, 3] [] [0] [1] [2] [3])
    1000 500 1 5 10 rfl rfl (by decide)

/-- Where the comment of `CheckNormalMatch` holds: with both pools below
`minPlayers` at entry (as the empty pools are for `minPlayers` at least 1),
whenever the fairness branch is entered both first loops were left by `break`,
so that each iterator is at a group of its bucket. -/
theorem CheckNormalMatch_iterator (q : BattleGroundQueue) (bracket_id minPlayers
    maxPlayers : Nat)
    (hA : (q.m_SelectionPools TEAM_INDEX_ALLIANCE).PlayerCount < minPlayers)
    (hH : (q.m_SelectionPools TEAM_INDEX_HORDE).PlayerCount < minPlayers)
    (hc : (CheckNormalMatch.gather q.m_Groups minPlayers maxPlayers
        (q.m_QueuedGroups bracket_id BG_QUEUE_NORMAL_HORDE)
        (q.m_SelectionPools TEAM_INDEX_HORDE)).2.PlayerCount ≥ minPlayers ∧
      (CheckNormalMatch.gather q.m_Groups minPlayers maxPlayers
        (q.m_QueuedGroups bracket_id BG_QUEUE_NORMAL_ALLIANCE)
        (q.m_SelectionPools TEAM_INDEX_ALLIANCE)).2.PlayerCount ≥ minPlayers) :
    (∃ pre g rest,
      q.m_QueuedGroups bracket_id BG_QUEUE_NORMAL_ALLIANCE = pre ++ g :: rest ∧
      (CheckNormalMatch.gather q.m_Groups minPlayers maxPlayers
        (q.m_QueuedGroups bracket_id BG_QUEUE_NORMAL_ALLIANCE)
        (q.m_SelectionPools TEAM_INDEX_ALLIANCE)).1 = g :: rest) ∧
    (∃ pre g rest,
      q.m_QueuedGroups bracket_id BG_QUEUE_NORMAL_HORDE = pre ++ g :: rest ∧
      (CheckNormalMatch.gather q.m_Groups minPlayers maxPlayers
        (q.m_QueuedGroups bracket_id BG_QUEUE_NORMAL_HORDE)
        (q.m_SelectionPools TEAM_INDEX_HORDE)).1 = g :: rest) := by
  have iA := gather_iter q.m_Groups minPlayers maxPlayers
    (q.m_QueuedGroups bracket_id BG_QUEUE_NORMAL_ALLIANCE) _ hA hc.2
  have iH := gather_iter q.m_Groups minPlayers maxPlayers
    (q.m_QueuedGroups bracket_id BG_QUEUE_NORMAL_HORDE) _ hH hc.1
  obtain ⟨preA, sA⟩ := gather_suffix q.m_Groups minPlayers maxPlayers
    (q.m_QueuedGroups bracket_id BG_QUEUE_NORMAL_ALLIANCE) (q.m_SelectionPools TEAM_INDEX_ALLIANCE)
  obtain ⟨preH, sH⟩ := gather_suffix q.m_Groups minPlayers maxPlayers
    (q.m_QueuedGroups bracket_id BG_QUEUE_NORMAL_HORDE) (q.m_SelectionPools TEAM_INDEX_HORDE)
  refine ⟨?_, ?_⟩
  · cases hg : (CheckNormalMatch.gather q.m_Groups minPlayers maxPlayers
        (q.m_QueuedGroups bracket_id BG_QUEUE_NORMAL_ALLIANCE)
        (q.m_SelectionPools TEAM_INDEX_ALLIANCE)).1 with
    | nil => exact absurd hg iA
    | cons g rest =>
      rw [hg] at sA
      exact ⟨preA, g, rest, sA, rfl⟩
  · cases hg : (CheckNormalMatch.gather q.m_Groups minPlayers maxPlayers
        (q.m_QueuedGroups bracket_id BG_QUEUE_NORMAL_HORDE)
        (q.m_SelectionPools TEAM_INDEX_HORDE)).1 with
    | nil => exact absurd hg iH
    | cons g rest =>
      rw [hg] at sH
      exact ⟨preH, g, rest, sH, rfl⟩

/-- C36, failing input: with `minPlayers` 0, the fairness mode on, both pools
empty, no group in the normal Alliance bucket of bracket 1 and the group 0 of 3
players in the normal Horde bucket, the first loop for the Alliance ends at the
end of its bucket without `break`, the fairness branch is entered (both counts
are at least 0), the Alliance is the faction topped up, and the iterator that
is incremented is the end of the bucket: `CheckNormalMatch` has no result. -/
theorem BattleGroundQueue.CheckNormalMatch_end_iterator :
    (sampleQueue [3] [] [] [] [] [0]).m_SelectionPools TEAM_INDEX_ALLIANCE = SelectionPool.Init ∧
    (sampleQueue [3] [] [] [] [] [0]).m_SelectionPools TEAM_INDEX_HORDE = SelectionPool.Init ∧
    (sampleQueue [3] [] [] [] [] [0]).m_QueuedGroups 1 BG_QUEUE_NORMAL_ALLIANCE = [] ∧
    (CheckNormalMatch.gather (sampleQueue [3] [] [] [] [] [0]).m_Groups 0 10
      ((sampleQueue [3] [] [] [] [] [0]).m_QueuedGroups 1 BG_QUEUE_NORMAL_ALLIANCE)
      ((sampleQueue [3] [] [] [] [] [0]).m_SelectionPools TEAM_INDEX_ALLIANCE)) =
        ([], SelectionPool.Init) ∧
    (CheckNormalMatch.gather (sampleQueue [3] [] [] [] [] [0]).m_Groups 0 10
      ((sampleQueue [3] [] [] [] [] [0]).m_QueuedGroups 1 BG_QUEUE_NORMAL_HORDE)
      ((sampleQueue [3] [] [] [] [] [0]).m_SelectionPools TEAM_INDEX_HORDE)) =
        ([0], { SelectedGroups := [0], PlayerCount := 3 }) ∧
    ((sampleQueue [3] [] [] [] [] [0]).CheckNormalMatch 1 false 1 0 10).isSome = false := by
  decide

/-! ## The first loops of `FillPlayersToBG` are greedy -/

theorem AddGroup_skip (groups : GroupStore) (pool : SelectionPool) (g : GroupPtr) (D : Nat)
    (hi : (groups g).IsInvitedToBGInstanceGUID = 0)
    (he : (pool.AddGroup groups g D).2.SelectedGroups = pool.SelectedGroups) :
    D < pool.PlayerCount + groupSize groups g := by
  unfold SelectionPool.AddGroup at he
  by_cases h : (groups g).IsInvitedToBGInstanceGUID = 0 ∧
      D ≥ pool.PlayerCount + groupSize groups g
  · rw [if_pos h] at he
    have := congrArg List.length he
    simp at this
  · have : ¬ D ≥ pool.PlayerCount + groupSize groups g := fun h2 => h ⟨hi, h2⟩
    omega

theorem AddGroup_full (groups : GroupStore) (pool : SelectionPool) (g : GroupPtr) (D : Nat)
    (h : (pool.AddGroup groups g D).1 ≠ true) : D ≤ pool.PlayerCount := by
  unfold SelectionPool.AddGroup at h
  split at h
  · exact absurd rfl h
  · split at h
    · exact absurd rfl h
    · omega

theorem addLoop_count_ge (groups : GroupStore) (D : Nat) (hd : D < UINT32_MOD)
    (l : List GroupPtr) : ∀ pool : SelectionPool,
      pool.PlayerCount ≤ (FillPlayersToBG.addLoop groups D l pool).2.PlayerCount := by
  induction l with
  | nil => intro pool; exact le_refl _
  | cons g rest ih =>
    intro pool
    unfold FillPlayersToBG.addLoop
    by_cases ht : (pool.AddGroup groups g D).1 = true
    · rw [if_pos ht]
      exact le_trans (AddGroup_count_ge groups pool g D hd) (ih _)
    · rw [if_neg ht]
      exact AddGroup_count_ge groups pool g D hd

/-- The loop of `FillPlayersToBG` over a bucket moves the iterator over a part of
the bucket and appends to the pool groups it moved over that are not invited,
in their order. -/
theorem addLoop_picks (groups : GroupStore) (D : Nat) (l : List GroupPtr) :
    ∀ pool : SelectionPool, ∃ consumed added,
      l = consumed ++ (FillPlayersToBG.addLoop groups D l pool).1 ∧
      (FillPlayersToBG.addLoop groups D l pool).2.SelectedGroups =
        pool.SelectedGroups ++ added ∧
      added.Sublist (notInvitedGroups groups consumed) := by
  induction l with
  | nil =>
    intro pool
    exact ⟨[], [], rfl, by simp [FillPlayersToBG.addLoop], List.Sublist.refl _⟩
  | cons g rest ih =>
    intro pool
    unfold FillPlayersToBG.addLoop
    by_cases ht : (pool.AddGroup groups g D).1 = true
    · rw [if_pos ht]
      obtain ⟨consumed, added, h1, h2, h3⟩ := ih (pool.AddGroup groups g D).2
      rcases AddGroup_picks groups pool g D with e | ⟨hi, -, e⟩
      · rw [e] at h1 h2 ⊢
        refine ⟨g :: consumed, added, ?_, h2, ?_⟩
        · rw [List.cons_append, ← h1]
        · exact h3.trans (by
            by_cases hi : (groups g).IsInvitedToBGInstanceGUID = 0
            · rw [notInvited_cons_pos groups g consumed hi]
              exact List.Sublist.cons _ (List.Sublist.refl _)
            · rw [notInvited_cons_neg groups g consumed hi])
      · refine ⟨g :: consumed, g :: added, ?_, ?_, ?_⟩
        · rw [List.cons_append, ← h1]
        · rw [h2, e]
          simp
        · rw [notInvited_cons_pos groups g consumed hi]
          exact List.Sublist.cons₂ _ h3
    · rw [if_neg ht, AddGroup_false groups pool g D ht]
      exact ⟨[], [], rfl, by simp, List.Sublist.refl _⟩

/-- The loop of `FillPlayersToBG` over a bucket is greedy: a group of the bucket
that is not invited, has a player and is not in the pool afterwards does not
fit under the count the pool was filled to. -/
theorem addLoop_maximal (groups : GroupStore) (D : Nat) (hd : D < UINT32_MOD)
    (l : List GroupPtr) : ∀ pool : SelectionPool, ∀ g, g ∈ l →
      (groups g).IsInvitedToBGInstanceGUID = 0 → 1 ≤ groupSize groups g →
      g ∉ (FillPlayersToBG.addLoop groups D l pool).2.SelectedGroups →
      D < (FillPlayersToBG.addLoop groups D l pool).2.PlayerCount + groupSize groups g := by
  induction l with
  | nil => intro pool g hg; cases hg
  | cons x rest ih =>
    intro pool g hg hi hs
    unfold FillPlayersToBG.addLoop
    by_cases ht : (pool.AddGroup groups x D).1 = true
    · rw [if_pos ht]
      intro hout
      rcases List.mem_cons.1 hg with e | e
      · subst e
        obtain ⟨consumed, added, -, h2, -⟩ := addLoop_picks groups D rest
          (pool.AddGroup groups g D).2
        have hge := addLoop_count_ge groups D hd rest (pool.AddGroup groups g D).2
        rcases AddGroup_picks groups pool g D with e2 | ⟨-, -, e2⟩
        · have := AddGroup_skip groups pool g D hi (by rw [e2])
          have hc : (pool.AddGroup groups g D).2.PlayerCount = pool.PlayerCount := by rw [e2]
          omega
        · exfalso
          apply hout
          rw [h2, e2]
          simp
      · exact ih _ g e hi hs hout
    · rw [if_neg ht, AddGroup_false groups pool x D ht]
      intro _
      have := AddGroup_full groups pool x D ht
      omega

/-- C33: with the fairness mode off, both pools empty at entry and a player in
every group of the two normal buckets of the bracket, `FillPlayersToBG` returns
and leaves the buckets and the groups as they were; the groups selected for a
faction are groups of its normal bucket that are not invited, in the order of
the bucket; and the selection is maximal: a group of that bucket that is not
invited and is not selected does not fit into the free slots left (the count of
the pool plus its size exceeds the free slots of the faction). -/
theorem BattleGroundQueue.FillPlayersToBG_greedy (q : BattleGroundQueue)
    (hordeFree aliFree : Int) (invitationType bracket_id fuel : Nat)
    (hinv : invitationType = 0)
    (hpA : q.m_SelectionPools TEAM_INDEX_ALLIANCE = SelectionPool.Init)
    (hpH : q.m_SelectionPools TEAM_INDEX_HORDE = SelectionPool.Init)
    (hsA : ∀ g, g ∈ q.m_QueuedGroups bracket_id BG_QUEUE_NORMAL_ALLIANCE →
      1 ≤ groupSize q.m_Groups g)
    (hsH : ∀ g, g ∈ q.m_QueuedGroups bracket_id BG_QUEUE_NORMAL_HORDE →
      1 ≤ groupSize q.m_Groups g) :
    ∃ q', q.FillPlayersToBG hordeFree aliFree invitationType bracket_id fuel = some q' ∧
      q'.m_QueuedGroups = q.m_QueuedGroups ∧ q'.m_Groups = q.m_Groups ∧
      (q'.m_SelectionPools TEAM_INDEX_ALLIANCE).SelectedGroups.Sublist
        (notInvitedGroups q.m_Groups (q.m_QueuedGroups bracket_id BG_QUEUE_NORMAL_ALLIANCE)) ∧
      (q'.m_SelectionPools TEAM_INDEX_HORDE).SelectedGroups.Sublist
        (notInvitedGroups q.m_Groups (q.m_QueuedGroups bracket_id BG_QUEUE_NORMAL_HORDE)) ∧
      (∀ g, g ∈ q.m_QueuedGroups bracket_id BG_QUEUE_NORMAL_ALLIANCE →
        (q.m_Groups g).IsInvitedToBGInstanceGUID = 0 →
        g ∉ (q'.m_SelectionPools TEAM_INDEX_ALLIANCE).SelectedGroups →
        toUInt32 aliFree <
          (q'.m_SelectionPools TEAM_INDEX_ALLIANCE).PlayerCount + groupSize q.m_Groups g ∧
        (aliFree < 2147483648 →
          aliFree < ((q'.m_SelectionPools TEAM_INDEX_ALLIANCE).PlayerCount : Int) +
            (groupSize q.m_Groups g : Int))) ∧
      (∀ g, g ∈ q.m_QueuedGroups bracket_id BG_QUEUE_NORMAL_HORDE →
        (q.m_Groups g).IsInvitedToBGInstanceGUID = 0 →
        g ∉ (q'.m_SelectionPools TEAM_INDEX_HORDE).SelectedGroups →
        toUInt32 hordeFree <
          (q'.m_SelectionPools TEAM_INDEX_HORDE).PlayerCount + groupSize q.m_Groups g ∧
        (hordeFree < 2147483648 →
          hordeFree < ((q'.m_SelectionPools TEAM_INDEX_HORDE).PlayerCount : Int) +
            (groupSize q.m_Groups g : Int))) := by
  have key : ∀ (free : Int) (bucket : List GroupPtr),
      (∀ g, g ∈ bucket → 1 ≤ groupSize q.m_Groups g) →
      (FillPlayersToBG.addLoop q.m_Groups (toUInt32 free) bucket
          SelectionPool.Init).2.SelectedGroups.Sublist (notInvitedGroups q.m_Groups bucket) ∧
      ∀ g, g ∈ bucket → (q.m_Groups g).IsInvitedToBGInstanceGUID = 0 →
        g ∉ (FillPlayersToBG.addLoop q.m_Groups (toUInt32 free) bucket
          SelectionPool.Init).2.SelectedGroups →
        toUInt32 free <
          (FillPlayersToBG.addLoop q.m_Groups (toUInt32 free) bucket
            SelectionPool.Init).2.PlayerCount + groupSize q.m_Groups g ∧
        (free < 2147483648 →
          free < ((FillPlayersToBG.addLoop q.m_Groups (toUInt32 free) bucket
            SelectionPool.Init).2.PlayerCount : Int) + (groupSize q.m_Groups g : Int)) := by
    intro free bucket hs
    refine ⟨?_, ?_⟩
    · obtain ⟨consumed, added, h1, h2, h3⟩ := addLoop_picks q.m_Groups (toUInt32 free) bucket
        SelectionPool.Init
      rw [h2]
      have : SelectionPool.Init.SelectedGroups = [] := rfl
      rw [this, List.nil_append]
      refine h3.trans ?_
      conv => rhs; rw [h1]
      rw [notInvited_append]
      exact List.sublist_append_left _ _
    · intro g hg hi hout
      have hm := addLoop_maximal q.m_Groups (toUInt32 free) (toUInt32_lt free) bucket
        SelectionPool.Init g hg hi (hs g hg) hout
      refine ⟨hm, ?_⟩
      intro hlt
      generalize (FillPlayersToBG.addLoop q.m_Groups (toUInt32 free) bucket
        SelectionPool.Init).2.PlayerCount = n at hm ⊢
      by_cases hneg : free < 0
      · omega
      · rw [toUInt32_eq_toNat free (by omega) (by omega)] at hm
        omega
  obtain ⟨a1, a2⟩ := key aliFree _ hsA
  obtain ⟨h1, h2⟩ := key hordeFree _ hsH
  unfold BattleGroundQueue.FillPlayersToBG
  simp only
  rw [if_pos hinv]
  refine ⟨_, rfl, rfl, rfl, ?_, ?_, ?_, ?_⟩
  · show (FillPlayersToBG.addLoop q.m_Groups (toUInt32 aliFree)
      (q.m_QueuedGroups bracket_id BG_QUEUE_NORMAL_ALLIANCE)
      (q.m_SelectionPools TEAM_INDEX_ALLIANCE)).2.SelectedGroups.Sublist _
    rw [hpA]
    exact a1
  · show (FillPlayersToBG.addLoop q.m_Groups (toUInt32 hordeFree)
      (q.m_QueuedGroups bracket_id BG_QUEUE_NORMAL_HORDE)
      (q.m_SelectionPools TEAM_INDEX_HORDE)).2.SelectedGroups.Sublist _
    rw [hpH]
    exact h1
  · intro g hg hi hout
    have hout2 : g ∉ (FillPlayersToBG.addLoop q.m_Groups (toUInt32 aliFree)
        (q.m_QueuedGroups bracket_id BG_QUEUE_NORMAL_ALLIANCE)
        SelectionPool.Init).2.SelectedGroups := by
      rw [← hpA]
      exact hout
    have := a2 g hg hi hout2
    rw [← hpA] at this
    exact this
  · intro g hg hi hout
    have hout2 : g ∉ (FillPlayersToBG.addLoop q.m_Groups (toUInt32 hordeFree)
        (q.m_QueuedGroups bracket_id BG_QUEUE_NORMAL_HORDE)
        SelectionPool.Init).2.SelectedGroups := by
      rw [← hpH]
      exact hout
    have := h2 g hg hi hout2
    rw [← hpH] at this
    exact this

/-- C33, witness: the Alliance groups 0, 1, 2 and 3 of 3, 4, 2 and 1 players,
the group 1 invited, and 5 free slots for the Alliance: the groups 0 and 2 are
selected, and the group 3 does not fit. -/
theorem BattleGroundQueue.FillPlayersToBG_greedy_witness :
    ∃ q', (sampleQueue [3, 4, 2, 1] [0, 7, 0, 0] [] [] [0, 1, 2, 3] []).FillPlayersToBG 0 5 0 1
        0 = some q' ∧
      (q'.m_SelectionPools TEAM_INDEX_ALLIANCE).SelectedGroups = [0, 2] ∧
      (3 ∉ (q'.m_SelectionPools TEAM_INDEX_ALLIANCE).SelectedGroups →
        toUInt32 5 < (q'.m_SelectionPools TEAM_INDEX_ALLIANCE).PlayerCount +
          groupSize (sampleQueue [3, 4, 2, 1] [0, 7, 0, 0] [] [] [0, 1, 2, 3] []).m_Groups 3) :=
  (BattleGroundQueue.FillPlayersToBG_greedy
    (sampleQueue [3, 4, 2, 1] [0, 7, 0, 0] [] [] [0, 1, 2, 3] []) 0 5 0 1 0 rfl rfl rfl
    (by decide) (by decide)).elim
    (fun q' h => ⟨q', h.1, by
      have e := h.1
      have e2 : q' = (sampleQueue [3, 4, 2, 1] [0, 7, 0, 0] [] [] [0, 1, 2, 3] []).withPools
          ((sampleQueue [3, 4, 2, 1] [0, 7, 0, 0] [] [] [0, 1, 2, 3] []).fillFirst 0 5 1) :=
        (Option.some.inj e).symm
      rw [e2]
      decide,
      fun hout => (h.2.2.2.2.2.1 3 (by decide) (by decide) hout).1⟩)

/-! ## What the pools hold after the loops -/

theorem KickGroup_sublist (groups : GroupStore) (pool pool1 : SelectionPool) (size : Nat)
    (again : Bool) (hk : pool.KickGroup groups size = some (again, pool1)) :
    pool1.SelectedGroups.Sublist pool.SelectedGroups := by
  unfold SelectionPool.KickGroup at hk
  cases hl : pool.SelectedGroups with
  | nil =>
    rw [hl] at hk
    simp only at hk
    split at hk
    · cases hk
    · cases hk
      rw [hl]
  | cons g rest =>
    rw [hl] at hk
    simp only at hk
    split at hk
    · split at hk
      · cases hk
        exact List.eraseIdx_sublist _ _
      · cases hk
        exact List.eraseIdx_sublist _ _
    · cases hk
      rw [hl]

theorem picked_start (groups : GroupStore) (bucket : List GroupPtr) :
    FillPlayersToBG.Picked groups bucket bucket SelectionPool.Init :=
  ⟨[], rfl, List.Sublist.refl _⟩

theorem picked_addLoop (groups : GroupStore) (D : Nat) (bucket itr : List GroupPtr)
    (pool : SelectionPool) (h : FillPlayersToBG.Picked groups bucket itr pool) :
    FillPlayersToBG.Picked groups bucket (FillPlayersToBG.addLoop groups D itr pool).1
      (FillPlayersToBG.addLoop groups D itr pool).2 := by
  obtain ⟨consumed, h1, h2⟩ := h
  obtain ⟨c2, added, e1, e2, e3⟩ := addLoop_picks groups D itr pool
  refine ⟨consumed ++ c2, ?_, ?_⟩
  · rw [List.append_assoc, ← e1]
    exact h1
  · rw [e2, notInvited_append]
    exact List.Sublist.append h2 e3

theorem picked_kick (groups : GroupStore) (bucket itr : List GroupPtr) (pool pool1 : SelectionPool)
    (size : Nat) (again : Bool) (hk : pool.KickGroup groups size = some (again, pool1))
    (h : FillPlayersToBG.Picked groups bucket itr pool) :
    FillPlayersToBG.Picked groups bucket itr pool1 := by
  obtain ⟨consumed, h1, h2⟩ := h
  exact ⟨consumed, h1, (KickGroup_sublist groups pool pool1 size again hk).trans h2⟩

theorem picked_refill (groups : GroupStore) (D : Nat) (bucket itr : List GroupPtr)
    (pool1 : SelectionPool) (again : Bool)
    (h : FillPlayersToBG.Picked groups bucket itr pool1) :
    FillPlayersToBG.Picked groups bucket
      (if again = true then FillPlayersToBG.addLoop groups D itr pool1 else (itr, pool1)).1
      (if again = true then FillPlayersToBG.addLoop groups D itr pool1 else (itr, pool1)).2 := by
  by_cases ha : again = true
  · rw [if_pos ha]
    exact picked_addLoop groups D bucket itr pool1 h
  · rw [if_neg ha]
    exact h

/-- A pass of the balancing loop keeps, for both factions, the relation between
the bucket, the iterator and the pool. -/
theorem pass_picked (groups : GroupStore) (hordeFree aliFree : Int) (bA bH : List GroupPtr)
    (s : FillState)
    (hA : FillPlayersToBG.Picked groups bA s.Ali_itr s.ali)
    (hH : FillPlayersToBG.Picked groups bH s.Horde_itr s.horde) :
    ∀ s1, (FillPlayersToBG.pass groups hordeFree aliFree s = PassResult.again s1 ∨
        FillPlayersToBG.pass groups hordeFree aliFree s = PassResult.broke s1) →
      FillPlayersToBG.Picked groups bA s1.Ali_itr s1.ali ∧
      FillPlayersToBG.Picked groups bH s1.Horde_itr s1.horde := by
  unfold FillPlayersToBG.pass
  simp only
  by_cases h1 : absInt32 (toInt32 (FillPlayersToBG.diff aliFree s.ali -
      FillPlayersToBG.diff hordeFree s.horde)) > 1 ∧
      (s.horde.GetPlayerCount > 0 ∨ s.ali.GetPlayerCount > 0)
  · simp only [h1, and_self, if_true]
    by_cases h2 : FillPlayersToBG.diff aliFree s.ali < FillPlayersToBG.diff hordeFree s.horde
    · simp only [h2, if_true]
      cases hk : s.ali.KickGroup groups (toUInt32 (FillPlayersToBG.diff hordeFree s.horde -
          FillPlayersToBG.diff aliFree s.ali)) with
      | none => intro s1 h; rcases h with h | h <;> cases h
      | some r =>
        have pk := picked_kick groups bA s.Ali_itr s.ali r.2 _ r.1 hk hA
        have pr := picked_refill groups
          (FillPlayersToBG.budget aliFree (FillPlayersToBG.diff hordeFree s.horde)) bA s.Ali_itr
          r.2 r.1 pk
        simp only
        by_cases h3 : (if r.1 = true then
            FillPlayersToBG.addLoop groups
              (FillPlayersToBG.budget aliFree (FillPlayersToBG.diff hordeFree s.horde)) s.Ali_itr r.2
            else (s.Ali_itr, r.2)).2.GetPlayerCount = 0
        · simp only [h3, if_true]
          by_cases h4 : aliFree ≤ toInt32 (FillPlayersToBG.diff hordeFree s.horde + 1)
          · simp only [h4, if_true]
            intro s1 h
            rcases h with h | h <;> cases h
            exact ⟨pr, hH⟩
          · simp only [h4, if_false]
            cases hk2 : s.horde.KickGroup groups (toUInt32 (FillPlayersToBG.diff hordeFree s.horde -
                FillPlayersToBG.diff aliFree s.ali)) with
            | none => intro s1 h; rcases h with h | h <;> cases h
            | some r2 =>
              intro s1 h
              rcases h with h | h <;> cases h
              exact ⟨pr, picked_kick groups bH s.Horde_itr s.horde r2.2 _ r2.1 hk2 hH⟩
        · simp only [h3, if_false]
          intro s1 h
          rcases h with h | h <;> cases h
          exact ⟨pr, hH⟩
    · simp only [h2, if_false]
      cases hk : s.horde.KickGroup groups (toUInt32 (FillPlayersToBG.diff aliFree s.ali -
          FillPlayersToBG.diff hordeFree s.horde)) with
      | none => intro s1 h; rcases h with h | h <;> cases h
      | some r =>
        have pk := picked_kick groups bH s.Horde_itr s.horde r.2 _ r.1 hk hH
        have pr := picked_refill groups
          (FillPlayersToBG.budget hordeFree (FillPlayersToBG.diff aliFree s.ali)) bH s.Horde_itr
          r.2 r.1 pk
        simp only
        by_cases h3 : (if r.1 = true then
            FillPlayersToBG.addLoop groups
              (FillPlayersToBG.budget hordeFree (FillPlayersToBG.diff aliFree s.ali)) s.Horde_itr r.2
            else (s.Horde_itr, r.2)).2.GetPlayerCount = 0
        · simp only [h3, if_true]
          by_cases h4 : hordeFree ≤ toInt32 (FillPlayersToBG.diff aliFree s.ali + 1)
          · simp only [h4, if_true]
            intro s1 h
            rcases h with h | h <;> cases h
            exact ⟨hA, pr⟩
          · simp only [h4, if_false]
            cases hk2 : s.ali.KickGroup groups (toUInt32 (FillPlayersToBG.diff aliFree s.ali -
                FillPlayersToBG.diff hordeFree s.horde)) with
            | none => intro s1 h; rcases h with h | h <;> cases h
            | some r2 =>
              intro s1 h
              rcases h with h | h <;> cases h
              exact ⟨picked_kick groups bA s.Ali_itr s.ali r2.2 _ r2.1 hk2 hA, pr⟩
        · simp only [h3, if_false]
          intro s1 h
          rcases h with h | h <;> cases h
          exact ⟨hA, pr⟩
  · simp only [h1, if_false]
    intro s1 h
    rcases h with h | h <;> cases h

/-- The balancing loop keeps, for both factions, the relation between the
bucket, the iterator and the pool. -/
theorem balance_picked (groups : GroupStore) (hordeFree aliFree : Int) (bA bH : List GroupPtr)
    (fuel : Nat) : ∀ s s1 : FillState,
      FillPlayersToBG.balance groups hordeFree aliFree fuel s = some s1 →
      FillPlayersToBG.Picked groups bA s.Ali_itr s.ali →
      FillPlayersToBG.Picked groups bH s.Horde_itr s.horde →
      FillPlayersToBG.Picked groups bA s1.Ali_itr s1.ali ∧
      FillPlayersToBG.Picked groups bH s1.Horde_itr s1.horde := by
  induction fuel with
  | zero =>
    intro s s1 h
    simp [FillPlayersToBG.balance] at h
  | succ fuel ih =>
    intro s s1 h hA hH
    rw [balance_succ] at h
    have hp := pass_picked groups hordeFree aliFree bA bH s hA hH
    cases hpass : FillPlayersToBG.pass groups hordeFree aliFree s with
    | undefined =>
      rw [hpass] at h
      cases h
    | again s2 =>
      rw [hpass] at h
      obtain ⟨p1, p2⟩ := hp s2 (Or.inl hpass)
      exact ih s2 s1 h p1 p2
    | done =>
      rw [hpass] at h
      cases h
      exact ⟨hA, hH⟩
    | broke s2 =>
      rw [hpass] at h
      cases h
      exact hp s1 (Or.inr hpass)

theorem picked_filled (groups : GroupStore) (premade bucket itr : List GroupPtr)
    (pool : SelectionPool) (h : FillPlayersToBG.Picked groups bucket itr pool)
    (hn : bucket.Nodup) (hs : pool.Sound groups) :
    pool.FilledFrom groups premade bucket ∧ pool.SelectedGroups.Sublist bucket := by
  obtain ⟨consumed, h1, h2⟩ := h
  have hsub : pool.SelectedGroups.Sublist (notInvitedGroups groups bucket) := by
    rw [h1, notInvited_append]
    exact h2.trans (List.sublist_append_left _ _)
  have hsub2 := hsub.trans (notInvited_sublist groups bucket)
  refine ⟨⟨?_, hsub2.nodup hn, hs⟩, hsub2⟩
  intro g hg
  have := (mem_notInvited groups g bucket).1 (hsub.subset hg)
  exact ⟨this.2, Or.inr this.1⟩

theorem sublist_filled (groups : GroupStore) (premade bucket : List GroupPtr)
    (pool : SelectionPool)
    (hsub : pool.SelectedGroups.Sublist (notInvitedGroups groups bucket))
    (hn : bucket.Nodup) (hs : pool.Sound groups) :
    pool.FilledFrom groups premade bucket := by
  have hsub2 := hsub.trans (notInvited_sublist groups bucket)
  refine ⟨?_, hsub2.nodup hn, hs⟩
  intro g hg
  have := (mem_notInvited groups g bucket).1 (hsub.subset hg)
  exact ⟨this.2, Or.inr this.1⟩

theorem Init_filled (groups : GroupStore) (premade normal : List GroupPtr) :
    SelectionPool.Init.FilledFrom groups premade normal :=
  ⟨(fun g hg => by cases hg), List.nodup_nil, rfl⟩

/-- Pools filled from the buckets of their factions share no group when the
buckets of the two factions share none. -/
theorem filled_disjoint (groups : GroupStore) (poolA poolH : SelectionPool)
    (pA nA pH nH : List GroupPtr) (hA : poolA.FilledFrom groups pA nA)
    (hH : poolH.FilledFrom groups pH nH)
    (hd : ∀ g, (g ∈ pA ∨ g ∈ nA) → ¬(g ∈ pH ∨ g ∈ nH)) :
    ∀ g, g ∈ poolA.SelectedGroups → g ∉ poolH.SelectedGroups := by
  intro g hg hg2
  exact hd g (hA.1 g hg).2 (hH.1 g hg2).2

theorem buckets_disjoint (q : BattleGroundQueue) (hd : q.BucketsDistinct) (bracket_id : Nat) :
    ∀ g, (g ∈ q.m_QueuedGroups bracket_id BG_QUEUE_PREMADE_ALLIANCE ∨
        g ∈ q.m_QueuedGroups bracket_id BG_QUEUE_NORMAL_ALLIANCE) →
      ¬(g ∈ q.m_QueuedGroups bracket_id BG_QUEUE_PREMADE_HORDE ∨
        g ∈ q.m_QueuedGroups bracket_id BG_QUEUE_NORMAL_HORDE) := by
  intro g h1 h2
  obtain ⟨-, -, h3⟩ := hd
  rcases h1 with h1 | h1 <;> rcases h2 with h2 | h2
  · exact absurd (h3 _ _ _ _ g h1 h2).2 (by decide)
  · exact absurd (h3 _ _ _ _ g h1 h2).2 (by decide)
  · exact absurd (h3 _ _ _ _ g h1 h2).2 (by decide)
  · exact absurd (h3 _ _ _ _ g h1 h2).2 (by decide)

theorem poolsFilled_of (q q' : BattleGroundQueue) (bracket_id : Nat)
    (hg : q'.m_Groups = q.m_Groups) (hb : q'.m_QueuedGroups = q.m_QueuedGroups)
    (hd : q.BucketsDistinct)
    (fA : (q'.m_SelectionPools TEAM_INDEX_ALLIANCE).FilledFrom q.m_Groups
      (q.m_QueuedGroups bracket_id BG_QUEUE_PREMADE_ALLIANCE)
      (q.m_QueuedGroups bracket_id BG_QUEUE_NORMAL_ALLIANCE))
    (fH : (q'.m_SelectionPools TEAM_INDEX_HORDE).FilledFrom q.m_Groups
      (q.m_QueuedGroups bracket_id BG_QUEUE_PREMADE_HORDE)
      (q.m_QueuedGroups bracket_id BG_QUEUE_NORMAL_HORDE)) :
    q'.PoolsFilled bracket_id := by
  unfold BattleGroundQueue.PoolsFilled
  rw [hg, hb]
  exact ⟨fA, fH, filled_disjoint q.m_Groups _ _ _ _ _ _ fA fH (buckets_disjoint q hd bracket_id)⟩

/-- The pool `CheckPremadeMatch` builds for a faction: the premade group, when
it fits, and groups of the normal bucket. -/
theorem premade_pool_filled (groups : GroupStore) (a : GroupPtr) (premade normal : List GroupPtr)
    (Max M : Nat) (ha : a ∈ premade) (hia : (groups a).IsInvitedToBGInstanceGUID = 0)
    (hdis : a ∉ normal) (hn : normal.Nodup) (hMax : Max < 4294967296) (hM : M < 4294967296) :
    (topUpLoop groups M normal (SelectionPool.Init.AddGroup groups a Max).2).FilledFrom groups
      premade normal := by
  obtain ⟨added, h1, h2⟩ := topUpLoop_picks groups M normal
    (SelectionPool.Init.AddGroup groups a Max).2
  have hsub := h2.trans (notInvited_sublist groups normal)
  have hs := topUpLoop_sound groups M hM normal _
    (AddGroup_sound groups SelectionPool.Init a Max hMax (Init_sound groups))
  have hadded : ∀ g, g ∈ added → (groups g).IsInvitedToBGInstanceGUID = 0 ∧ g ∈ normal := by
    intro g hg
    have := (mem_notInvited groups g normal).1 (h2.subset hg)
    exact ⟨this.2, this.1⟩
  have hinit : SelectionPool.Init.SelectedGroups = [] := rfl
  rcases AddGroup_picks groups SelectionPool.Init a Max with e | ⟨-, -, e⟩
  · rw [e] at h1 hs ⊢
    rw [hinit, List.nil_append] at h1
    refine ⟨?_, ?_, hs⟩
    · intro g hg
      rw [h1] at hg
      exact ⟨(hadded g hg).1, Or.inr (hadded g hg).2⟩
    · rw [h1]
      exact hsub.nodup hn
  · rw [e, hinit, List.nil_append] at h1
    refine ⟨?_, ?_, hs⟩
    · intro g hg
      rw [h1] at hg
      rcases List.mem_append.1 hg with hg | hg
      · have : g = a := by simpa using hg
        rw [this]
        exact ⟨hia, Or.inl ha⟩
      · exact ⟨(hadded g hg).1, Or.inr (hadded g hg).2⟩
    · rw [h1]
      refine List.nodup_cons.2 ⟨?_, hsub.nodup hn⟩
      intro hin
      exact hdis (hadded a hin).2

/-- The pool `CheckNormalMatch` builds for a faction, before and after it is
topped up from the groups behind the iterator. -/
theorem gather_filled (groups : GroupStore) (minPlayers maxPlayers : Nat)
    (premade l : List GroupPtr) (hn : l.Nodup) (hmax : maxPlayers < 4294967296) :
    (CheckNormalMatch.gather groups minPlayers maxPlayers l SelectionPool.Init).2.FilledFrom
      groups premade l ∧
    ∀ g rest D, D < 4294967296 →
      (CheckNormalMatch.gather groups minPlayers maxPlayers l SelectionPool.Init).1 = g :: rest →
      (topUpLoop groups D rest
        (CheckNormalMatch.gather groups minPlayers maxPlayers l SelectionPool.Init).2).FilledFrom
          groups premade l := by
  obtain ⟨consumed, added, h1, h2, h3⟩ := gather_picks groups minPlayers maxPlayers l
    SelectionPool.Init
  have hinit : SelectionPool.Init.SelectedGroups = [] := rfl
  rw [hinit, List.nil_append] at h2
  have hs := gather_sound groups minPlayers maxPlayers hmax l SelectionPool.Init
    (Init_sound groups)
  refine ⟨?_, ?_⟩
  · apply sublist_filled groups premade l _ _ hn hs
    rw [h2]
    refine h3.trans ?_
    conv => rhs; rw [h1]
    rw [notInvited_append]
    exact List.sublist_append_left _ _
  · intro g rest D hD hg
    obtain ⟨added2, t1, t2⟩ := topUpLoop_picks groups D rest
      (CheckNormalMatch.gather groups minPlayers maxPlayers l SelectionPool.Init).2
    apply sublist_filled groups premade l _ _ hn (topUpLoop_sound groups D hD rest _ hs)
    rw [t1, h2]
    rw [hg] at h1
    conv => rhs; rw [h1]
    rw [notInvited_append]
    exact List.Sublist.append h3 t2

/-- C38: for a queue in which every stored group is stored once (as in every
queue reached by `AddGroup`, `RemovePlayer` and `CheckPremadeMatch`), with both
pools empty at entry and `MaxPlayersPerTeam` a `uint32`: after
`FillPlayersToBG` (for free slots within `int32`, in either invitation mode),
after `CheckPremadeMatch` and after `CheckNormalMatch`, every group selected
for a faction is not invited and is stored in the premade or the normal bucket
of that faction in the bracket, no group is selected twice for a faction or for
both factions, and the player count of each pool is the sum of the sizes of
its groups.  `FillPlayersToBG` returns when its balancing loop is given more
passes than twice the number of groups in the two normal buckets, and
`CheckNormalMatch` returns when the fairness mode is off or `minPlayers` is at
least 1. -/
theorem BattleGroundQueue.pools_filled (q : BattleGroundQueue) (bracket_id
    MaxPlayersPerTeam : Nat) (hd : q.BucketsDistinct) (hmax : MaxPlayersPerTeam < UINT32_MOD)
    (hpA : q.m_SelectionPools TEAM_INDEX_ALLIANCE = SelectionPool.Init)
    (hpH : q.m_SelectionPools TEAM_INDEX_HORDE = SelectionPool.Init) :
    (∀ (hordeFree aliFree : Int) (invitationType fuel : Nat),
      0 ≤ aliFree → aliFree < 2147483648 → 0 ≤ hordeFree → hordeFree < 2147483648 →
      2 * ((q.m_QueuedGroups bracket_id BG_QUEUE_NORMAL_ALLIANCE).length +
        (q.m_QueuedGroups bracket_id BG_QUEUE_NORMAL_HORDE).length) < fuel →
      ∃ q', q.FillPlayersToBG hordeFree aliFree invitationType bracket_id fuel = some q' ∧
        q'.PoolsFilled bracket_id) ∧
    (∀ now premadeWait MinPlayersPerTeam,
      (q.CheckPremadeMatch now premadeWait bracket_id MinPlayersPerTeam
        MaxPlayersPerTeam).2.PoolsFilled bracket_id) ∧
    (∀ invitationType isTesting minPlayers,
      (invitationType = 0 ∨ 1 ≤ minPlayers →
        ∃ r q1, q.CheckNormalMatch invitationType isTesting bracket_id minPlayers
          MaxPlayersPerTeam = some (r, q1)) ∧
      ∀ r q1, q.CheckNormalMatch invitationType isTesting bracket_id minPlayers
          MaxPlayersPerTeam = some (r, q1) → q1.PoolsFilled bracket_id) := by
  unfold UINT32_MOD at hmax
  have nA := hd.2.1 bracket_id BG_QUEUE_NORMAL_ALLIANCE
  have nH := hd.2.1 bracket_id BG_QUEUE_NORMAL_HORDE
  refine ⟨?_, ?_, ?_⟩
  · intro hordeFree aliFree invitationType fuel hA hA2 hH hH2 hfuel
    obtain ⟨⟨g1, g2, g3, g4⟩, hm⟩ :=
      fillFirst_good q hordeFree aliFree bracket_id hA hA2 hH hH2 hpA hpH
    have pA : FillPlayersToBG.Picked q.m_Groups
        (q.m_QueuedGroups bracket_id BG_QUEUE_NORMAL_ALLIANCE)
        (q.fillFirst hordeFree aliFree bracket_id).Ali_itr
        (q.fillFirst hordeFree aliFree bracket_id).ali := by
      show FillPlayersToBG.Picked _ _
        (FillPlayersToBG.addLoop q.m_Groups (toUInt32 aliFree)
          (q.m_QueuedGroups bracket_id BG_QUEUE_NORMAL_ALLIANCE)
          (q.m_SelectionPools TEAM_INDEX_ALLIANCE)).1
        (FillPlayersToBG.addLoop q.m_Groups (toUInt32 aliFree)
          (q.m_QueuedGroups bracket_id BG_QUEUE_NORMAL_ALLIANCE)
          (q.m_SelectionPools TEAM_INDEX_ALLIANCE)).2
      rw [hpA]
      exact picked_addLoop _ _ _ _ _ (picked_start _ _)
    have pH : FillPlayersToBG.Picked q.m_Groups
        (q.m_QueuedGroups bracket_id BG_QUEUE_NORMAL_HORDE)
        (q.fillFirst hordeFree aliFree bracket_id).Horde_itr
        (q.fillFirst hordeFree aliFree bracket_id).horde := by
      show FillPlayersToBG.Picked _ _
        (FillPlayersToBG.addLoop q.m_Groups (toUInt32 hordeFree)
          (q.m_QueuedGroups bracket_id BG_QUEUE_NORMAL_HORDE)
          (q.m_SelectionPools TEAM_INDEX_HORDE)).1
        (FillPlayersToBG.addLoop q.m_Groups (toUInt32 hordeFree)
          (q.m_QueuedGroups bracket_id BG_QUEUE_NORMAL_HORDE)
          (q.m_SelectionPools TEAM_INDEX_HORDE)).2
      rw [hpH]
      exact picked_addLoop _ _ _ _ _ (picked_start _ _)
    have fin : ∀ s : FillState, s.ali.Sound q.m_Groups → s.horde.Sound q.m_Groups →
        FillPlayersToBG.Picked q.m_Groups (q.m_QueuedGroups bracket_id BG_QUEUE_NORMAL_ALLIANCE)
          s.Ali_itr s.ali →
        FillPlayersToBG.Picked q.m_Groups (q.m_QueuedGroups bracket_id BG_QUEUE_NORMAL_HORDE)
          s.Horde_itr s.horde →
        (q.withPools s).PoolsFilled bracket_id := by
      intro s s1 s2 p1 p2
      exact poolsFilled_of q (q.withPools s) bracket_id rfl rfl hd
        (picked_filled q.m_Groups _ _ _ _ p1 nA s1).1
        (picked_filled q.m_Groups _ _ _ _ p2 nH s2).1
    unfold BattleGroundQueue.FillPlayersToBG
    simp only
    by_cases hi : invitationType = 0
    · rw [if_pos hi]
      exact ⟨_, rfl, fin _ g1 g2 pA pH⟩
    · rw [if_neg hi]
      obtain ⟨s1, e, b1, b2, -, -⟩ := balance_terminates q.m_Groups hordeFree aliFree hA hA2 hH
        hH2 fuel (q.fillFirst hordeFree aliFree bracket_id) ⟨g1, g2, g3, g4⟩ (by omega)
      obtain ⟨q1, q2⟩ := balance_picked q.m_Groups hordeFree aliFree _ _ fuel _ s1 e pA pH
      rw [e]
      exact ⟨_, rfl, fin s1 b1 b2 q1 q2⟩
  · intro now premadeWait MinPlayersPerTeam
    cases ht : (q.CheckPremadeMatch now premadeWait bracket_id MinPlayersPerTeam
        MaxPlayersPerTeam).1 with
    | false =>
      unfold BattleGroundQueue.PoolsFilled
      rw [CheckPremadeMatch_false_pools q _ _ _ _ _ ht, hpA, hpH]
      exact ⟨Init_filled _ _ _, Init_filled _ _ _, fun g hg => by cases hg⟩
    | true =>
      obtain ⟨a, h, hp, he⟩ := CheckPremadeMatch_true q now premadeWait bracket_id
        MinPlayersPerTeam MaxPlayersPerTeam ht
      obtain ⟨fa, fh⟩ := premadePair_some q bracket_id a h hp
      obtain ⟨ia, preA, postA, eA, -⟩ := firstNotInvited_some _ _ _ fa
      obtain ⟨ih, preH, postH, eH, -⟩ := firstNotInvited_some _ _ _ fh
      have ma : a ∈ q.m_QueuedGroups bracket_id BG_QUEUE_PREMADE_ALLIANCE := by
        rw [eA]; simp
      have mh : h ∈ q.m_QueuedGroups bracket_id BG_QUEUE_PREMADE_HORDE := by
        rw [eH]; simp
      have da : a ∉ q.m_QueuedGroups bracket_id BG_QUEUE_NORMAL_ALLIANCE := fun hin =>
        absurd (hd.2.2 _ _ _ _ a ma hin).2 (by decide)
      have dh : h ∉ q.m_QueuedGroups bracket_id BG_QUEUE_NORMAL_HORDE := fun hin =>
        absurd (hd.2.2 _ _ _ _ h mh hin).2 (by decide)
      rw [hpA, hpH] at he
      have h0 : SelectionPool.Init.PlayerCount ≤ MaxPlayersPerTeam := Nat.zero_le _
      have hM : max (SelectionPool.Init.AddGroup q.m_Groups a MaxPlayersPerTeam).2.PlayerCount
          (SelectionPool.Init.AddGroup q.m_Groups h MaxPlayersPerTeam).2.PlayerCount <
          4294967296 :=
        lt_of_le_of_lt (max_le (AddGroup_count_le_max _ _ _ _ _ h0 (le_refl _))
          (AddGroup_count_le_max _ _ _ _ _ h0 (le_refl _))) hmax
      rw [he]
      exact poolsFilled_of q _ bracket_id rfl rfl hd
        (premade_pool_filled q.m_Groups a _ _ MaxPlayersPerTeam _ ma ia da nA hmax hM)
        (premade_pool_filled q.m_Groups h _ _ MaxPlayersPerTeam _ mh ih dh nH hmax hM)
  · intro invitationType isTesting minPlayers
    refine ⟨?_, ?_⟩
    · intro h
      apply CheckNormalMatch_returns
      rcases h with h | h
      · exact Or.inl h
      · refine Or.inr ⟨?_, ?_⟩
        · rw [hpA]; exact h
        · rw [hpH]; exact h
    · intro r q1 hr
      have h0 : SelectionPool.Init.PlayerCount ≤ MaxPlayersPerTeam := Nat.zero_le _
      have cA := gather_count_le q.m_Groups minPlayers MaxPlayersPerTeam
        (q.m_QueuedGroups bracket_id BG_QUEUE_NORMAL_ALLIANCE) SelectionPool.Init h0
      have cH := gather_count_le q.m_Groups minPlayers MaxPlayersPerTeam
        (q.m_QueuedGroups bracket_id BG_QUEUE_NORMAL_HORDE) SelectionPool.Init h0
      obtain ⟨fA, tA⟩ := gather_filled q.m_Groups minPlayers MaxPlayersPerTeam
        (q.m_QueuedGroups bracket_id BG_QUEUE_PREMADE_ALLIANCE)
        (q.m_QueuedGroups bracket_id BG_QUEUE_NORMAL_ALLIANCE) nA hmax
      obtain ⟨fH, tH⟩ := gather_filled q.m_Groups minPlayers MaxPlayersPerTeam
        (q.m_QueuedGroups bracket_id BG_QUEUE_PREMADE_HORDE)
        (q.m_QueuedGroups bracket_id BG_QUEUE_NORMAL_HORDE) nH hmax
      have sh := CheckNormalMatch_shape q invitationType isTesting bracket_id minPlayers
        MaxPlayersPerTeam r q1 hr
      rw [hpA, hpH] at sh
      rcases sh with e | ⟨g, rest, hg, e⟩ | ⟨g, rest, hg, e⟩
      · rw [e]
        exact poolsFilled_of q _ bracket_id rfl rfl hd fA fH
      · rw [e]
        exact poolsFilled_of q _ bracket_id rfl rfl hd fA (tH g rest _ (by omega) hg)
      · rw [e]
        exact poolsFilled_of q _ bracket_id rfl rfl hd (tA g rest _ (by omega) hg) fH

theorem sampleQueue_bucketsDistinct :
    (sampleQueue [10, 10, 3, 3] [] [0] [1] [2] [3]).BucketsDistinct := by
  have hb : ∀ b j G, G ∈ (sampleQueue [10, 10, 3, 3] [] [0] [1] [2] [3]).m_QueuedGroups b j →
      b = 1 ∧ ((j = 0 ∧ G = 0) ∨ (j = 1 ∧ G = 1) ∨ (j = 2 ∧ G = 2) ∨ (j = 3 ∧ G = 3)) := by
    intro b j G hG
    simp only [sampleQueue, BG_QUEUE_PREMADE_ALLIANCE, BG_QUEUE_PREMADE_HORDE,
      BG_QUEUE_NORMAL_ALLIANCE, BG_QUEUE_NORMAL_HORDE] at hG
    split at hG
    · rename_i hb1
      refine ⟨hb1, ?_⟩
      split at hG
      · rename_i hj; simp at hG; exact Or.inl ⟨hj, hG⟩
      · split at hG
        · rename_i hj; simp at hG; exact Or.inr (Or.inl ⟨hj, hG⟩)
        · split at hG
          · rename_i hj; simp at hG; exact Or.inr (Or.inr (Or.inl ⟨hj, hG⟩))
          · split at hG
            · rename_i hj; simp at hG; exact Or.inr (Or.inr (Or.inr ⟨hj, hG⟩))
            · cases hG
    · cases hG
  refine ⟨?_, ?_, ?_⟩
  · intro b j G hG
    show G < 4
    rcases (hb b j G hG).2 with ⟨-, rfl⟩ | ⟨-, rfl⟩ | ⟨-, rfl⟩ | ⟨-, rfl⟩ <;> decide
  · intro b j
    simp only [sampleQueue, BG_QUEUE_PREMADE_ALLIANCE, BG_QUEUE_PREMADE_HORDE,
      BG_QUEUE_NORMAL_ALLIANCE, BG_QUEUE_NORMAL_HORDE]
    split
    · split
      · simp
      · split
        · simp
        · split
          · simp
          · split <;> simp
    · simp
  · intro b j b' j' G h1 h2
    obtain ⟨rfl, c1⟩ := hb b j G h1
    obtain ⟨rfl, c2⟩ := hb b' j' G h2
    refine ⟨rfl, ?_⟩
    rcases c1 with ⟨rfl, rfl⟩ | ⟨rfl, rfl⟩ | ⟨rfl, rfl⟩ | ⟨rfl, rfl⟩ <;>
      rcases c2 with ⟨rfl, h⟩ | ⟨rfl, h⟩ | ⟨rfl, h⟩ | ⟨rfl, h⟩ <;>
      first | rfl | exact absurd h (by decide)

/-- C38, witness: the premade groups 0 and 1 of 10 players and the normal groups
2 and 3 of 3 players, at most 10 players for a team. -/
theorem BattleGroundQueue.pools_filled_witness :
    ((sampleQueue [10, 10, 3, 3] [] [0] [1] [2] [3]).CheckPremadeMatch 1000 500 1 5
      10).2.PoolsFilled 1 ∧
    ((sampleQueue [10, 10, 3, 3] [] [0] [1] [2] [3]).CheckPremadeMatch 1000 500 1 5
      10).2.m_SelectionPools TEAM_INDEX_ALLIANCE = { SelectedGroups := [0], PlayerCount := 10 } :=
  ⟨(BattleGroundQueue.pools_filled (sampleQueue [10, 10, 3, 3] [] [0] [1] [2] [3]) 1 10
      sampleQueue_bucketsDistinct (by decide) rfl rfl).2.1 1000 500 5, by decide⟩

/-! ## `RemovePlayer` finds the group of every queued player -/

theorem SameCore_refl (q : BattleGroundQueue) : q.SameCore q :=
  ⟨rfl, rfl, rfl, fun _ => ⟨rfl, rfl⟩⟩

theorem SameCore_trans (q1 q2 q3 : BattleGroundQueue) (h12 : q1.SameCore q2)
    (h23 : q2.SameCore q3) : q1.SameCore q3 :=
  ⟨h23.1.trans h12.1, h23.2.1.trans h12.2.1, h23.2.2.1.trans h12.2.2.1,
    fun p => ⟨(h23.2.2.2 p).1.trans (h12.2.2.2 p).1, (h23.2.2.2 p).2.trans (h12.2.2.2 p).2⟩⟩

theorem Findable_core (c : Consts) (q q' : BattleGroundQueue) (hc : q.SameCore q')
    (h : q.Findable c) : q'.Findable c := by
  obtain ⟨c1, c2, c3, c4⟩ := hc
  intro g info hq
  rw [c1] at hq
  obtain ⟨f1, f2, b, j, f3, f4, f5⟩ := h g info hq
  rw [(c4 info.GroupInfo).1, (c4 info.GroupInfo).2, c2, c3]
  exact ⟨f1, f2, b, j, f3, f4, f5⟩

theorem Findable_new (c : Consts) : BattleGroundQueue.new.Findable c := by
  intro g info hq
  cases hq

theorem AddGroup_findable (c : Consts) (q : BattleGroundQueue) (now : Nat) (leader : Player)
    (grp : Option Group) (BgTypeId bracketId : Nat) (isPremade : Bool)
    (hb : bracketId < c.MAX_BATTLEGROUND_BRACKETS) (h : q.Findable c) :
    (q.AddGroup now leader grp BgTypeId bracketId isPremade).2.Findable c := by
  obtain ⟨-, r2, r3, r4, r5, r6, -, r8, r9⟩ :=
    AddGroup_result q now leader grp BgTypeId bracketId isPremade
  intro g info hq
  by_cases hg : g ∈ enqueuedPlayers leader grp
  · rw [r8 g hg] at hq
    cases hq
    refine ⟨(r6 g).2 hg, ?_, bracketId, queueIndex isPremade leader.team, hb, ?_, ?_⟩
    · rw [r2]
      exact Nat.lt_succ_self _
    · rw [r5]
      exact queueIndex_team isPremade leader.team
    · rw [r3, if_pos ⟨rfl, rfl⟩]
      simp
  · rw [r9 g hg] at hq
    obtain ⟨f1, f2, b, j, f3, f4, f5⟩ := h g info hq
    have hne : info.GroupInfo ≠ q.m_NextGroup := Nat.ne_of_lt f2
    rw [r4 _ hne, r2]
    refine ⟨f1, Nat.lt_succ_of_lt f2, b, j, f3, f4, ?_⟩
    rw [r3]
    split
    · exact List.mem_append_left _ f5
    · exact f5

/-- On a queue in which the group of every queued player can be found, the
search of `RemovePlayer` for a queued player ends at a bucket of the team of the
group of the player, and the player is removed. -/
theorem RemovePlayer_found (c : Consts) (mgr : BattleGroundMgr) (q : BattleGroundQueue)
    (guid : ObjectGuid) (d : Bool) (info : PlayerQueueInfo) (hf : q.Findable c)
    (hq : q.m_QueuedPlayers guid = some info) :
    ∃ b j, b < c.MAX_BATTLEGROUND_BRACKETS ∧
      (j = GetTeamIndexByTeamId (q.m_Groups info.GroupInfo).GroupTeam ∨
        j = GetTeamIndexByTeamId (q.m_Groups info.GroupInfo).GroupTeam +
          BG_QUEUE_NORMAL_ALLIANCE) ∧
      info.GroupInfo ∈ q.m_QueuedGroups b j ∧
      q.RemovePlayer c mgr guid d =
        (RemoveLog.removing, q.removeInvite c mgr info.GroupInfo d,
          q.removeFrom guid info.GroupInfo b j) := by
  obtain ⟨-, -, b0, j0, hb0, hj0, hG⟩ := hf guid info hq
  have hidx := GetTeamIndexByTeamId_lt (q.m_Groups info.GroupInfo).GroupTeam
  have hcomp := brackets_complete q.m_QueuedGroups info.GroupInfo _ hidx
    c.MAX_BATTLEGROUND_BRACKETS
    { bracket_id := none, group_itr := 0,
      index := GetTeamIndexByTeamId (q.m_Groups info.GroupInfo).GroupTeam } b0 j0 hb0 hj0 hG
  cases hs : (RemoveSearch.brackets q.m_QueuedGroups info.GroupInfo
      (GetTeamIndexByTeamId (q.m_Groups info.GroupInfo).GroupTeam) c.MAX_BATTLEGROUND_BRACKETS
      { bracket_id := none, group_itr := 0,
        index := GetTeamIndexByTeamId (q.m_Groups info.GroupInfo).GroupTeam }).bracket_id with
  | none => exact absurd hs hcomp
  | some b =>
    obtain ⟨hbn, hjx, hfi⟩ := brackets_sound q.m_QueuedGroups info.GroupInfo _ hidx
      c.MAX_BATTLEGROUND_BRACKETS _ rfl b hs
    obtain ⟨hmem, herase⟩ := findGroupItr_some _ _ _ hfi
    refine ⟨b, _, hbn, hjx, hmem, ?_⟩
    simp only [BattleGroundQueue.RemovePlayer, hq, hs, BattleGroundQueue.removeInvite,
      BattleGroundQueue.removeFrom]
    refine Prod.ext rfl (Prod.ext rfl ?_)
    simp only
    by_cases he : eraseKey guid (q.m_Groups info.GroupInfo).Players = []
    · rw [if_pos he]
      simp only [he, true_and]
      congr 1
      funext b' j'
      by_cases hbj : b' = b ∧ j' = (RemoveSearch.brackets q.m_QueuedGroups info.GroupInfo
          (GetTeamIndexByTeamId (q.m_Groups info.GroupInfo).GroupTeam) c.MAX_BATTLEGROUND_BRACKETS
          { bracket_id := none, group_itr := 0,
            index := GetTeamIndexByTeamId (q.m_Groups info.GroupInfo).GroupTeam }).index
      · rw [if_pos hbj, if_pos hbj, hbj.1, hbj.2, herase]
      · rw [if_neg hbj, if_neg hbj]
    · rw [if_neg he]
      simp only [he, false_and, if_false]

theorem removeFrom_findable (c : Consts) (q : BattleGroundQueue) (guid : ObjectGuid)
    (info : PlayerQueueInfo) (b j : Nat) (hf : q.Findable c) :
    (q.removeFrom guid info.GroupInfo b j).Findable c := by
  intro g info2 hq2
  have hgne : g ≠ guid := by
    intro e
    rw [e] at hq2
    simp [BattleGroundQueue.removeFrom] at hq2
  have hq3 : q.m_QueuedPlayers g = some info2 := by
    simpa [BattleGroundQueue.removeFrom, hgne] using hq2
  obtain ⟨f1, f2, b0, j0, f3, f4, f5⟩ := hf g info2 hq3
  have hteam : ((q.removeFrom guid info.GroupInfo b j).m_Groups info2.GroupInfo).GroupTeam =
      (q.m_Groups info2.GroupInfo).GroupTeam := by
    simp only [BattleGroundQueue.removeFrom]
    split
    · rename_i e
      rw [e]
    · rfl
  have hplayers : g ∈ ((q.removeFrom guid info.GroupInfo b j).m_Groups info2.GroupInfo).Players := by
    simp only [BattleGroundQueue.removeFrom]
    split
    · rename_i e
      rw [e] at f1
      exact (mem_eraseKey guid g _).2 ⟨f1, hgne⟩
    · exact f1
  rw [hteam]
  refine ⟨hplayers, f2, b0, j0, f3, f4, ?_⟩
  simp only [BattleGroundQueue.removeFrom]
  split
  · rename_i hcond
    have hne : info2.GroupInfo ≠ info.GroupInfo := by
      intro e
      rw [e] at f1
      have : g ∈ eraseKey guid (q.m_Groups info.GroupInfo).Players :=
        (mem_eraseKey guid g _).2 ⟨f1, hgne⟩
      rw [hcond.1] at this
      cases this
    exact (List.mem_erase_of_ne hne).2 f5
  · exact f5

theorem RemovePlayer_findable (c : Consts) (mgr : BattleGroundMgr) (q : BattleGroundQueue)
    (guid : ObjectGuid) (d : Bool) (hf : q.Findable c) :
    (q.RemovePlayer c mgr guid d).2.2.Findable c := by
  cases hq : q.m_QueuedPlayers guid with
  | none =>
    have e : q.RemovePlayer c mgr guid d = (RemoveLog.couldntFindForRemove, mgr, q) := by
      simp [BattleGroundQueue.RemovePlayer, hq]
    rw [e]
    exact hf
  | some info =>
    obtain ⟨b, j, -, -, -, e⟩ := RemovePlayer_found c mgr q guid d info hf hq
    rw [e]
    exact removeFrom_findable c q guid info b j hf

theorem demotePremade_findable (c : Consts) (q : BattleGroundQueue) (bracket_id i tb m : Nat)
    (hi : i < 2) (hf : q.Findable c) : (q.demotePremade bracket_id i tb m).Findable c := by
  by_cases hmove : ∃ g rest, q.m_QueuedGroups bracket_id (BG_QUEUE_PREMADE_ALLIANCE + i) =
      g :: rest ∧ ((q.m_Groups g).IsInvitedToBGInstanceGUID = 0 ∧
        ((q.m_Groups g).JoinTime < tb ∨ groupSize q.m_Groups g < m))
  · obtain ⟨g0, rest, hb, hc⟩ := hmove
    have hm := demotePremade_moved q bracket_id i tb m g0 rest hb hc
    obtain ⟨d1, d2, d3, -⟩ := demotePremade_fields q bracket_id i tb m
    intro g info hq
    rw [d2] at hq
    obtain ⟨f1, f2, b0, j0, f3, f4, f5⟩ := hf g info hq
    rw [d1, d3]
    have hidx := GetTeamIndexByTeamId_lt (q.m_Groups info.GroupInfo).GroupTeam
    by_cases hcase : b0 = bracket_id ∧ j0 = BG_QUEUE_PREMADE_ALLIANCE + i
    · obtain ⟨rfl, rfl⟩ := hcase
      rw [hb] at f5
      rcases List.mem_cons.1 f5 with e | e
      · refine ⟨f1, f2, b0, BG_QUEUE_NORMAL_ALLIANCE + i, f3, ?_, ?_⟩
        · unfold BG_QUEUE_PREMADE_ALLIANCE BG_QUEUE_NORMAL_ALLIANCE at *
          omega
        · rw [hm, if_pos ⟨rfl, rfl⟩, e]
          exact List.mem_cons_self _ _
      · refine ⟨f1, f2, b0, BG_QUEUE_PREMADE_ALLIANCE + i, f3, f4, ?_⟩
        rw [hm, if_neg (by
          unfold BG_QUEUE_PREMADE_ALLIANCE BG_QUEUE_NORMAL_ALLIANCE
          omega), if_pos ⟨rfl, rfl⟩]
        exact e
    · refine ⟨f1, f2, b0, j0, f3, f4, ?_⟩
      rw [hm]
      by_cases hn : b0 = bracket_id ∧ j0 = BG_QUEUE_NORMAL_ALLIANCE + i
      · rw [if_pos hn]
        exact List.mem_cons_of_mem _ f5
      · rw [if_neg hn, if_neg hcase]
        exact f5
  · rw [demotePremade_kept q bracket_id i tb m (fun g rest hb hc => hmove ⟨g, rest, hb, hc⟩)]
    exact hf

theorem CheckPremadeMatch_findable (c : Consts) (q : BattleGroundQueue) (now premadeWait
    bracket_id MinPlayersPerTeam MaxPlayersPerTeam : Nat) (hf : q.Findable c) :
    (q.CheckPremadeMatch now premadeWait bracket_id MinPlayersPerTeam
      MaxPlayersPerTeam).2.Findable c := by
  cases ht : (q.CheckPremadeMatch now premadeWait bracket_id MinPlayersPerTeam
      MaxPlayersPerTeam).1 with
  | true =>
    obtain ⟨e1, e2, e3, e4⟩ := CheckPremadeMatch_true_buckets q now premadeWait bracket_id
      MinPlayersPerTeam MaxPlayersPerTeam ht
    exact Findable_core c q _ ⟨e4, e1, e2, fun p => by rw [e3]; exact ⟨rfl, rfl⟩⟩ hf
  | false =>
    rw [CheckPremadeMatch_none q now premadeWait bracket_id MinPlayersPerTeam MaxPlayersPerTeam ht]
    exact demotePremade_findable c _ bracket_id 1 _ _ (by decide)
      (demotePremade_findable c q bracket_id 0 _ _ (by decide) hf)

/-! ## Invitations and updates keep the players, the teams and the buckets -/

theorem recordWaitTime_core (c : Consts) (q : BattleGroundQueue) (t b v : Nat) :
    (q.recordWaitTime c t b v).m_Groups = q.m_Groups ∧
    (q.recordWaitTime c t b v).m_QueuedPlayers = q.m_QueuedPlayers ∧
    (q.recordWaitTime c t b v).m_QueuedGroups = q.m_QueuedGroups ∧
    (q.recordWaitTime c t b v).m_NextGroup = q.m_NextGroup :=
  ⟨rfl, rfl, rfl, rfl⟩

theorem inviteLoop_core (c : Consts) (now : Nat) (online : ObjectGuid → Bool) (ginfo : GroupPtr)
    (players : List ObjectGuid) :
    ∀ s : BattleGround × BattleGroundQueue × List InviteNotice,
      (BattleGroundQueue.inviteLoop c now online ginfo players s).2.1.m_Groups = s.2.1.m_Groups ∧
      (BattleGroundQueue.inviteLoop c now online ginfo players s).2.1.m_QueuedPlayers =
        s.2.1.m_QueuedPlayers ∧
      (BattleGroundQueue.inviteLoop c now online ginfo players s).2.1.m_QueuedGroups =
        s.2.1.m_QueuedGroups ∧
      (BattleGroundQueue.inviteLoop c now online ginfo players s).2.1.m_NextGroup =
        s.2.1.m_NextGroup := by
  induction players with
  | nil => intro s; exact ⟨rfl, rfl, rfl, rfl⟩
  | cons g rest ih =>
    intro s
    unfold BattleGroundQueue.inviteLoop
    split
    · obtain ⟨i1, i2, i3, i4⟩ := ih
        (s.1.IncreaseInvitedCount (s.2.1.m_Groups ginfo).GroupTeam,
          s.2.1.PlayerInvitedToBGUpdateAverageWaitTime c now ginfo s.1.m_BracketId,
          s.2.2 ++ [{ guid := g,
                      bgInstanceGUID := (s.2.1.m_Groups ginfo).IsInvitedToBGInstanceGUID,
                      bgTypeId := s.1.m_TypeID,
                      removeTime := (s.2.1.m_Groups ginfo).RemoveInviteTime }])
      exact ⟨i1, i2, i3, i4⟩
    · exact ih s

/-- An invitation with the team of the group as side keeps the queued players,
the buckets, and the players and the team of every group. -/
theorem InviteGroupToBG_core (c : Consts) (q : BattleGroundQueue) (now : Nat)
    (online : ObjectGuid → Bool) (ginfo : GroupPtr) (bg : BattleGround) :
    q.SameCore (q.InviteGroupToBG c now online ginfo bg
      (some (q.m_Groups ginfo).GroupTeam)).2.2.1 := by
  have hside : q.setSide ginfo (some (q.m_Groups ginfo).GroupTeam) = q := by
    unfold BattleGroundQueue.setSide
    simp only
    have : (fun p => if p = ginfo then
        { q.m_Groups ginfo with GroupTeam := (q.m_Groups ginfo).GroupTeam }
        else q.m_Groups p) = q.m_Groups := by
      funext p
      split
      · rename_i e
        rw [e]
      · rfl
    rw [this]
  unfold BattleGroundQueue.InviteGroupToBG
  rw [hside]
  split
  · obtain ⟨i1, i2, i3, i4⟩ := inviteLoop_core c now online ginfo (q.m_Groups ginfo).Players
      (bg,
        { q with
          m_Groups := fun p =>
            if p = ginfo then
              { q.m_Groups ginfo with
                IsInvitedToBGInstanceGUID := bg.m_InstanceID,
                RemoveInviteTime := (now + c.INVITE_ACCEPT_WAIT_TIME) % UINT32_MOD }
            else q.m_Groups p },
        [])
    refine ⟨i2, i3, i4, ?_⟩
    intro p
    rw [i1]
    simp only
    split
    · rename_i e
      rw [e]
      exact ⟨rfl, rfl⟩
    · exact ⟨rfl, rfl⟩
  · exact SameCore_refl q

theorem inviteAll_core (c : Consts) (env : Env) (l : List GroupPtr) :
    ∀ s : BattleGround × BattleGroundQueue × List InviteNotice,
      s.2.1.SameCore (BattleGroundQueue.inviteAll c env l s).2.1 := by
  induction l with
  | nil => intro s; exact SameCore_refl _
  | cons g rest ih =>
    intro s
    unfold BattleGroundQueue.inviteAll
    exact SameCore_trans _ _ _ (InviteGroupToBG_core c s.2.1 env.now env.online g s.1) (ih _)

theorem invitePools_core (c : Consts) (env : Env)
    (s : BattleGround × BattleGroundQueue × List InviteNotice) :
    s.2.1.SameCore (BattleGroundQueue.invitePools c env s).2.1 := by
  unfold BattleGroundQueue.invitePools
  exact SameCore_trans _ _ _ (inviteAll_core c env _ s) (inviteAll_core c env _ _)

theorem setPools_core (q : BattleGroundQueue) (a h : SelectionPool) :
    q.SameCore (q.setPools a h) :=
  ⟨rfl, rfl, rfl, fun _ => ⟨rfl, rfl⟩⟩

theorem FillPlayersToBG_core (q q1 : BattleGroundQueue) (hordeFree aliFree : Int)
    (invitationType bracket_id fuel : Nat)
    (h : q.FillPlayersToBG hordeFree aliFree invitationType bracket_id fuel = some q1) :
    q.SameCore q1 := by
  unfold BattleGroundQueue.FillPlayersToBG at h
  simp only at h
  split at h
  · cases h
    exact ⟨rfl, rfl, rfl, fun _ => ⟨rfl, rfl⟩⟩
  · split at h
    · cases h
    · cases h
      exact ⟨rfl, rfl, rfl, fun _ => ⟨rfl, rfl⟩⟩

theorem CheckNormalMatch_core (q q1 : BattleGroundQueue) (invitationType : Nat)
    (isTesting : Bool) (bracket_id minPlayers maxPlayers : Nat) (r : Bool)
    (h : q.CheckNormalMatch invitationType isTesting bracket_id minPlayers maxPlayers =
      some (r, q1)) : q.SameCore q1 := by
  rcases CheckNormalMatch_shape q invitationType isTesting bracket_id minPlayers maxPlayers r q1 h
    with e | ⟨_, _, -, e⟩ | ⟨_, _, -, e⟩ <;> rw [e] <;> exact setPools_core q _ _

theorem fill_keeps (P : BattleGroundQueue → Prop)
    (hcore : ∀ q q' : BattleGroundQueue, q.SameCore q' → P q → P q')
    (c : Consts) (env : Env) (bgTypeId bracket_id : Nat)
    (s s1 : BattleGroundMgr × BattleGroundQueue × List InviteNotice) (p : Nat × Nat)
    (h : BattleGroundQueue.Update.fill c env bgTypeId bracket_id s p = some s1)
    (hP : P s.2.1) : P s1.2.1 := by
  unfold BattleGroundQueue.Update.fill at h
  cases hb : s.1.m_BattleGrounds p.1 p.2 with
  | none =>
    rw [hb] at h
    cases h
    exact hP
  | some bg =>
    rw [hb] at h
    simp only at h
    split at h
    · cases hfill : (s.2.1.setPools SelectionPool.Init SelectionPool.Init).FillPlayersToBG
          (toInt32 (env.GetFreeSlotsForTeam bg Team.HORDE))
          (toInt32 (env.GetFreeSlotsForTeam bg Team.ALLIANCE)) env.invitationType bracket_id
          (2 * ((s.2.1.m_QueuedGroups bracket_id BG_QUEUE_NORMAL_ALLIANCE).length +
            (s.2.1.m_QueuedGroups bracket_id BG_QUEUE_NORMAL_HORDE).length) + 1) with
      | none =>
        rw [hfill] at h
        cases h
      | some q1 =>
        rw [hfill] at h
        simp only at h
        have k1 := FillPlayersToBG_core _ q1 _ _ _ _ _ hfill
        have k2 := invitePools_core c env (bg, q1, s.2.2)
        have k := hcore _ _ (SameCore_trans _ _ _
          (SameCore_trans _ _ _ (setPools_core s.2.1 _ _) k1) k2) hP
        split at h
        · cases h
          exact k
        · cases h
          exact k
    · cases h
      exact hP

theorem fillAll_keeps (P : BattleGroundQueue → Prop)
    (hcore : ∀ q q' : BattleGroundQueue, q.SameCore q' → P q → P q')
    (c : Consts) (env : Env) (bgTypeId bracket_id : Nat) (l : List (Nat × Nat)) :
    ∀ s s1 : BattleGroundMgr × BattleGroundQueue × List InviteNotice,
      BattleGroundQueue.Update.fillAll c env bgTypeId bracket_id l s = some s1 →
      P s.2.1 → P s1.2.1 := by
  induction l with
  | nil =>
    intro s s1 h hP
    cases h
    exact hP
  | cons p rest ih =>
    intro s s1 h hP
    unfold BattleGroundQueue.Update.fillAll at h
    cases hf : BattleGroundQueue.Update.fill c env bgTypeId bracket_id s p with
    | none =>
      rw [hf] at h
      cases h
    | some s2 =>
      rw [hf] at h
      exact ih s2 s1 h (fill_keeps P hcore c env bgTypeId bracket_id s s2 p hf hP)

theorem start_keeps (P : BattleGroundQueue → Prop)
    (hcore : ∀ q q' : BattleGroundQueue, q.SameCore q' → P q → P q')
    (c : Consts) (env : Env) (bgTypeId bracket_id : Nat)
    (s s1 : BattleGroundMgr × BattleGroundQueue × List InviteNotice)
    (h : BattleGroundQueue.Update.start c env bgTypeId bracket_id s = some s1)
    (hP : P s.2.1) : P s1.2.1 := by
  unfold BattleGroundQueue.Update.start at h
  generalize s.1.CreateNewBattleGround c env bgTypeId bracket_id = r at h
  obtain ⟨o, m⟩ := r
  cases o with
  | none => cases h
  | some bg2 =>
    simp only at h
    cases h
    exact hcore _ _ (invitePools_core c env (bg2, s.2.1, s.2.2)) hP

theorem normal_keeps (P : BattleGroundQueue → Prop)
    (hcore : ∀ q q' : BattleGroundQueue, q.SameCore q' → P q → P q')
    (c : Consts) (env : Env) (bgTypeId bracket_id mn mx : Nat)
    (s : BattleGroundMgr × BattleGroundQueue × List InviteNotice)
    (r : UpdateLog × BattleGroundMgr × BattleGroundQueue × List InviteNotice)
    (h : BattleGroundQueue.Update.normal c env bgTypeId bracket_id mn mx s = some r)
    (hP : P s.2.1) : P r.2.2.1 := by
  unfold BattleGroundQueue.Update.normal at h
  cases hn : s.2.1.CheckNormalMatch env.invitationType s.1.m_Testing bracket_id mn mx with
  | none =>
    rw [hn] at h
    cases h
  | some res =>
    rw [hn] at h
    obtain ⟨ok, q1⟩ := res
    have k := hcore _ _ (CheckNormalMatch_core _ _ _ _ _ _ _ _ hn) hP
    cases ok with
    | false =>
      simp only at h
      cases h
      exact k
    | true =>
      simp only at h
      cases hs : BattleGroundQueue.Update.start c env bgTypeId bracket_id (s.1, q1, s.2.2) with
      | none =>
        rw [hs] at h
        cases h
        exact k
      | some s1 =>
        rw [hs] at h
        cases h
        exact start_keeps P hcore c env bgTypeId bracket_id (s.1, q1, s.2.2) s1 hs k

/-- A call of `BattleGroundQueue::Update` keeps every property of the queue that
invitations with the team of the group as side, changes of the selection pools
and `CheckPremadeMatch` keep. -/
theorem Update_keeps (P : BattleGroundQueue → Prop)
    (hcore : ∀ q q' : BattleGroundQueue, q.SameCore q' → P q → P q')
    (hpm : ∀ (q : BattleGroundQueue) (now premadeWait bracket_id mn mx : Nat), P q →
      P (q.CheckPremadeMatch now premadeWait bracket_id mn mx).2)
    (c : Consts) (env : Env) (mgr : BattleGroundMgr) (q : BattleGroundQueue)
    (bgTypeId bracket_id : Nat)
    (r : UpdateLog × BattleGroundMgr × BattleGroundQueue × List InviteNotice)
    (h : q.Update c env mgr bgTypeId bracket_id = some r) (hP : P q) : P r.2.2.1 := by
  unfold BattleGroundQueue.Update at h
  split at h
  · cases h
    exact hP
  · cases hf : BattleGroundQueue.Update.fillAll c env bgTypeId bracket_id
        (mgr.BGFreeSlotQueue bgTypeId) (mgr, q, []) with
    | none =>
      rw [hf] at h
      cases h
    | some s =>
      rw [hf] at h
      have hs := fillAll_keeps P hcore c env bgTypeId bracket_id _ _ s hf hP
      simp only at h hs
      cases ht : s.1.GetBattleGroundTemplate bgTypeId with
      | none =>
        rw [ht] at h
        cases h
        exact hs
      | some bg_template =>
        rw [ht] at h
        simp only at h
        generalize (if s.1.m_Testing = true then 1 else bg_template.m_MinPlayersPerTeam) = mn at h
        have hpm2 := hpm _ env.now env.premadeWait bracket_id mn bg_template.m_MaxPlayersPerTeam
          (hcore _ _ (setPools_core s.2.1 SelectionPool.Init SelectionPool.Init) hs)
        generalize (s.2.1.setPools SelectionPool.Init SelectionPool.Init).CheckPremadeMatch env.now
          env.premadeWait bracket_id mn bg_template.m_MaxPlayersPerTeam = pm at h hpm2
        by_cases hp : pm.1 = true
        · rw [if_pos hp] at h
          cases hst : BattleGroundQueue.Update.start c env bgTypeId bracket_id
              (s.1, pm.2, s.2.2) with
          | none =>
            rw [hst] at h
            cases h
            exact hpm2
          | some s1 =>
            rw [hst] at h
            have h1 := start_keeps P hcore c env bgTypeId bracket_id (s.1, pm.2, s.2.2) s1 hst
              hpm2
            exact normal_keeps P hcore c env bgTypeId bracket_id _ _ _ r h
              (hcore _ _ (setPools_core s1.2.1 SelectionPool.Init SelectionPool.Init) h1)
        · rw [if_neg hp] at h
          exact normal_keeps P hcore c env bgTypeId bracket_id _ _ _ r h hpm2

theorem apply_findable (c : Consts) (s : BattleGroundMgr × BattleGroundQueue) (e : QueueEvent)
    (hv : e.valid c = true) (hf : s.2.Findable c) : (e.apply c s).2.Findable c := by
  cases e with
  | call k =>
    cases k with
    | op o =>
      cases o with
      | enqueue now leader grp BgTypeId bracketId isPremade =>
        have hb : bracketId < c.MAX_BATTLEGROUND_BRACKETS := by
          simpa [QueueEvent.valid] using hv
        exact AddGroup_findable c s.2 now leader grp BgTypeId bracketId isPremade hb hf
      | removePlayer guid d => exact RemovePlayer_findable c s.1 s.2 guid d hf
    | checkPremadeMatch now premadeWait bracket_id mn mx =>
      exact CheckPremadeMatch_findable c s.2 now premadeWait bracket_id mn mx hf
  | invite now online ginfo bg =>
    exact Findable_core c _ _ (InviteGroupToBG_core c s.2 now online ginfo bg) hf
  | update env bgTypeId bracket_id =>
    show (match s.2.Update c env s.1 bgTypeId bracket_id with
      | none => s
      | some r => (r.2.1, r.2.2.1)).2.Findable c
    cases hu : s.2.Update c env s.1 bgTypeId bracket_id with
    | none => exact hf
    | some r =>
      exact Update_keeps (fun q => q.Findable c) (Findable_core c)
        (fun q now premadeWait bracket_id mn mx h =>
          CheckPremadeMatch_findable c q now premadeWait bracket_id mn mx h)
        c env s.1 s.2 bgTypeId bracket_id r hu hf

theorem runEvents_findable (c : Consts) (events : List QueueEvent) :
    ∀ s : BattleGroundMgr × BattleGroundQueue, events.all (fun e => e.valid c) = true →
      s.2.Findable c → (runEvents c s events).2.Findable c := by
  induction events with
  | nil => intro s _ hf; exact hf
  | cons e rest ih =>
    intro s hv hf
    rw [List.all_cons, Bool.and_eq_true] at hv
    exact ih (e.apply c s) hv.2 (apply_findable c s e hv.1 hf)

/-- C37: in every queue reached from the empty queue by calls of `AddGroup` for a
bracket, of `RemovePlayer` and of `CheckPremadeMatch`, by invitations with the
team of the group as side and by calls of `Update`, `RemovePlayer` for a player
present in the queued-player map finds the group of the player in the premade or
the normal bucket of the team of the group, in a valid bracket: it logs the
removal and not "can not find groupinfo", and afterwards the player is neither
in the queued-player map nor among the players of the group. -/
theorem BattleGroundQueue.RemovePlayer_finds (c : Consts) (mgr mgr2 : BattleGroundMgr)
    (events : List QueueEvent) (guid : ObjectGuid) (info : PlayerQueueInfo) (d : Bool)
    (hv : events.all (fun e => e.valid c) = true)
    (hq : (runEvents c (mgr, BattleGroundQueue.new) events).2.m_QueuedPlayers guid = some info) :
    ∃ b j, b < c.MAX_BATTLEGROUND_BRACKETS ∧
      (j = GetTeamIndexByTeamId
          ((runEvents c (mgr, BattleGroundQueue.new) events).2.m_Groups info.GroupInfo).GroupTeam ∨
        j = GetTeamIndexByTeamId
          ((runEvents c (mgr, BattleGroundQueue.new) events).2.m_Groups info.GroupInfo).GroupTeam +
            BG_QUEUE_NORMAL_ALLIANCE) ∧
      info.GroupInfo ∈ (runEvents c (mgr, BattleGroundQueue.new) events).2.m_QueuedGroups b j ∧
      (runEvents c (mgr, BattleGroundQueue.new) events).2.RemovePlayer c mgr2 guid d =
        (RemoveLog.removing,
          (runEvents c (mgr, BattleGroundQueue.new) events).2.removeInvite c mgr2 info.GroupInfo d,
          (runEvents c (mgr, BattleGroundQueue.new) events).2.removeFrom guid info.GroupInfo b j) ∧
      ((runEvents c (mgr, BattleGroundQueue.new) events).2.RemovePlayer c mgr2 guid d).1 ≠
        RemoveLog.canNotFindGroupinfo ∧
      ((runEvents c (mgr, BattleGroundQueue.new) events).2.RemovePlayer c mgr2 guid
        d).2.2.m_QueuedPlayers guid = none ∧
      guid ∉ (((runEvents c (mgr, BattleGroundQueue.new) events).2.RemovePlayer c mgr2 guid
        d).2.2.m_Groups info.GroupInfo).Players := by
  have hf := runEvents_findable c events (mgr, BattleGroundQueue.new) hv (Findable_new c)
  generalize (runEvents c (mgr, BattleGroundQueue.new) events).2 = q at hf hq ⊢
  obtain ⟨b, j, h1, h2, h3, e⟩ := RemovePlayer_found c mgr2 q guid d info hf hq
  refine ⟨b, j, h1, h2, h3, e, ?_, ?_, ?_⟩
  · rw [e]
    intro h
    cases h
  · rw [e]
    simp [BattleGroundQueue.removeFrom]
  · rw [e]
    intro h
    have h2 : guid ∈ eraseKey guid (q.m_Groups info.GroupInfo).Players := by
      simpa [BattleGroundQueue.removeFrom] using h
    exact ((mem_eraseKey guid guid _).1 h2).2 rfl

theorem BattleGroundQueue.RemovePlayer_finds_witness :
    ((runEvents sampleConsts (BattleGroundMgr.noBattleGrounds, BattleGroundQueue.new)
        [QueueEvent.call (QueueCall.op (QueueOp.enqueue 100 { guid := 7, team := Team.HORDE }
          none 2 1 true)),
         QueueEvent.call (QueueCall.op (QueueOp.enqueue 101 { guid := 8, team := Team.ALLIANCE }
          none 2 1 false)),
         QueueEvent.call (QueueCall.checkPremadeMatch 5000000 1800000 1 5 10),
         QueueEvent.invite 5000100 (fun _ => true) 0 BattleGround.sample]).2.RemovePlayer
      sampleConsts BattleGroundMgr.noBattleGrounds 7 true).1 ≠ RemoveLog.canNotFindGroupinfo :=
  (BattleGroundQueue.RemovePlayer_finds sampleConsts BattleGroundMgr.noBattleGrounds
    BattleGroundMgr.noBattleGrounds
    [QueueEvent.call (QueueCall.op (QueueOp.enqueue 100 { guid := 7, team := Team.HORDE }
      none 2 1 true)),
     QueueEvent.call (QueueCall.op (QueueOp.enqueue 101 { guid := 8, team := Team.ALLIANCE }
      none 2 1 false)),
     QueueEvent.call (QueueCall.checkPremadeMatch 5000000 1800000 1 5 10),
     QueueEvent.invite 5000100 (fun _ => true) 0 BattleGround.sample]
    7 { LastOnlineTime := 100, GroupInfo := 0 } true (by decide) (by rfl)).elim
    (fun _ h => h.elim (fun _ k => k.2.2.2.2.1))

/-! ## The queue updates return in the fairness mode -/

/-- A list of scheduled numbers without duplicates, each made of a queue type
below `Q`, a battleground type below `T` and a bracket below `B`, has at most
`Q * T * B` numbers: with fewer than 256 such triples the list that
`ScheduleQueueUpdate` builds stays shorter than 256. -/
theorem scheduler_length_le (l : List Nat) (Q T B : Nat) (hn : l.Nodup)
    (h : ∀ k, k ∈ l → ∃ q t b, q < Q ∧ t < T ∧ b < B ∧ k = BattleGroundMgr.scheduleId q t b) :
    l.length ≤ Q * T * B := by
  rw [← List.toFinset_card_of_nodup hn]
  have hsub : l.toFinset ⊆
      (Finset.product (Finset.range Q) (Finset.product (Finset.range T) (Finset.range B))).image
        (fun x => BattleGroundMgr.scheduleId x.1 x.2.1 x.2.2) := by
    intro k hk
    rw [List.mem_toFinset] at hk
    obtain ⟨q, t, b, hq, ht, hb, e⟩ := h k hk
    rw [Finset.mem_image]
    refine ⟨(q, t, b), ?_, e.symm⟩
    exact Finset.mem_product.2 ⟨Finset.mem_range.2 hq,
      Finset.mem_product.2 ⟨Finset.mem_range.2 ht, Finset.mem_range.2 hb⟩⟩
  refine le_trans (Finset.card_le_card hsub) (le_trans Finset.card_image_le ?_)
  have h2 : (Finset.product (Finset.range T) (Finset.range B)).card = T * B :=
    (Finset.card_product _ _).trans (by rw [Finset.card_range, Finset.card_range])
  have hc : (Finset.product (Finset.range Q)
      (Finset.product (Finset.range T) (Finset.range B))).card = Q * (T * B) :=
    (Finset.card_product _ _).trans (by rw [Finset.card_range, h2])
  rw [hc, Nat.mul_assoc]

end BG
